import Mathlib

/-!
# TCPFileSync: packet codec, framing, session dispatch and inventory diff

A shallow embedding of the C sources (`Protocol.c`, `ClientHandler.c`,
`Client.c`, `AuthenticationService.c`, `StorageService.c`).

Conventions of the embedding
* a byte is a `Nat` below 256; a `char` buffer is a `List Nat` of fixed length;
* `ssize_t` results are `Int` (the sentinel is `-1`);
* a `struct FileInfo*` linked list is a `List FileInfo`;
* every function that writes through a pointer returns the new buffer.
-/

namespace TCPFileSync

/-! ## Constants (`Protocol.h`, `StorageService.h`, `NetworkHeader.h`) -/

/-- Protocol version byte, `VERSION` in `Protocol.h`. -/
def VERSION : Nat := 1

/-- Size of `struct PacketHeader`: `uint8 + uint8 + uint16 + uint32`. -/
def HEADER_LEN : Nat := 8

/-- Size of the file-name field, `MAX_FILE_NAME_LEN` in `StorageService.h`. -/
def MAX_FILE_NAME_LEN : Nat := 64

/-- Size of the packet buffers, `BUFFSIZE` in `NetworkHeader.h`. -/
def BUFFSIZE : Nat := 8192

/-- The enumeration `enum PacketType` of `Protocol.h`. -/
inductive PacketType where
  | TYPE_SIGNUP_REQUEST
  | TYPE_LOGON_REQUEST
  | TYPE_TOKEN_RESPONSE
  | TYPE_LEAVE_REQUEST
  | TYPE_LIST_REQUEST
  | TYPE_LIST_RESPONSE
  | TYPE_FILE_REQUEST
  | TYPE_FILE_TRANSFER
  | TYPE_FILE_RECEIVED
  | TYPE_ERROR
  deriving DecidableEq, Repr

/-- Numeric value of a packet type (the enumeration starts at 1). -/
def PacketType.toNat : PacketType → Nat
  | .TYPE_SIGNUP_REQUEST => 1
  | .TYPE_LOGON_REQUEST => 2
  | .TYPE_TOKEN_RESPONSE => 3
  | .TYPE_LEAVE_REQUEST => 4
  | .TYPE_LIST_REQUEST => 5
  | .TYPE_LIST_RESPONSE => 6
  | .TYPE_FILE_REQUEST => 7
  | .TYPE_FILE_TRANSFER => 8
  | .TYPE_FILE_RECEIVED => 9
  | .TYPE_ERROR => 10

/-- The enumeration `enum ErrorType` of `Protocol.h`. -/
inductive ErrorType where
  | ERROR_UNKNOWN
  | ERROR_MALFORMED_REQUEST
  | ERROR_SERVER_BUSY
  | ERROR_USERNAME_TAKEN
  | ERROR_INVALID_PASSWORD
  | ERROR_FILE_NOT_EXIST
  | ERROR_FILE_UPLOAD_FAILED
  deriving DecidableEq, Repr

/-- Numeric value of an error code (the enumeration starts at 1). -/
def ErrorType.toNat : ErrorType → Nat
  | .ERROR_UNKNOWN => 1
  | .ERROR_MALFORMED_REQUEST => 2
  | .ERROR_SERVER_BUSY => 3
  | .ERROR_USERNAME_TAKEN => 4
  | .ERROR_INVALID_PASSWORD => 5
  | .ERROR_FILE_NOT_EXIST => 6
  | .ERROR_FILE_UPLOAD_FAILED => 7

/-! ## File inventories (`StorageService.h`, `Client.c`) -/

/-- One node of the `struct FileInfo` linked list, without its `next` pointer:
the 64-byte `name` array and the 32-bit `checksum`. -/
structure FileInfo where
  name : List Nat
  checksum : Nat
  deriving DecidableEq, Repr

/-- Inner loop of `get_missing_files`: scan `dst` for an entry with the
checksum of `cur_src`, stopping at the first hit. -/
def found_in_dst (cur_src : FileInfo) : List FileInfo → Bool
  | [] => false
  | cur_dst :: rest =>
    if cur_src.checksum = cur_dst.checksum then true else found_in_dst cur_src rest

/-- Outer loop of `get_missing_files`: `missing` is the list built so far; an
entry that was not found is copied and pushed at its head. -/
def get_missing_files_loop (dst : List FileInfo) :
    List FileInfo → List FileInfo → List FileInfo
  | [], missing => missing
  | cur_src :: rest, missing =>
    if found_in_dst cur_src dst then get_missing_files_loop dst rest missing
    else get_missing_files_loop dst rest ({ name := cur_src.name, checksum := cur_src.checksum } :: missing)

/-- The function `get_missing_files` of `Client.c`. -/
def get_missing_files (src dst : List FileInfo) : List FileInfo :=
  get_missing_files_loop dst src []

/-! ## Bytes and buffers -/

/-- Byte order of the host; `session_token` is stored in host order, while
`packet_len` and checksums go through `htons`/`htonl`. -/
inductive Endian where
  | little
  | big
  deriving DecidableEq, Repr

/-- The two bytes of a 16-bit value in network (big-endian) order. -/
def u16_be (x : Nat) : List Nat := [x / 256 % 256, x % 256]

/-- The four bytes of a 32-bit value in network (big-endian) order. -/
def u32_be (x : Nat) : List Nat :=
  [x / 16777216 % 256, x / 65536 % 256, x / 256 % 256, x % 256]

/-- The four bytes of a 32-bit value as the host stores them. -/
def u32_host (he : Endian) (x : Nat) : List Nat :=
  match he with
  | .big => u32_be x
  | .little => (u32_be x).reverse

/-- Value of two bytes read in network order (`ntohs` of the stored field). -/
def be_u16 (b0 b1 : Nat) : Nat := b0 * 256 + b1

/-- Value of four bytes read in network order (`ntohl` of the stored field). -/
def be_u32 (b0 b1 b2 b3 : Nat) : Nat := ((b0 * 256 + b1) * 256 + b2) * 256 + b3

/-- Value of four bytes read as a host-order `uint32_t`. -/
def host_u32 (he : Endian) (b0 b1 b2 b3 : Nat) : Nat :=
  match he with
  | .big => be_u32 b0 b1 b2 b3
  | .little => be_u32 b3 b2 b1 b0

/-- `memcpy(buffer + off, src, |src|)`: the bytes at `off ..` are replaced, the
length of the buffer never changes. -/
def memcpy (buffer : List Nat) (off : Nat) (src : List Nat) : List Nat :=
  (buffer.take off ++ src ++ buffer.drop (off + src.length)).take buffer.length

/-- `strlen`: the number of bytes before the first NUL.  A `const char*`
argument is given by the bytes stored from the pointer on, and is followed by
a terminating NUL. -/
def strlen (s : List Nat) : Nat := (s.takeWhile (fun b => decide (b ≠ 0))).length

/-- The first `n` bytes read from a `const char*` argument (see `strlen`). -/
def cstr_read (s : List Nat) (n : Nat) : List Nat := (s ++ [0]).take n

/-- `header->version` of the packet at the start of `buffer`. -/
def header_version (buffer : List Nat) : Nat := buffer.getD 0 0

/-- `header->type` of the packet at the start of `buffer`. -/
def header_type (buffer : List Nat) : Nat := buffer.getD 1 0

/-- `ntohs(header->packet_len)` of the packet at the start of `buffer`. -/
def header_packet_len (buffer : List Nat) : Nat :=
  be_u16 (buffer.getD 2 0) (buffer.getD 3 0)

/-- `header->session_token` of the packet at the start of `buffer`. -/
def header_session_token (he : Endian) (buffer : List Nat) : Nat :=
  host_u32 he (buffer.getD 4 0) (buffer.getD 5 0) (buffer.getD 6 0) (buffer.getD 7 0)

/-! ## Encoders (`Protocol.c`) -/

/-- The eight bytes of a `struct PacketHeader` as `make_header` stores them:
`version`, `type`, `htons(packet_len)`, and `session_token` in host order. -/
def header_bytes (he : Endian) (type : PacketType) (packet_len : Nat) (token : Nat) :
    List Nat :=
  [VERSION, type.toNat % 256] ++ u16_be packet_len ++ u32_host he token

/-- The function `make_header`: `packet_len` is a `uint16_t` parameter and
`token` a `uint32_t` parameter, so the arguments are reduced on entry. -/
def make_header (he : Endian) (buffer : List Nat) (type : PacketType)
    (packet_len : Nat) (token : Nat) : List Nat :=
  memcpy buffer 0 (header_bytes he type (packet_len % 65536) (token % 4294967296))

/-- The function `make_header_only_packet`. -/
def make_header_only_packet (he : Endian) (buffer : List Nat) (buff_len : Nat)
    (type : PacketType) (token : Nat) : Int × List Nat :=
  if buff_len < HEADER_LEN then (-1, buffer)
  else (HEADER_LEN, make_header he buffer type HEADER_LEN token)

/-- The function `make_logon_request`. -/
def make_logon_request (he : Endian) (buffer : List Nat) (buff_len : Nat)
    (is_new_account : Bool) (username password : List Nat) : Int × List Nat :=
  let user_len := strlen username + 1
  let pass_len := strlen password + 1
  let packet_len := HEADER_LEN + user_len + pass_len
  if buff_len < packet_len then (-1, buffer)
  else
    let type := if is_new_account then PacketType.TYPE_SIGNUP_REQUEST
                else PacketType.TYPE_LOGON_REQUEST
    let buffer := make_header he buffer type packet_len 0
    let buffer := memcpy buffer HEADER_LEN (cstr_read username user_len)
    let buffer := memcpy buffer (HEADER_LEN + user_len) (cstr_read password pass_len)
    (packet_len, buffer)

/-- The function `make_token_response`. -/
def make_token_response (he : Endian) (buffer : List Nat) (buff_len : Nat)
    (token : Nat) : Int × List Nat :=
  make_header_only_packet he buffer buff_len .TYPE_TOKEN_RESPONSE token

/-- The function `make_leave_request`. -/
def make_leave_request (he : Endian) (buffer : List Nat) (buff_len : Nat)
    (token : Nat) : Int × List Nat :=
  make_header_only_packet he buffer buff_len .TYPE_LEAVE_REQUEST token

/-- The function `make_list_request`. -/
def make_list_request (he : Endian) (buffer : List Nat) (buff_len : Nat)
    (token : Nat) : Int × List Nat :=
  make_header_only_packet he buffer buff_len .TYPE_LIST_REQUEST token

/-- The `for` loop of `make_list_response`: `n` iterations are left, `off` is
the write position.  Each iteration copies the 64-byte name array and the
checksum after `htonl`, then follows `next`. -/
def make_list_response_loop : Nat → List FileInfo → List Nat → Nat → List Nat
  | 0, _, buffer, _ => buffer
  | _ + 1, [], buffer, _ => buffer
  | n + 1, file_info :: next, buffer, off =>
    let buffer := memcpy buffer off (file_info.name.take MAX_FILE_NAME_LEN)
    let buffer := memcpy buffer (off + MAX_FILE_NAME_LEN)
      (u32_be (file_info.checksum % 4294967296))
    make_list_response_loop n next buffer (off + MAX_FILE_NAME_LEN + 4)

/-- The function `make_list_response`. -/
def make_list_response (he : Endian) (buffer : List Nat) (buff_len : Nat)
    (token : Nat) (file_info : List FileInfo) (n_files : Nat) : Int × List Nat :=
  let packet_len := HEADER_LEN + (MAX_FILE_NAME_LEN + 4) * n_files
  if buff_len < packet_len then (-1, buffer)
  else
    let buffer := make_header he buffer .TYPE_LIST_RESPONSE packet_len token
    (packet_len, make_list_response_loop n_files file_info buffer HEADER_LEN)

/-- The function `make_file_request`. -/
def make_file_request (he : Endian) (buffer : List Nat) (buff_len : Nat)
    (token : Nat) (file_name : List Nat) : Int × List Nat :=
  let file_name_len := strlen file_name + 1
  let packet_len := HEADER_LEN + file_name_len
  if buff_len < packet_len then (-1, buffer)
  else
    let buffer := make_header he buffer .TYPE_FILE_REQUEST packet_len token
    (packet_len, memcpy buffer HEADER_LEN (cstr_read file_name file_name_len))

/-- The function `make_file_transfer_header`; `data_len` is a `uint16_t`
parameter, so the argument is reduced on entry. -/
def make_file_transfer_header (he : Endian) (buffer : List Nat) (buff_len : Nat)
    (token : Nat) (data_len : Nat) : Int × List Nat :=
  if buff_len < HEADER_LEN then (-1, buffer)
  else (HEADER_LEN,
    make_header he buffer .TYPE_FILE_TRANSFER (HEADER_LEN + data_len % 65536) token)

/-- The function `make_file_received_packet`. -/
def make_file_received_packet (he : Endian) (buffer : List Nat) (buff_len : Nat)
    (token : Nat) : Int × List Nat :=
  make_header_only_packet he buffer buff_len .TYPE_FILE_RECEIVED token

/-- The function `make_error_response`; the error code is stored in one
`char`. -/
def make_error_response (he : Endian) (buffer : List Nat) (buff_len : Nat)
    (token : Nat) (error : ErrorType) : Int × List Nat :=
  let packet_len := HEADER_LEN + 1
  if buff_len < packet_len then (-1, buffer)
  else
    let buffer := make_header he buffer .TYPE_ERROR packet_len token
    (packet_len, memcpy buffer HEADER_LEN [error.toNat % 256])

/-! ## Transport and framing (`Protocol.c`) -/

/-- What one call of `recv` on a TCP socket can meet: some bytes that have
arrived together, the end of the stream (peer closed), or an error. -/
inductive Chunk where
  | data (bytes : List Nat)
  | eof
  | err
  deriving DecidableEq, Repr

/-- One call `recv(socket, dst, len, 0)` on the pending input `sock`: result
value, the bytes stored at `dst`, the input left.  At most `len` bytes of the
first chunk are delivered and the remainder of the chunk stays pending; a
script that has run out reads as a closed connection. -/
def recv (sock : List Chunk) (len : Nat) : Int × List Nat × List Chunk :=
  match sock with
  | [] => (0, [], [])
  | .eof :: rest => (0, [], rest)
  | .err :: rest => (-1, [], rest)
  | .data bytes :: rest =>
    ((bytes.take len).length, bytes.take len,
      if bytes.drop len = [] then rest else .data (bytes.drop len) :: rest)

/-- The `while` loop of `receive_packet_until`, with a bound on the number of
iterations: every iteration that does not return adds at least one byte, so
`target_len - n_received` iterations are enough. -/
def receive_packet_until_loop :
    Nat → List Chunk → List Nat → Nat → Nat → Nat → Int × List Nat × List Chunk
  | 0, sock, buffer, _, n_received, _ => (n_received, buffer, sock)
  | fuel + 1, sock, buffer, buff_len, n_received, target_len =>
    if n_received < target_len then
      let r := recv sock (buff_len - n_received)
      if r.1 ≤ 0 then (-1, buffer, r.2.2)
      else receive_packet_until_loop fuel r.2.2 (memcpy buffer n_received r.2.1)
        buff_len (n_received + r.2.1.length) target_len
    else (n_received, buffer, sock)

/-- The function `receive_packet_until`: result value, buffer and pending
input after the call. -/
def receive_packet_until (sock : List Chunk) (buffer : List Nat) (buff_len : Nat)
    (n_received target_len : Nat) : Int × List Nat × List Chunk :=
  receive_packet_until_loop (target_len - n_received) sock buffer buff_len
    n_received target_len

/-- The function `receive_packet`: result value, buffer and pending input
after the call. -/
def receive_packet (sock : List Chunk) (buffer : List Nat) (buff_len : Nat) :
    Int × List Nat × List Chunk :=
  let r := receive_packet_until sock buffer buff_len 0 HEADER_LEN
  if r.1 ≤ 0 then (-1, r.2.1, r.2.2)
  else
    let packet_len := header_packet_len r.2.1
    let packet_len := if packet_len > buff_len then buff_len else packet_len
    let r2 := receive_packet_until r.2.2 r.2.1 buff_len r.1.toNat packet_len
    if r2.1 ≠ packet_len then (-1, r2.2.1, r2.2.2)
    else (packet_len, r2.2.1, r2.2.2)

/-! ## Vocabulary for statements about the transport -/

/-- The bytes a socket delivers before the first read that reports zero or a
negative count (an empty delivery, the end of the stream, an error, or the end
of the script). -/
def pending_bytes : List Chunk → List Nat
  | [] => []
  | .data bytes :: rest => if bytes = [] then [] else bytes ++ pending_bytes rest
  | .eof :: _ => []
  | .err :: _ => []

/-- The pending input after `k` of its leading data bytes have been read. -/
def consume : List Chunk → Nat → List Chunk
  | [], _ => []
  | .data bytes :: rest, k =>
    if k = 0 then .data bytes :: rest
    else if k < bytes.length then .data (bytes.drop k) :: rest
    else consume rest (k - bytes.length)
  | .eof :: rest, _ => .eof :: rest
  | .err :: rest, _ => .err :: rest

/-- A stream that carries the given non-empty groups of bytes, one group per
delivery, followed by `rest`. -/
def deliver (chunks : List (List Nat)) (rest : List Chunk) : List Chunk :=
  chunks.map Chunk.data ++ rest

/-! ## Operating-system environment of the server -/

/-- The bytes of a string constant of the source. -/
def bytes_of (s : String) : List Nat := s.toList.map Char.toNat

/-- The C string stored at a pointer: the bytes before the first NUL. -/
def cstr (s : List Nat) : List Nat := s.takeWhile (fun b => decide (b ≠ 0))

/-- A file system: regular files (path, contents) in directory-scan order,
and directories.  Paths are the byte strings handed to `fopen`, `mkdir`,
`opendir` and `remove`. -/
structure FileSys where
  files : List (List Nat × List Nat)
  dirs : List (List Nat)
  deriving DecidableEq, Repr

/-- `fopen(path, "rb")` followed by reading the whole file; `none` is the
`NULL` result for a file that does not exist. -/
def FileSys.read (fs : FileSys) (path : List Nat) : Option (List Nat) :=
  (fs.files.find? (fun f => decide (f.1 = path))).map Prod.snd

/-- Replace the contents of the file at `path`, creating it at the end of the
scan order when it does not exist (`fopen(path, "wb")` and the `fwrite`s that
follow; opening for writing is taken to succeed). -/
def FileSys.write (fs : FileSys) (path content : List Nat) : FileSys :=
  if fs.files.any (fun f => decide (f.1 = path)) then
    { fs with files := fs.files.map (fun f => if f.1 = path then (path, content) else f) }
  else { fs with files := fs.files ++ [(path, content)] }

/-- The call `remove(path)`. -/
def FileSys.remove (fs : FileSys) (path : List Nat) : FileSys :=
  { fs with files := fs.files.filter (fun f => decide (f.1 ≠ path)) }

/-- The call `mkdir(path, 0777)`: -1 when the path exists already. -/
def FileSys.mkdir (fs : FileSys) (path : List Nat) : Int × FileSys :=
  if path ∈ fs.dirs ∨ fs.files.any (fun f => decide (f.1 = path)) then (-1, fs)
  else (0, { fs with dirs := fs.dirs ++ [path] })

/-- The entries `readdir` yields for `dir_path` that pass `is_regular_file`:
name and contents of every regular file directly inside the directory, in scan
order; `none` when `opendir` fails. -/
def FileSys.regular_entries (fs : FileSys) (dir_path : List Nat) :
    Option (List (List Nat × List Nat)) :=
  if dir_path ∈ fs.dirs then
    some (fs.files.filterMap (fun f =>
      if (dir_path ++ [47]).isPrefixOf f.1 ∧ 47 ∉ f.1.drop (dir_path.length + 1)
      then some (f.1.drop (dir_path.length + 1), f.2) else none))
  else none

/-- What the server sends or closes, in the order it happens. -/
inductive Effect where
  | send (socket : Int) (bytes : List Nat)
  | close (socket : Int)
  deriving DecidableEq, Repr

/-- Everything outside the session table that the server reads or changes:
the static `packet_buffer` (`BUFFSIZE + 1` bytes), the pending input of every
socket, the sends and closes performed so far, the file system, and the values
the next calls of `rand()` return. -/
structure World where
  packet_buffer : List Nat
  incoming : Int → List Chunk
  output : List Effect
  fs : FileSys
  rand : List Nat

/-- The call `send(socket, buffer, len, 0)`; the result is not used by the
source. -/
def World.send (w : World) (socket : Int) (buffer : List Nat) (len : Nat) : World :=
  { w with output := w.output ++ [Effect.send socket (buffer.take len)] }

/-- Replace the pending input of one socket. -/
def World.set_incoming (w : World) (socket : Int) (sock : List Chunk) : World :=
  { w with incoming := fun s => if s = socket then sock else w.incoming s }

/-- One call of `rand()`. -/
def World.next_rand (w : World) : Nat × World :=
  (w.rand.headD 0, { w with rand := w.rand.tail })

/-! ## Authentication service (`AuthenticationService.c`) -/

/-- `MAX_USERNAME_LEN` of `AuthenticationService.h`. -/
def MAX_USERNAME_LEN : Nat := 63

/-- `MAX_PASSWORD_LEN` of `AuthenticationService.h`. -/
def MAX_PASSWORD_LEN : Nat := 63

/-- `MAX_LINE_LEN` of `AuthenticationService.c`. -/
def MAX_LINE_LEN : Nat := 80

/-- `HASH_LEN` of `AuthenticationService.c`. -/
def HASH_LEN : Nat := 16

/-- `DATABASE_DIR` of `AuthenticationService.c` and `StorageService.c`. -/
def DATABASE_DIR : List Nat := bytes_of "serverdata"

/-- `DATABASE_FILE` of `AuthenticationService.c`. -/
def DATABASE_FILE : List Nat := bytes_of "serverdata/password.dat"

/-- The function `compare_hash`. -/
def compare_hash (hash correct_hash : List Nat) : Bool :=
  (List.range HASH_LEN).all (fun i => decide (hash.getD i 0 = correct_hash.getD i 0))

/-- The records `fread(cur_line, 1, MAX_LINE_LEN, db_file)` returns in full,
in file order. -/
def fread_lines (content : List Nat) : List (List Nat) :=
  (List.range (content.length / MAX_LINE_LEN)).map
    (fun i => (content.drop (MAX_LINE_LEN * i)).take MAX_LINE_LEN)

/-- The function `check_user`; `md5` stands for `hash_password`, whose MD5
implementation is not part of the sources. -/
def check_user (md5 : List Nat → List Nat) (fs : FileSys) (username password : List Nat) :
    Bool :=
  let username_len := strlen username
  let password_len := strlen password
  if username_len ≤ 0 ∨ username_len > MAX_USERNAME_LEN
      ∨ password_len ≤ 0 ∨ password_len > MAX_PASSWORD_LEN then false
  else
    let hash := md5 (cstr password)
    match fs.read DATABASE_FILE with
    | none => false
    | some content =>
      match (fread_lines content).find? (fun cur_line => decide (cstr cur_line = cstr username)) with
      | some cur_line => compare_hash hash (cur_line.drop (MAX_USERNAME_LEN + 1))
      | none => false

/-- The function `create_user`: result and file system afterwards. -/
def create_user (md5 : List Nat → List Nat) (fs : FileSys) (username password : List Nat) :
    Bool × FileSys :=
  let username_len := strlen username
  let password_len := strlen password
  if username_len ≤ 0 ∨ username_len > MAX_USERNAME_LEN
      ∨ password_len ≤ 0 ∨ password_len > MAX_PASSWORD_LEN then (false, fs)
  else
    let hash := md5 (cstr password)
    let content := (fs.read DATABASE_FILE).getD []
    let fs := if (fs.read DATABASE_FILE).isNone then fs.write DATABASE_FILE [] else fs
    if (fread_lines content).any (fun cur_line => decide (cstr cur_line = cstr username)) then
      (false, fs)
    else
      let cur_line := List.replicate MAX_LINE_LEN 0
      let cur_line := memcpy cur_line 0 (cstr_read username (username_len + 1))
      let cur_line := memcpy cur_line (MAX_USERNAME_LEN + 1) (hash.take HASH_LEN)
      (true, fs.write DATABASE_FILE (content ++ cur_line))

/-! ## Storage service (`StorageService.c`) -/

/-- The function `join_path`: `<p1>/<p2>`. -/
def join_path (p1 p2 : List Nat) : List Nat := cstr p1 ++ [47] ++ cstr p2

/-- The function `path_to_user`. -/
def path_to_user (username : List Nat) : List Nat := join_path DATABASE_DIR username

/-- The function `create_user_directory`. -/
def create_user_directory (fs : FileSys) (username : List Nat) : Int × FileSys :=
  fs.mkdir (path_to_user username)

/-- The function `list_files`; `crc32` stands for `crc32_file_checksum`, whose
implementation is not part of the sources.  Every node is pushed at the head
of the list; its name is the first 63 bytes of the entry name (the unused part
of `d_name` is taken to be zero) and a NUL. -/
def list_files (crc32 : List Nat → Nat) (fs : FileSys) (dir_path : List Nat) :
    List FileInfo × Nat :=
  match fs.regular_entries (cstr dir_path) with
  | none => ([], 0)
  | some entries =>
    (entries.foldl (fun info_list entry =>
        { name := (entry.1 ++ List.replicate (MAX_FILE_NAME_LEN - 1) 0).take
                    (MAX_FILE_NAME_LEN - 1) ++ [0],
          checksum := crc32 entry.2 } :: info_list) [],
      entries.length)

/-- The function `list_user_files`. -/
def list_user_files (crc32 : List Nat → Nat) (fs : FileSys) (username : List Nat) :
    List FileInfo × Nat :=
  list_files crc32 fs (path_to_user username)

/-! ## Session handling (`ClientHandler.c`) -/

/-- `USERNAME_LEN_WITH_NULL` of `ClientHandler.h`. -/
def USERNAME_LEN_WITH_NULL : Nat := 129

/-- The record `struct ClientInfo`. -/
structure ClientInfo where
  client_socket : Int
  username : List Nat
  session_token : Nat
  deriving DecidableEq, Repr

/-- A `struct ClientInfo` after `memset(client_info, 0, sizeof(struct ClientInfo))`. -/
def ClientInfo.zeroed : ClientInfo :=
  { client_socket := 0, username := List.replicate USERNAME_LEN_WITH_NULL 0, session_token := 0 }

/-- What a request handler hands back to `handle_client`: the `ssize_t` result,
the value left in `*error`, the environment and the session record. -/
structure Handled where
  response_len : Int
  error : ErrorType
  world : World
  client_info : ClientInfo

/-- The function `remove_client`. -/
def remove_client (w : World) (client_info : ClientInfo) : World × ClientInfo :=
  ({ w with output := w.output ++ [Effect.close client_info.client_socket] },
    ClientInfo.zeroed)

/-- The function `generate_random_token`: four calls of `rand()`, one byte
taken from each. -/
def generate_random_token (w : World) : Nat × World :=
  let r0 := w.next_rand
  let r1 := r0.2.next_rand
  let r2 := r1.2.next_rand
  let r3 := r2.2.next_rand
  (r0.1 % 256 + (r1.1 % 256) * 256 + (r2.1 % 256) * 65536 + (r3.1 % 256) * 16777216, r3.2)

/-- The "Validate user" step of `handle_logon`: `create_user` for a signup,
`check_user` for a logon; result of the call and file system afterwards. -/
def validate_user (md5 : List Nat → List Nat) (fs : FileSys) (is_new_user : Bool)
    (username password : List Nat) : Bool × FileSys :=
  if is_new_user then create_user md5 fs username password
  else (check_user md5 fs username password, fs)

/-- The second half of `handle_logon` ("Validate user", "Save info about
user", "Response with session token"): `username` and `password` are the
bytes stored from the two pointers on, `username_len` counts the terminator,
`error` is the value of `*error` on entry. -/
def handle_logon_validate (he : Endian) (md5 : List Nat → List Nat) (w : World)
    (client_info : ClientInfo) (is_new_user : Bool) (error : ErrorType)
    (username password : List Nat) (username_len : Nat) : Handled :=
  let auth := validate_user md5 w.fs is_new_user username password
  let w := { w with fs := auth.2 }
  if !auth.1 then
    { response_len := -1,
      error := if is_new_user then .ERROR_USERNAME_TAKEN else .ERROR_INVALID_PASSWORD,
      world := w, client_info := client_info }
  else
    let w := { w with fs := (create_user_directory w.fs username).2 }
    let client_info := { client_info with
      username := memcpy client_info.username 0 (cstr_read username username_len) }
    let t := generate_random_token w
    let w := t.2
    let client_info := { client_info with session_token := t.1 }
    let r := make_token_response he w.packet_buffer BUFFSIZE t.1
    { response_len := r.1, error := error, world := { w with packet_buffer := r.2 },
      client_info := client_info }

/-- The function `handle_logon`: the extraction of user name and password
from the packet, followed by `handle_logon_validate`. -/
def handle_logon (he : Endian) (md5 : List Nat → List Nat) (w : World) (request_len : Nat)
    (client_info : ClientInfo) (is_new_user : Bool) (error : ErrorType) : Handled :=
  let request_end := request_len
  let username := HEADER_LEN
  let username_len := strlen (w.packet_buffer.drop username) + 1
  let password := username + username_len
  if password ≥ request_end then
    { response_len := -1, error := .ERROR_MALFORMED_REQUEST, world := w, client_info := client_info }
  else
    let password_len := strlen (w.packet_buffer.drop password) + 1
    if password + password_len ≠ request_end then
      { response_len := -1, error := .ERROR_MALFORMED_REQUEST, world := w,
        client_info := client_info }
    else
      handle_logon_validate he md5 w client_info is_new_user error
        (w.packet_buffer.drop username) (w.packet_buffer.drop password) username_len

/-- The function `handle_leave`. -/
def handle_leave (w : World) (client_info : ClientInfo) (error : ErrorType) : Handled :=
  { response_len := -1, error := error, world := w, client_info := client_info }

/-- The function `handle_list`. -/
def handle_list (he : Endian) (crc32 : List Nat → Nat) (w : World)
    (client_info : ClientInfo) (error : ErrorType) : Handled :=
  let l := list_user_files crc32 w.fs client_info.username
  let r := make_list_response he w.packet_buffer BUFFSIZE client_info.session_token l.1 l.2
  { response_len := r.1, error := error, world := { w with packet_buffer := r.2 },
    client_info := client_info }

/-- The blocks `fread(buffer, 1, BUFFSIZE, file)` returns until it returns 0. -/
def fread_blocks (content : List Nat) : List (List Nat) :=
  (List.range ((content.length + BUFFSIZE - 1) / BUFFSIZE)).map
    (fun i => (content.drop (BUFFSIZE * i)).take BUFFSIZE)

/-- The sending loop shared by `handle_file_request` and `upload_file`: every
block is read into the buffer and sent. -/
def send_blocks (socket : Int) : List (List Nat) → World → World
  | [], w => w
  | block :: rest, w =>
    let w := { w with packet_buffer := memcpy w.packet_buffer 0 block }
    send_blocks socket rest (w.send socket w.packet_buffer block.length)

/-- The function `handle_file_request`; the file name is the C string in the
64 bytes copied from the packet. -/
def handle_file_request (he : Endian) (w : World) (client_info : ClientInfo)
    (error : ErrorType) : Handled :=
  let file_name := (w.packet_buffer.drop HEADER_LEN).take MAX_FILE_NAME_LEN
  let file_path := join_path (path_to_user client_info.username) file_name
  match w.fs.read file_path with
  | none =>
    let r := make_error_response he w.packet_buffer BUFFSIZE client_info.session_token
      .ERROR_FILE_NOT_EXIST
    { response_len := r.1, error := error, world := { w with packet_buffer := r.2 },
      client_info := client_info }
  | some content =>
    let file_size := content.length
    let r := make_file_transfer_header he w.packet_buffer BUFFSIZE client_info.session_token
      file_size
    let w := { w with packet_buffer := r.2 }
    let w := w.send client_info.client_socket w.packet_buffer r.1.toNat
    let w := send_blocks client_info.client_socket (fread_blocks content) w
    { response_len := 0, error := error, world := w, client_info := client_info }

/-- The receiving loop of `handle_file_transfer`, with a bound on the number
of iterations (every iteration that does not return adds at least one byte);
`written` is the contents of the destination file so far.  The result is
`none` when a read fails, else the contents written. -/
def handle_file_transfer_loop (socket : Int) :
    Nat → World → Nat → Nat → List Nat → World × Option (List Nat)
  | 0, w, _, _, written => (w, some written)
  | fuel + 1, w, n_received, request_len, written =>
    if n_received < request_len then
      let r := recv (w.incoming socket) BUFFSIZE
      let w := w.set_incoming socket r.2.2
      if r.1 ≤ 0 then (w, none)
      else
        let w := { w with packet_buffer := memcpy w.packet_buffer 0 r.2.1 }
        handle_file_transfer_loop socket fuel w (n_received + r.2.1.length) request_len
          (written ++ r.2.1)
    else (w, some written)

/-- The function `handle_file_transfer`.  The count handed to the first
`fwrite` is `n_received - header_len` in `size_t` arithmetic. -/
def handle_file_transfer (he : Endian) (w : World) (n_received : Nat)
    (client_info : ClientInfo) (error : ErrorType) : Handled :=
  let request_len := header_packet_len w.packet_buffer
  let file_name := (w.packet_buffer.drop HEADER_LEN).take MAX_FILE_NAME_LEN
  let file_path := join_path (path_to_user client_info.username) file_name
  let header_len := HEADER_LEN + MAX_FILE_NAME_LEN
  let count := (n_received + 18446744073709551616 - header_len) % 18446744073709551616
  let written := (w.packet_buffer.drop header_len).take count
  let w := { w with fs := w.fs.write file_path written }
  let l := handle_file_transfer_loop client_info.client_socket (request_len - n_received) w
    n_received request_len written
  match l.2 with
  | none =>
    let w := { l.1 with fs := l.1.fs.remove file_path }
    let r := make_error_response he w.packet_buffer BUFFSIZE client_info.session_token
      .ERROR_FILE_UPLOAD_FAILED
    { response_len := r.1, error := error, world := { w with packet_buffer := r.2 },
      client_info := client_info }
  | some content =>
    let w := { l.1 with fs := l.1.fs.write file_path content }
    let r := make_file_received_packet he w.packet_buffer BUFFSIZE client_info.session_token
    { response_len := r.1, error := error, world := { w with packet_buffer := r.2 },
      client_info := client_info }

/-- The `switch (header->type)` of `handle_client`; a type without a `case`
leaves `response_len = -1` and `error = ERROR_UNKNOWN`. -/
def dispatch (he : Endian) (md5 : List Nat → List Nat) (crc32 : List Nat → Nat) (w : World)
    (request_len : Nat) (client_info : ClientInfo) : Handled :=
  let type := header_type w.packet_buffer
  let error := ErrorType.ERROR_UNKNOWN
  if type = PacketType.TYPE_SIGNUP_REQUEST.toNat then
    handle_logon he md5 w request_len client_info true error
  else if type = PacketType.TYPE_LOGON_REQUEST.toNat then
    handle_logon he md5 w request_len client_info false error
  else if type = PacketType.TYPE_LEAVE_REQUEST.toNat then
    handle_leave w client_info error
  else if type = PacketType.TYPE_LIST_REQUEST.toNat then
    handle_list he crc32 w client_info error
  else if type = PacketType.TYPE_FILE_REQUEST.toNat then
    handle_file_request he w client_info error
  else if type = PacketType.TYPE_FILE_TRANSFER.toNat then
    handle_file_transfer he w request_len client_info error
  else { response_len := -1, error := error, world := w, client_info := client_info }

/-- The part of `handle_client` after the `switch`: send the response, or the
error packet followed by `remove_client`. -/
def respond (he : Endian) (h : Handled) : World × ClientInfo :=
  if h.response_len < 0 then
    let r := make_error_response he h.world.packet_buffer BUFFSIZE
      h.client_info.session_token h.error
    let w := { h.world with packet_buffer := r.2 }
    let w := w.send h.client_info.client_socket w.packet_buffer r.1.toNat
    remove_client w h.client_info
  else if h.response_len = 0 then (h.world, h.client_info)
  else (h.world.send h.client_info.client_socket h.world.packet_buffer h.response_len.toNat,
    h.client_info)

/-- The function `handle_client`: environment and session record after one
call. -/
def handle_client (he : Endian) (md5 : List Nat → List Nat) (crc32 : List Nat → Nat)
    (w : World) (client_info : ClientInfo) : World × ClientInfo :=
  let r := receive_packet (w.incoming client_info.client_socket) w.packet_buffer BUFFSIZE
  let w := { w.set_incoming client_info.client_socket r.2.2 with packet_buffer := r.2.1 }
  if r.1 ≤ 0 then remove_client w client_info
  else
    let session_token := header_session_token he w.packet_buffer
    if session_token ≠ client_info.session_token then remove_client w client_info
    else respond he (dispatch he md5 crc32 w r.1.toNat client_info)

/-! ## Example states -/

/-- A server environment right after start-up, with one request pending on
socket 4. -/
def example_world (request : List Nat) : World :=
  { packet_buffer := List.replicate (BUFFSIZE + 1) 0,
    incoming := fun s => if s = 4 then deliver [request] [] else [],
    output := [],
    fs := { files := [], dirs := [DATABASE_DIR] },
    rand := [17, 34, 51, 68] }

/-! ## Client (`Client.c`) -/

/-- The parsing loop of `get_server_files`: `n` iterations are left,
`cur_entry` is the read position; every entry is pushed at the head of
`server_files`. -/
def get_server_files_loop : Nat → List Nat → Nat → List FileInfo → List FileInfo
  | 0, _, _, server_files => server_files
  | n + 1, buffer, cur_entry, server_files =>
    let cur_file : FileInfo :=
      { name := (buffer.drop cur_entry).take MAX_FILE_NAME_LEN,
        checksum := be_u32 (buffer.getD (cur_entry + MAX_FILE_NAME_LEN) 0)
          (buffer.getD (cur_entry + MAX_FILE_NAME_LEN + 1) 0)
          (buffer.getD (cur_entry + MAX_FILE_NAME_LEN + 2) 0)
          (buffer.getD (cur_entry + MAX_FILE_NAME_LEN + 3) 0) }
    get_server_files_loop n buffer (cur_entry + MAX_FILE_NAME_LEN + 4) (cur_file :: server_files)

/-- The function `get_server_files` run by the client in environment `w`:
the list, `*n_files`, the buffer and the environment afterwards; `none` is
`exit(1)`. -/
def get_server_files (he : Endian) (w : World) (server_socket : Int) (buffer : List Nat)
    (session_token : Nat) : Option (List FileInfo × Nat × List Nat × World) :=
  let q := make_list_request he buffer BUFFSIZE session_token
  let w := w.send server_socket q.2 q.1.toNat
  let r := receive_packet (w.incoming server_socket) q.2 BUFFSIZE
  let w := w.set_incoming server_socket r.2.2
  if r.1 ≤ 0 then none
  else
    let n_files := (r.1.toNat - HEADER_LEN) / (MAX_FILE_NAME_LEN + 4)
    some (get_server_files_loop n_files r.2.1 HEADER_LEN [], n_files, r.2.1, w)

/-! ## Wire layout of a file list, in the words of the specification -/

/-- The payload of a ListResponse: for every entry in list order, the 64-byte
name field followed by the checksum as 4 big-endian bytes. -/
def list_payload_spec : List FileInfo → List Nat
  | [] => []
  | file_info :: next => file_info.name ++ u32_be file_info.checksum ++ list_payload_spec next

/-- An inventory of 121 entries, one more than a `BUFFSIZE` packet can carry. -/
def example_inventory : List FileInfo :=
  List.replicate 121 { name := List.replicate 64 65, checksum := 7 }

/-! ## Vocabulary for statements about `handle_client` -/

/-- The environment in which `handle_client` runs its handlers: `buf` is the
packet buffer and `rest` the pending input of `socket` once `receive_packet`
has returned. -/
def World.received (w : World) (socket : Int) (buf : List Nat) (rest : List Chunk) : World :=
  { w.set_incoming socket rest with packet_buffer := buf }

/-- The bytes of an Error packet: header and the one-byte error code. -/
def error_packet (he : Endian) (token : Nat) (error : ErrorType) : List Nat :=
  header_bytes he .TYPE_ERROR 9 token ++ [error.toNat]

/-! ## Client: diff and synchronisation (`Client.c`) -/

/-- `CLIENT_DIR` of `Client.c`. -/
def CLIENT_DIR : List Nat := bytes_of "clientdata"

/-- The function `get_client_server_diffs`: `*client_missings`,
`*server_missings`, the buffer and the environment afterwards; `none` is the
`exit(1)` of `get_server_files`. -/
def get_client_server_diffs (he : Endian) (crc32 : List Nat → Nat) (w : World)
    (server_socket : Int) (buffer : List Nat) (session_token : Nat) :
    Option (List FileInfo × List FileInfo × List Nat × World) :=
  match get_server_files he w server_socket buffer session_token with
  | none => none
  | some (server_files, _, buffer, w) =>
    let client_files := (list_files crc32 w.fs CLIENT_DIR).1
    some (get_missing_files server_files client_files,
      get_missing_files client_files server_files, buffer, w)

/-- The sending loop of `upload_file`: every block that `fread` returns is
read into the buffer and sent. -/
def upload_file_blocks (server_socket : Int) : List (List Nat) → List Nat → World →
    List Nat × World
  | [], buffer, w => (buffer, w)
  | block :: rest, buffer, w =>
    let buffer := memcpy buffer 0 block
    upload_file_blocks server_socket rest buffer (w.send server_socket buffer block.length)

/-- The function `upload_file`: buffer and environment afterwards.  Nothing is
sent when the file cannot be opened. -/
def upload_file (he : Endian) (w : World) (server_socket : Int) (buffer : List Nat)
    (session_token : Nat) (file_name : List Nat) : List Nat × World :=
  let file_path := join_path CLIENT_DIR file_name
  match w.fs.read file_path with
  | none => (buffer, w)
  | some content =>
    let file_size := content.length
    let r := make_file_transfer_header he buffer BUFFSIZE session_token
      (MAX_FILE_NAME_LEN + file_size)
    let w := w.send server_socket r.2 r.1.toNat
    let w := w.send server_socket file_name MAX_FILE_NAME_LEN
    upload_file_blocks server_socket (fread_blocks content) r.2 w

/-- The receiving loop of `download_file`, with a bound on the number of
iterations (every iteration that does not return adds at least one byte):
pending input, buffer and, unless a read failed, the bytes written. -/
def download_file_loop :
    Nat → List Chunk → List Nat → Nat → Nat → List Nat →
      List Chunk × List Nat × Option (List Nat)
  | 0, sock, buffer, _, _, written => (sock, buffer, some written)
  | fuel + 1, sock, buffer, n_received, response_len, written =>
    if n_received < response_len then
      let r := recv sock BUFFSIZE
      if r.1 ≤ 0 then (r.2.2, buffer, none)
      else
        download_file_loop fuel r.2.2 (memcpy buffer 0 r.2.1) (n_received + r.2.1.length)
          response_len (written ++ r.2.1)
    else (sock, buffer, some written)

/-- The function `download_file`: buffer and environment afterwards.
`n_received` is a `size_t`, so a failed `receive_packet` leaves
`2^64 - 1` in it. -/
def download_file (he : Endian) (w : World) (server_socket : Int) (buffer : List Nat)
    (session_token : Nat) (file_name : List Nat) : List Nat × World :=
  let q := make_file_request he buffer BUFFSIZE session_token file_name
  let w := w.send server_socket q.2 q.1.toNat
  let r := receive_packet (w.incoming server_socket) q.2 BUFFSIZE
  let w := w.set_incoming server_socket r.2.2
  let n_received := (r.1 % 18446744073709551616).toNat
  let response_len := header_packet_len r.2.1
  let file_path := join_path CLIENT_DIR file_name
  let count := (n_received + 18446744073709551616 - HEADER_LEN) % 18446744073709551616
  let written := (r.2.1.drop HEADER_LEN).take count
  let w := { w with fs := w.fs.write file_path written }
  let l := download_file_loop (response_len - n_received) (w.incoming server_socket) r.2.1
    n_received response_len written
  let w := w.set_incoming server_socket l.1
  match l.2.2 with
  | none => (l.2.1, { w with fs := w.fs.remove file_path })
  | some content => (l.2.1, { w with fs := w.fs.write file_path content })

/-- The first loop of `handle_sync`: for every entry, `upload_file` and then
one `receive_packet` whose result is not looked at. -/
def handle_sync_uploads (he : Endian) (server_socket : Int) (session_token : Nat) :
    List FileInfo → List Nat → World → List Nat × World
  | [], buffer, w => (buffer, w)
  | cur_file :: next, buffer, w =>
    let u := upload_file he w server_socket buffer session_token cur_file.name
    let r := receive_packet (u.2.incoming server_socket) u.1 BUFFSIZE
    handle_sync_uploads he server_socket session_token next r.2.1
      (u.2.set_incoming server_socket r.2.2)

/-- The second loop of `handle_sync`: `download_file` for every entry. -/
def handle_sync_downloads (he : Endian) (server_socket : Int) (session_token : Nat) :
    List FileInfo → List Nat → World → List Nat × World
  | [], buffer, w => (buffer, w)
  | cur_file :: next, buffer, w =>
    let d := download_file he w server_socket buffer session_token cur_file.name
    handle_sync_downloads he server_socket session_token next d.1 d.2

/-- The function `handle_sync`: buffer and environment afterwards; `none` is
the `exit(1)` of `get_server_files`. -/
def handle_sync (he : Endian) (crc32 : List Nat → Nat) (w : World) (server_socket : Int)
    (buffer : List Nat) (session_token : Nat) : Option (List Nat × World) :=
  match get_client_server_diffs he crc32 w server_socket buffer session_token with
  | none => none
  | some (client_missings, server_missings, buffer, w) =>
    let u := handle_sync_uploads he server_socket session_token server_missings buffer w
    some (handle_sync_downloads he server_socket session_token client_missings u.1 u.2)

/-! ## Vocabulary for statements about what is sent -/

/-- All bytes sent to `socket` by a list of effects, in order. -/
def sent_bytes (socket : Int) : List Effect → List Nat
  | [] => []
  | .send s bytes :: rest => if s = socket then bytes ++ sent_bytes socket rest
                             else sent_bytes socket rest
  | .close _ :: rest => sent_bytes socket rest

/-! ## Example states for file transfers -/

/-- A server environment whose packet buffer holds a FileRequest for the file
`a` of the user `b`, the file being stored with the given contents. -/
def example_server_file_world (content : List Nat) : World :=
  { packet_buffer := [1, 7, 0, 10, 0, 0, 0, 0] ++ (97 :: List.replicate 63 0)
      ++ List.replicate (BUFFSIZE + 1 - 72) 0,
    incoming := fun _ => [],
    output := [],
    fs := { files := [(join_path (path_to_user (98 :: List.replicate 128 0))
                        (97 :: List.replicate 63 0), content)],
            dirs := [DATABASE_DIR, path_to_user (98 :: List.replicate 128 0)] },
    rand := [] }

/-- A client environment whose directory holds the file `a` with the given
contents; the server's answers are the given chunks. -/
def example_client_file_world (content : List Nat) (answers : List Chunk) : World :=
  { packet_buffer := [],
    incoming := fun _ => answers,
    output := [],
    fs := { files := [(join_path CLIENT_DIR (97 :: List.replicate 63 0), content)],
            dirs := [CLIENT_DIR] },
    rand := [] }

/-! ## A synchronisation, in the words of the specification -/

/-- One step of the upload phase: upload the entry, then await one reply. -/
def upload_and_await (he : Endian) (server_socket : Int) (session_token : Nat)
    (st : List Nat × World) (file : FileInfo) : List Nat × World :=
  let u := upload_file he st.2 server_socket st.1 session_token file.name
  let r := receive_packet (u.2.incoming server_socket) u.1 BUFFSIZE
  (r.2.1, u.2.set_incoming server_socket r.2.2)

/-- A synchronisation as the specification words it: compute both diffs, then
for every entry missing from the server perform an upload and await the
reply, then for every entry missing from the client perform a download. -/
def sync_spec (he : Endian) (crc32 : List Nat → Nat) (w : World) (server_socket : Int)
    (buffer : List Nat) (session_token : Nat) : Option (List Nat × World) :=
  (get_client_server_diffs he crc32 w server_socket buffer session_token).map
    (fun d =>
      d.1.foldl
        (fun st file => download_file he st.2 server_socket st.1 session_token file.name)
        (d.2.1.foldl (upload_and_await he server_socket session_token) (d.2.2.1, d.2.2.2)))

/-- What one upload puts on the wire: nothing when the file cannot be opened,
else a FileTransfer header, the 64-byte name field and the blocks of the
file. -/
def upload_sends (he : Endian) (fs : FileSys) (server_socket : Int) (session_token : Nat)
    (file : FileInfo) : List Effect :=
  match fs.read (join_path CLIENT_DIR file.name) with
  | none => []
  | some content =>
    Effect.send server_socket
        (header_bytes he .TYPE_FILE_TRANSFER ((8 + (64 + content.length) % 65536) % 65536)
          (session_token % 4294967296))
      :: Effect.send server_socket (file.name.take 64)
      :: (fread_blocks content).map (Effect.send server_socket)

/-- What one download puts on the wire: a FileRequest with the name of the
entry as a C string. -/
def download_sends (he : Endian) (server_socket : Int) (session_token : Nat)
    (file : FileInfo) : Effect :=
  Effect.send server_socket
    (header_bytes he .TYPE_FILE_REQUEST ((8 + (strlen file.name + 1)) % 65536)
        (session_token % 4294967296)
      ++ cstr_read file.name (strlen file.name + 1))

/-! ## Client and server connected -/

/-- The byte groups sent to `socket` by a list of effects, one per `send`. -/
def sent_chunks (socket : Int) : List Effect → List (List Nat)
  | [] => []
  | .send s bytes :: rest =>
    if s = socket then bytes :: sent_chunks socket rest else sent_chunks socket rest
  | .close _ :: rest => sent_chunks socket rest

/-- A client, the server, and the session record the server keeps for that
client. -/
structure Peers where
  client : World
  server : World
  session : ClientInfo

/-- One request/response exchange over a connection that delivers every `send`
as one group of bytes and never fails: the server runs `handle_client` with
`requests` pending, the client operation `op` runs with the server's sends
pending, and the exchange counts only when what `op` sent is `requests`. -/
def exchange {α : Type} (he : Endian) (md5 : List Nat → List Nat) (crc32 : List Nat → Nat)
    (server_socket : Int) (requests : List (List Nat)) (op : World → Option (α × World))
    (p : Peers) : Option (α × Peers) :=
  let sv := handle_client he md5 crc32
    (p.server.set_incoming p.session.client_socket (deliver requests [])) p.session
  let replies := sent_chunks p.session.client_socket
    (sv.1.output.drop p.server.output.length)
  match op (p.client.set_incoming server_socket (deliver replies [])) with
  | none => none
  | some (a, wc) =>
    if sent_chunks server_socket (wc.output.drop p.client.output.length) = requests then
      some (a, { client := wc, server := sv.1, session := sv.2 })
    else none

/-- The upload phase of a synchronisation against the server: one exchange per
entry, the client side being `upload_and_await`. -/
def sync_run_uploads (he : Endian) (md5 : List Nat → List Nat) (crc32 : List Nat → Nat)
    (server_socket : Int) (session_token : Nat) :
    List FileInfo → List Nat → Peers → Option (List Nat × Peers)
  | [], buffer, p => some (buffer, p)
  | file :: rest, buffer, p =>
    match exchange he md5 crc32 server_socket
        (sent_chunks server_socket
          (upload_sends he p.client.fs server_socket session_token file))
        (fun w => some (upload_and_await he server_socket session_token (buffer, w) file)) p with
    | none => none
    | some (buffer, p) => sync_run_uploads he md5 crc32 server_socket session_token rest buffer p

/-- The download phase of a synchronisation against the server: one exchange
per entry, the client side being `download_file`. -/
def sync_run_downloads (he : Endian) (md5 : List Nat → List Nat) (crc32 : List Nat → Nat)
    (server_socket : Int) (session_token : Nat) :
    List FileInfo → List Nat → Peers → Option (List Nat × Peers)
  | [], buffer, p => some (buffer, p)
  | file :: rest, buffer, p =>
    match exchange he md5 crc32 server_socket
        (sent_chunks server_socket [download_sends he server_socket session_token file])
        (fun w => some (download_file he w server_socket buffer session_token file.name)) p with
    | none => none
    | some (buffer, p) =>
      sync_run_downloads he md5 crc32 server_socket session_token rest buffer p

/-- A synchronisation run against the server's handlers: the steps of
`handle_sync` (`sync_spec`), each as one exchange with `handle_client`. -/
def sync_run (he : Endian) (md5 : List Nat → List Nat) (crc32 : List Nat → Nat)
    (server_socket : Int) (buffer : List Nat) (session_token : Nat) (p : Peers) :
    Option (List Nat × Peers) :=
  match exchange he md5 crc32 server_socket
      [header_bytes he .TYPE_LIST_REQUEST 8 (session_token % 4294967296)]
      (fun w => (get_client_server_diffs he crc32 w server_socket buffer session_token).map
        (fun d => ((d.1, d.2.1, d.2.2.1), d.2.2.2))) p with
  | none => none
  | some ((client_missings, server_missings, buffer), p) =>
    match sync_run_uploads he md5 crc32 server_socket session_token server_missings buffer p with
    | none => none
    | some (buffer, p) =>
      sync_run_downloads he md5 crc32 server_socket session_token client_missings buffer p

/-- The 64-byte name field `list_files` stores for a directory entry. -/
def name_field (entry_name : List Nat) : List Nat :=
  (entry_name ++ List.replicate (MAX_FILE_NAME_LEN - 1) 0).take (MAX_FILE_NAME_LEN - 1) ++ [0]

/-- The inventory node `list_files` builds for a directory entry. -/
def file_info_of (crc32 : List Nat → Nat) (entry : List Nat × List Nat) : FileInfo :=
  { name := name_field entry.1, checksum := crc32 entry.2 }

/-- The file system of the server after the upload of one entry: the server
writes what the client reads under the entry's name. -/
def upload_writes (client_fs : FileSys) (user_dir : List Nat) (server_fs : FileSys)
    (file : FileInfo) : FileSys :=
  match client_fs.read (join_path CLIENT_DIR file.name) with
  | none => server_fs
  | some content => server_fs.write (join_path user_dir file.name) content

/-- The file system of the client after the download of one entry: the client
writes what the server reads under the entry's name. -/
def download_writes (server_fs : FileSys) (user_dir : List Nat) (client_fs : FileSys)
    (file : FileInfo) : FileSys :=
  match server_fs.read (join_path user_dir file.name) with
  | none => client_fs
  | some content => client_fs.write (join_path CLIENT_DIR file.name) content

/-! ## Example states for a synchronisation -/

/-- A checksum function for examples: the sum of the bytes, in 32 bits. -/
def example_checksum (content : List Nat) : Nat := content.sum % 4294967296

/-- A client whose directory holds the file `a` with contents `[1]`, and the
server right after the user `b` (session token 5, socket 4) has logged on; the
directory of `b` holds one file, named `server_name`, with contents `[2]`. -/
def example_peers (server_name : List Nat) : Peers :=
  { client :=
      { packet_buffer := [],
        incoming := fun _ => [],
        output := [],
        fs := { files := [(CLIENT_DIR ++ [47] ++ [97], [1])], dirs := [CLIENT_DIR] },
        rand := [] },
    server :=
      { packet_buffer := List.replicate (BUFFSIZE + 1) 0,
        incoming := fun _ => [],
        output := [],
        fs := { files := [(path_to_user (98 :: List.replicate 128 0) ++ [47] ++ server_name,
                          [2])],
                dirs := [DATABASE_DIR, path_to_user (98 :: List.replicate 128 0)] },
        rand := [] },
    session := { client_socket := 4, username := 98 :: List.replicate 128 0,
                 session_token := 5 } }

/-! ## Example state for inventories -/

/-- A server environment in which the directory of user `u` holds `n_files`
regular files and a ListRequest with token 5 is pending on socket 4. -/
def example_list_world (n_files : Nat) : World :=
  { example_world [1, 5, 0, 8, 5, 0, 0, 0] with
    fs := { files := (List.range n_files).map
              (fun i => (path_to_user [117] ++ [47, 65 + i % 26, 65 + i / 26], [i])),
            dirs := [DATABASE_DIR, path_to_user [117]] } }

/-! ## Layout of the credential file -/

/-- An entry of the credential file as the header comment of
`AuthenticationService.c` lays it out: the user name padded with zeros to
`MAX_USERNAME_LEN + 1` bytes, then the 16 bytes of the password hash. -/
def credential_record (username hash : List Nat) : List Nat :=
  cstr username ++ List.replicate (MAX_USERNAME_LEN + 1 - strlen username) 0
    ++ (hash.take HASH_LEN ++ List.replicate (HASH_LEN - (hash.take HASH_LEN).length) 0)

/-! ## Connection table and main loop (`ClientHandler.c`, `Server.c`) -/

/-- `MAX_CONNECTIONS` of `ClientHandler.h`. -/
def MAX_CONNECTIONS : Nat := 64

/-- The `for` loop of `accept_client` over the slots that are left, `n` of
them still inside `max_connections`: the first slot whose `client_socket` is
`<= 0` receives the new socket.  The result is `none` when the loop runs to
its end.  The array is taken to have at least `max_connections` slots. -/
def accept_client_loop (client_socket : Int) : Nat → List ClientInfo → Option (List ClientInfo)
  | 0, _ => none
  | _ + 1, [] => none
  | n + 1, client_info :: rest =>
    if client_info.client_socket ≤ 0 then
      some ({ client_info with client_socket := client_socket } :: rest)
    else (accept_client_loop client_socket n rest).map (fun r => client_info :: r)

/-- The function `accept_client`; `client_socket` is the value returned by
`accept`.  Environment and connection table after the call. -/
def accept_client (he : Endian) (w : World) (client_socket : Int)
    (client_infos : List ClientInfo) (max_connections : Nat) : World × List ClientInfo :=
  if client_socket < 0 then (w, client_infos)
  else
    match accept_client_loop client_socket max_connections client_infos with
    | some client_infos => (w, client_infos)
    | none =>
      let r := make_error_response he w.packet_buffer BUFFSIZE 0 .ERROR_SERVER_BUSY
      let w := { w with packet_buffer := r.2 }
      let w := w.send client_socket w.packet_buffer r.1.toNat
      ({ w with output := w.output ++ [Effect.close client_socket] }, client_infos)

/-- The function `initialize_client_handler`: both services create the
directory `serverdata`. -/
def initialize_client_handler (fs : FileSys) : FileSys :=
  ((fs.mkdir DATABASE_DIR).2.mkdir DATABASE_DIR).2

/-- The descriptor set after `select` in `main`: of the descriptors put into
the set (the listening socket and every `client_socket > 0` of the table)
those that the environment reports ready. -/
def select (server_socket : Int) (client_infos : List ClientInfo) (ready : Int → Bool) :
    Int → Bool :=
  fun s => (decide (s = server_socket)
      || client_infos.any (fun c => decide (c.client_socket > 0 ∧ c.client_socket = s)))
    && ready s

/-- The last `for` loop of `main`: slot `i` is handled when its socket is in
the descriptor set. -/
def handle_activated (he : Endian) (md5 : List Nat → List Nat) (crc32 : List Nat → Nat)
    (activated : Int → Bool) (st : World × List ClientInfo) (i : Nat) :
    World × List ClientInfo :=
  match st.2[i]? with
  | none => st
  | some client_info =>
    if activated client_info.client_socket then
      let r := handle_client he md5 crc32 st.1 client_info
      (r.1, st.2.set i r.2)
    else st

/-- A pass through the body of the `while (1)` loop of `main`, up to the point
where the last `for` loop has visited the slots `0 .. k - 1`: `event.1` is
what `select` finds ready and `event.2` what `accept` returns if it is called.
A pass in which `select` reports nothing changes nothing. -/
def server_pass (he : Endian) (md5 : List Nat → List Nat) (crc32 : List Nat → Nat)
    (server_socket : Int) (st : World × List ClientInfo) (event : (Int → Bool) × Int)
    (k : Nat) : World × List ClientInfo :=
  let activated := select server_socket st.2 event.1
  let st := if activated server_socket then
      accept_client he st.1 event.2 st.2 MAX_CONNECTIONS
    else st
  (List.range k).foldl (handle_activated he md5 crc32 activated) st

/-- One whole pass through the body of the `while (1)` loop of `main`. -/
def server_iteration (he : Endian) (md5 : List Nat → List Nat) (crc32 : List Nat → Nat)
    (server_socket : Int) (st : World × List ClientInfo) (event : (Int → Bool) × Int) :
    World × List ClientInfo :=
  server_pass he md5 crc32 server_socket st event MAX_CONNECTIONS

/-- The state of the server when `main` enters its loop: the static
`packet_buffer` and the connection table are zero, the data directory
exists. -/
def server_start (incoming : Int → List Chunk) (fs : FileSys) (rand : List Nat) :
    World × List ClientInfo :=
  ({ packet_buffer := List.replicate (BUFFSIZE + 1) 0,
     incoming := incoming,
     output := [],
     fs := initialize_client_handler fs,
     rand := rand },
    List.replicate MAX_CONNECTIONS ClientInfo.zeroed)

/-- The state of the server after the passes of the main loop given by
`events`. -/
def server_run (he : Endian) (md5 : List Nat → List Nat) (crc32 : List Nat → Nat)
    (server_socket : Int) (events : List ((Int → Bool) × Int))
    (st : World × List ClientInfo) : World × List ClientInfo :=
  events.foldl (server_iteration he md5 crc32 server_socket) st

/-! ## Vocabulary for statements about the main loop -/

/-- What holds of the server between any two calls made by the main loop:
every slot of the table has a socket `>= 0` and is all zero when that socket
is 0; if the listening socket is descriptor 0 nothing can be read from it; and
`packet_buffer` ends with a zero byte at index `BUFFSIZE`. -/
def server_invariant (server_socket : Int) (st : World × List ClientInfo) : Prop :=
  (∀ c ∈ st.2, 0 ≤ c.client_socket ∧ (c.client_socket = 0 → c = ClientInfo.zeroed))
  ∧ (server_socket = 0 → st.1.incoming server_socket = [])
  ∧ st.1.packet_buffer.drop BUFFSIZE = [0]

instance (server_socket : Int) (st : World × List ClientInfo) :
    Decidable (server_invariant server_socket st) := by
  unfold server_invariant
  infer_instance

/-! ## Theorems -/

/-! ### Buffers and headers -/

theorem memcpy_length (b : List Nat) (off : Nat) (s : List Nat) :
    (memcpy b off s).length = b.length := by
  simp only [memcpy, List.length_take, List.length_append, List.length_drop]
  omega

theorem memcpy_eq (b : List Nat) (off : Nat) (s : List Nat)
    (h : off + s.length ≤ b.length) :
    memcpy b off s = b.take off ++ s ++ b.drop (off + s.length) := by
  unfold memcpy
  apply List.take_of_length_le
  simp only [List.length_take, List.length_append, List.length_drop]
  omega

theorem memcpy_drop (b : List Nat) (off : Nat) (s : List Nat) (k : Nat)
    (h : off + s.length ≤ k) : (memcpy b off s).drop k = b.drop k := by
  by_cases hb : off + s.length ≤ b.length
  · rw [memcpy_eq b off s hb]
    have h1 : (b.take off ++ s).length = off + s.length := by
      simp only [List.length_append, List.length_take]; omega
    have hk : k = (b.take off ++ s).length + (k - (off + s.length)) := by omega
    rw [hk, List.drop_append, List.drop_drop, h1]
  · rw [List.drop_of_length_le, List.drop_of_length_le]
    · omega
    · rw [memcpy_length]; omega

theorem memcpy_take (b : List Nat) (off : Nat) (s : List Nat) (k : Nat)
    (h : k ≤ off) : (memcpy b off s).take k = b.take k := by
  unfold memcpy
  rw [List.take_take, List.append_assoc]
  by_cases hk : k ≤ b.length
  · rw [min_eq_left hk, List.take_append_of_le_length (by simp; omega), List.take_take,
      min_eq_left h]
  · have hk2 : b.length ≤ k := by omega
    rw [min_eq_right hk2]
    have : b.take off = b := List.take_of_length_le (by omega)
    rw [this, List.take_append_of_le_length (le_refl _), List.take_of_length_le (le_refl _),
      List.take_of_length_le hk2]

theorem memcpy_append (pre rest s : List Nat) (off : Nat) (hoff : off = pre.length)
    (h : s.length ≤ rest.length) :
    memcpy (pre ++ rest) off s = pre ++ s ++ rest.drop s.length := by
  subst hoff
  rw [memcpy_eq _ _ _ (by rw [List.length_append]; omega), List.take_left,
    List.drop_append]

theorem header_bytes_length (he : Endian) (type : PacketType) (packet_len token : Nat) :
    (header_bytes he type packet_len token).length = 8 := by
  cases he <;> simp [header_bytes, u16_be, u32_host, u32_be]

theorem make_header_eq (he : Endian) (buffer : List Nat) (type : PacketType)
    (packet_len token : Nat) (h : 8 ≤ buffer.length) :
    make_header he buffer type packet_len token
      = header_bytes he type (packet_len % 65536) (token % 4294967296) ++ buffer.drop 8 := by
  unfold make_header
  rw [memcpy_eq _ _ _ (by rw [header_bytes_length]; omega), header_bytes_length]
  simp

theorem make_header_length (he : Endian) (buffer : List Nat) (type : PacketType)
    (packet_len token : Nat) :
    (make_header he buffer type packet_len token).length = buffer.length := by
  unfold make_header; exact memcpy_length _ _ _

theorem make_header_drop (he : Endian) (buffer : List Nat) (type : PacketType)
    (packet_len token k : Nat) (hk : 8 ≤ k) :
    (make_header he buffer type packet_len token).drop k = buffer.drop k := by
  unfold make_header
  apply memcpy_drop
  rw [header_bytes_length]; omega

theorem packet_type_toNat_lt (t : PacketType) : t.toNat < 256 := by
  cases t <;> simp [PacketType.toNat]

theorem error_type_toNat_lt (e : ErrorType) : e.toNat < 256 := by
  cases e <;> simp [ErrorType.toNat]

theorem header_fields (he : Endian) (type : PacketType) (plen token : Nat) (tl : List Nat)
    (hlen : plen < 65536) (htok : token < 4294967296) :
    header_version (header_bytes he type plen token ++ tl) = 1
    ∧ header_type (header_bytes he type plen token ++ tl) = type.toNat
    ∧ header_packet_len (header_bytes he type plen token ++ tl) = plen
    ∧ header_session_token he (header_bytes he type plen token ++ tl) = token := by
  have hty := packet_type_toNat_lt type
  refine ⟨?_, ?_, ?_, ?_⟩
  · simp [header_version, header_bytes, VERSION]
  · simp [header_type, header_bytes]; omega
  · simp [header_packet_len, header_bytes, u16_be, be_u16]; omega
  · cases he <;>
      simp [header_session_token, header_bytes, host_u32, u32_host, u32_be, be_u32, u16_be] <;>
      omega

theorem make_header_only_packet_eq (he : Endian) (buffer : List Nat) (buff_len : Nat)
    (type : PacketType) (token : Nat) (hcap : buff_len ≤ buffer.length) (hlen : 8 ≤ buff_len) :
    make_header_only_packet he buffer buff_len type token
      = (8, header_bytes he type 8 (token % 4294967296) ++ buffer.drop 8) := by
  have h1 : ¬ buff_len < HEADER_LEN := by simp [HEADER_LEN]; omega
  simp only [make_header_only_packet, if_neg h1]
  rw [make_header_eq he buffer type HEADER_LEN token (by omega)]
  simp [HEADER_LEN]

theorem make_error_response_eq (he : Endian) (buffer : List Nat) (buff_len : Nat)
    (token : Nat) (error : ErrorType) (hcap : buff_len ≤ buffer.length) (hlen : 9 ≤ buff_len) :
    make_error_response he buffer buff_len token error
      = (9, header_bytes he .TYPE_ERROR 9 (token % 4294967296) ++ [error.toNat]
            ++ buffer.drop 9) := by
  have h1 : ¬ buff_len < HEADER_LEN + 1 := by simp [HEADER_LEN]; omega
  simp only [make_error_response, if_neg h1]
  rw [make_header_eq he buffer _ _ token (by omega)]
  have hl := header_bytes_length he .TYPE_ERROR ((HEADER_LEN + 1) % 65536) (token % 4294967296)
  rw [memcpy_append _ _ _ _ (by rw [hl]; rfl) (by simp; omega)]
  simp [HEADER_LEN, Nat.mod_eq_of_lt (error_type_toNat_lt error)]

/-! ### Inventory diff -/

theorem found_in_dst_iff (c : FileInfo) (dst : List FileInfo) :
    found_in_dst c dst = true ↔ c.checksum ∈ dst.map FileInfo.checksum := by
  induction dst with
  | nil => simp [found_in_dst]
  | cons d ds ih =>
    by_cases h : c.checksum = d.checksum
    · simp [found_in_dst, h]
    · simp [found_in_dst, h, ih]

theorem get_missing_files_loop_eq (dst src missing : List FileInfo) :
    get_missing_files_loop dst src missing
      = (src.filter (fun e => decide (e.checksum ∉ dst.map FileInfo.checksum))).reverse
          ++ missing := by
  induction src generalizing missing with
  | nil => simp [get_missing_files_loop]
  | cons s rest ih =>
    by_cases h : s.checksum ∈ dst.map FileInfo.checksum
    · have hf : found_in_dst s dst = true := (found_in_dst_iff s dst).2 h
      rw [get_missing_files_loop, if_pos hf, ih, List.filter_cons]
      simp only [h, not_true_eq_false, decide_False, Bool.false_eq_true, if_false]
    · have hf : found_in_dst s dst = false := by
        cases hb : found_in_dst s dst with
        | false => rfl
        | true => exact absurd ((found_in_dst_iff s dst).1 hb) h
      rw [get_missing_files_loop, if_neg (by rw [hf]; simp), ih, List.filter_cons]
      simp only [h, not_false_eq_true, decide_True, if_true, List.reverse_cons,
        List.append_assoc, List.singleton_append]

/-- C1: `get_missing_files src dst` is the list of those entries of `src` whose
checksum is the checksum of no entry of `dst`, every such entry kept (with its
name and checksum) as often as it occurs, in the reverse of the order of `src`;
the test looks at checksums only, never at names. -/
theorem get_missing_files_spec (src dst : List FileInfo) :
    get_missing_files src dst
      = (src.filter (fun e => decide (e.checksum ∉ dst.map FileInfo.checksum))).reverse := by
  simp [get_missing_files, get_missing_files_loop_eq]

/-! ### Header-only packets and error packets -/

theorem header_only_fields (he : Endian) (buffer : List Nat) (buff_len : Nat)
    (type : PacketType) (token : Nat) (htok : token < 4294967296)
    (hcap : buff_len ≤ buffer.length) (hlen : 8 ≤ buff_len) :
    (make_header_only_packet he buffer buff_len type token).1 = 8
    ∧ header_version (make_header_only_packet he buffer buff_len type token).2 = 1
    ∧ header_type (make_header_only_packet he buffer buff_len type token).2 = type.toNat
    ∧ header_packet_len (make_header_only_packet he buffer buff_len type token).2 = 8
    ∧ header_session_token he (make_header_only_packet he buffer buff_len type token).2
        = token := by
  rw [make_header_only_packet_eq he buffer buff_len type token hcap hlen,
    Nat.mod_eq_of_lt htok]
  exact ⟨rfl, header_fields he type 8 token _ (by omega) htok⟩

/-- C6: for a 32-bit token and a buffer that holds `buff_len` bytes, each
header-only encoder (TokenResponse, LeaveRequest, ListRequest, FileReceived)
returns 8 when `buff_len ≥ 8` and the error encoder returns 9 when
`buff_len ≥ 9`; the bytes written decode to version 1, the type of the encoder,
a big-endian `packet_len` equal to the returned length and the same token, and
the Error packet has the single payload byte `error`. -/
theorem header_only_and_error_round_trip (he : Endian) (buffer : List Nat)
    (buff_len token : Nat) (htok : token < 4294967296) (hcap : buff_len ≤ buffer.length) :
    (8 ≤ buff_len →
      ∀ p ∈ [(make_token_response, PacketType.TYPE_TOKEN_RESPONSE),
             (make_leave_request, PacketType.TYPE_LEAVE_REQUEST),
             (make_list_request, PacketType.TYPE_LIST_REQUEST),
             (make_file_received_packet, PacketType.TYPE_FILE_RECEIVED)],
        (p.1 he buffer buff_len token).1 = 8
        ∧ header_version (p.1 he buffer buff_len token).2 = 1
        ∧ header_type (p.1 he buffer buff_len token).2 = p.2.toNat
        ∧ header_packet_len (p.1 he buffer buff_len token).2 = 8
        ∧ header_session_token he (p.1 he buffer buff_len token).2 = token)
    ∧ (9 ≤ buff_len →
      ∀ error : ErrorType,
        (make_error_response he buffer buff_len token error).1 = 9
        ∧ header_version (make_error_response he buffer buff_len token error).2 = 1
        ∧ header_type (make_error_response he buffer buff_len token error).2
            = PacketType.TYPE_ERROR.toNat
        ∧ header_packet_len (make_error_response he buffer buff_len token error).2 = 9
        ∧ header_session_token he (make_error_response he buffer buff_len token error).2 = token
        ∧ ((make_error_response he buffer buff_len token error).2.take 9).drop 8
            = [error.toNat]) := by
  constructor
  · intro hlen p hp
    simp only [List.mem_cons, List.mem_singleton, List.not_mem_nil, or_false] at hp
    rcases hp with rfl | rfl | rfl | rfl
    · exact header_only_fields he buffer buff_len _ token htok hcap hlen
    · exact header_only_fields he buffer buff_len _ token htok hcap hlen
    · exact header_only_fields he buffer buff_len _ token htok hcap hlen
    · exact header_only_fields he buffer buff_len _ token htok hcap hlen
  · intro hlen error
    rw [make_error_response_eq he buffer buff_len token error hcap hlen,
      Nat.mod_eq_of_lt htok]
    have hf := header_fields he .TYPE_ERROR 9 token ([error.toNat] ++ buffer.drop 9)
      (by omega) htok
    simp only [List.append_assoc] at hf ⊢
    refine ⟨trivial, hf.1, hf.2.1, hf.2.2.1, hf.2.2.2, ?_⟩
    have hl := header_bytes_length he .TYPE_ERROR 9 token
    rw [← List.append_assoc, List.take_append_of_le_length (by simp [hl]),
      List.take_of_length_le (by simp [hl]), List.drop_left' hl]

theorem header_only_and_error_round_trip_witness :
    (make_error_response .little (List.replicate 9 0) 9 7 .ERROR_SERVER_BUSY).1 = 9
    ∧ header_session_token .little
        (make_error_response .little (List.replicate 9 0) 9 7 .ERROR_SERVER_BUSY).2 = 7 :=
  have h := (header_only_and_error_round_trip .little (List.replicate 9 0) 9 7
    (by decide) (by decide)).2 (by decide) .ERROR_SERVER_BUSY
  ⟨h.1, h.2.2.2.2.1⟩

/-! ### Capacity checks of the encoders -/

theorem strlen_le (s : List Nat) : strlen s ≤ s.length := by
  unfold strlen
  exact (List.takeWhile_sublist _).length_le

theorem cstr_read_length (s : List Nat) :
    (cstr_read s (strlen s + 1)).length = strlen s + 1 := by
  have := strlen_le s
  simp only [cstr_read, List.length_take, List.length_append, List.length_singleton]
  omega

theorem make_list_response_loop_length (n : Nat) (fi : List FileInfo) (b : List Nat)
    (off : Nat) : (make_list_response_loop n fi b off).length = b.length := by
  induction n generalizing fi b off with
  | zero => simp [make_list_response_loop]
  | succ n ih =>
    cases fi with
    | nil => simp [make_list_response_loop]
    | cons f next => simp [make_list_response_loop, ih, memcpy_length]

theorem make_list_response_loop_drop (n : Nat) (fi : List FileInfo) (b : List Nat)
    (off k : Nat) (hk : off + (MAX_FILE_NAME_LEN + 4) * n ≤ k) :
    (make_list_response_loop n fi b off).drop k = b.drop k := by
  induction n generalizing fi b off with
  | zero => simp [make_list_response_loop]
  | succ n ih =>
    cases fi with
    | nil => simp [make_list_response_loop]
    | cons f next =>
      simp only [make_list_response_loop]
      have h64 : (f.name.take MAX_FILE_NAME_LEN).length ≤ MAX_FILE_NAME_LEN := by
        simp [List.length_take]
      rw [ih _ _ _ (by simp only [MAX_FILE_NAME_LEN] at hk ⊢; omega),
        memcpy_drop _ _ _ _ (by simp [u32_be, MAX_FILE_NAME_LEN] at hk ⊢; omega),
        memcpy_drop _ _ _ _ (by simp only [MAX_FILE_NAME_LEN] at hk h64 ⊢; omega)]

theorem header_only_within (he : Endian) (buffer : List Nat) (buff_len : Nat)
    (type : PacketType) (token : Nat) :
    (buff_len < 8 → make_header_only_packet he buffer buff_len type token = (-1, buffer))
    ∧ (make_header_only_packet he buffer buff_len type token).2.length = buffer.length
    ∧ (make_header_only_packet he buffer buff_len type token).2.drop buff_len
        = buffer.drop buff_len := by
  unfold make_header_only_packet
  by_cases h : buff_len < HEADER_LEN
  · simp [h]
  · have h8 : 8 ≤ buff_len := by simp [HEADER_LEN] at h; omega
    simp only [if_neg h]
    exact ⟨fun hlt => absurd hlt (by omega), make_header_length _ _ _ _ _,
      make_header_drop _ _ _ _ _ _ h8⟩

/-- C9: every encoder returns -1 and hands back the buffer as it was when
`buff_len` is smaller than the number of bytes of the packet it builds; and in
every case the buffer keeps its length and all bytes from index `buff_len` on,
so nothing is written outside the first `buff_len` bytes. -/
theorem encoders_respect_capacity (he : Endian) (buffer : List Nat) (buff_len token : Nat)
    (is_new_account : Bool) (username password file_name : List Nat)
    (file_info : List FileInfo) (n_files data_len : Nat) (error : ErrorType) :
    ((buff_len < 8 + (strlen username + 1) + (strlen password + 1) →
        make_logon_request he buffer buff_len is_new_account username password = (-1, buffer))
      ∧ (make_logon_request he buffer buff_len is_new_account username password).2.length
          = buffer.length
      ∧ (make_logon_request he buffer buff_len is_new_account username password).2.drop buff_len
          = buffer.drop buff_len)
    ∧ ((buff_len < 8 → make_token_response he buffer buff_len token = (-1, buffer))
      ∧ (make_token_response he buffer buff_len token).2.length = buffer.length
      ∧ (make_token_response he buffer buff_len token).2.drop buff_len = buffer.drop buff_len)
    ∧ ((buff_len < 8 → make_leave_request he buffer buff_len token = (-1, buffer))
      ∧ (make_leave_request he buffer buff_len token).2.length = buffer.length
      ∧ (make_leave_request he buffer buff_len token).2.drop buff_len = buffer.drop buff_len)
    ∧ ((buff_len < 8 → make_list_request he buffer buff_len token = (-1, buffer))
      ∧ (make_list_request he buffer buff_len token).2.length = buffer.length
      ∧ (make_list_request he buffer buff_len token).2.drop buff_len = buffer.drop buff_len)
    ∧ ((buff_len < 8 + 68 * n_files →
        make_list_response he buffer buff_len token file_info n_files = (-1, buffer))
      ∧ (make_list_response he buffer buff_len token file_info n_files).2.length
          = buffer.length
      ∧ (make_list_response he buffer buff_len token file_info n_files).2.drop buff_len
          = buffer.drop buff_len)
    ∧ ((buff_len < 8 + (strlen file_name + 1) →
        make_file_request he buffer buff_len token file_name = (-1, buffer))
      ∧ (make_file_request he buffer buff_len token file_name).2.length = buffer.length
      ∧ (make_file_request he buffer buff_len token file_name).2.drop buff_len
          = buffer.drop buff_len)
    ∧ ((buff_len < 8 → make_file_transfer_header he buffer buff_len token data_len = (-1, buffer))
      ∧ (make_file_transfer_header he buffer buff_len token data_len).2.length = buffer.length
      ∧ (make_file_transfer_header he buffer buff_len token data_len).2.drop buff_len
          = buffer.drop buff_len)
    ∧ ((buff_len < 8 → make_file_received_packet he buffer buff_len token = (-1, buffer))
      ∧ (make_file_received_packet he buffer buff_len token).2.length = buffer.length
      ∧ (make_file_received_packet he buffer buff_len token).2.drop buff_len
          = buffer.drop buff_len)
    ∧ ((buff_len < 9 → make_error_response he buffer buff_len token error = (-1, buffer))
      ∧ (make_error_response he buffer buff_len token error).2.length = buffer.length
      ∧ (make_error_response he buffer buff_len token error).2.drop buff_len
          = buffer.drop buff_len) := by
  refine ⟨?_, header_only_within _ _ _ _ _, header_only_within _ _ _ _ _,
    header_only_within _ _ _ _ _, ?_, ?_, ?_, header_only_within _ _ _ _ _, ?_⟩
  · -- make_logon_request
    unfold make_logon_request
    by_cases h : buff_len < HEADER_LEN + (strlen username + 1) + (strlen password + 1)
    · simp [h]
    · simp only [if_neg h]
      have h' : 8 + (strlen username + 1) + (strlen password + 1) ≤ buff_len := by
        simp only [HEADER_LEN] at h; omega
      refine ⟨fun hlt => absurd hlt (by omega), ?_, ?_⟩
      · rw [memcpy_length, memcpy_length, make_header_length]
      · rw [memcpy_drop _ _ _ _ (by rw [cstr_read_length]; simp only [HEADER_LEN]; omega),
          memcpy_drop _ _ _ _ (by rw [cstr_read_length]; simp only [HEADER_LEN]; omega),
          make_header_drop _ _ _ _ _ _ (by omega)]
  · -- make_list_response
    unfold make_list_response
    by_cases h : buff_len < HEADER_LEN + (MAX_FILE_NAME_LEN + 4) * n_files
    · simp [h]
    · simp only [if_neg h]
      have h' : 8 + 68 * n_files ≤ buff_len := by
        simp only [HEADER_LEN, MAX_FILE_NAME_LEN] at h; omega
      refine ⟨fun hlt => absurd hlt (by omega), ?_, ?_⟩
      · rw [make_list_response_loop_length, make_header_length]
      · rw [make_list_response_loop_drop _ _ _ _ _
            (by simp only [HEADER_LEN, MAX_FILE_NAME_LEN]; omega),
          make_header_drop _ _ _ _ _ _ (by omega)]
  · -- make_file_request
    unfold make_file_request
    by_cases h : buff_len < HEADER_LEN + (strlen file_name + 1)
    · simp [h]
    · simp only [if_neg h]
      have h' : 8 + (strlen file_name + 1) ≤ buff_len := by
        simp only [HEADER_LEN] at h; omega
      refine ⟨fun hlt => absurd hlt (by omega), ?_, ?_⟩
      · rw [memcpy_length, make_header_length]
      · rw [memcpy_drop _ _ _ _ (by rw [cstr_read_length]; simp only [HEADER_LEN]; omega),
          make_header_drop _ _ _ _ _ _ (by omega)]
  · -- make_file_transfer_header
    unfold make_file_transfer_header
    by_cases h : buff_len < HEADER_LEN
    · simp [h]
    · have h8 : 8 ≤ buff_len := by simp [HEADER_LEN] at h; omega
      simp only [if_neg h]
      exact ⟨fun hlt => absurd hlt (by omega), make_header_length _ _ _ _ _,
        make_header_drop _ _ _ _ _ _ h8⟩
  · -- make_error_response
    unfold make_error_response
    by_cases h : buff_len < HEADER_LEN + 1
    · simp [h]
    · have h9 : 9 ≤ buff_len := by simp [HEADER_LEN] at h; omega
      simp only [if_neg h]
      refine ⟨fun hlt => absurd hlt (by omega), ?_, ?_⟩
      · rw [memcpy_length, make_header_length]
      · rw [memcpy_drop _ _ _ _ (by simp [HEADER_LEN]; omega),
          make_header_drop _ _ _ _ _ _ (by omega)]

theorem encoders_respect_capacity_witness :
    make_error_response .little (List.replicate 12 1) 5 7 .ERROR_UNKNOWN
      = (-1, List.replicate 12 1) :=
  (encoders_respect_capacity .little (List.replicate 12 1) 5 7 true [97] [98] [99] [] 0 0
    .ERROR_UNKNOWN).2.2.2.2.2.2.2.2.1 (by decide)

/-! ### Framing: `recv`, `receive_packet_until`, `receive_packet` -/

theorem consume_zero (sock : List Chunk) : consume sock 0 = sock := by
  cases sock with
  | nil => rfl
  | cons c rest => cases c <;> simp [consume]

theorem memcpy_nil (b : List Nat) (off : Nat) : memcpy b off [] = b := by
  unfold memcpy
  simp

theorem memcpy_memcpy (b : List Nat) (off : Nat) (s1 s2 : List Nat)
    (h : off + s1.length + s2.length ≤ b.length) :
    memcpy (memcpy b off s1) (off + s1.length) s2 = memcpy b off (s1 ++ s2) := by
  rw [memcpy_eq b off s1 (by omega), memcpy_eq b off (s1 ++ s2) (by simp; omega)]
  have hl : (b.take off ++ s1).length = off + s1.length := by
    simp only [List.length_append, List.length_take]; omega
  rw [memcpy_append (b.take off ++ s1) _ s2 _ hl.symm (by simp; omega)]
  simp [List.drop_drop, Nat.add_assoc, Nat.add_comm]

/-- A read that reports a positive count delivered that many bytes of the first
chunk. -/
theorem recv_pos (sock : List Chunk) (len : Nat) (h : ¬ (recv sock len).1 ≤ 0) :
    ∃ bytes rest, sock = .data bytes :: rest
      ∧ (recv sock len).2.1 = bytes.take len
      ∧ (recv sock len).1 = ((bytes.take len).length : Int)
      ∧ 0 < (bytes.take len).length
      ∧ (recv sock len).2.2 = consume sock (bytes.take len).length
      ∧ pending_bytes sock = bytes ++ pending_bytes rest := by
  cases sock with
  | nil => simp [recv] at h
  | cons c rest =>
    cases c with
    | eof => simp [recv] at h
    | err => simp [recv] at h
    | data bytes =>
      simp only [recv] at h ⊢
      have hpos : 0 < (bytes.take len).length := by omega
      refine ⟨bytes, rest, rfl, rfl, rfl, hpos, ?_, ?_⟩
      · have hne : (bytes.take len).length ≠ 0 := by omega
        simp only [consume, if_neg hne]
        by_cases hd : bytes.drop len = []
        · have : ¬ (bytes.take len).length < bytes.length := by
            have := List.drop_eq_nil_iff.1 hd
            simp only [List.length_take]; omega
          rw [if_pos hd, if_neg this]
          have : (bytes.take len).length - bytes.length = 0 := by
            simp only [List.length_take]; omega
          rw [this, consume_zero]
        · have hlt : len < bytes.length := by
            by_contra hc
            exact hd (List.drop_eq_nil_iff.2 (by omega))
          have h2 : (bytes.take len).length = len := by
            simp only [List.length_take]; omega
          rw [if_neg hd, h2, if_pos hlt]
      · have : bytes ≠ [] := by
          intro hb; subst hb; simp at hpos
        simp [pending_bytes, this]

theorem receive_packet_until_loop_fuel (fuel1 fuel2 : Nat) (sock : List Chunk)
    (buffer : List Nat) (buff_len n_received target_len : Nat)
    (h1 : target_len - n_received ≤ fuel1) (h2 : target_len - n_received ≤ fuel2) :
    receive_packet_until_loop fuel1 sock buffer buff_len n_received target_len
      = receive_packet_until_loop fuel2 sock buffer buff_len n_received target_len := by
  induction fuel1 generalizing fuel2 sock buffer n_received with
  | zero =>
    have hn : ¬ n_received < target_len := by omega
    cases fuel2 with
    | zero => rfl
    | succ f => simp [receive_packet_until_loop, hn]
  | succ f1 ih =>
    cases fuel2 with
    | zero =>
      have hn : ¬ n_received < target_len := by omega
      simp [receive_packet_until_loop, hn]
    | succ f2 =>
      simp only [receive_packet_until_loop]
      by_cases hn : n_received < target_len
      · simp only [if_pos hn]
        by_cases hr : (recv sock (buff_len - n_received)).1 ≤ 0
        · simp only [if_pos hr]
        · simp only [if_neg hr]
          obtain ⟨bytes, rest, _, hb, _, hpos, _, _⟩ := recv_pos sock _ hr
          rw [hb]
          exact ih f2 _ _ _ (by omega) (by omega)
      · simp only [if_neg hn]

/-- The loop equation of `receive_packet_until`: the bounded loop behaves as the
`while` loop of the source. -/
theorem receive_packet_until_eq (sock : List Chunk) (buffer : List Nat)
    (buff_len n_received target_len : Nat) :
    receive_packet_until sock buffer buff_len n_received target_len
      = if n_received < target_len then
          if (recv sock (buff_len - n_received)).1 ≤ 0 then
            (-1, buffer, (recv sock (buff_len - n_received)).2.2)
          else receive_packet_until (recv sock (buff_len - n_received)).2.2
            (memcpy buffer n_received (recv sock (buff_len - n_received)).2.1) buff_len
            (n_received + (recv sock (buff_len - n_received)).2.1.length) target_len
        else (n_received, buffer, sock) := by
  unfold receive_packet_until
  by_cases hn : n_received < target_len
  · obtain ⟨f, hf⟩ : ∃ f, target_len - n_received = f + 1 := ⟨target_len - n_received - 1, by omega⟩
    rw [hf]
    simp only [receive_packet_until_loop, if_pos hn]
    by_cases hr : (recv sock (buff_len - n_received)).1 ≤ 0
    · simp only [if_pos hr]
    · simp only [if_neg hr]
      obtain ⟨bytes, rest, _, hb, _, hpos, _, _⟩ := recv_pos sock _ hr
      apply receive_packet_until_loop_fuel
      · rw [hb]; omega
      · exact le_refl _
  · have : target_len - n_received = 0 := by omega
    rw [this]
    simp [receive_packet_until_loop, hn]

/-- Failure of the loop: when fewer bytes than the target can arrive before a
read reports zero or a negative count (or the capacity is below the target),
the loop returns -1. -/
theorem receive_packet_until_fails (sock : List Chunk) (buffer : List Nat)
    (buff_len n_received target_len : Nat)
    (h : n_received + (pending_bytes sock).length < target_len
      ∨ (buff_len < target_len ∧ n_received ≤ buff_len)) :
    (receive_packet_until sock buffer buff_len n_received target_len).1 = -1 := by
  generalize hk : target_len - n_received = k
  induction k using Nat.strong_induction_on generalizing sock buffer n_received with
  | _ k ih =>
    rw [receive_packet_until_eq]
    have hn : n_received < target_len := by omega
    simp only [if_pos hn]
    by_cases hr : (recv sock (buff_len - n_received)).1 ≤ 0
    · simp only [if_pos hr]
    · simp only [if_neg hr]
      obtain ⟨bytes, rest, hs, hb, _, hpos, hc, hp⟩ := recv_pos sock _ hr
      rw [hb, hc]
      have hlen : (bytes.take (buff_len - n_received)).length ≤ buff_len - n_received := by
        simp only [List.length_take]; omega
      have hle : (bytes.take (buff_len - n_received)).length ≤ bytes.length := by
        simp only [List.length_take]; omega
      have hpend : (pending_bytes (consume sock (bytes.take (buff_len - n_received)).length)).length
          + (bytes.take (buff_len - n_received)).length = (pending_bytes sock).length := by
        rw [← hc, hp, hs]
        simp only [recv]
        by_cases hd : bytes.drop (buff_len - n_received) = []
        · have := List.drop_eq_nil_iff.1 hd
          rw [if_pos hd, List.take_of_length_le this]
          simp [Nat.add_comm]
        · rw [if_neg hd]
          simp only [pending_bytes, if_neg hd, List.length_append, List.length_drop,
            List.length_take]
          omega
      apply ih (target_len - (n_received + (bytes.take (buff_len - n_received)).length))
        (by omega) _ _ _ _ rfl
      rcases h with h | h
      · left; omega
      · right; omega

theorem take_length_take (bytes : List Nat) (c : Nat) :
    bytes.take (bytes.take c).length = bytes.take c := by
  rw [List.length_take]
  by_cases h : c ≤ bytes.length
  · rw [min_eq_left h]
  · rw [min_eq_right (by omega), List.take_of_length_le (le_refl _),
      List.take_of_length_le (by omega)]

theorem memcpy_take_drop (b : List Nat) (n : Nat) (S : List Nat) (j q : Nat)
    (hj : j ≤ q) (hq : q ≤ S.length) (hin : n + q ≤ b.length) :
    memcpy (memcpy b n (S.take j)) (n + j) ((S.drop j).take (q - j))
      = memcpy b n (S.take q) := by
  have hjl : (S.take j).length = j := by rw [List.length_take]; omega
  have hl2 : ((S.drop j).take (q - j)).length = q - j := by
    rw [List.length_take, List.length_drop]; omega
  have e : S.take q = S.take j ++ (S.drop j).take (q - j) := by
    have hq2 : q = j + (q - j) := by omega
    conv_lhs => rw [hq2]
    rw [List.take_add]
  rw [e]
  have := memcpy_memcpy b n (S.take j) ((S.drop j).take (q - j)) (by rw [hjl, hl2]; omega)
  rw [hjl] at this
  exact this

theorem consume_consume_head (bytes : List Nat) (rest : List Chunk) (j a : Nat)
    (hj : j ≤ bytes.length) :
    consume (consume (.data bytes :: rest) j) a = consume (.data bytes :: rest) (j + a) := by
  by_cases hj0 : j = 0
  · subst hj0; rw [consume_zero, Nat.zero_add]
  by_cases hlt : j < bytes.length
  · have e1 : consume (.data bytes :: rest) j = .data (bytes.drop j) :: rest := by
      simp [consume, hj0, hlt]
    rw [e1]
    by_cases ha : a = 0
    · subst ha; rw [consume_zero, Nat.add_zero, e1]
    · have hne : j + a ≠ 0 := by omega
      simp only [consume, if_neg ha, if_neg hne, List.length_drop]
      by_cases h2 : a < bytes.length - j
      · have h3 : j + a < bytes.length := by omega
        rw [if_pos h2, if_pos h3, List.drop_drop, Nat.add_comm]
      · have h3 : ¬ j + a < bytes.length := by omega
        rw [if_neg h2, if_neg h3]
        congr 1
        omega
  · have hje : j = bytes.length := by omega
    have e1 : consume (.data bytes :: rest) j = rest := by
      simp only [consume, if_neg hj0, if_neg hlt]
      rw [hje, Nat.sub_self, consume_zero]
    rw [e1]
    have hne : j + a ≠ 0 := by omega
    have h3 : ¬ j + a < bytes.length := by omega
    simp only [consume, if_neg hne, if_neg h3]
    congr 1
    omega

/-- Success of the loop: when enough bytes arrive before any failing read, the
loop returns a count `m` that has reached the target, the buffer holds the
first `m - n_received` pending bytes from index `n_received` on, and exactly
those bytes have left the pending input. -/
theorem receive_packet_until_succeeds (sock : List Chunk) (buffer : List Nat)
    (buff_len n_received target_len : Nat)
    (ht : target_len ≤ buff_len) (hb : buff_len ≤ buffer.length) (hn : n_received ≤ buff_len)
    (h : target_len ≤ n_received + (pending_bytes sock).length) :
    ∃ m : Nat,
      receive_packet_until sock buffer buff_len n_received target_len
        = ((m : Int), memcpy buffer n_received ((pending_bytes sock).take (m - n_received)),
            consume sock (m - n_received))
      ∧ n_received ≤ m ∧ target_len ≤ m ∧ m ≤ buff_len
      ∧ m ≤ n_received + (pending_bytes sock).length
      ∧ pending_bytes (consume sock (m - n_received))
          = (pending_bytes sock).drop (m - n_received) := by
  generalize hk : target_len - n_received = k
  induction k using Nat.strong_induction_on generalizing sock buffer n_received with
  | _ k ih =>
    rw [receive_packet_until_eq]
    by_cases hlt : n_received < target_len
    · simp only [if_pos hlt]
      by_cases hr : (recv sock (buff_len - n_received)).1 ≤ 0
      · exfalso
        cases sock with
        | nil => simp [pending_bytes] at h; omega
        | cons c rest =>
          cases c with
          | eof => simp [pending_bytes] at h; omega
          | err => simp [pending_bytes] at h; omega
          | data bytes =>
            simp only [recv, List.length_take] at hr
            by_cases hbn : bytes = []
            · simp [pending_bytes, hbn] at h; omega
            · have : 0 < bytes.length := List.length_pos.2 hbn
              omega
      · simp only [if_neg hr]
        obtain ⟨bytes, rest, hs, hbt, _, hpos, hc, hp⟩ := recv_pos sock _ hr
        rw [hbt, hc]
        have hlen : (bytes.take (buff_len - n_received)).length ≤ buff_len - n_received := by
          simp only [List.length_take]; omega
        have hle : (bytes.take (buff_len - n_received)).length ≤ bytes.length := by
          simp only [List.length_take]; omega
        have htake : bytes.take (buff_len - n_received)
            = (pending_bytes sock).take (bytes.take (buff_len - n_received)).length := by
          rw [hp, List.take_append_of_le_length hle, take_length_take]
        have hpend : pending_bytes (consume sock (bytes.take (buff_len - n_received)).length)
            = (pending_bytes sock).drop (bytes.take (buff_len - n_received)).length := by
          rw [← hc, hp, hs]
          simp only [recv]
          by_cases hd : bytes.drop (buff_len - n_received) = []
          · have hd2 := List.drop_eq_nil_iff.1 hd
            rw [if_pos hd, List.take_of_length_le hd2, List.drop_left]
          · have hlt2 : buff_len - n_received < bytes.length := by
              by_contra hcn
              exact hd (List.drop_eq_nil_iff.2 (by omega))
            have hj2 : (bytes.take (buff_len - n_received)).length = buff_len - n_received := by
              rw [List.length_take]; omega
            rw [if_neg hd]
            simp only [pending_bytes, if_neg hd]
            rw [hj2, List.drop_append_of_le_length (by omega)]
        have hplen : (pending_bytes sock).length
            = bytes.length + (pending_bytes rest).length := by
          rw [hp, List.length_append]
        rw [htake]
        generalize (bytes.take (buff_len - n_received)).length = j at *
        obtain ⟨m, hm, h1, h2, h3, h4, h6⟩ :=
          ih (target_len - (n_received + j)) (by omega) (consume sock j)
            (memcpy buffer n_received ((pending_bytes sock).take j)) (n_received + j)
            (by rw [memcpy_length]; exact hb) (by omega)
            (by rw [hpend, List.length_drop]; omega) rfl
        have hm_le : m ≤ n_received + (pending_bytes sock).length := by
          rw [hpend, List.length_drop] at h4; omega
        have hcc : consume (consume sock j) (m - (n_received + j)) = consume sock (m - n_received) := by
          rw [hs, consume_consume_head bytes rest j _ hle]
          congr 1
          omega
        refine ⟨m, ?_, by omega, h2, h3, hm_le, ?_⟩
        · have hjl : ((pending_bytes sock).take j).length = j := by
            rw [List.length_take]; omega
          rw [hjl, hm, hpend, hcc]
          have e : m - (n_received + j) = (m - n_received) - j := by omega
          rw [e, memcpy_take_drop buffer n_received (pending_bytes sock) j (m - n_received)
            (by omega) (by omega) (by omega)]
        · rw [← hcc, h6, hpend, List.drop_drop]
          congr 1
          omega
    · simp only [if_neg hlt]
      refine ⟨n_received, ?_, le_refl _, by omega, hn, by omega, ?_⟩
      · simp [memcpy_nil, consume_zero]
      · simp [consume_zero]

theorem consume_nil (k : Nat) : consume [] k = [] := by
  simp [consume]

theorem consume_consume (sock : List Chunk) (a b : Nat) :
    consume (consume sock a) b = consume sock (a + b) := by
  induction sock generalizing a with
  | nil => simp [consume_nil]
  | cons c rest ih =>
    cases c with
    | eof => simp [consume]
    | err => simp [consume]
    | data bytes =>
      by_cases hle : a ≤ bytes.length
      · exact consume_consume_head bytes rest a b hle
      · have ha : a ≠ 0 := by omega
        have hab : a + b ≠ 0 := by omega
        have h1 : ¬ a < bytes.length := by omega
        have h2 : ¬ a + b < bytes.length := by omega
        simp only [consume, if_neg ha, if_neg hab, if_neg h1, if_neg h2]
        rw [ih]
        congr 1
        omega

theorem header_packet_len_memcpy (buffer S : List Nat) (m : Nat)
    (h4 : 4 ≤ m) (hm : m ≤ S.length) (hb : m ≤ buffer.length) :
    header_packet_len (memcpy buffer 0 (S.take m)) = header_packet_len S := by
  have hl : (S.take m).length = m := by rw [List.length_take]; omega
  rw [memcpy_eq _ _ _ (by rw [hl]; omega)]
  simp only [header_packet_len, List.take_zero, List.nil_append, List.getD_eq_getElem?_getD]
  rw [List.getElem?_append_left (by rw [hl]; omega),
    List.getElem?_append_left (by rw [hl]; omega),
    List.getElem?_take, List.getElem?_take, if_pos (by omega), if_pos (by omega)]

/-- Success of `receive_packet`: the pending bytes start with a header that
declares `L ≥ 8`, at least `min L buff_len` bytes arrive, and nothing beyond
the declared length is pending. -/
theorem receive_packet_succeeds (sock : List Chunk) (buffer : List Nat) (buff_len : Nat)
    (h8 : 8 ≤ buff_len) (hb : buff_len ≤ buffer.length)
    (hL : 8 ≤ header_packet_len (pending_bytes sock))
    (hS : min (header_packet_len (pending_bytes sock)) buff_len ≤ (pending_bytes sock).length)
    (hS2 : (pending_bytes sock).length ≤ header_packet_len (pending_bytes sock)) :
    receive_packet sock buffer buff_len
      = (((min (header_packet_len (pending_bytes sock)) buff_len : Nat) : Int),
          memcpy buffer 0
            ((pending_bytes sock).take (min (header_packet_len (pending_bytes sock)) buff_len)),
          consume sock (min (header_packet_len (pending_bytes sock)) buff_len)) := by
  generalize hSd : pending_bytes sock = S at *
  generalize hLd : header_packet_len S = L at *
  have hS8 : 8 ≤ S.length := by
    rcases Nat.le_total L buff_len with h | h
    · rw [min_eq_left h] at hS; omega
    · rw [min_eq_right h] at hS; omega
  obtain ⟨m1, e1, _, a2, a3, a4, a5⟩ :=
    receive_packet_until_succeeds sock buffer buff_len 0 HEADER_LEN
      (by simp [HEADER_LEN]; omega) hb (by omega) (by rw [hSd]; simp [HEADER_LEN]; omega)
  simp only [HEADER_LEN] at a2
  rw [hSd] at e1 a4 a5
  simp only [Nat.sub_zero, Nat.zero_add] at e1 a4 a5
  have hm1 : ¬ ((m1 : Int) ≤ 0) := by omega
  unfold receive_packet
  simp only [e1, if_neg hm1, Int.toNat_ofNat]
  rw [header_packet_len_memcpy buffer S m1 (by omega) a4 (by omega), hLd]
  have hmin : (if L > buff_len then buff_len else L) = min L buff_len := by
    by_cases h : L > buff_len
    · rw [if_pos h, min_eq_right (by omega)]
    · rw [if_neg h, min_eq_left (by omega)]
  rw [hmin]
  have hmin_le : min L buff_len ≤ buff_len := min_le_right _ _
  have hmin_le2 : min L buff_len ≤ L := min_le_left _ _
  obtain ⟨m2, e2, b1, b2, b3, b4, b5⟩ :=
    receive_packet_until_succeeds (consume sock m1) (memcpy buffer 0 (S.take m1)) buff_len m1
      (min L buff_len) hmin_le (by rw [memcpy_length]; exact hb) a3
      (by rw [a5, List.length_drop]; omega)
  rw [a5, List.length_drop] at b4
  have hm2 : m2 = min L buff_len := by
    apply le_antisymm _ b2
    exact le_min (by omega) b3
  rw [e2]
  have hne : ¬ ((m2 : Int) ≠ ((min L buff_len : Nat) : Int)) := by
    rw [hm2]; simp
  simp only [if_neg hne]
  rw [a5, consume_consume]
  have := memcpy_take_drop buffer 0 S m1 m2 b1 (by omega) (by omega)
  simp only [Nat.zero_add] at this
  rw [this, ← hm2]
  congr 3
  omega

theorem deliver_cons (c : List Nat) (cs : List (List Nat)) (rest : List Chunk) :
    deliver (c :: cs) rest = .data c :: deliver cs rest := by
  simp [deliver]

theorem pending_bytes_deliver (chunks : List (List Nat)) (rest : List Chunk)
    (hne : ∀ c ∈ chunks, c ≠ []) :
    pending_bytes (deliver chunks rest) = chunks.flatten ++ pending_bytes rest := by
  induction chunks with
  | nil => simp [deliver]
  | cons c cs ih =>
    have hc : c ≠ [] := hne c (List.mem_cons_self _ _)
    rw [deliver_cons, pending_bytes, if_neg hc,
      ih (fun x hx => hne x (List.mem_cons_of_mem _ hx)), List.flatten_cons,
      List.append_assoc]

theorem consume_deliver (chunks : List (List Nat)) (rest : List Chunk)
    (hne : ∀ c ∈ chunks, c ≠ []) :
    consume (deliver chunks rest) chunks.flatten.length = rest := by
  induction chunks with
  | nil => simp [deliver, consume_zero]
  | cons c cs ih =>
    have hc : c ≠ [] := hne c (List.mem_cons_self _ _)
    have hpos : 0 < c.length := List.length_pos.2 hc
    have h0 : c.length + cs.flatten.length ≠ 0 := by omega
    have h1 : ¬ c.length + cs.flatten.length < c.length := by omega
    rw [deliver_cons, List.flatten_cons, List.length_append]
    simp only [consume, if_neg h0, if_neg h1]
    rw [Nat.add_sub_cancel_left]
    exact ih (fun x hx => hne x (List.mem_cons_of_mem _ hx))

theorem recv_append (front rest : List Chunk) (len : Nat) (h : front ≠ []) :
    recv (front ++ rest) len
      = ((recv front len).1, (recv front len).2.1, (recv front len).2.2 ++ rest) := by
  cases front with
  | nil => exact absurd rfl h
  | cons c f =>
    cases c with
    | eof => simp [recv]
    | err => simp [recv]
    | data bytes =>
      simp only [recv, List.cons_append]
      by_cases hd : bytes.drop len = []
      · simp [hd]
      · simp [hd]

/-- Input that is never reached does not matter: a successful run of the loop
on `front` is also the run on `front ++ rest`, which leaves `rest` in place. -/
theorem receive_packet_until_frame (front rest : List Chunk) (buffer : List Nat)
    (buff_len n_received target_len : Nat)
    (h : (receive_packet_until front buffer buff_len n_received target_len).1 ≠ -1) :
    receive_packet_until (front ++ rest) buffer buff_len n_received target_len
      = ((receive_packet_until front buffer buff_len n_received target_len).1,
         (receive_packet_until front buffer buff_len n_received target_len).2.1,
         (receive_packet_until front buffer buff_len n_received target_len).2.2 ++ rest) := by
  generalize hk : target_len - n_received = k
  induction k using Nat.strong_induction_on generalizing front buffer n_received with
  | _ k ih =>
    rw [receive_packet_until_eq] at h
    rw [receive_packet_until_eq front, receive_packet_until_eq (front ++ rest)]
    by_cases hlt : n_received < target_len
    · simp only [if_pos hlt] at h ⊢
      by_cases hr : (recv front (buff_len - n_received)).1 ≤ 0
      · simp [if_pos hr] at h
      · simp only [if_neg hr] at h ⊢
        obtain ⟨bytes, f, hs, hbt, _, hpos, _, _⟩ := recv_pos front _ hr
        have hfne : front ≠ [] := by rw [hs]; simp
        rw [recv_append front rest _ hfne]
        simp only [if_neg hr]
        exact ih (target_len - (n_received + (recv front (buff_len - n_received)).2.1.length))
          (by rw [hbt]; omega) _ _ _ h rfl
    · simp only [if_neg hlt]

/-- Input that is never reached does not matter for `receive_packet`. -/
theorem receive_packet_frame (front rest : List Chunk) (buffer : List Nat) (buff_len : Nat)
    (h : (receive_packet front buffer buff_len).1 ≠ -1) :
    receive_packet (front ++ rest) buffer buff_len
      = ((receive_packet front buffer buff_len).1, (receive_packet front buffer buff_len).2.1,
         (receive_packet front buffer buff_len).2.2 ++ rest) := by
  unfold receive_packet at h ⊢
  by_cases h1 : (receive_packet_until front buffer buff_len 0 HEADER_LEN).1 ≤ 0
  · simp [h1] at h
  · have hne1 : (receive_packet_until front buffer buff_len 0 HEADER_LEN).1 ≠ -1 := by omega
    rw [receive_packet_until_frame front rest buffer buff_len 0 HEADER_LEN hne1]
    simp only [if_neg h1] at h ⊢
    generalize hp : (if header_packet_len (receive_packet_until front buffer buff_len 0 HEADER_LEN).2.1
        > buff_len then buff_len
        else header_packet_len (receive_packet_until front buffer buff_len 0 HEADER_LEN).2.1) = pl at *
    by_cases h2 : (receive_packet_until (receive_packet_until front buffer buff_len 0 HEADER_LEN).2.2
        (receive_packet_until front buffer buff_len 0 HEADER_LEN).2.1 buff_len
        (receive_packet_until front buffer buff_len 0 HEADER_LEN).1.toNat pl).1 ≠ (pl : Int)
    · simp [h2] at h
    · have hne2 : (receive_packet_until (receive_packet_until front buffer buff_len 0 HEADER_LEN).2.2
        (receive_packet_until front buffer buff_len 0 HEADER_LEN).2.1 buff_len
        (receive_packet_until front buffer buff_len 0 HEADER_LEN).1.toNat pl).1 ≠ -1 := by
        omega
      rw [receive_packet_until_frame _ rest _ _ _ _ hne2]
      simp only [if_neg h2]

theorem memcpy_zero_take (buffer S : List Nat) (k : Nat) (hk : k ≤ S.length)
    (hb : k ≤ buffer.length) : (memcpy buffer 0 (S.take k)).take k = S.take k := by
  have hl : (S.take k).length = k := by rw [List.length_take]; omega
  rw [memcpy_eq _ _ _ (by rw [hl]; omega)]
  simp only [List.take_zero, List.nil_append]
  rw [List.take_append_of_le_length (by rw [hl]), List.take_of_length_le (by rw [hl])]

/-- C2: a packet `P` of length `L ≥ 8` whose header declares `L`, cut into
non-empty chunks that arrive one per read with nothing after them, is received
as `min L buff_len` bytes, the buffer then starts with the first
`min L buff_len` bytes of `P`, and both the result and the buffer are those
obtained when `P` arrives in one piece. -/
theorem receive_packet_chunking (chunks : List (List Nat)) (buffer : List Nat)
    (buff_len : Nat) (hne : ∀ c ∈ chunks, c ≠ [])
    (hlen : 8 ≤ chunks.flatten.length)
    (hdecl : header_packet_len chunks.flatten = chunks.flatten.length)
    (h8 : 8 ≤ buff_len) (hb : buff_len ≤ buffer.length) :
    (receive_packet (deliver chunks []) buffer buff_len).1
        = ((min chunks.flatten.length buff_len : Nat) : Int)
    ∧ (receive_packet (deliver chunks []) buffer buff_len).2.1.take
          (min chunks.flatten.length buff_len)
        = chunks.flatten.take (min chunks.flatten.length buff_len)
    ∧ (receive_packet (deliver chunks []) buffer buff_len).1
        = (receive_packet (deliver [chunks.flatten] []) buffer buff_len).1
    ∧ (receive_packet (deliver chunks []) buffer buff_len).2.1
        = (receive_packet (deliver [chunks.flatten] []) buffer buff_len).2.1 := by
  have hp : pending_bytes (deliver chunks []) = chunks.flatten := by
    rw [pending_bytes_deliver chunks [] hne]; simp [pending_bytes]
  have hP : chunks.flatten ≠ [] := by
    intro h; rw [h] at hlen; simp at hlen
  have hp1 : pending_bytes (deliver [chunks.flatten] []) = chunks.flatten := by
    rw [pending_bytes_deliver [chunks.flatten] [] (by simpa using hP)]
    simp [pending_bytes]
  have e := receive_packet_succeeds (deliver chunks []) buffer buff_len h8 hb
    (by rw [hp, hdecl]; exact hlen) (by rw [hp, hdecl]; exact min_le_left _ _)
    (by rw [hp, hdecl])
  have e1 := receive_packet_succeeds (deliver [chunks.flatten] []) buffer buff_len h8 hb
    (by rw [hp1, hdecl]; exact hlen) (by rw [hp1, hdecl]; exact min_le_left _ _)
    (by rw [hp1, hdecl])
  rw [hp, hdecl] at e
  rw [hp1, hdecl] at e1
  rw [e, e1]
  refine ⟨rfl, ?_, rfl, rfl⟩
  exact memcpy_zero_take buffer _ _ (min_le_left _ _)
    (le_trans (min_le_right _ _) hb)

theorem receive_packet_chunking_witness :
    (receive_packet (deliver [[1, 3, 0, 10, 9], [9, 9, 9, 65, 66]] []) (List.replicate 16 0) 16).1
      = ((min [1, 3, 0, 10, 9, 9, 9, 9, 65, 66].length 16 : Nat) : Int) :=
  (receive_packet_chunking [[1, 3, 0, 10, 9], [9, 9, 9, 65, 66]] (List.replicate 16 0) 16
    (by decide) (by decide) (by decide) (by decide) (by decide)).1

/-- C3, refuted as stated: a 10-byte packet that reaches the receiver in the
same read as the 8 bytes of the next packet.  The buffer has room for both,
`receive_packet` returns -1 instead of 10, and the bytes of the next packet
have left the stream. -/
theorem receive_packet_coalesced_counterexample :
    header_packet_len [1, 3, 0, 10, 9, 9, 9, 9, 65, 66] = 10
    ∧ (receive_packet [Chunk.data ([1, 3, 0, 10, 9, 9, 9, 9, 65, 66] ++ [1, 4, 0, 8, 9, 9, 9, 9])]
        (List.replicate 32 0) 32).1 = -1
    ∧ (receive_packet [Chunk.data ([1, 3, 0, 10, 9, 9, 9, 9, 65, 66] ++ [1, 4, 0, 8, 9, 9, 9, 9])]
        (List.replicate 32 0) 32).2.2 = [] := by
  decide

/-- A packet that arrives in non-empty chunks of its own and fits the buffer is
received whole, whatever follows it. -/
theorem receive_packet_deliver (chunks : List (List Nat)) (rest : List Chunk)
    (buffer : List Nat) (buff_len : Nat) (hne : ∀ c ∈ chunks, c ≠ [])
    (hlen : 8 ≤ chunks.flatten.length)
    (hdecl : header_packet_len chunks.flatten = chunks.flatten.length)
    (hfit : chunks.flatten.length ≤ buff_len) (hb : buff_len ≤ buffer.length) :
    receive_packet (deliver chunks rest) buffer buff_len
      = ((chunks.flatten.length : Int), memcpy buffer 0 chunks.flatten, rest) := by
  have hp : pending_bytes (deliver chunks []) = chunks.flatten := by
    rw [pending_bytes_deliver chunks [] hne]; simp [pending_bytes]
  have e := receive_packet_succeeds (deliver chunks []) buffer buff_len (by omega) hb
    (by rw [hp, hdecl]; exact hlen) (by rw [hp, hdecl]; exact min_le_left _ _)
    (by rw [hp, hdecl])
  rw [hp, hdecl, min_eq_left hfit, List.take_of_length_le (le_refl _),
    consume_deliver chunks [] hne] at e
  have hd : deliver chunks rest = deliver chunks [] ++ rest := by simp [deliver]
  have hf := receive_packet_frame (deliver chunks []) rest buffer buff_len
    (by rw [e]; show ((chunks.flatten.length : Nat) : Int) ≠ -1; omega)
  rw [e] at hf
  rw [hd, hf]; simp

/-- C3, amended: a packet `P` of declared length `L` (`8 ≤ L ≤ buff_len`) that
arrives in non-empty chunks of its own, so that no read returns bytes of `P`
together with later bytes, is received as `L` whatever follows it: the buffer
starts with the `L` bytes of `P` and the pending input is exactly what
followed `P`. -/
theorem receive_packet_framing (chunks : List (List Nat)) (rest : List Chunk)
    (buffer : List Nat) (buff_len : Nat) (hne : ∀ c ∈ chunks, c ≠ [])
    (hlen : 8 ≤ chunks.flatten.length)
    (hdecl : header_packet_len chunks.flatten = chunks.flatten.length)
    (hfit : chunks.flatten.length ≤ buff_len) (hb : buff_len ≤ buffer.length) :
    receive_packet (deliver chunks rest) buffer buff_len
      = ((chunks.flatten.length : Int), memcpy buffer 0 chunks.flatten, rest)
    ∧ (memcpy buffer 0 chunks.flatten).take chunks.flatten.length = chunks.flatten := by
  constructor
  · exact receive_packet_deliver chunks rest buffer buff_len hne hlen hdecl hfit hb
  · have h := memcpy_zero_take buffer chunks.flatten chunks.flatten.length (le_refl _)
      (by omega)
    rw [List.take_of_length_le (le_refl _)] at h
    exact h

theorem receive_packet_framing_witness :
    receive_packet (deliver [[1, 3, 0, 10, 9], [9, 9, 9, 65, 66]] [Chunk.data [1, 4, 0, 8, 9, 9, 9, 9]])
        (List.replicate 16 0) 16
      = (([[1, 3, 0, 10, 9], [9, 9, 9, 65, 66]].flatten.length : Int),
          memcpy (List.replicate 16 0) 0 [[1, 3, 0, 10, 9], [9, 9, 9, 65, 66]].flatten,
          [Chunk.data [1, 4, 0, 8, 9, 9, 9, 9]]) :=
  (receive_packet_framing [[1, 3, 0, 10, 9], [9, 9, 9, 65, 66]] [Chunk.data [1, 4, 0, 8, 9, 9, 9, 9]]
    (List.replicate 16 0) 16 (by decide) (by decide) (by decide) (by decide) (by decide)).1

/-- C10: `receive_packet` returns -1 when fewer than 8 bytes arrive before a
read reports zero or a negative count, and when the header has arrived but
fewer than `min (declared packet_len) buff_len` bytes arrive before such a
read; and the loop of `receive_packet_until` stops by itself within
`target_len - n_received` iterations, a larger bound changes nothing. -/
theorem receive_packet_read_failure (sock : List Chunk) (buffer : List Nat) (buff_len : Nat) :
    ((pending_bytes sock).length < 8 → (receive_packet sock buffer buff_len).1 = -1)
    ∧ (buff_len ≤ buffer.length → 8 ≤ (pending_bytes sock).length →
        (pending_bytes sock).length < min (header_packet_len (pending_bytes sock)) buff_len →
        (receive_packet sock buffer buff_len).1 = -1)
    ∧ (∀ n_received target_len fuel : Nat, target_len - n_received ≤ fuel →
        receive_packet_until_loop fuel sock buffer buff_len n_received target_len
          = receive_packet_until sock buffer buff_len n_received target_len) := by
  refine ⟨?_, ?_, ?_⟩
  · intro h
    have := receive_packet_until_fails sock buffer buff_len 0 HEADER_LEN
      (Or.inl (by simp [HEADER_LEN]; omega))
    unfold receive_packet
    simp [this]
  · intro hb h8 hlt
    have hbl : 8 ≤ buff_len := by
      have := min_le_right (header_packet_len (pending_bytes sock)) buff_len
      omega
    obtain ⟨m1, e1, _, a2, a3, a4, a5⟩ :=
      receive_packet_until_succeeds sock buffer buff_len 0 HEADER_LEN
        (by simp [HEADER_LEN]; omega) hb (by omega) (by simp [HEADER_LEN]; omega)
    simp only [HEADER_LEN] at a2
    simp only [Nat.sub_zero, Nat.zero_add] at e1 a4 a5
    have hm1 : ¬ ((m1 : Int) ≤ 0) := by omega
    unfold receive_packet
    simp only [e1, if_neg hm1, Int.toNat_ofNat]
    rw [header_packet_len_memcpy buffer _ m1 (by omega) a4 (by omega)]
    have hmin : (if header_packet_len (pending_bytes sock) > buff_len then buff_len
        else header_packet_len (pending_bytes sock))
        = min (header_packet_len (pending_bytes sock)) buff_len := by
      by_cases h : header_packet_len (pending_bytes sock) > buff_len
      · rw [if_pos h, min_eq_right (by omega)]
      · rw [if_neg h, min_eq_left (by omega)]
    rw [hmin]
    have hf := receive_packet_until_fails (consume sock m1)
      (memcpy buffer 0 ((pending_bytes sock).take m1)) buff_len m1
      (min (header_packet_len (pending_bytes sock)) buff_len)
      (Or.inl (by rw [a5, List.length_drop]; omega))
    have hne : (receive_packet_until (consume sock m1)
      (memcpy buffer 0 ((pending_bytes sock).take m1)) buff_len m1
      (min (header_packet_len (pending_bytes sock)) buff_len)).1
        ≠ ((min (header_packet_len (pending_bytes sock)) buff_len : Nat) : Int) := by
      rw [hf]; omega
    simp only [if_pos hne]
  · intro n t fuel hf
    unfold receive_packet_until
    exact receive_packet_until_loop_fuel _ _ _ _ _ _ _ hf (le_refl _)

theorem receive_packet_read_failure_witness :
    (receive_packet [Chunk.data [1, 3, 0, 10, 9, 9, 9, 9, 65], Chunk.err]
      (List.replicate 16 0) 16).1 = -1 :=
  (receive_packet_read_failure [Chunk.data [1, 3, 0, 10, 9, 9, 9, 9, 65], Chunk.err]
    (List.replicate 16 0) 16).2.1 (by decide) (by decide) (by decide)

/-! ### Session handling -/

/-- C4: when `receive_packet` has delivered a packet whose header token
differs from the token stored in the session, `handle_client` sends nothing
(the only new output is the `close` of the session's socket), runs no handler
(the file system, which holds the credential database and the user files, and
the random-number state are untouched) and leaves the session record zeroed. -/
theorem handle_client_token_mismatch (he : Endian) (md5 : List Nat → List Nat)
    (crc32 : List Nat → Nat) (w : World) (client_info : ClientInfo)
    (hrecv : 0 < (receive_packet (w.incoming client_info.client_socket)
      w.packet_buffer BUFFSIZE).1)
    (htok : header_session_token he
      (receive_packet (w.incoming client_info.client_socket) w.packet_buffer BUFFSIZE).2.1
        ≠ client_info.session_token) :
    (handle_client he md5 crc32 w client_info).2 = ClientInfo.zeroed
    ∧ (handle_client he md5 crc32 w client_info).2.client_socket = 0
    ∧ (handle_client he md5 crc32 w client_info).2.username
        = List.replicate USERNAME_LEN_WITH_NULL 0
    ∧ (handle_client he md5 crc32 w client_info).2.session_token = 0
    ∧ (handle_client he md5 crc32 w client_info).1.output
        = w.output ++ [Effect.close client_info.client_socket]
    ∧ (handle_client he md5 crc32 w client_info).1.fs = w.fs
    ∧ (handle_client he md5 crc32 w client_info).1.rand = w.rand := by
  have h1 : ¬ (receive_packet (w.incoming client_info.client_socket)
      w.packet_buffer BUFFSIZE).1 ≤ 0 := by omega
  simp only [handle_client, if_neg h1, World.set_incoming, ne_eq, htok, not_false_eq_true,
    if_true, remove_client]
  simp [ClientInfo.zeroed]

theorem receive_example_world (request : List Nat) (h8 : 8 ≤ request.length)
    (hdecl : header_packet_len request = request.length) (hfit : request.length ≤ BUFFSIZE) :
    receive_packet ((example_world request).incoming 4) (example_world request).packet_buffer
        BUFFSIZE
      = ((request.length : Int), request ++ List.replicate (BUFFSIZE + 1 - request.length) 0, []) := by
  have hne : request ≠ [] := by intro h; rw [h] at h8; simp at h8
  have := receive_packet_deliver [request] [] (List.replicate (BUFFSIZE + 1) 0) BUFFSIZE
    (by simpa using hne) (by simpa using h8) (by simpa using hdecl) (by simpa using hfit)
    (by simp)
  simp only [List.flatten_cons, List.flatten_nil, List.append_nil] at this
  simp only [example_world, if_true]
  rw [this, memcpy_eq _ _ _ (by simp; omega)]
  simp

theorem handle_client_token_mismatch_witness :
    (handle_client .little (fun _ => []) (fun _ => 0)
      (example_world [1, 5, 0, 8, 7, 0, 0, 0])
      { client_socket := 4, username := List.replicate 129 0, session_token := 0 }).1.output
      = [Effect.close 4] :=
  (handle_client_token_mismatch .little (fun _ => []) (fun _ => 0)
    (example_world [1, 5, 0, 8, 7, 0, 0, 0])
    { client_socket := 4, username := List.replicate 129 0, session_token := 0 }
    (by rw [receive_example_world _ (by decide) (by decide) (by decide)]; decide)
    (by rw [receive_example_world _ (by decide) (by decide) (by decide)]; decide)).2.2.2.2.1

/-! ### Logon requests -/

theorem cstr_append_nul (u tl : List Nat) (hu : ∀ b ∈ u, b ≠ 0) : cstr (u ++ 0 :: tl) = u := by
  unfold cstr
  induction u with
  | nil => simp
  | cons a u ih =>
    have ha : a ≠ 0 := hu a (List.mem_cons_self _ _)
    simp only [List.cons_append, List.takeWhile_cons, ne_eq, ha, not_false_eq_true,
      decide_True, if_true]
    rw [ih (fun b hb => hu b (List.mem_cons_of_mem _ hb))]

theorem cstr_nul_free (u : List Nat) (hu : ∀ b ∈ u, b ≠ 0) : cstr u = u := by
  unfold cstr
  rw [List.takeWhile_eq_self_iff]
  intro b hb
  simpa using hu b hb

theorem strlen_eq_cstr (s : List Nat) : strlen s = (cstr s).length := rfl

theorem cstr_read_eq (s : List Nat) : cstr_read s (strlen s + 1) = cstr s ++ [0] := by
  unfold cstr_read strlen cstr
  induction s with
  | nil => simp
  | cons a s ih =>
    by_cases ha : a = 0
    · subst ha; simp
    · simp only [List.cons_append, List.takeWhile_cons, ne_eq, ha, not_false_eq_true,
        decide_True, if_true, List.length_cons, List.take_succ_cons]
      rw [ih]

theorem make_logon_request_eq (he : Endian) (buffer : List Nat) (buff_len : Nat)
    (is_new_account : Bool) (u p : List Nat)
    (hu : ∀ b ∈ u, b ≠ 0) (hp : ∀ b ∈ p, b ≠ 0)
    (hlen : 8 + u.length + p.length + 2 ≤ buff_len) (hcap : buff_len ≤ buffer.length) :
    make_logon_request he buffer buff_len is_new_account u p
      = (((8 + u.length + 1 + p.length + 1 : Nat) : Int),
          header_bytes he (if is_new_account then .TYPE_SIGNUP_REQUEST else .TYPE_LOGON_REQUEST)
              ((8 + u.length + 1 + p.length + 1) % 65536) 0
            ++ (u ++ 0 :: (p ++ 0 :: buffer.drop (8 + u.length + 1 + p.length + 1)))) := by
  have hsu : strlen u = u.length := by rw [strlen_eq_cstr, cstr_nul_free u hu]
  have hsp : strlen p = p.length := by rw [strlen_eq_cstr, cstr_nul_free p hp]
  have hcu : cstr_read u (u.length + 1) = u ++ [0] := by
    have := cstr_read_eq u; rw [hsu, cstr_nul_free u hu] at this; exact this
  have hcp : cstr_read p (p.length + 1) = p ++ [0] := by
    have := cstr_read_eq p; rw [hsp, cstr_nul_free p hp] at this; exact this
  have h1 : ¬ buff_len < HEADER_LEN + (u.length + 1) + (p.length + 1) := by
    simp only [HEADER_LEN]; omega
  simp only [make_logon_request, hsu, hsp, if_neg h1, hcu, hcp]
  rw [make_header_eq he buffer _ _ 0 (by omega)]
  have hl := header_bytes_length he
    (if is_new_account then PacketType.TYPE_SIGNUP_REQUEST else PacketType.TYPE_LOGON_REQUEST)
    ((HEADER_LEN + (u.length + 1) + (p.length + 1)) % 65536) (0 % 4294967296)
  rw [memcpy_append _ _ _ _ (by rw [hl]; rfl) (by simp; omega)]
  have hl2 : (header_bytes he
    (if is_new_account then PacketType.TYPE_SIGNUP_REQUEST else PacketType.TYPE_LOGON_REQUEST)
    ((HEADER_LEN + (u.length + 1) + (p.length + 1)) % 65536) (0 % 4294967296)
      ++ (u ++ [0])).length = HEADER_LEN + (u.length + 1) := by
    rw [List.length_append, hl]; simp [HEADER_LEN]
  rw [memcpy_append _ _ _ _ hl2.symm (by simp; omega)]
  simp only [HEADER_LEN, List.drop_drop, List.length_append, List.length_singleton,
    List.append_assoc, List.singleton_append, Nat.zero_mod]
  have e : 8 + (u.length + 1) + (p.length + 1) = 8 + u.length + 1 + p.length + 1 := by omega
  rw [e]
  simp

/-- The extraction in `handle_logon` on a buffer that holds a header, a
NUL-free user name, NUL, a NUL-free password and NUL, for the request length
that ends at the second NUL. -/
theorem handle_logon_wellformed (he : Endian) (md5 : List Nat → List Nat) (w : World)
    (client_info : ClientInfo) (is_new_user : Bool) (error : ErrorType)
    (hdr u p tl : List Nat) (hhdr : hdr.length = 8)
    (hu : ∀ b ∈ u, b ≠ 0) (hp : ∀ b ∈ p, b ≠ 0)
    (hbuf : w.packet_buffer = hdr ++ (u ++ 0 :: (p ++ 0 :: tl))) :
    handle_logon he md5 w (8 + u.length + 1 + p.length + 1) client_info is_new_user error
      = handle_logon_validate he md5 w client_info is_new_user error
          (w.packet_buffer.drop 8) (w.packet_buffer.drop (8 + (u.length + 1))) (u.length + 1)
    ∧ cstr (w.packet_buffer.drop 8) = u
    ∧ cstr (w.packet_buffer.drop (8 + (u.length + 1))) = p := by
  have hd8 : w.packet_buffer.drop 8 = u ++ 0 :: (p ++ 0 :: tl) := by
    rw [hbuf, List.drop_left' hhdr]
  have hdp : w.packet_buffer.drop (8 + (u.length + 1)) = p ++ 0 :: tl := by
    rw [← List.drop_drop, hd8]
    have : u ++ 0 :: (p ++ 0 :: tl) = (u ++ [0]) ++ (p ++ 0 :: tl) := by simp
    rw [this, List.drop_left' (by simp)]
  have hcu : cstr (w.packet_buffer.drop 8) = u := by rw [hd8, cstr_append_nul u _ hu]
  have hcp : cstr (w.packet_buffer.drop (8 + (u.length + 1))) = p := by
    rw [hdp, cstr_append_nul p _ hp]
  refine ⟨?_, hcu, hcp⟩
  have hsu : strlen (w.packet_buffer.drop HEADER_LEN) = u.length := by
    rw [strlen_eq_cstr]; simp only [HEADER_LEN]; rw [hcu]
  have hsp : strlen (w.packet_buffer.drop (HEADER_LEN + (u.length + 1))) = p.length := by
    rw [strlen_eq_cstr]; simp only [HEADER_LEN]; rw [hcp]
  have h1 : ¬ (HEADER_LEN + (u.length + 1) ≥ 8 + u.length + 1 + p.length + 1) := by
    simp only [HEADER_LEN]; omega
  have h2 : ¬ (HEADER_LEN + (u.length + 1) + (p.length + 1) ≠ 8 + u.length + 1 + p.length + 1) := by
    simp only [HEADER_LEN]; omega
  simp only [handle_logon, hsu, hsp, if_neg h1, if_neg h2]
  simp only [HEADER_LEN]

theorem handle_logon_validate_reject (he : Endian) (md5 : List Nat → List Nat) (w : World)
    (client_info : ClientInfo) (is_new_user : Bool) (error : ErrorType)
    (username password : List Nat) (username_len : Nat)
    (h : (validate_user md5 w.fs is_new_user username password).1 = false) :
    handle_logon_validate he md5 w client_info is_new_user error username password username_len
      = { response_len := -1,
          error := if is_new_user then .ERROR_USERNAME_TAKEN else .ERROR_INVALID_PASSWORD,
          world := { w with fs := (validate_user md5 w.fs is_new_user username password).2 },
          client_info := client_info } := by
  simp only [handle_logon_validate, h, Bool.not_false, if_true]

theorem handle_logon_validate_accept (he : Endian) (md5 : List Nat → List Nat) (w : World)
    (client_info : ClientInfo) (is_new_user : Bool) (error : ErrorType)
    (username password : List Nat) (username_len : Nat)
    (h : (validate_user md5 w.fs is_new_user username password).1 = true) :
    handle_logon_validate he md5 w client_info is_new_user error username password username_len
      = { response_len :=
            (make_token_response he w.packet_buffer BUFFSIZE (generate_random_token w).1).1,
          error := error,
          world :=
            { packet_buffer :=
                (make_token_response he w.packet_buffer BUFFSIZE (generate_random_token w).1).2,
              incoming := w.incoming,
              output := w.output,
              fs := (create_user_directory
                (validate_user md5 w.fs is_new_user username password).2 username).2,
              rand := (generate_random_token w).2.rand },
          client_info :=
            { client_socket := client_info.client_socket,
              username := memcpy client_info.username 0 (cstr_read username username_len),
              session_token := (generate_random_token w).1 } } := by
  simp only [handle_logon_validate, h, Bool.not_true, Bool.false_eq_true, if_false,
    generate_random_token, World.next_rand]

theorem handle_logon_validate_error (he : Endian) (md5 : List Nat → List Nat) (w : World)
    (client_info : ClientInfo) (is_new_user : Bool) (error : ErrorType)
    (username password : List Nat) (username_len : Nat)
    (herr : error ≠ .ERROR_MALFORMED_REQUEST) :
    (handle_logon_validate he md5 w client_info is_new_user error username password
      username_len).error ≠ .ERROR_MALFORMED_REQUEST := by
  cases h : (validate_user md5 w.fs is_new_user username password).1 with
  | false =>
    rw [handle_logon_validate_reject _ _ _ _ _ _ _ _ _ h]
    cases is_new_user <;> simp
  | true =>
    rw [handle_logon_validate_accept _ _ _ _ _ _ _ _ _ h]
    exact herr

/-- C7: for NUL-free `u` and `p` with `8 + |u| + |p| + 2 ≤ buff_len ≤ 8192`,
`make_logon_request` returns `8 + |u| + 1 + |p| + 1` and writes a packet of
type SignupRequest or LogonRequest (by `is_new_account`) with token 0, a
big-endian `packet_len` equal to the returned length and the payload
`u, NUL, p, NUL`; and `handle_logon`, run on a packet buffer that starts with
these bytes and given that length, passes both termination checks and goes on
to validate exactly the user name `u` and the password `p`, so it does not end
with `ERROR_MALFORMED_REQUEST`. -/
theorem logon_request_round_trip (he : Endian) (md5 : List Nat → List Nat)
    (buffer : List Nat) (buff_len : Nat) (is_new_account : Bool) (u p : List Nat)
    (w : World) (client_info : ClientInfo)
    (hu : ∀ b ∈ u, b ≠ 0) (hp : ∀ b ∈ p, b ≠ 0)
    (hlen : 8 + u.length + p.length + 2 ≤ buff_len) (hmax : buff_len ≤ 8192)
    (hcap : buff_len ≤ buffer.length)
    (hw : w.packet_buffer.take (8 + u.length + 1 + p.length + 1)
      = (make_logon_request he buffer buff_len is_new_account u p).2.take
          (8 + u.length + 1 + p.length + 1)) :
    (make_logon_request he buffer buff_len is_new_account u p).1
        = ((8 + u.length + 1 + p.length + 1 : Nat) : Int)
    ∧ (make_logon_request he buffer buff_len is_new_account u p).2.take
          (8 + u.length + 1 + p.length + 1)
        = header_bytes he
            (if is_new_account then .TYPE_SIGNUP_REQUEST else .TYPE_LOGON_REQUEST)
            (8 + u.length + 1 + p.length + 1) 0 ++ u ++ [0] ++ p ++ [0]
    ∧ header_version (make_logon_request he buffer buff_len is_new_account u p).2 = 1
    ∧ header_type (make_logon_request he buffer buff_len is_new_account u p).2
        = (if is_new_account then PacketType.TYPE_SIGNUP_REQUEST
            else PacketType.TYPE_LOGON_REQUEST).toNat
    ∧ header_packet_len (make_logon_request he buffer buff_len is_new_account u p).2
        = 8 + u.length + 1 + p.length + 1
    ∧ header_session_token he (make_logon_request he buffer buff_len is_new_account u p).2 = 0
    ∧ handle_logon he md5 w (8 + u.length + 1 + p.length + 1) client_info is_new_account
          .ERROR_UNKNOWN
        = handle_logon_validate he md5 w client_info is_new_account .ERROR_UNKNOWN
            (w.packet_buffer.drop 8) (w.packet_buffer.drop (8 + (u.length + 1))) (u.length + 1)
    ∧ cstr (w.packet_buffer.drop 8) = u
    ∧ cstr (w.packet_buffer.drop (8 + (u.length + 1))) = p
    ∧ (handle_logon he md5 w (8 + u.length + 1 + p.length + 1) client_info is_new_account
          .ERROR_UNKNOWN).error ≠ .ERROR_MALFORMED_REQUEST := by
  have hmod : (8 + u.length + 1 + p.length + 1) % 65536 = 8 + u.length + 1 + p.length + 1 :=
    Nat.mod_eq_of_lt (by omega)
  have e := make_logon_request_eq he buffer buff_len is_new_account u p hu hp hlen hcap
  rw [hmod] at e
  have hl := header_bytes_length he
    (if is_new_account then PacketType.TYPE_SIGNUP_REQUEST else PacketType.TYPE_LOGON_REQUEST)
    (8 + u.length + 1 + p.length + 1) 0
  have htake : (make_logon_request he buffer buff_len is_new_account u p).2.take
      (8 + u.length + 1 + p.length + 1)
      = header_bytes he
          (if is_new_account then .TYPE_SIGNUP_REQUEST else .TYPE_LOGON_REQUEST)
          (8 + u.length + 1 + p.length + 1) 0 ++ u ++ [0] ++ p ++ [0] := by
    rw [e]
    have : header_bytes he
          (if is_new_account then .TYPE_SIGNUP_REQUEST else .TYPE_LOGON_REQUEST)
          (8 + u.length + 1 + p.length + 1) 0
        ++ (u ++ 0 :: (p ++ 0 :: buffer.drop (8 + u.length + 1 + p.length + 1)))
        = (header_bytes he
          (if is_new_account then .TYPE_SIGNUP_REQUEST else .TYPE_LOGON_REQUEST)
          (8 + u.length + 1 + p.length + 1) 0 ++ u ++ [0] ++ p ++ [0])
          ++ buffer.drop (8 + u.length + 1 + p.length + 1) := by simp
    rw [this, List.take_left' (by simp [hl]; omega)]
  have hf := header_fields he
    (if is_new_account then PacketType.TYPE_SIGNUP_REQUEST else PacketType.TYPE_LOGON_REQUEST)
    (8 + u.length + 1 + p.length + 1) 0
    (u ++ 0 :: (p ++ 0 :: buffer.drop (8 + u.length + 1 + p.length + 1)))
    (by omega) (by omega)
  have hbuf : w.packet_buffer
      = header_bytes he
          (if is_new_account then .TYPE_SIGNUP_REQUEST else .TYPE_LOGON_REQUEST)
          (8 + u.length + 1 + p.length + 1) 0
        ++ (u ++ 0 :: (p ++ 0 :: w.packet_buffer.drop (8 + u.length + 1 + p.length + 1))) := by
    conv_lhs => rw [← List.take_append_drop (8 + u.length + 1 + p.length + 1) w.packet_buffer]
    rw [hw, htake]
    simp
  have hwf := handle_logon_wellformed he md5 w client_info is_new_account .ERROR_UNKNOWN
    _ u p _ hl hu hp hbuf
  refine ⟨by rw [e], htake, ?_, ?_, ?_, ?_, hwf.1, hwf.2.1, hwf.2.2, ?_⟩
  · rw [e]; exact hf.1
  · rw [e]; exact hf.2.1
  · rw [e]; exact hf.2.2.1
  · rw [e]; exact hf.2.2.2
  · rw [hwf.1]
    exact handle_logon_validate_error _ _ _ _ _ _ _ _ _ (by decide)

theorem logon_request_round_trip_witness :
    (make_logon_request .little (List.replicate 8193 0) 8192 true [97] [98]).1
      = ((8 + [97].length + 1 + [98].length + 1 : Nat) : Int) :=
  (logon_request_round_trip .little (fun _ => []) (List.replicate 8193 0) 8192 true [97] [98]
    { packet_buffer := (make_logon_request .little (List.replicate 8193 0) 8192 true [97] [98]).2,
      incoming := fun _ => [], output := [], fs := { files := [], dirs := [] }, rand := [] }
    { client_socket := 4, username := List.replicate 129 0, session_token := 0 }
    (by decide) (by decide) (by decide) (by decide)
    (by rw [List.length_replicate]; omega) (by simp only [])).1

/-! ### Successful logon -/

theorem receive_packet_until_length (sock : List Chunk) (buffer : List Nat)
    (buff_len n_received target_len : Nat) :
    (receive_packet_until sock buffer buff_len n_received target_len).2.1.length
      = buffer.length := by
  generalize hk : target_len - n_received = k
  induction k using Nat.strong_induction_on generalizing sock buffer n_received with
  | _ k ih =>
    rw [receive_packet_until_eq]
    by_cases hlt : n_received < target_len
    · simp only [if_pos hlt]
      by_cases hr : (recv sock (buff_len - n_received)).1 ≤ 0
      · simp only [if_pos hr]
      · simp only [if_neg hr]
        obtain ⟨bytes, f, hs, hbt, _, hpos, _, _⟩ := recv_pos sock _ hr
        rw [ih (target_len - (n_received + (recv sock (buff_len - n_received)).2.1.length))
          (by rw [hbt]; omega) _ _ _ rfl, memcpy_length]
    · simp only [if_neg hlt]

theorem receive_packet_length (sock : List Chunk) (buffer : List Nat) (buff_len : Nat) :
    (receive_packet sock buffer buff_len).2.1.length = buffer.length := by
  unfold receive_packet
  simp only []
  split
  · exact receive_packet_until_length _ _ _ _ _
  · split <;> split <;>
      simp only [receive_packet_until_length]

theorem validate_user_accept_len (md5 : List Nat → List Nat) (fs : FileSys)
    (is_new_user : Bool) (username password : List Nat)
    (h : (validate_user md5 fs is_new_user username password).1 = true) :
    strlen username ≤ MAX_USERNAME_LEN := by
  by_contra hc
  have hgt : strlen username > MAX_USERNAME_LEN := by omega
  cases is_new_user with
  | true => simp [validate_user, create_user, hgt] at h
  | false => simp [validate_user, check_user, hgt] at h

theorem generate_random_token_lt (w : World) : (generate_random_token w).1 < 4294967296 := by
  simp only [generate_random_token]
  omega

/-- After a successful receive, a packet whose header token is the token of the
session goes through the `switch` and the response step. -/
theorem handle_client_token_match (he : Endian) (md5 : List Nat → List Nat)
    (crc32 : List Nat → Nat) (w : World) (client_info : ClientInfo)
    (hrecv : 0 < (receive_packet (w.incoming client_info.client_socket)
      w.packet_buffer BUFFSIZE).1)
    (htok : header_session_token he
      (receive_packet (w.incoming client_info.client_socket) w.packet_buffer BUFFSIZE).2.1
        = client_info.session_token) :
    handle_client he md5 crc32 w client_info
      = respond he (dispatch he md5 crc32
          { w.set_incoming client_info.client_socket
              (receive_packet (w.incoming client_info.client_socket) w.packet_buffer
                BUFFSIZE).2.2 with
            packet_buffer := (receive_packet (w.incoming client_info.client_socket)
              w.packet_buffer BUFFSIZE).2.1 }
          (receive_packet (w.incoming client_info.client_socket) w.packet_buffer
            BUFFSIZE).1.toNat client_info) := by
  have h1 : ¬ (receive_packet (w.incoming client_info.client_socket)
      w.packet_buffer BUFFSIZE).1 ≤ 0 := by omega
  simp only [handle_client, if_neg h1, ne_eq, htok, not_true_eq_false, if_false]

theorem respond_positive (he : Endian) (h : Handled) (hpos : 0 < h.response_len) :
    respond he h
      = (h.world.send h.client_info.client_socket h.world.packet_buffer h.response_len.toNat,
          h.client_info) := by
  have h1 : ¬ h.response_len < 0 := by omega
  have h2 : ¬ h.response_len = 0 := by omega
  simp only [respond, if_neg h1, if_neg h2]

/-- C5: a session with token 0 receives a well-formed SignupRequest or
LogonRequest (header token 0, payload `u, NUL, p, NUL` with NUL-free `u` and
`p`, received length ending at the second NUL) that the authentication service
accepts.  Then `handle_client` stores `u` in the session, sets the session
token to the freshly generated token `t`, sends exactly one packet, the 8-byte
TokenResponse with token `t`, and keeps the socket; and a later packet whose
header carries `t` passes the token check and reaches the `switch` on its
type. -/
theorem handle_client_logon_success (he : Endian) (md5 : List Nat → List Nat)
    (crc32 : List Nat → Nat) (w : World) (client_info : ClientInfo) (is_new_user : Bool)
    (u p tl buf : List Nat) (rest : List Chunk)
    (hbuf : BUFFSIZE ≤ w.packet_buffer.length)
    (huser : client_info.username.length = USERNAME_LEN_WITH_NULL)
    (htok0 : client_info.session_token = 0)
    (hu : ∀ b ∈ u, b ≠ 0) (hp : ∀ b ∈ p, b ≠ 0)
    (hR : receive_packet (w.incoming client_info.client_socket) w.packet_buffer BUFFSIZE
      = (((8 + u.length + 1 + p.length + 1 : Nat) : Int), buf, rest))
    (htype : header_type buf
      = (if is_new_user then PacketType.TYPE_SIGNUP_REQUEST
          else PacketType.TYPE_LOGON_REQUEST).toNat)
    (hhdr : header_session_token he buf = 0)
    (hpay : buf.drop 8 = u ++ 0 :: (p ++ 0 :: tl))
    (hacc : (validate_user md5 w.fs is_new_user (buf.drop 8)
      (buf.drop (8 + (u.length + 1)))).1 = true) :
    cstr (handle_client he md5 crc32 w client_info).2.username = u
    ∧ (handle_client he md5 crc32 w client_info).2.session_token = (generate_random_token w).1
    ∧ (handle_client he md5 crc32 w client_info).2.client_socket = client_info.client_socket
    ∧ (handle_client he md5 crc32 w client_info).1.output
        = w.output ++ [Effect.send client_info.client_socket
            (header_bytes he .TYPE_TOKEN_RESPONSE 8 (generate_random_token w).1)]
    ∧ header_type (header_bytes he .TYPE_TOKEN_RESPONSE 8 (generate_random_token w).1)
        = PacketType.TYPE_TOKEN_RESPONSE.toNat
    ∧ header_packet_len (header_bytes he .TYPE_TOKEN_RESPONSE 8 (generate_random_token w).1) = 8
    ∧ header_session_token he
        (header_bytes he .TYPE_TOKEN_RESPONSE 8 (generate_random_token w).1)
        = (generate_random_token w).1
    ∧ ∀ w2 : World,
        0 < (receive_packet (w2.incoming client_info.client_socket) w2.packet_buffer
          BUFFSIZE).1 →
        header_session_token he (receive_packet (w2.incoming client_info.client_socket)
          w2.packet_buffer BUFFSIZE).2.1 = (generate_random_token w).1 →
        handle_client he md5 crc32 w2 (handle_client he md5 crc32 w client_info).2
          = respond he (dispatch he md5 crc32
              { w2.set_incoming client_info.client_socket
                  (receive_packet (w2.incoming client_info.client_socket) w2.packet_buffer
                    BUFFSIZE).2.2 with
                packet_buffer := (receive_packet (w2.incoming client_info.client_socket)
                  w2.packet_buffer BUFFSIZE).2.1 }
              (receive_packet (w2.incoming client_info.client_socket) w2.packet_buffer
                BUFFSIZE).1.toNat (handle_client he md5 crc32 w client_info).2) := by
  -- the state after the receive
  have hlenb : buf.length = w.packet_buffer.length := by
    have := receive_packet_length (w.incoming client_info.client_socket) w.packet_buffer BUFFSIZE
    rw [hR] at this; exact this
  have hB : (8 : Nat) ≤ BUFFSIZE := by decide
  have hsplit : buf = buf.take 8 ++ (u ++ 0 :: (p ++ 0 :: tl)) := by
    rw [← hpay, List.take_append_drop]
  have hhl : (buf.take 8).length = 8 := by rw [List.length_take]; omega
  have hmatch := handle_client_token_match he md5 crc32 w client_info
    (by rw [hR]; show (0 : Int) < ((8 + u.length + 1 + p.length + 1 : Nat) : Int); omega)
    (by rw [hR, htok0]; exact hhdr)
  rw [hR] at hmatch
  simp only [Int.toNat_ofNat] at hmatch
  -- the switch selects handle_logon
  have hdisp : dispatch he md5 crc32
      { w.set_incoming client_info.client_socket rest with packet_buffer := buf }
      (8 + u.length + 1 + p.length + 1) client_info
      = handle_logon he md5
          { w.set_incoming client_info.client_socket rest with packet_buffer := buf }
          (8 + u.length + 1 + p.length + 1) client_info is_new_user .ERROR_UNKNOWN := by
    cases is_new_user <;> simp [dispatch, htype, PacketType.toNat]
  have hwf := handle_logon_wellformed he md5
    { w.set_incoming client_info.client_socket rest with packet_buffer := buf }
    client_info is_new_user .ERROR_UNKNOWN (buf.take 8) u p tl hhl hu hp hsplit
  have hacc2 : (validate_user md5
      ({ w.set_incoming client_info.client_socket rest with packet_buffer := buf } : World).fs
      is_new_user (buf.drop 8) (buf.drop (8 + (u.length + 1)))).1 = true := hacc
  have hval := handle_logon_validate_accept he md5
    { w.set_incoming client_info.client_socket rest with packet_buffer := buf }
    client_info is_new_user .ERROR_UNKNOWN (buf.drop 8) (buf.drop (8 + (u.length + 1)))
    (u.length + 1) hacc2
  have htl := generate_random_token_lt w
  have hgen : generate_random_token
      { w.set_incoming client_info.client_socket rest with packet_buffer := buf }
      = ((generate_random_token w).1,
          { (generate_random_token w).2 with
            packet_buffer := buf,
            incoming := (w.set_incoming client_info.client_socket rest).incoming }) := by
    simp [generate_random_token, World.next_rand, World.set_incoming]
  have hmk := make_header_only_packet_eq he buf BUFFSIZE .TYPE_TOKEN_RESPONSE
    (generate_random_token w).1 (by omega) hB
  rw [Nat.mod_eq_of_lt htl] at hmk
  have hres : handle_client he md5 crc32 w client_info
      = (({ packet_buffer := header_bytes he .TYPE_TOKEN_RESPONSE 8 (generate_random_token w).1
              ++ buf.drop 8,
            incoming := (w.set_incoming client_info.client_socket rest).incoming,
            output := w.output ++ [Effect.send client_info.client_socket
              (header_bytes he .TYPE_TOKEN_RESPONSE 8 (generate_random_token w).1)],
            fs := (create_user_directory (validate_user md5 w.fs is_new_user (buf.drop 8)
              (buf.drop (8 + (u.length + 1)))).2 (buf.drop 8)).2,
            rand := (generate_random_token w).2.rand } : World),
          { client_socket := client_info.client_socket,
            username := memcpy client_info.username 0 (cstr_read (buf.drop 8) (u.length + 1)),
            session_token := (generate_random_token w).1 }) := by
    rw [hmatch, hdisp, hwf.1]
    simp only [] at hval ⊢
    rw [hval, hgen]
    simp only [make_token_response, hmk]
    rw [respond_positive _ _ (by show (0 : Int) < 8; omega)]
    simp only [World.send, World.set_incoming, Int.toNat_ofNat]
    have hl := header_bytes_length he .TYPE_TOKEN_RESPONSE 8 (generate_random_token w).1
    congr 3
    rw [show Int.toNat 8 = 8 from rfl, List.take_left' hl]
  have hf := header_fields he .TYPE_TOKEN_RESPONSE 8 (generate_random_token w).1 []
    (by omega) htl
  simp only [List.append_nil] at hf
  rw [hres]
  refine ⟨?_, rfl, rfl, rfl, hf.2.1, hf.2.2.1, hf.2.2.2, ?_⟩
  · -- the stored user name
    have hsl := validate_user_accept_len md5 w.fs is_new_user _ _ hacc
    have hcu : cstr (buf.drop 8) = u := by
      have := hwf.2.1; simpa using this
    have hsu : strlen (buf.drop 8) = u.length := by rw [strlen_eq_cstr, hcu]
    have hcr : cstr_read (buf.drop 8) (u.length + 1) = u ++ [0] := by
      have := cstr_read_eq (buf.drop 8)
      rw [hsu, hcu] at this; exact this
    simp only [hcr]
    rw [memcpy_eq _ _ _ (by
      simp only [List.length_append, List.length_singleton, huser, USERNAME_LEN_WITH_NULL]
      rw [hsu] at hsl; simp only [MAX_USERNAME_LEN] at hsl; omega)]
    simp only [List.take_zero, List.nil_append, List.append_assoc, List.singleton_append]
    exact cstr_append_nul u _ hu
  · intro w2 h1 h2
    exact handle_client_token_match he md5 crc32 w2 _ h1 h2

theorem handle_client_logon_success_witness :
    (handle_client .little (fun _ => List.replicate 16 0) (fun _ => 0)
      (example_world [1, 1, 0, 12, 0, 0, 0, 0, 97, 0, 98, 0])
      { client_socket := 4, username := List.replicate 129 0, session_token := 0 }).1.output
      = (example_world [1, 1, 0, 12, 0, 0, 0, 0, 97, 0, 98, 0]).output
          ++ [Effect.send 4 (header_bytes .little .TYPE_TOKEN_RESPONSE 8
            (generate_random_token (example_world [1, 1, 0, 12, 0, 0, 0, 0, 97, 0, 98, 0])).1)] :=
  (handle_client_logon_success .little (fun _ => List.replicate 16 0) (fun _ => 0)
    (example_world [1, 1, 0, 12, 0, 0, 0, 0, 97, 0, 98, 0])
    { client_socket := 4, username := List.replicate 129 0, session_token := 0 }
    true [97] [98] (List.replicate (BUFFSIZE + 1 - 12) 0)
    ([1, 1, 0, 12, 0, 0, 0, 0, 97, 0, 98, 0] ++ List.replicate (BUFFSIZE + 1 - 12) 0) []
    (by simp [example_world]) (by simp [USERNAME_LEN_WITH_NULL]) rfl
    (by decide) (by decide)
    (receive_example_world [1, 1, 0, 12, 0, 0, 0, 0, 97, 0, 98, 0]
      (by decide) (by decide) (by decide))
    (by decide) (by decide) rfl (by decide)).2.2.2.1

/-! ### File lists on the wire -/

theorem list_payload_spec_length (files : List FileInfo)
    (hwf : ∀ f ∈ files, f.name.length = MAX_FILE_NAME_LEN) :
    (list_payload_spec files).length = (MAX_FILE_NAME_LEN + 4) * files.length := by
  induction files with
  | nil => simp [list_payload_spec]
  | cons f fs ih =>
    have hf := hwf f (List.mem_cons_self _ _)
    have := ih (fun x hx => hwf x (List.mem_cons_of_mem _ hx))
    simp only [list_payload_spec, List.length_append, List.length_cons, hf, this, u32_be,
      List.length_nil, MAX_FILE_NAME_LEN]
    omega

theorem make_list_response_loop_eq (files : List FileInfo) (pre rest : List Nat) (off : Nat)
    (hoff : off = pre.length)
    (hwf : ∀ f ∈ files, f.name.length = MAX_FILE_NAME_LEN ∧ f.checksum < 4294967296)
    (hroom : (MAX_FILE_NAME_LEN + 4) * files.length ≤ rest.length) :
    make_list_response_loop files.length files (pre ++ rest) off
      = pre ++ list_payload_spec files ++ rest.drop ((MAX_FILE_NAME_LEN + 4) * files.length) := by
  induction files generalizing pre rest off with
  | nil => simp [make_list_response_loop, list_payload_spec]
  | cons f fs ih =>
    obtain ⟨hn, hc⟩ := hwf f (List.mem_cons_self _ _)
    have hroom2 : MAX_FILE_NAME_LEN + 4 + (MAX_FILE_NAME_LEN + 4) * fs.length ≤ rest.length := by
      simp only [List.length_cons] at hroom; rw [Nat.mul_succ] at hroom; omega
    simp only [List.length_cons, make_list_response_loop]
    rw [List.take_of_length_le (by rw [hn]), Nat.mod_eq_of_lt hc]
    rw [memcpy_append pre rest f.name off hoff (by rw [hn]; omega)]
    rw [memcpy_append (pre ++ f.name) _ (u32_be f.checksum) _
      (by rw [List.length_append, hn, hoff])
      (by simp only [List.length_drop, hn, u32_be, List.length_cons, List.length_nil]; omega)]
    rw [ih (pre ++ f.name ++ u32_be f.checksum) _ _
      (by simp only [List.length_append, hn, hoff, u32_be, List.length_cons, List.length_nil])
      (fun x hx => hwf x (List.mem_cons_of_mem _ hx))
      (by simp only [List.length_drop, hn, u32_be, List.length_cons, List.length_nil]; omega)]
    simp only [list_payload_spec, List.append_assoc, List.drop_drop, hn]
    have e : MAX_FILE_NAME_LEN + (u32_be f.checksum).length
        + (MAX_FILE_NAME_LEN + 4) * fs.length = (MAX_FILE_NAME_LEN + 4) * (fs.length + 1) := by
      simp only [u32_be, List.length_cons, List.length_nil, MAX_FILE_NAME_LEN]; omega
    rw [e]

theorem getD_append_add (pre l : List Nat) (off k : Nat) (hoff : off = pre.length) :
    (pre ++ l).getD (off + k) 0 = l.getD k 0 := by
  subst hoff
  simp only [List.getD_eq_getElem?_getD]
  rw [List.getElem?_append_right (by omega), Nat.add_sub_cancel_left]

theorem be_u32_u32_be (x : Nat) (hx : x < 4294967296) (tl : List Nat) (pre : List Nat)
    (off : Nat) (hoff : off = pre.length) :
    be_u32 ((pre ++ (u32_be x ++ tl)).getD off 0) ((pre ++ (u32_be x ++ tl)).getD (off + 1) 0)
      ((pre ++ (u32_be x ++ tl)).getD (off + 2) 0) ((pre ++ (u32_be x ++ tl)).getD (off + 3) 0)
      = x := by
  have h0 := getD_append_add pre (u32_be x ++ tl) off 0 hoff
  rw [Nat.add_zero] at h0
  rw [h0, getD_append_add pre _ off 1 hoff, getD_append_add pre _ off 2 hoff,
    getD_append_add pre _ off 3 hoff]
  simp only [u32_be, List.cons_append, List.nil_append, List.getD_cons_zero,
    List.getD_cons_succ, be_u32]
  omega

theorem get_server_files_loop_eq (files : List FileInfo) (pre tl : List Nat) (off : Nat)
    (acc : List FileInfo) (hoff : off = pre.length)
    (hwf : ∀ f ∈ files, f.name.length = MAX_FILE_NAME_LEN ∧ f.checksum < 4294967296) :
    get_server_files_loop files.length (pre ++ (list_payload_spec files ++ tl)) off acc
      = files.reverse ++ acc := by
  induction files generalizing pre off acc with
  | nil => simp [get_server_files_loop]
  | cons f fs ih =>
    obtain ⟨hn, hc⟩ := hwf f (List.mem_cons_self _ _)
    simp only [List.length_cons, get_server_files_loop, list_payload_spec, List.append_assoc]
    have hname : ((pre ++ (f.name ++ (u32_be f.checksum ++ (list_payload_spec fs ++ tl)))).drop
        off).take MAX_FILE_NAME_LEN = f.name := by
      rw [List.drop_left' hoff.symm, List.take_left' hn]
    have hsum : be_u32
        ((pre ++ (f.name ++ (u32_be f.checksum ++ (list_payload_spec fs ++ tl)))).getD
          (off + MAX_FILE_NAME_LEN) 0)
        ((pre ++ (f.name ++ (u32_be f.checksum ++ (list_payload_spec fs ++ tl)))).getD
          (off + MAX_FILE_NAME_LEN + 1) 0)
        ((pre ++ (f.name ++ (u32_be f.checksum ++ (list_payload_spec fs ++ tl)))).getD
          (off + MAX_FILE_NAME_LEN + 2) 0)
        ((pre ++ (f.name ++ (u32_be f.checksum ++ (list_payload_spec fs ++ tl)))).getD
          (off + MAX_FILE_NAME_LEN + 3) 0) = f.checksum := by
      have := be_u32_u32_be f.checksum hc (list_payload_spec fs ++ tl) (pre ++ f.name)
        (off + MAX_FILE_NAME_LEN) (by rw [List.length_append, hn, hoff])
      simpa only [List.append_assoc] using this
    rw [hname, hsum]
    have := ih (pre ++ f.name ++ u32_be f.checksum) (off + MAX_FILE_NAME_LEN + 4)
      ({ name := f.name, checksum := f.checksum } :: acc)
      (by simp only [List.length_append, hn, hoff, u32_be, List.length_cons, List.length_nil])
      (fun x hx => hwf x (List.mem_cons_of_mem _ hx))
    simp only [List.append_assoc] at this
    rw [this]
    simp

theorem make_list_response_eq (he : Endian) (buffer : List Nat) (buff_len token : Nat)
    (files : List FileInfo)
    (hwf : ∀ f ∈ files, f.name.length = MAX_FILE_NAME_LEN ∧ f.checksum < 4294967296)
    (hlen : 8 + 68 * files.length ≤ buff_len) (hcap : buff_len ≤ buffer.length) :
    make_list_response he buffer buff_len token files files.length
      = (((8 + 68 * files.length : Nat) : Int),
          header_bytes he .TYPE_LIST_RESPONSE ((8 + 68 * files.length) % 65536)
              (token % 4294967296)
            ++ list_payload_spec files ++ buffer.drop (8 + 68 * files.length)) := by
  have h1 : ¬ buff_len < HEADER_LEN + (MAX_FILE_NAME_LEN + 4) * files.length := by
    simp only [HEADER_LEN, MAX_FILE_NAME_LEN]; omega
  simp only [make_list_response, if_neg h1]
  rw [make_header_eq he buffer _ _ token (by omega)]
  rw [make_list_response_loop_eq files _ _ HEADER_LEN
    (by rw [header_bytes_length]; rfl) hwf
    (by simp only [List.length_drop, MAX_FILE_NAME_LEN]; omega)]
  simp only [HEADER_LEN, MAX_FILE_NAME_LEN, List.drop_drop]

theorem get_server_files_of_receive (he : Endian) (w : World) (server_socket : Int)
    (buffer : List Nat) (session_token m : Nat) (buf : List Nat) (rest : List Chunk)
    (hm : 0 < m)
    (hR : receive_packet (w.incoming server_socket)
      (make_list_request he buffer BUFFSIZE session_token).2 BUFFSIZE = ((m : Int), buf, rest)) :
    (get_server_files he w server_socket buffer session_token).map (fun r => (r.1, r.2.1))
      = some (get_server_files_loop ((m - HEADER_LEN) / (MAX_FILE_NAME_LEN + 4)) buf HEADER_LEN [],
          (m - HEADER_LEN) / (MAX_FILE_NAME_LEN + 4)) := by
  have h1 : ¬ ((m : Int) ≤ 0) := by omega
  simp only [get_server_files, World.send, hR, if_neg h1, Option.map_some', Int.toNat_ofNat]

theorem make_list_request_length (he : Endian) (buffer : List Nat) (buff_len token : Nat) :
    (make_list_request he buffer buff_len token).2.length = buffer.length := by
  unfold make_list_request make_header_only_packet
  split
  · rfl
  · exact make_header_length _ _ _ _ _

theorem make_list_response_length (he : Endian) (buffer : List Nat) (buff_len token : Nat)
    (file_info : List FileInfo) (n_files : Nat) :
    (make_list_response he buffer buff_len token file_info n_files).2.length
      = buffer.length := by
  unfold make_list_response
  simp only []
  split
  · rfl
  · rw [make_list_response_loop_length, make_header_length]

/-- C8, refuted as stated: 121 entries are encoded into a buffer of
`8 + 68 * 121 = 8236` bytes, and the encoder returns 8236; the client, whose
`receive_packet` stops at `BUFFSIZE = 8192` bytes, decodes 120 entries from
that packet. -/
theorem list_response_truncated_counterexample :
    (make_list_response .little (List.replicate 8236 0) 8236 0 example_inventory 121).1 = 8236
    ∧ (get_server_files .little
        { packet_buffer := [],
          incoming := fun _ => deliver
            [(make_list_response .little (List.replicate 8236 0) 8236 0 example_inventory 121).2]
            [],
          output := [], fs := { files := [], dirs := [] }, rand := [] }
        3 (List.replicate BUFFSIZE 0) 0).map (fun r => r.2.1) = some 120 := by
  have hlen : example_inventory.length = 121 := by
    simp only [example_inventory, List.length_replicate]
  have hwf : ∀ f ∈ example_inventory,
      f.name.length = MAX_FILE_NAME_LEN ∧ f.checksum < 4294967296 := by
    intro f hf
    simp only [example_inventory] at hf
    have := List.eq_of_mem_replicate hf
    subst this
    exact ⟨by simp only [List.length_replicate, MAX_FILE_NAME_LEN], by decide⟩
  have e := make_list_response_eq .little (List.replicate 8236 0) 8236 0 example_inventory hwf
    (by rw [hlen]) (by rw [List.length_replicate])
  rw [hlen] at e
  have hP : (make_list_response .little (List.replicate 8236 0) 8236 0 example_inventory 121).2.length
      = 8236 := by
    rw [make_list_response_length, List.length_replicate]
  have hpl : header_packet_len
      (make_list_response .little (List.replicate 8236 0) 8236 0 example_inventory 121).2
      = 8236 := by
    rw [e]
    simp only [List.append_assoc]
    exact (header_fields .little .TYPE_LIST_RESPONSE 8236 0 _ (by omega) (by omega)).2.2.1
  refine ⟨by rw [e]; rfl, ?_⟩
  have hne : (make_list_response .little (List.replicate 8236 0) 8236 0 example_inventory 121).2
      ≠ [] := by
    intro h; rw [h, List.length_nil] at hP; omega
  have hpend : pending_bytes (deliver
      [(make_list_response .little (List.replicate 8236 0) 8236 0 example_inventory 121).2] [])
      = (make_list_response .little (List.replicate 8236 0) 8236 0 example_inventory 121).2 := by
    rw [pending_bytes_deliver _ [] (by
      intro c hc; rw [List.mem_singleton] at hc; rw [hc]; exact hne)]
    simp only [List.flatten_cons, List.flatten_nil, List.append_nil, pending_bytes]
  have hR := receive_packet_succeeds
    (deliver [(make_list_response .little (List.replicate 8236 0) 8236 0
      example_inventory 121).2] [])
    (make_list_request .little (List.replicate BUFFSIZE 0) BUFFSIZE 0).2 BUFFSIZE
    (by decide) (by rw [make_list_request_length, List.length_replicate])
    (by rw [hpend, hpl]; omega) (by rw [hpend, hpl, hP]; decide) (by rw [hpend, hpl, hP])
  rw [hpend, hpl] at hR
  have hmin : min 8236 BUFFSIZE = 8192 := by decide
  rw [hmin] at hR
  have := get_server_files_of_receive .little
    { packet_buffer := [],
      incoming := fun _ => deliver
        [(make_list_response .little (List.replicate 8236 0) 8236 0 example_inventory 121).2] [],
      output := [], fs := { files := [], dirs := [] }, rand := [] }
    3 (List.replicate BUFFSIZE 0) 0 8192 _ _ (by omega) hR
  have h2 := congrArg (Option.map Prod.snd) this
  simp only [Option.map_map, Option.map_some'] at h2
  rw [show (8192 - HEADER_LEN) / (MAX_FILE_NAME_LEN + 4) = 120 from by decide] at h2
  exact h2

/-- C8, amended: for an inventory of `n` entries (64-byte names, 32-bit
checksums) with `8 + 68 * n ≤ buff_len`, `make_list_response` returns
`8 + 68 * n` and writes after the header, in list order, each name field
followed by the checksum as 4 big-endian bytes; and when the packet also fits
the client's receive buffer (`8 + 68 * n ≤ BUFFSIZE`), `get_server_files`,
receiving that packet in any non-empty chunks of its own, yields the `n`
entries with the same names and checksums in the reverse order. -/
theorem list_response_round_trip (he : Endian) (buffer : List Nat) (buff_len token : Nat)
    (files : List FileInfo)
    (hwf : ∀ f ∈ files, f.name.length = MAX_FILE_NAME_LEN ∧ f.checksum < 4294967296)
    (hlen : 8 + 68 * files.length ≤ buff_len) (hcap : buff_len ≤ buffer.length) :
    (make_list_response he buffer buff_len token files files.length).1
        = ((8 + 68 * files.length : Nat) : Int)
    ∧ ((make_list_response he buffer buff_len token files files.length).2.drop 8).take
          (68 * files.length) = list_payload_spec files
    ∧ ∀ (w : World) (server_socket : Int) (client_buffer : List Nat) (session_token : Nat)
        (chunks : List (List Nat)) (rest : List Chunk),
        8 + 68 * files.length ≤ BUFFSIZE → BUFFSIZE ≤ client_buffer.length →
        (∀ c ∈ chunks, c ≠ []) →
        chunks.flatten = (make_list_response he buffer buff_len token files files.length).2.take
          (8 + 68 * files.length) →
        w.incoming server_socket = deliver chunks rest →
        (get_server_files he w server_socket client_buffer session_token).map
            (fun r => (r.1, r.2.1))
          = some (files.reverse, files.length) := by
  have e := make_list_response_eq he buffer buff_len token files hwf hlen hcap
  have hpl := list_payload_spec_length files (fun f hf => (hwf f hf).1)
  simp only [MAX_FILE_NAME_LEN] at hpl
  have hhl := header_bytes_length he .TYPE_LIST_RESPONSE ((8 + 68 * files.length) % 65536)
    (token % 4294967296)
  refine ⟨by rw [e], ?_, ?_⟩
  · rw [e, List.append_assoc, List.drop_left' hhl, List.take_left' hpl]
  · intro w server_socket client_buffer session_token chunks rest hfit hcb hne hflat hin
    have hmod : (8 + 68 * files.length) % 65536 = 8 + 68 * files.length :=
      Nat.mod_eq_of_lt (by simp only [BUFFSIZE] at hfit; omega)
    rw [hmod] at e hhl
    have hP : chunks.flatten
        = header_bytes he .TYPE_LIST_RESPONSE (8 + 68 * files.length) (token % 4294967296)
            ++ list_payload_spec files := by
      rw [hflat, e]
      exact List.take_left' (by rw [List.length_append, hhl, hpl])
    have hPl : chunks.flatten.length = 8 + 68 * files.length := by
      rw [hP, List.length_append, hhl, hpl]
    have hdecl : header_packet_len chunks.flatten = chunks.flatten.length := by
      rw [hPl, hP]
      exact (header_fields he .TYPE_LIST_RESPONSE (8 + 68 * files.length) (token % 4294967296)
        _ (by simp only [BUFFSIZE] at hfit; omega) (Nat.mod_lt _ (by omega))).2.2.1
    have hR := receive_packet_deliver chunks rest
      (make_list_request he client_buffer BUFFSIZE session_token).2 BUFFSIZE hne
      (by rw [hPl]; omega) hdecl (by rw [hPl]; exact hfit)
      (by rw [make_list_request_length]; exact hcb)
    rw [← hin, hPl] at hR
    have hg := get_server_files_of_receive he w server_socket client_buffer session_token
      (8 + 68 * files.length) _ _ (by omega) hR
    rw [hg]
    have hn : (8 + 68 * files.length - HEADER_LEN) / (MAX_FILE_NAME_LEN + 4) = files.length := by
      simp only [HEADER_LEN, MAX_FILE_NAME_LEN]
      omega
    rw [hn, memcpy_eq _ _ _ (by
      rw [make_list_request_length, hPl]; simp only [BUFFSIZE] at hfit hcb; omega)]
    simp only [List.take_zero, List.nil_append, Nat.zero_add]
    rw [hP, List.append_assoc]
    rw [get_server_files_loop_eq files _ _ HEADER_LEN [] (by rw [hhl]; rfl) hwf]
    simp

theorem list_response_round_trip_witness :
    (make_list_response .little (List.replicate 100 0) 100 5
        [{ name := List.replicate 64 65, checksum := 7 }]
        [({ name := List.replicate 64 65, checksum := 7 } : FileInfo)].length).1
      = ((8 + 68 * [({ name := List.replicate 64 65, checksum := 7 } : FileInfo)].length : Nat)
          : Int)
    ∧ (get_server_files .little
        { packet_buffer := [],
          incoming := fun _ => deliver
            [(make_list_response .little (List.replicate 100 0) 100 5
              [{ name := List.replicate 64 65, checksum := 7 }] 1).2.take 76] [],
          output := [], fs := { files := [], dirs := [] }, rand := [] }
        3 (List.replicate BUFFSIZE 0) 5).map (fun r => (r.1, r.2.1))
      = some ([({ name := List.replicate 64 65, checksum := 7 } : FileInfo)].reverse, 1) :=
  have h := list_response_round_trip .little (List.replicate 100 0) 100 5
    [{ name := List.replicate 64 65, checksum := 7 }]
    (by decide) (by decide) (by decide)
  ⟨h.1, h.2.2
    { packet_buffer := [],
      incoming := fun _ => deliver
        [(make_list_response .little (List.replicate 100 0) 100 5
          [{ name := List.replicate 64 65, checksum := 7 }] 1).2.take 76] [],
      output := [], fs := { files := [], dirs := [] }, rand := [] }
    3 (List.replicate BUFFSIZE 0) 5
    [(make_list_response .little (List.replicate 100 0) 100 5
      [{ name := List.replicate 64 65, checksum := 7 }] 1).2.take 76] []
    (by decide) (by rw [List.length_replicate])
    (by
      intro c hc h
      rw [List.mem_singleton] at hc
      have hl := congrArg List.length hc
      rw [h, List.length_take, make_list_response_length, List.length_replicate] at hl
      exact absurd hl (by decide))
    (by simp only [List.flatten_cons, List.flatten_nil, List.append_nil, List.length_cons,
      List.length_nil]) rfl⟩

/-! ### The steps of `handle_client` -/

theorem handle_client_of_receive (he : Endian) (md5 : List Nat → List Nat)
    (crc32 : List Nat → Nat) (w : World) (client_info : ClientInfo) (n : Nat)
    (buf : List Nat) (rest : List Chunk)
    (hR : receive_packet (w.incoming client_info.client_socket) w.packet_buffer BUFFSIZE
      = ((n : Int), buf, rest))
    (hn : 0 < n) (htok : header_session_token he buf = client_info.session_token) :
    handle_client he md5 crc32 w client_info
      = respond he (dispatch he md5 crc32 (w.received client_info.client_socket buf rest) n
          client_info) := by
  have h := handle_client_token_match he md5 crc32 w client_info
    (by rw [hR]; show (0 : Int) < (n : Int); omega) (by rw [hR]; exact htok)
  rw [hR] at h
  simpa only [Int.toNat_ofNat, World.received] using h

theorem handle_client_of_mismatch (he : Endian) (md5 : List Nat → List Nat)
    (crc32 : List Nat → Nat) (w : World) (client_info : ClientInfo) (n : Nat)
    (buf : List Nat) (rest : List Chunk)
    (hR : receive_packet (w.incoming client_info.client_socket) w.packet_buffer BUFFSIZE
      = ((n : Int), buf, rest))
    (hn : 0 < n) (htok : header_session_token he buf ≠ client_info.session_token) :
    handle_client he md5 crc32 w client_info
      = remove_client (w.received client_info.client_socket buf rest) client_info := by
  have h1 : ¬ ((n : Int) ≤ 0) := by omega
  simp only [handle_client, hR, if_neg h1, ne_eq, htok, not_false_eq_true, if_true,
    World.received]

theorem handle_client_of_failure (he : Endian) (md5 : List Nat → List Nat)
    (crc32 : List Nat → Nat) (w : World) (client_info : ClientInfo)
    (hR : (receive_packet (w.incoming client_info.client_socket) w.packet_buffer BUFFSIZE).1
      = -1) :
    handle_client he md5 crc32 w client_info
      = remove_client (w.received client_info.client_socket
          (receive_packet (w.incoming client_info.client_socket) w.packet_buffer BUFFSIZE).2.1
          (receive_packet (w.incoming client_info.client_socket) w.packet_buffer BUFFSIZE).2.2)
          client_info := by
  have h1 : (receive_packet (w.incoming client_info.client_socket) w.packet_buffer
      BUFFSIZE).1 ≤ 0 := by rw [hR]; decide
  simp only [handle_client, if_pos h1, World.received]

/-- The fatal branch of the response step: one Error packet with the token of
the session and the handler's error code, then `remove_client`. -/
theorem respond_negative (he : Endian) (h : Handled) (hneg : h.response_len < 0)
    (hbuf : BUFFSIZE ≤ h.world.packet_buffer.length)
    (htok : h.client_info.session_token < 4294967296) :
    respond he h
      = ({ packet_buffer := error_packet he h.client_info.session_token h.error
              ++ h.world.packet_buffer.drop 9,
           incoming := h.world.incoming,
           output := h.world.output
              ++ [Effect.send h.client_info.client_socket
                    (error_packet he h.client_info.session_token h.error),
                  Effect.close h.client_info.client_socket],
           fs := h.world.fs,
           rand := h.world.rand },
          ClientInfo.zeroed) := by
  have hB : (9 : Nat) ≤ BUFFSIZE := by decide
  have e := make_error_response_eq he h.world.packet_buffer BUFFSIZE
    h.client_info.session_token h.error hbuf hB
  rw [Nat.mod_eq_of_lt htok] at e
  have hl : (error_packet he h.client_info.session_token h.error).length = 9 := by
    simp only [error_packet, List.length_append, header_bytes_length, List.length_singleton]
  simp only [respond, if_pos hneg, e, remove_client, World.send]
  rw [show Int.toNat 9 = 9 from rfl, ← error_packet, List.take_left' hl]
  simp

theorem error_packet_fields (he : Endian) (token : Nat) (error : ErrorType)
    (htok : token < 4294967296) :
    (error_packet he token error).length = 9
    ∧ header_type (error_packet he token error) = PacketType.TYPE_ERROR.toNat
    ∧ header_packet_len (error_packet he token error) = 9
    ∧ header_session_token he (error_packet he token error) = token
    ∧ (error_packet he token error).drop 8 = [error.toNat] := by
  have hf := header_fields he .TYPE_ERROR 9 token [error.toNat] (by omega) htok
  have hl := header_bytes_length he .TYPE_ERROR 9 token
  refine ⟨?_, hf.2.1, hf.2.2.1, hf.2.2.2, ?_⟩
  · simp only [error_packet, List.length_append, hl, List.length_singleton]
  · simp only [error_packet]
    exact List.drop_left' hl

/-! ### Malformed logon requests -/

/-- Where `strlen` stops inside the list, it stops at a NUL. -/
theorem getElem_strlen (s : List Nat) (h : strlen s < s.length) : s[strlen s]? = some 0 := by
  unfold strlen at h ⊢
  induction s with
  | nil => simp at h
  | cons a s ih =>
    by_cases ha : a = 0
    · subst ha; simp
    · have hd : decide (a ≠ 0) = true := decide_eq_true ha
      simp only [List.takeWhile_cons, hd, ↓reduceIte, List.length_cons] at h ⊢
      rw [List.getElem?_cons_succ]
      exact ih (by omega)

theorem strlen_append_nul (u tl : List Nat) (hu : ∀ b ∈ u, b ≠ 0) :
    strlen (u ++ 0 :: tl) = u.length := by
  rw [strlen_eq_cstr, cstr_append_nul u tl hu]

theorem handle_logon_malformed_of (he : Endian) (md5 : List Nat → List Nat) (w : World)
    (request_len : Nat) (client_info : ClientInfo) (is_new_user : Bool) (error : ErrorType)
    (h : 8 + (strlen (w.packet_buffer.drop 8) + 1) ≥ request_len
      ∨ 8 + (strlen (w.packet_buffer.drop 8) + 1)
          + (strlen (w.packet_buffer.drop (8 + (strlen (w.packet_buffer.drop 8) + 1))) + 1)
        ≠ request_len) :
    handle_logon he md5 w request_len client_info is_new_user error
      = { response_len := -1, error := .ERROR_MALFORMED_REQUEST, world := w,
          client_info := client_info } := by
  simp only [handle_logon, HEADER_LEN]
  by_cases h1 : 8 + (strlen (w.packet_buffer.drop 8) + 1) ≥ request_len
  · rw [if_pos h1]
  · rw [if_neg h1]
    rcases h with h | h
    · exact absurd h h1
    · rw [if_pos h]

/-- The four ways a logon payload can be malformed, as conditions on the
received bytes `8 .. n-1`, all end in `ERROR_MALFORMED_REQUEST` with the
environment untouched. -/
theorem handle_logon_malformed (he : Endian) (md5 : List Nat → List Nat) (w : World)
    (n : Nat) (client_info : ClientInfo) (is_new_user : Bool) (error : ErrorType)
    (hn : 8 ≤ n) (hlen : n ≤ w.packet_buffer.length)
    (hmal : (∀ b ∈ (w.packet_buffer.drop 8).take (n - 8), b ≠ 0)
      ∨ (∃ u : List Nat, (∀ b ∈ u, b ≠ 0) ∧ (w.packet_buffer.drop 8).take (n - 8) = u ++ [0])
      ∨ ((w.packet_buffer.drop 8).take (n - 8)).getLast? ≠ some 0
      ∨ (∃ u p extra : List Nat, (∀ b ∈ u, b ≠ 0) ∧ (∀ b ∈ p, b ≠ 0) ∧ extra ≠ []
          ∧ (w.packet_buffer.drop 8).take (n - 8) = u ++ [0] ++ p ++ [0] ++ extra)) :
    handle_logon he md5 w n client_info is_new_user error
      = { response_len := -1, error := .ERROR_MALFORMED_REQUEST, world := w,
          client_info := client_info } := by
  apply handle_logon_malformed_of
  have hpl : ((w.packet_buffer.drop 8).take (n - 8)).length = n - 8 := by
    rw [List.length_take, List.length_drop]; omega
  have hsplit : w.packet_buffer.drop 8
      = (w.packet_buffer.drop 8).take (n - 8) ++ w.packet_buffer.drop n := by
    conv_lhs => rw [← List.take_append_drop (n - 8) (w.packet_buffer.drop 8)]
    rw [List.drop_drop]
    congr 2
    omega
  -- the third condition, from which the first follows
  have hlast : ((w.packet_buffer.drop 8).take (n - 8)).getLast? ≠ some 0 →
      8 + (strlen (w.packet_buffer.drop 8) + 1) ≥ n
      ∨ 8 + (strlen (w.packet_buffer.drop 8) + 1)
          + (strlen (w.packet_buffer.drop (8 + (strlen (w.packet_buffer.drop 8) + 1))) + 1)
        ≠ n := by
    intro hl
    by_contra hc
    push_neg at hc
    obtain ⟨h1, h2⟩ := hc
    apply hl
    have hidx : strlen (w.packet_buffer.drop (8 + (strlen (w.packet_buffer.drop 8) + 1)))
        < (w.packet_buffer.drop (8 + (strlen (w.packet_buffer.drop 8) + 1))).length := by
      rw [List.length_drop]; omega
    have hz := getElem_strlen _ hidx
    rw [List.getElem?_drop] at hz
    have hidx2 : 8 + (strlen (w.packet_buffer.drop 8) + 1)
        + strlen (w.packet_buffer.drop (8 + (strlen (w.packet_buffer.drop 8) + 1))) = n - 1 := by
      omega
    rw [hidx2] at hz
    rw [List.getLast?_eq_getElem?, hpl, List.getElem?_take, if_pos (by omega),
      List.getElem?_drop]
    rw [show 8 + (n - 8 - 1) = n - 1 from by omega]
    exact hz
  rcases hmal with h | ⟨u, hu, h⟩ | h | ⟨u, p, extra, hu, hp, hex, h⟩
  · apply hlast
    intro hc
    have hmem := List.mem_of_getLast?_eq_some hc
    exact h 0 hmem rfl
  · left
    rw [hsplit, h, List.append_assoc, List.singleton_append, strlen_append_nul u _ hu]
    have := congrArg List.length h
    rw [hpl, List.length_append, List.length_singleton] at this
    omega
  · exact hlast h
  · right
    have hl := congrArg List.length h
    rw [hpl] at hl
    simp only [List.length_append, List.length_singleton] at hl
    have hex2 : 0 < extra.length := List.length_pos.2 hex
    have hd8 : w.packet_buffer.drop 8
        = u ++ 0 :: (p ++ 0 :: (extra ++ w.packet_buffer.drop n)) := by
      rw [hsplit, h]; simp
    have hsu : strlen (w.packet_buffer.drop 8) = u.length := by
      rw [hd8, strlen_append_nul u _ hu]
    have hdp : w.packet_buffer.drop (8 + (u.length + 1))
        = p ++ 0 :: (extra ++ w.packet_buffer.drop n) := by
      rw [← List.drop_drop, hd8]
      have : u ++ 0 :: (p ++ 0 :: (extra ++ w.packet_buffer.drop n))
          = (u ++ [0]) ++ (p ++ 0 :: (extra ++ w.packet_buffer.drop n)) := by simp
      rw [this, List.drop_left' (by simp)]
    rw [hsu, hdp, strlen_append_nul p _ hp]
    omega

theorem receive_packet_until_ge (sock : List Chunk) (buffer : List Nat)
    (buff_len n_received target_len : Nat) :
    (receive_packet_until sock buffer buff_len n_received target_len).1 = -1
    ∨ ((n_received : Int) ≤ (receive_packet_until sock buffer buff_len n_received target_len).1
      ∧ (target_len : Int)
          ≤ (receive_packet_until sock buffer buff_len n_received target_len).1) := by
  generalize hk : target_len - n_received = k
  induction k using Nat.strong_induction_on generalizing sock buffer n_received with
  | _ k ih =>
    rw [receive_packet_until_eq]
    by_cases hlt : n_received < target_len
    · simp only [if_pos hlt]
      by_cases hr : (recv sock (buff_len - n_received)).1 ≤ 0
      · simp [if_pos hr]
      · simp only [if_neg hr]
        obtain ⟨bytes, f, hs, hbt, _, hpos, _, _⟩ := recv_pos sock _ hr
        rcases ih (target_len - (n_received + (recv sock (buff_len - n_received)).2.1.length))
          (by rw [hbt]; omega) (recv sock (buff_len - n_received)).2.2
          (memcpy buffer n_received (recv sock (buff_len - n_received)).2.1)
          (n_received + (recv sock (buff_len - n_received)).2.1.length) rfl with h | h
        · left; exact h
        · right; constructor
          · have := h.1; push_cast at this; omega
          · exact h.2
    · simp only [if_neg hlt]
      right; constructor <;> omega

/-- A successful `receive_packet` returns at least the header length and at
most the capacity. -/
theorem receive_packet_bounds (sock : List Chunk) (buffer : List Nat) (buff_len : Nat)
    (h : 0 < (receive_packet sock buffer buff_len).1) :
    (8 : Int) ≤ (receive_packet sock buffer buff_len).1
    ∧ (receive_packet sock buffer buff_len).1 ≤ (buff_len : Int) := by
  unfold receive_packet at h ⊢
  simp only [] at h ⊢
  by_cases h1 : (receive_packet_until sock buffer buff_len 0 HEADER_LEN).1 ≤ 0
  · simp [if_pos h1] at h
  · simp only [if_neg h1] at h ⊢
    generalize hp : (if header_packet_len (receive_packet_until sock buffer buff_len 0 HEADER_LEN).2.1
        > buff_len then buff_len
        else header_packet_len (receive_packet_until sock buffer buff_len 0 HEADER_LEN).2.1) = pl at *
    have hple : pl ≤ buff_len := by
      rw [← hp]; split <;> omega
    have hge1 := receive_packet_until_ge sock buffer buff_len 0 HEADER_LEN
    have h8 : (8 : Int) ≤ (receive_packet_until sock buffer buff_len 0 HEADER_LEN).1 := by
      rcases hge1 with h' | h'
      · omega
      · have := h'.2; simp only [HEADER_LEN] at this; exact_mod_cast this
    by_cases h2 : (receive_packet_until (receive_packet_until sock buffer buff_len 0 HEADER_LEN).2.2
        (receive_packet_until sock buffer buff_len 0 HEADER_LEN).2.1 buff_len
        (receive_packet_until sock buffer buff_len 0 HEADER_LEN).1.toNat pl).1 ≠ (pl : Int)
    · simp [if_pos h2] at h
    · simp only [if_neg h2]
      push_neg at h2
      have hge2 := receive_packet_until_ge
        (receive_packet_until sock buffer buff_len 0 HEADER_LEN).2.2
        (receive_packet_until sock buffer buff_len 0 HEADER_LEN).2.1 buff_len
        (receive_packet_until sock buffer buff_len 0 HEADER_LEN).1.toNat pl
      rw [h2] at hge2
      constructor
      · rcases hge2 with h' | h'
        · omega
        · have := h'.1
          have e : (((receive_packet_until sock buffer buff_len 0 HEADER_LEN).1.toNat : Nat) : Int)
              = (receive_packet_until sock buffer buff_len 0 HEADER_LEN).1 :=
            Int.toNat_of_nonneg (by omega)
          omega
      · exact_mod_cast hple

/-- C11: a SignupRequest or LogonRequest of received length `n` that carries
the token of the session and whose payload (bytes `8 .. n-1`) has no NUL, or
is one NUL-terminated field only, or does not end in a NUL, or goes on after
the second NUL: `handle_logon` ends with `ERROR_MALFORMED_REQUEST` in an
untouched environment (no call of the authentication service, whose only
state is the file system), and `handle_client` sends one Error packet with
code MalformedRequest, closes the socket and zeroes the session record. -/
theorem handle_client_malformed_logon (he : Endian) (md5 : List Nat → List Nat)
    (crc32 : List Nat → Nat) (w : World) (client_info : ClientInfo) (is_new_user : Bool)
    (n : Nat) (buf : List Nat) (rest : List Chunk)
    (hbuf : BUFFSIZE ≤ w.packet_buffer.length)
    (htok : client_info.session_token < 4294967296)
    (hR : receive_packet (w.incoming client_info.client_socket) w.packet_buffer BUFFSIZE
      = ((n : Int), buf, rest))
    (hn : 0 < n)
    (htype : header_type buf
      = (if is_new_user then PacketType.TYPE_SIGNUP_REQUEST
          else PacketType.TYPE_LOGON_REQUEST).toNat)
    (hhdr : header_session_token he buf = client_info.session_token)
    (hmal : (∀ b ∈ (buf.drop 8).take (n - 8), b ≠ 0)
      ∨ (∃ u : List Nat, (∀ b ∈ u, b ≠ 0) ∧ (buf.drop 8).take (n - 8) = u ++ [0])
      ∨ ((buf.drop 8).take (n - 8)).getLast? ≠ some 0
      ∨ (∃ u p extra : List Nat, (∀ b ∈ u, b ≠ 0) ∧ (∀ b ∈ p, b ≠ 0) ∧ extra ≠ []
          ∧ (buf.drop 8).take (n - 8) = u ++ [0] ++ p ++ [0] ++ extra)) :
    handle_logon he md5 (w.received client_info.client_socket buf rest) n client_info
        is_new_user .ERROR_UNKNOWN
      = { response_len := -1, error := .ERROR_MALFORMED_REQUEST,
          world := w.received client_info.client_socket buf rest, client_info := client_info }
    ∧ (handle_client he md5 crc32 w client_info).1.output
        = w.output ++ [Effect.send client_info.client_socket
              (error_packet he client_info.session_token .ERROR_MALFORMED_REQUEST),
            Effect.close client_info.client_socket]
    ∧ (error_packet he client_info.session_token .ERROR_MALFORMED_REQUEST).drop 8
        = [ErrorType.ERROR_MALFORMED_REQUEST.toNat]
    ∧ header_type (error_packet he client_info.session_token .ERROR_MALFORMED_REQUEST)
        = PacketType.TYPE_ERROR.toNat
    ∧ (handle_client he md5 crc32 w client_info).1.fs = w.fs
    ∧ (handle_client he md5 crc32 w client_info).1.rand = w.rand
    ∧ (handle_client he md5 crc32 w client_info).2 = ClientInfo.zeroed := by
  have hlenb : buf.length = w.packet_buffer.length := by
    have := receive_packet_length (w.incoming client_info.client_socket) w.packet_buffer BUFFSIZE
    rw [hR] at this; exact this
  have hb := receive_packet_bounds (w.incoming client_info.client_socket) w.packet_buffer
    BUFFSIZE (by rw [hR]; show (0 : Int) < (n : Int); omega)
  rw [hR] at hb
  have hn8 : 8 ≤ n := by have := hb.1; push_cast at this; omega
  have hnB : n ≤ BUFFSIZE := by have := hb.2; push_cast at this; omega
  have hlog := handle_logon_malformed he md5 (w.received client_info.client_socket buf rest) n
    client_info is_new_user .ERROR_UNKNOWN hn8
    (by show n ≤ buf.length; omega) hmal
  have hdisp : dispatch he md5 crc32 (w.received client_info.client_socket buf rest) n client_info
      = handle_logon he md5 (w.received client_info.client_socket buf rest) n client_info
          is_new_user .ERROR_UNKNOWN := by
    have hpb : (w.received client_info.client_socket buf rest).packet_buffer = buf := rfl
    cases is_new_user <;> simp [dispatch, hpb, htype, PacketType.toNat]
  have hres := handle_client_of_receive he md5 crc32 w client_info n buf rest hR hn hhdr
  rw [hdisp, hlog, respond_negative he _ (by show (-1 : Int) < 0; decide)
    (by show BUFFSIZE ≤ buf.length; omega) htok] at hres
  have hf := error_packet_fields he client_info.session_token .ERROR_MALFORMED_REQUEST htok
  rw [hres]
  refine ⟨hlog, ?_, hf.2.2.2.2, hf.2.1, rfl, rfl, rfl⟩
  simp [World.received, World.set_incoming]

theorem handle_client_malformed_logon_witness :
    (handle_client .little (fun _ => List.replicate 16 0) (fun _ => 0)
      (example_world [1, 2, 0, 11, 0, 0, 0, 0, 97, 98, 99])
      { client_socket := 4, username := List.replicate 129 0, session_token := 0 }).1.output
      = (example_world [1, 2, 0, 11, 0, 0, 0, 0, 97, 98, 99]).output
          ++ [Effect.send 4 (error_packet .little 0 .ERROR_MALFORMED_REQUEST), Effect.close 4] :=
  (handle_client_malformed_logon .little (fun _ => List.replicate 16 0) (fun _ => 0)
    (example_world [1, 2, 0, 11, 0, 0, 0, 0, 97, 98, 99])
    { client_socket := 4, username := List.replicate 129 0, session_token := 0 }
    false 11
    ([1, 2, 0, 11, 0, 0, 0, 0, 97, 98, 99] ++ List.replicate (BUFFSIZE + 1 - 11) 0) []
    (by simp [example_world]) (by decide)
    (receive_example_world [1, 2, 0, 11, 0, 0, 0, 0, 97, 98, 99]
      (by decide) (by decide) (by decide))
    (by decide) (by decide) (by decide) (Or.inl (by decide))).2.1

/-! ### Rejected logon requests -/

theorem fread_lines_nil : fread_lines [] = [] := by
  simp [fread_lines]

/-- A call of the authentication service that returns false leaves the file
system as it was. -/
theorem validate_user_reject_fs (md5 : List Nat → List Nat) (fs : FileSys)
    (is_new_user : Bool) (username password : List Nat)
    (h : (validate_user md5 fs is_new_user username password).1 = false) :
    (validate_user md5 fs is_new_user username password).2 = fs := by
  cases is_new_user with
  | false => simp [validate_user]
  | true =>
    simp only [validate_user, if_true] at h ⊢
    unfold create_user at h ⊢
    simp only [] at h ⊢
    split at h
    · rw [if_pos (by assumption)]
    · rename_i hc
      rw [if_neg hc]
      cases hr : fs.read DATABASE_FILE with
      | none =>
        simp [hr, fread_lines_nil] at h
      | some content =>
        simp only [hr, Option.isNone_some, Bool.false_eq_true, if_false, Option.getD_some] at h ⊢
        split at h
        · rename_i ha
          rw [if_pos ha]
        · simp at h

/-- C12: a well-formed SignupRequest for which `create_user` returns false, or
a well-formed LogonRequest for which `check_user` returns false, carrying the
token of the session: the server sends exactly one Error packet, with code
UsernameTaken for the signup and InvalidPassword for the logon, then closes
the socket; no token is generated (the `rand` state is untouched), the file
system is unchanged (no user directory, no new credential record) and the
session record is zeroed. -/
theorem handle_client_logon_rejected (he : Endian) (md5 : List Nat → List Nat)
    (crc32 : List Nat → Nat) (w : World) (client_info : ClientInfo) (is_new_user : Bool)
    (u p tl buf : List Nat) (rest : List Chunk)
    (hbuf : BUFFSIZE ≤ w.packet_buffer.length)
    (htok : client_info.session_token < 4294967296)
    (hu : ∀ b ∈ u, b ≠ 0) (hp : ∀ b ∈ p, b ≠ 0)
    (hR : receive_packet (w.incoming client_info.client_socket) w.packet_buffer BUFFSIZE
      = (((8 + u.length + 1 + p.length + 1 : Nat) : Int), buf, rest))
    (htype : header_type buf
      = (if is_new_user then PacketType.TYPE_SIGNUP_REQUEST
          else PacketType.TYPE_LOGON_REQUEST).toNat)
    (hhdr : header_session_token he buf = client_info.session_token)
    (hpay : buf.drop 8 = u ++ 0 :: (p ++ 0 :: tl))
    (hrej : (validate_user md5 w.fs is_new_user (buf.drop 8)
      (buf.drop (8 + (u.length + 1)))).1 = false) :
    (handle_client he md5 crc32 w client_info).1.output
        = w.output ++ [Effect.send client_info.client_socket
              (error_packet he client_info.session_token
                (if is_new_user then .ERROR_USERNAME_TAKEN else .ERROR_INVALID_PASSWORD)),
            Effect.close client_info.client_socket]
    ∧ (error_packet he client_info.session_token
          (if is_new_user then .ERROR_USERNAME_TAKEN else .ERROR_INVALID_PASSWORD)).drop 8
        = [(if is_new_user then ErrorType.ERROR_USERNAME_TAKEN
            else ErrorType.ERROR_INVALID_PASSWORD).toNat]
    ∧ header_type (error_packet he client_info.session_token
          (if is_new_user then .ERROR_USERNAME_TAKEN else .ERROR_INVALID_PASSWORD))
        = PacketType.TYPE_ERROR.toNat
    ∧ (handle_client he md5 crc32 w client_info).1.rand = w.rand
    ∧ (handle_client he md5 crc32 w client_info).1.fs = w.fs
    ∧ (handle_client he md5 crc32 w client_info).2 = ClientInfo.zeroed := by
  have hlenb : buf.length = w.packet_buffer.length := by
    have := receive_packet_length (w.incoming client_info.client_socket) w.packet_buffer BUFFSIZE
    rw [hR] at this; exact this
  have hB : (8 : Nat) ≤ BUFFSIZE := by decide
  have hsplit : buf = buf.take 8 ++ (u ++ 0 :: (p ++ 0 :: tl)) := by
    rw [← hpay, List.take_append_drop]
  have hhl : (buf.take 8).length = 8 := by rw [List.length_take]; omega
  have hdisp : dispatch he md5 crc32 (w.received client_info.client_socket buf rest)
      (8 + u.length + 1 + p.length + 1) client_info
      = handle_logon he md5 (w.received client_info.client_socket buf rest)
          (8 + u.length + 1 + p.length + 1) client_info is_new_user .ERROR_UNKNOWN := by
    have hpb : (w.received client_info.client_socket buf rest).packet_buffer = buf := rfl
    cases is_new_user <;> simp [dispatch, hpb, htype, PacketType.toNat]
  have hwf := handle_logon_wellformed he md5 (w.received client_info.client_socket buf rest)
    client_info is_new_user .ERROR_UNKNOWN (buf.take 8) u p tl hhl hu hp hsplit
  have hrej2 : (validate_user md5 (w.received client_info.client_socket buf rest).fs
      is_new_user (buf.drop 8) (buf.drop (8 + (u.length + 1)))).1 = false := hrej
  have hval := handle_logon_validate_reject he md5
    (w.received client_info.client_socket buf rest) client_info is_new_user .ERROR_UNKNOWN
    (buf.drop 8) (buf.drop (8 + (u.length + 1))) (u.length + 1) hrej2
  have hfs := validate_user_reject_fs md5 w.fs is_new_user _ _ hrej
  have hres := handle_client_of_receive he md5 crc32 w client_info _ buf rest hR (by omega) hhdr
  rw [hdisp, hwf.1] at hres
  have hpb : (w.received client_info.client_socket buf rest).packet_buffer = buf := rfl
  rw [hpb] at hres
  rw [hval, respond_negative he _ (by show (-1 : Int) < 0; decide)
    (by show BUFFSIZE ≤ buf.length; omega) htok] at hres
  have hf := error_packet_fields he client_info.session_token
    (if is_new_user then .ERROR_USERNAME_TAKEN else .ERROR_INVALID_PASSWORD) htok
  rw [hres]
  refine ⟨?_, hf.2.2.2.2, hf.2.1, rfl, ?_, rfl⟩
  · simp [World.received, World.set_incoming]
  · show (validate_user md5 (w.received client_info.client_socket buf rest).fs is_new_user
      (buf.drop 8) (buf.drop (8 + (u.length + 1)))).2 = w.fs
    exact hfs

theorem handle_client_logon_rejected_witness :
    (handle_client .little (fun _ => List.replicate 16 0) (fun _ => 0)
      (example_world [1, 2, 0, 12, 0, 0, 0, 0, 97, 0, 98, 0])
      { client_socket := 4, username := List.replicate 129 0, session_token := 0 }).1.output
      = (example_world [1, 2, 0, 12, 0, 0, 0, 0, 97, 0, 98, 0]).output
          ++ [Effect.send 4 (error_packet .little 0
                (if false then .ERROR_USERNAME_TAKEN else .ERROR_INVALID_PASSWORD)),
              Effect.close 4] :=
  (handle_client_logon_rejected .little (fun _ => List.replicate 16 0) (fun _ => 0)
    (example_world [1, 2, 0, 12, 0, 0, 0, 0, 97, 0, 98, 0])
    { client_socket := 4, username := List.replicate 129 0, session_token := 0 }
    false [97] [98] (List.replicate (BUFFSIZE + 1 - 12) 0)
    ([1, 2, 0, 12, 0, 0, 0, 0, 97, 0, 98, 0] ++ List.replicate (BUFFSIZE + 1 - 12) 0) []
    (by simp [example_world]) (by decide) (by decide) (by decide)
    (receive_example_world [1, 2, 0, 12, 0, 0, 0, 0, 97, 0, 98, 0]
      (by decide) (by decide) (by decide))
    (by decide) (by decide) rfl (by decide)).1

/-! ### Leave requests -/

theorem handle_client_leave (he : Endian) (md5 : List Nat → List Nat)
    (crc32 : List Nat → Nat) (w : World) (client_info : ClientInfo)
    (n : Nat) (buf : List Nat) (rest : List Chunk)
    (hbuf : BUFFSIZE ≤ w.packet_buffer.length)
    (htok : client_info.session_token < 4294967296)
    (hR : receive_packet (w.incoming client_info.client_socket) w.packet_buffer BUFFSIZE
      = ((n : Int), buf, rest))
    (hn : 0 < n)
    (htype : header_type buf = PacketType.TYPE_LEAVE_REQUEST.toNat)
    (hhdr : header_session_token he buf = client_info.session_token) :
    handle_client he md5 crc32 w client_info
      = ({ packet_buffer := error_packet he client_info.session_token .ERROR_UNKNOWN
              ++ buf.drop 9,
           incoming := (w.set_incoming client_info.client_socket rest).incoming,
           output := w.output
              ++ [Effect.send client_info.client_socket
                    (error_packet he client_info.session_token .ERROR_UNKNOWN),
                  Effect.close client_info.client_socket],
           fs := w.fs,
           rand := w.rand },
          ClientInfo.zeroed) := by
  have hlenb : buf.length = w.packet_buffer.length := by
    have := receive_packet_length (w.incoming client_info.client_socket) w.packet_buffer BUFFSIZE
    rw [hR] at this; exact this
  have hdisp : dispatch he md5 crc32 (w.received client_info.client_socket buf rest) n client_info
      = handle_leave (w.received client_info.client_socket buf rest) client_info
          .ERROR_UNKNOWN := by
    have hpb : (w.received client_info.client_socket buf rest).packet_buffer = buf := rfl
    simp [dispatch, hpb, htype, PacketType.toNat]
  have hres := handle_client_of_receive he md5 crc32 w client_info n buf rest hR hn hhdr
  rw [hdisp, handle_leave, respond_negative he _ (by show (-1 : Int) < 0; decide)
    (by show BUFFSIZE ≤ buf.length; omega) htok] at hres
  rw [hres]
  simp [World.received, World.set_incoming]

/-- C13, refuted as stated: a session with token 0 receives the 8-byte
LeaveRequest with token 0; before the socket is closed the server sends the
nine bytes of an Error packet with code `ERROR_UNKNOWN`. -/
theorem handle_client_leave_counterexample :
    (handle_client .little (fun _ => []) (fun _ => 0)
      (example_world [1, 4, 0, 8, 0, 0, 0, 0])
      { client_socket := 4, username := List.replicate 129 0, session_token := 0 }).1.output
      = [Effect.send 4 [1, 10, 0, 9, 0, 0, 0, 0, 1], Effect.close 4] := by
  rw [handle_client_leave .little (fun _ => []) (fun _ => 0)
    (example_world [1, 4, 0, 8, 0, 0, 0, 0])
    { client_socket := 4, username := List.replicate 129 0, session_token := 0 } 8
    ([1, 4, 0, 8, 0, 0, 0, 0] ++ List.replicate (BUFFSIZE + 1 - 8) 0) []
    (by simp [example_world]) (by decide)
    (receive_example_world [1, 4, 0, 8, 0, 0, 0, 0] (by decide) (by decide) (by decide))
    (by decide) (by decide) (by decide)]
  decide

/-- C13, amended: a LeaveRequest that carries the token of the session makes
`handle_client` send one 9-byte Error packet with that token and the code
`ERROR_UNKNOWN`, then close the socket and zero the session record; no handler
touches the file system or the random-number state. -/
theorem handle_client_leave_closes (he : Endian) (md5 : List Nat → List Nat)
    (crc32 : List Nat → Nat) (w : World) (client_info : ClientInfo)
    (n : Nat) (buf : List Nat) (rest : List Chunk)
    (hbuf : BUFFSIZE ≤ w.packet_buffer.length)
    (htok : client_info.session_token < 4294967296)
    (hR : receive_packet (w.incoming client_info.client_socket) w.packet_buffer BUFFSIZE
      = ((n : Int), buf, rest))
    (hn : 0 < n)
    (htype : header_type buf = PacketType.TYPE_LEAVE_REQUEST.toNat)
    (hhdr : header_session_token he buf = client_info.session_token) :
    (handle_client he md5 crc32 w client_info).1.output
        = w.output ++ [Effect.send client_info.client_socket
              (error_packet he client_info.session_token .ERROR_UNKNOWN),
            Effect.close client_info.client_socket]
    ∧ (error_packet he client_info.session_token .ERROR_UNKNOWN).length = 9
    ∧ header_type (error_packet he client_info.session_token .ERROR_UNKNOWN)
        = PacketType.TYPE_ERROR.toNat
    ∧ header_session_token he (error_packet he client_info.session_token .ERROR_UNKNOWN)
        = client_info.session_token
    ∧ (error_packet he client_info.session_token .ERROR_UNKNOWN).drop 8
        = [ErrorType.ERROR_UNKNOWN.toNat]
    ∧ (handle_client he md5 crc32 w client_info).1.fs = w.fs
    ∧ (handle_client he md5 crc32 w client_info).1.rand = w.rand
    ∧ (handle_client he md5 crc32 w client_info).2 = ClientInfo.zeroed := by
  have hf := error_packet_fields he client_info.session_token .ERROR_UNKNOWN htok
  rw [handle_client_leave he md5 crc32 w client_info n buf rest hbuf htok hR hn htype hhdr]
  exact ⟨rfl, hf.1, hf.2.1, hf.2.2.2.1, hf.2.2.2.2, rfl, rfl, rfl⟩

theorem handle_client_leave_closes_witness :
    (handle_client .little (fun _ => []) (fun _ => 0)
      (example_world [1, 4, 0, 8, 0, 0, 0, 0])
      { client_socket := 4, username := List.replicate 129 0, session_token := 0 }).2
      = ClientInfo.zeroed :=
  (handle_client_leave_closes .little (fun _ => []) (fun _ => 0)
    (example_world [1, 4, 0, 8, 0, 0, 0, 0])
    { client_socket := 4, username := List.replicate 129 0, session_token := 0 } 8
    ([1, 4, 0, 8, 0, 0, 0, 0] ++ List.replicate (BUFFSIZE + 1 - 8) 0) []
    (by simp [example_world]) (by decide)
    (receive_example_world [1, 4, 0, 8, 0, 0, 0, 0] (by decide) (by decide) (by decide))
    (by decide) (by decide) (by decide)).2.2.2.2.2.2.2

/-! ### Dispatch of list and file requests -/

theorem dispatch_list (he : Endian) (md5 : List Nat → List Nat) (crc32 : List Nat → Nat)
    (w : World) (n : Nat) (client_info : ClientInfo)
    (htype : header_type w.packet_buffer = PacketType.TYPE_LIST_REQUEST.toNat) :
    dispatch he md5 crc32 w n client_info = handle_list he crc32 w client_info .ERROR_UNKNOWN := by
  simp [dispatch, htype, PacketType.toNat]

theorem dispatch_file_request (he : Endian) (md5 : List Nat → List Nat)
    (crc32 : List Nat → Nat) (w : World) (n : Nat) (client_info : ClientInfo)
    (htype : header_type w.packet_buffer = PacketType.TYPE_FILE_REQUEST.toNat) :
    dispatch he md5 crc32 w n client_info
      = handle_file_request he w client_info .ERROR_UNKNOWN := by
  simp [dispatch, htype, PacketType.toNat]

theorem dispatch_file_transfer (he : Endian) (md5 : List Nat → List Nat)
    (crc32 : List Nat → Nat) (w : World) (n : Nat) (client_info : ClientInfo)
    (htype : header_type w.packet_buffer = PacketType.TYPE_FILE_TRANSFER.toNat) :
    dispatch he md5 crc32 w n client_info
      = handle_file_transfer he w n client_info .ERROR_UNKNOWN := by
  simp [dispatch, htype, PacketType.toNat]

/-- C14, refuted as stated: a session that has not logged on (no user name,
token 0) receives a ListRequest whose header token is 0.  The packet passes
the token check, `handle_list` runs, and the server answers with a
ListResponse (type 6) and keeps the session. -/
theorem handle_client_list_unauthenticated_counterexample :
    (handle_client .little (fun _ => []) (fun _ => 0) (example_world [1, 5, 0, 8, 0, 0, 0, 0])
        { client_socket := 4, username := List.replicate 129 0, session_token := 0 }).1.output
      = [Effect.send 4 [1, 6, 0, 8, 0, 0, 0, 0]]
    ∧ (handle_client .little (fun _ => []) (fun _ => 0) (example_world [1, 5, 0, 8, 0, 0, 0, 0])
        { client_socket := 4, username := List.replicate 129 0, session_token := 0 }).2
      = { client_socket := 4, username := List.replicate 129 0, session_token := 0 } := by
  have hres := handle_client_of_receive .little (fun _ => []) (fun _ => 0)
    (example_world [1, 5, 0, 8, 0, 0, 0, 0])
    { client_socket := 4, username := List.replicate 129 0, session_token := 0 } 8
    ([1, 5, 0, 8, 0, 0, 0, 0] ++ List.replicate (BUFFSIZE + 1 - 8) 0) []
    (receive_example_world [1, 5, 0, 8, 0, 0, 0, 0] (by decide) (by decide) (by decide))
    (by decide) (by decide)
  rw [dispatch_list _ _ _ _ _ _ (by decide)] at hres
  have hl : list_user_files (fun _ => 0)
      ((example_world [1, 5, 0, 8, 0, 0, 0, 0]).received 4
        ([1, 5, 0, 8, 0, 0, 0, 0] ++ List.replicate (BUFFSIZE + 1 - 8) 0) []).fs
      (List.replicate 129 0) = ([], 0) := by decide
  have hm := make_list_response_eq .little
    ([1, 5, 0, 8, 0, 0, 0, 0] ++ List.replicate (BUFFSIZE + 1 - 8) 0) BUFFSIZE 0 []
    (by simp) (by decide) (by rw [List.length_append, List.length_replicate]; decide)
  simp only [handle_list, hl] at hres
  have hpb : ((example_world [1, 5, 0, 8, 0, 0, 0, 0]).received 4
      ([1, 5, 0, 8, 0, 0, 0, 0] ++ List.replicate (BUFFSIZE + 1 - 8) 0) []).packet_buffer
      = [1, 5, 0, 8, 0, 0, 0, 0] ++ List.replicate (BUFFSIZE + 1 - 8) 0 := rfl
  rw [hpb] at hres
  simp only [List.length_nil] at hm
  rw [hm, respond_positive _ _ (by decide)] at hres
  rw [hres]
  constructor
  · simp only [World.send, World.received, World.set_incoming, example_world, List.nil_append,
      list_payload_spec, List.append_nil]
    rw [show Int.toNat (((8 + 68 * 0 : Nat) : Int)) = 8 from rfl,
      List.take_left' (header_bytes_length _ _ _ _)]
    decide
  · rfl

/-- C14, amended: a received ListRequest, FileRequest or FileTransfer packet
whose header token equals the token stored in the session goes to
`handle_list`, `handle_file_request` or `handle_file_transfer`, whether or not
a logon has completed (an unauthenticated session stores token 0, so token 0
passes); with any other token no handler runs and the session is removed. -/
theorem handle_client_file_dispatch (he : Endian) (md5 : List Nat → List Nat)
    (crc32 : List Nat → Nat) (w : World) (client_info : ClientInfo)
    (n : Nat) (buf : List Nat) (rest : List Chunk)
    (hR : receive_packet (w.incoming client_info.client_socket) w.packet_buffer BUFFSIZE
      = ((n : Int), buf, rest))
    (hn : 0 < n) :
    (header_session_token he buf = client_info.session_token →
      (header_type buf = PacketType.TYPE_LIST_REQUEST.toNat →
        handle_client he md5 crc32 w client_info
          = respond he (handle_list he crc32
              (w.received client_info.client_socket buf rest) client_info .ERROR_UNKNOWN))
      ∧ (header_type buf = PacketType.TYPE_FILE_REQUEST.toNat →
        handle_client he md5 crc32 w client_info
          = respond he (handle_file_request he
              (w.received client_info.client_socket buf rest) client_info .ERROR_UNKNOWN))
      ∧ (header_type buf = PacketType.TYPE_FILE_TRANSFER.toNat →
        handle_client he md5 crc32 w client_info
          = respond he (handle_file_transfer he
              (w.received client_info.client_socket buf rest) n client_info .ERROR_UNKNOWN)))
    ∧ (header_session_token he buf ≠ client_info.session_token →
        handle_client he md5 crc32 w client_info
          = remove_client (w.received client_info.client_socket buf rest) client_info) := by
  constructor
  · intro htok
    have hres := handle_client_of_receive he md5 crc32 w client_info n buf rest hR hn htok
    refine ⟨fun ht => ?_, fun ht => ?_, fun ht => ?_⟩
    · rw [hres, dispatch_list _ _ _ _ _ _ ht]
    · rw [hres, dispatch_file_request _ _ _ _ _ _ ht]
    · rw [hres, dispatch_file_transfer _ _ _ _ _ _ ht]
  · intro htok
    exact handle_client_of_mismatch he md5 crc32 w client_info n buf rest hR hn htok

theorem handle_client_file_dispatch_witness :
    handle_client .little (fun _ => []) (fun _ => 0) (example_world [1, 5, 0, 8, 0, 0, 0, 0])
        { client_socket := 4, username := List.replicate 129 0, session_token := 0 }
      = respond .little (handle_list .little (fun _ => 0)
          ((example_world [1, 5, 0, 8, 0, 0, 0, 0]).received 4
            ([1, 5, 0, 8, 0, 0, 0, 0] ++ List.replicate (BUFFSIZE + 1 - 8) 0) [])
          { client_socket := 4, username := List.replicate 129 0, session_token := 0 }
          .ERROR_UNKNOWN) :=
  ((handle_client_file_dispatch .little (fun _ => []) (fun _ => 0)
    (example_world [1, 5, 0, 8, 0, 0, 0, 0])
    { client_socket := 4, username := List.replicate 129 0, session_token := 0 } 8
    ([1, 5, 0, 8, 0, 0, 0, 0] ++ List.replicate (BUFFSIZE + 1 - 8) 0) []
    (receive_example_world [1, 5, 0, 8, 0, 0, 0, 0] (by decide) (by decide) (by decide))
    (by decide)).1 (by decide)).1 (by decide)

/-! ### Reads from a socket with pending bytes -/

theorem recv_ok (sock : List Chunk) (len : Nat) (hp : pending_bytes sock ≠ [])
    (hlen : 0 < len) : ¬ (recv sock len).1 ≤ 0 := by
  cases sock with
  | nil => simp [pending_bytes] at hp
  | cons c rest =>
    cases c with
    | eof => simp [pending_bytes] at hp
    | err => simp [pending_bytes] at hp
    | data bytes =>
      simp only [recv, List.length_take]
      by_cases hbn : bytes = []
      · simp [pending_bytes, hbn] at hp
      · have : 0 < bytes.length := List.length_pos.2 hbn
        omega

/-- A read that succeeds takes a non-empty prefix of the pending bytes. -/
theorem recv_pending (sock : List Chunk) (len : Nat) (h : ¬ (recv sock len).1 ≤ 0) :
    ∃ j : Nat, 0 < j ∧ j ≤ len ∧ j ≤ (pending_bytes sock).length
      ∧ (recv sock len).2.1 = (pending_bytes sock).take j
      ∧ (recv sock len).2.1.length = j
      ∧ (recv sock len).2.2 = consume sock j
      ∧ pending_bytes (consume sock j) = (pending_bytes sock).drop j := by
  obtain ⟨bytes, rest, hs, hbt, _, hpos, hc, hp⟩ := recv_pos sock len h
  have hlen : (bytes.take len).length ≤ len := by
    simp only [List.length_take]; omega
  have hle : (bytes.take len).length ≤ bytes.length := by
    simp only [List.length_take]; omega
  have htake : bytes.take len = (pending_bytes sock).take (bytes.take len).length := by
    rw [hp, List.take_append_of_le_length hle, take_length_take]
  have hpend : pending_bytes (consume sock (bytes.take len).length)
      = (pending_bytes sock).drop (bytes.take len).length := by
    rw [← hc, hp, hs]
    simp only [recv]
    by_cases hd : bytes.drop len = []
    · have hd2 := List.drop_eq_nil_iff.1 hd
      rw [if_pos hd, List.take_of_length_le hd2, List.drop_left]
    · have hlt2 : len < bytes.length := by
        by_contra hcn
        exact hd (List.drop_eq_nil_iff.2 (by omega))
      have hj2 : (bytes.take len).length = len := by
        rw [List.length_take]; omega
      rw [if_neg hd]
      simp only [pending_bytes, if_neg hd]
      rw [hj2, List.drop_append_of_le_length (by omega)]
  have hplen : (pending_bytes sock).length = bytes.length + (pending_bytes rest).length := by
    rw [hp, List.length_append]
  refine ⟨(bytes.take len).length, hpos, hlen, by omega, ?_, ?_, hc, hpend⟩
  · rw [hbt]; exact htake
  · rw [hbt]

theorem set_incoming_same (w : World) (socket : Int) (sock : List Chunk) :
    (w.set_incoming socket sock).incoming socket = sock := by
  simp [World.set_incoming]

/-! ### The receiving loop of `handle_file_transfer` -/

/-- The loop touches nothing but the pending input of its socket and the
contents of the packet buffer. -/
theorem handle_file_transfer_loop_frame (socket : Int) (fuel : Nat) (w : World)
    (n_received request_len : Nat) (written : List Nat) :
    (handle_file_transfer_loop socket fuel w n_received request_len written).1.output = w.output
    ∧ (handle_file_transfer_loop socket fuel w n_received request_len written).1.fs = w.fs
    ∧ (handle_file_transfer_loop socket fuel w n_received request_len written).1.rand = w.rand
    ∧ (handle_file_transfer_loop socket fuel w n_received request_len written).1.packet_buffer.length
        = w.packet_buffer.length := by
  induction fuel generalizing w n_received written with
  | zero => simp [handle_file_transfer_loop]
  | succ fuel ih =>
    simp only [handle_file_transfer_loop]
    by_cases hlt : n_received < request_len
    · simp only [if_pos hlt]
      by_cases hr : (recv (w.incoming socket) BUFFSIZE).1 ≤ 0
      · simp only [if_pos hr, World.set_incoming, and_self]
      · simp only [if_neg hr]
        obtain ⟨a, b, c, d⟩ := ih
          { w.set_incoming socket (recv (w.incoming socket) BUFFSIZE).2.2 with
            packet_buffer := memcpy (w.set_incoming socket
              (recv (w.incoming socket) BUFFSIZE).2.2).packet_buffer 0
              (recv (w.incoming socket) BUFFSIZE).2.1 }
          (n_received + (recv (w.incoming socket) BUFFSIZE).2.1.length)
          (written ++ (recv (w.incoming socket) BUFFSIZE).2.1)
        refine ⟨a, b, c, ?_⟩
        rw [d]
        simp only [memcpy_length, World.set_incoming]
    · simp only [if_neg hlt, and_self]

/-- When exactly the missing bytes are pending, the loop reads all of them and
the contents written are extended by them, in order. -/
theorem handle_file_transfer_loop_complete (socket : Int) (fuel : Nat) (w : World)
    (n_received request_len : Nat) (written : List Nat)
    (hfuel : request_len - n_received ≤ fuel)
    (h : n_received + (pending_bytes (w.incoming socket)).length = request_len) :
    (handle_file_transfer_loop socket fuel w n_received request_len written).2
      = some (written ++ pending_bytes (w.incoming socket)) := by
  induction fuel generalizing w n_received written with
  | zero =>
    have : pending_bytes (w.incoming socket) = [] := List.length_eq_zero.1 (by omega)
    simp [handle_file_transfer_loop, this]
  | succ fuel ih =>
    simp only [handle_file_transfer_loop]
    by_cases hlt : n_received < request_len
    · simp only [if_pos hlt]
      have hne : pending_bytes (w.incoming socket) ≠ [] := by
        intro h0; rw [h0] at h; simp at h; omega
      have hr := recv_ok (w.incoming socket) BUFFSIZE hne (by decide)
      obtain ⟨j, hj0, _, hjl, e1, e2, e3, e4⟩ := recv_pending (w.incoming socket) BUFFSIZE hr
      simp only [if_neg hr]
      rw [ih _ _ _ (by rw [e2]; omega)
        (by rw [e2]; simp only [World.set_incoming, if_true]; rw [e3, e4, List.length_drop]; omega)]
      simp only [World.set_incoming, if_true]
      rw [e3, e4, e1, List.append_assoc, List.take_append_drop]
    · simp only [if_neg hlt]
      have : pending_bytes (w.incoming socket) = [] := List.length_eq_zero.1 (by omega)
      simp [this]

/-- When fewer bytes than declared arrive before a read that reports zero or
a negative count, the loop reports the failure. -/
theorem handle_file_transfer_loop_fails (socket : Int) (fuel : Nat) (w : World)
    (n_received request_len : Nat) (written : List Nat)
    (hfuel : request_len - n_received ≤ fuel)
    (h : n_received + (pending_bytes (w.incoming socket)).length < request_len) :
    (handle_file_transfer_loop socket fuel w n_received request_len written).2 = none := by
  induction fuel generalizing w n_received written with
  | zero => omega
  | succ fuel ih =>
    simp only [handle_file_transfer_loop]
    have hlt : n_received < request_len := by omega
    simp only [if_pos hlt]
    by_cases hr : (recv (w.incoming socket) BUFFSIZE).1 ≤ 0
    · simp only [if_pos hr]
    · obtain ⟨j, hj0, _, hjl, e1, e2, e3, e4⟩ := recv_pending (w.incoming socket) BUFFSIZE hr
      simp only [if_neg hr]
      exact ih _ _ _ (by rw [e2]; omega)
        (by rw [e2]; simp only [World.set_incoming, if_true]; rw [e3, e4, List.length_drop]; omega)

/-! ### Files -/

theorem fs_read_write (fs : FileSys) (path content : List Nat) :
    (fs.write path content).read path = some content := by
  simp only [FileSys.write, FileSys.read]
  by_cases h : fs.files.any (fun f => decide (f.1 = path)) = true
  · simp only [if_pos h]
    have : ∀ l : List (List Nat × List Nat), l.any (fun f => decide (f.1 = path)) = true →
        ((l.map (fun f => if f.1 = path then (path, content) else f)).find?
          (fun f => decide (f.1 = path))).map Prod.snd = some content := by
      intro l
      induction l with
      | nil => simp
      | cons a l ih =>
        intro ha
        by_cases hap : a.1 = path
        · simp [List.find?, hap]
        · simp only [List.any_cons, decide_eq_false hap, Bool.false_or] at ha
          simp only [List.map_cons, if_neg hap, List.find?, decide_eq_false hap]
          exact ih ha
    exact this _ h
  · simp only [if_neg h]
    have h2 : ∀ f ∈ fs.files, ¬ f.1 = path := by
      intro f hf hp
      apply h
      rw [List.any_eq_true]
      exact ⟨f, hf, by simp [hp]⟩
    rw [List.find?_append]
    have : fs.files.find? (fun f => decide (f.1 = path)) = none := by
      rw [List.find?_eq_none]
      intro f hf
      simp [h2 f hf]
    rw [this]
    simp

theorem fs_write_write (fs : FileSys) (path a b : List Nat) :
    (fs.write path a).write path b = fs.write path b := by
  by_cases h : fs.files.any (fun f => decide (f.1 = path)) = true
  · have h1 : (fs.files.map (fun f => if f.1 = path then (path, a) else f)).any
        (fun f => decide (f.1 = path)) = true := by
      rw [List.any_eq_true] at h ⊢
      obtain ⟨f, hf, hp⟩ := h
      refine ⟨(path, a), ?_, by simp⟩
      rw [List.mem_map]
      exact ⟨f, hf, by rw [if_pos (of_decide_eq_true hp)]⟩
    simp only [FileSys.write, if_pos h, if_pos h1, List.map_map]
    congr 1
    apply List.map_congr_left
    intro f _
    by_cases hp : f.1 = path
    · simp [hp]
    · simp [hp]
  · have h2 : ∀ f ∈ fs.files, ¬ f.1 = path := by
      intro f hf hp
      apply h
      rw [List.any_eq_true]
      exact ⟨f, hf, by simp [hp]⟩
    have h1 : (fs.files ++ [(path, a)]).any (fun f => decide (f.1 = path)) = true := by
      simp
    simp only [FileSys.write, if_neg h, if_pos h1, List.map_append, List.map_cons, List.map_nil,
      if_true]
    congr 2
    conv_rhs => rw [← List.map_id fs.files]
    apply List.map_congr_left
    intro f hf
    simp [h2 f hf]

theorem fs_read_remove (fs : FileSys) (path : List Nat) :
    (fs.remove path).read path = none := by
  simp only [FileSys.remove, FileSys.read, Option.map_eq_none', List.find?_eq_none]
  intro f hf
  have := (List.mem_filter.1 hf).2
  simpa using this

theorem fs_remove_write (fs : FileSys) (path a : List Nat) :
    (fs.write path a).remove path = fs.remove path := by
  by_cases h : fs.files.any (fun f => decide (f.1 = path)) = true
  · simp only [FileSys.write, if_pos h, FileSys.remove]
    congr 1
    generalize fs.files = l
    induction l with
    | nil => rfl
    | cons x l ih =>
      by_cases hp : x.1 = path
      · have e1 : decide ((path, a).1 ≠ path) = false := by simp
        have e2 : decide (x.1 ≠ path) = false := by simp [hp]
        rw [List.map_cons, if_pos hp, List.filter_cons, List.filter_cons, e1, e2]
        exact ih
      · have e2 : decide (x.1 ≠ path) = true := by simp [hp]
        rw [List.map_cons, if_neg hp, List.filter_cons, List.filter_cons, e2, if_pos rfl,
          if_pos rfl, ih]
  · simp only [FileSys.write, if_neg h, FileSys.remove, List.filter_append]
    simp

/-- Bytes of a received prefix are those of the stream. -/
theorem memcpy_zero_take_getD (buffer S : List Nat) (m i : Nat) (hi : i < m)
    (hm : m ≤ S.length) (hb : m ≤ buffer.length) :
    (memcpy buffer 0 (S.take m)).getD i 0 = S.getD i 0 := by
  have hl : (S.take m).length = m := by rw [List.length_take]; omega
  rw [memcpy_eq _ _ _ (by rw [hl]; omega)]
  simp only [List.take_zero, List.nil_append, List.getD_eq_getElem?_getD]
  rw [List.getElem?_append_left (by rw [hl]; omega), List.getElem?_take, if_pos hi]

theorem header_fields_memcpy (he : Endian) (buffer S : List Nat) (m : Nat)
    (h8 : 8 ≤ m) (hm : m ≤ S.length) (hb : m ≤ buffer.length) :
    header_type (memcpy buffer 0 (S.take m)) = header_type S
    ∧ header_session_token he (memcpy buffer 0 (S.take m)) = header_session_token he S := by
  have g := fun i (hi : i < m) => memcpy_zero_take_getD buffer S m i hi hm hb
  simp only [header_type, header_session_token]
  rw [g 1 (by omega), g 4 (by omega), g 5 (by omega), g 6 (by omega), g 7 (by omega)]
  exact ⟨rfl, rfl⟩

/-! ### Uploads received by the server -/

theorem pending_bytes_consume (sock : List Chunk) (k : Nat)
    (hk : k ≤ (pending_bytes sock).length) :
    pending_bytes (consume sock k) = (pending_bytes sock).drop k := by
  induction sock generalizing k with
  | nil => simp [consume, pending_bytes]
  | cons c rest ih =>
    cases c with
    | eof => simp [consume, pending_bytes]
    | err => simp [consume, pending_bytes]
    | data bytes =>
      by_cases hb : bytes = []
      · have h0 : k = 0 := by
          simp only [pending_bytes, if_pos hb, List.length_nil] at hk; omega
        subst h0; rw [consume_zero, List.drop_zero]
      · by_cases h0 : k = 0
        · subst h0; rw [consume_zero, List.drop_zero]
        · simp only [pending_bytes, if_neg hb, List.length_append] at hk ⊢
          simp only [consume, if_neg h0]
          by_cases hlt : k < bytes.length
          · have hd : bytes.drop k ≠ [] := by
              intro h; have := List.drop_eq_nil_iff.1 h; omega
            rw [if_pos hlt]
            simp only [pending_bytes, if_neg hd]
            rw [List.drop_append_of_le_length (by omega)]
          · rw [if_neg hlt, ih (k - bytes.length) (by omega), List.drop_append_eq_append_drop,
              List.drop_of_length_le (by omega : bytes.length ≤ k), List.nil_append]

/-- The upload handler when all missing bytes arrive: the destination holds
the body bytes of the buffered part followed by the bytes read directly, the
reply in the buffer is a FileReceived header, nothing is sent or closed by
the handler itself. -/
theorem handle_file_transfer_complete (he : Endian) (w : World) (m : Nat)
    (client_info : ClientInfo) (error : ErrorType)
    (hm72 : 72 ≤ m) (hmB : m ≤ BUFFSIZE) (hbuf : BUFFSIZE ≤ w.packet_buffer.length)
    (hpend : m + (pending_bytes (w.incoming client_info.client_socket)).length
      = header_packet_len w.packet_buffer) :
    (handle_file_transfer he w m client_info error).response_len = 8
    ∧ (handle_file_transfer he w m client_info error).client_info = client_info
    ∧ (handle_file_transfer he w m client_info error).world.output = w.output
    ∧ (handle_file_transfer he w m client_info error).world.rand = w.rand
    ∧ (handle_file_transfer he w m client_info error).world.fs
        = w.fs.write (join_path (path_to_user client_info.username)
              ((w.packet_buffer.drop 8).take 64))
            ((w.packet_buffer.drop 72).take (m - 72)
              ++ pending_bytes (w.incoming client_info.client_socket))
    ∧ (handle_file_transfer he w m client_info error).world.packet_buffer.take 8
        = header_bytes he .TYPE_FILE_RECEIVED 8 (client_info.session_token % 4294967296) := by
  have hc : (m + 18446744073709551616 - (HEADER_LEN + MAX_FILE_NAME_LEN)) % 18446744073709551616
      = m - 72 := by
    simp only [HEADER_LEN, MAX_FILE_NAME_LEN, BUFFSIZE] at hmB ⊢
    omega
  have hloop := handle_file_transfer_loop_complete client_info.client_socket
    (header_packet_len w.packet_buffer - m)
    { w with
      fs := w.fs.write
              (join_path (path_to_user client_info.username)
                ((w.packet_buffer.drop HEADER_LEN).take MAX_FILE_NAME_LEN))
              ((w.packet_buffer.drop (HEADER_LEN + MAX_FILE_NAME_LEN)).take (m - 72)) }
    m (header_packet_len w.packet_buffer)
    ((w.packet_buffer.drop (HEADER_LEN + MAX_FILE_NAME_LEN)).take (m - 72)) (le_refl _) hpend
  obtain ⟨f1, f2, f3, f4⟩ := handle_file_transfer_loop_frame client_info.client_socket
    (header_packet_len w.packet_buffer - m)
    { w with
      fs := w.fs.write
              (join_path (path_to_user client_info.username)
                ((w.packet_buffer.drop HEADER_LEN).take MAX_FILE_NAME_LEN))
              ((w.packet_buffer.drop (HEADER_LEN + MAX_FILE_NAME_LEN)).take (m - 72)) }
    m (header_packet_len w.packet_buffer)
    ((w.packet_buffer.drop (HEADER_LEN + MAX_FILE_NAME_LEN)).take (m - 72))
  have hmk := make_header_only_packet_eq he _ BUFFSIZE .TYPE_FILE_RECEIVED
    client_info.session_token (by rw [f4]; exact hbuf) (by decide)
  simp only [HEADER_LEN, MAX_FILE_NAME_LEN] at hc hloop f1 f2 f3 f4 hmk
  simp only [handle_file_transfer, HEADER_LEN, MAX_FILE_NAME_LEN, hc, hloop,
    make_file_received_packet, hmk, f1, f2, f3, fs_write_write, true_and]
  exact List.take_left' (header_bytes_length _ _ _ _)

/-- The upload handler when a read fails before all declared bytes have
arrived: the destination file is removed and the reply in the buffer is an
Error packet with the code `ERROR_FILE_UPLOAD_FAILED`. -/
theorem handle_file_transfer_failed (he : Endian) (w : World) (m : Nat)
    (client_info : ClientInfo) (error : ErrorType)
    (hbuf : BUFFSIZE ≤ w.packet_buffer.length)
    (hpend : m + (pending_bytes (w.incoming client_info.client_socket)).length
      < header_packet_len w.packet_buffer) :
    (handle_file_transfer he w m client_info error).response_len = 9
    ∧ (handle_file_transfer he w m client_info error).client_info = client_info
    ∧ (handle_file_transfer he w m client_info error).world.output = w.output
    ∧ (handle_file_transfer he w m client_info error).world.rand = w.rand
    ∧ (handle_file_transfer he w m client_info error).world.fs
        = w.fs.remove (join_path (path_to_user client_info.username)
              ((w.packet_buffer.drop 8).take 64))
    ∧ (handle_file_transfer he w m client_info error).world.packet_buffer.take 9
        = error_packet he (client_info.session_token % 4294967296)
            .ERROR_FILE_UPLOAD_FAILED := by
  have hloop := handle_file_transfer_loop_fails client_info.client_socket
    (header_packet_len w.packet_buffer - m)
    { w with
      fs := w.fs.write
              (join_path (path_to_user client_info.username)
                ((w.packet_buffer.drop HEADER_LEN).take MAX_FILE_NAME_LEN))
              ((w.packet_buffer.drop (HEADER_LEN + MAX_FILE_NAME_LEN)).take
                ((m + 18446744073709551616 - (HEADER_LEN + MAX_FILE_NAME_LEN))
                  % 18446744073709551616)) }
    m (header_packet_len w.packet_buffer)
    ((w.packet_buffer.drop (HEADER_LEN + MAX_FILE_NAME_LEN)).take
      ((m + 18446744073709551616 - (HEADER_LEN + MAX_FILE_NAME_LEN)) % 18446744073709551616))
    (le_refl _) hpend
  obtain ⟨f1, f2, f3, f4⟩ := handle_file_transfer_loop_frame client_info.client_socket
    (header_packet_len w.packet_buffer - m)
    { w with
      fs := w.fs.write
              (join_path (path_to_user client_info.username)
                ((w.packet_buffer.drop HEADER_LEN).take MAX_FILE_NAME_LEN))
              ((w.packet_buffer.drop (HEADER_LEN + MAX_FILE_NAME_LEN)).take
                ((m + 18446744073709551616 - (HEADER_LEN + MAX_FILE_NAME_LEN))
                  % 18446744073709551616)) }
    m (header_packet_len w.packet_buffer)
    ((w.packet_buffer.drop (HEADER_LEN + MAX_FILE_NAME_LEN)).take
      ((m + 18446744073709551616 - (HEADER_LEN + MAX_FILE_NAME_LEN)) % 18446744073709551616))
  have hmk := make_error_response_eq he _ BUFFSIZE client_info.session_token
    .ERROR_FILE_UPLOAD_FAILED (by rw [f4]; exact hbuf) (by decide)
  simp only [HEADER_LEN, MAX_FILE_NAME_LEN] at hloop f1 f2 f3 f4 hmk
  simp only [handle_file_transfer, HEADER_LEN, MAX_FILE_NAME_LEN, hloop,
    hmk, f1, f2, f3, fs_remove_write, true_and]
  rw [← error_packet]
  exact List.take_left' (error_packet_fields he _ _ (Nat.mod_lt _ (by decide))).1

theorem received_fields (w : World) (socket : Int) (buf : List Nat) (rest : List Chunk) :
    (w.received socket buf rest).packet_buffer = buf
    ∧ (w.received socket buf rest).incoming socket = rest
    ∧ (w.received socket buf rest).output = w.output
    ∧ (w.received socket buf rest).fs = w.fs
    ∧ (w.received socket buf rest).rand = w.rand := by
  simp [World.received, World.set_incoming]

/-- What the receive buffer holds of a stream `P` after its first `m` bytes
were stored at the start of the buffer. -/
theorem memcpy_zero_take_parts (buffer P : List Nat) (m : Nat) (hm72 : 72 ≤ m)
    (hm : m ≤ P.length) (hb : m ≤ buffer.length) :
    ((memcpy buffer 0 (P.take m)).drop 8).take 64 = (P.drop 8).take 64
    ∧ ((memcpy buffer 0 (P.take m)).drop 72).take (m - 72) = (P.take m).drop 72
    ∧ (P.take m).drop 72 ++ P.drop m = P.drop 72 := by
  have ht := memcpy_zero_take buffer P m hm hb
  have hl : (P.take m).length = m := by rw [List.length_take]; omega
  refine ⟨?_, ?_, ?_⟩
  · have e1 : ((memcpy buffer 0 (P.take m)).drop 8).take 64
        = (((memcpy buffer 0 (P.take m)).take m).drop 8).take 64 := by
      rw [List.drop_take, List.take_take, min_eq_left (by omega)]
    have e2 : (P.drop 8).take 64 = ((P.take m).drop 8).take 64 := by
      rw [List.drop_take, List.take_take, min_eq_left (by omega)]
    rw [e1, e2, ht]
  · rw [← List.drop_take, ht]
  · conv_rhs => rw [← List.take_append_drop m P]
    rw [List.drop_append_of_le_length (by rw [hl]; exact hm72)]

/-- C19: a FileTransfer request `P` whose header declares its own length
`L ≥ 72` and carries the token of the session arrives completely, in any
division into non-empty chunks, with nothing after it.  Then the server writes
to the file named by bytes 8..71 of `P`, inside the directory of the session's
user, the bytes of `P` from index 72 on: first the part that `receive_packet`
buffered (bytes 72 up to `min L BUFFSIZE`), then the bytes read directly.  It
sends exactly one packet, the 8-byte FileReceived header with the session
token, closes nothing and keeps the session record. -/
theorem handle_client_file_transfer_received (he : Endian) (md5 : List Nat → List Nat)
    (crc32 : List Nat → Nat) (w : World) (client_info : ClientInfo)
    (chunks : List (List Nat))
    (hin : w.incoming client_info.client_socket = deliver chunks [])
    (hne : ∀ c ∈ chunks, c ≠ [])
    (hL : 72 ≤ chunks.flatten.length)
    (hdecl : header_packet_len chunks.flatten = chunks.flatten.length)
    (htype : header_type chunks.flatten = PacketType.TYPE_FILE_TRANSFER.toNat)
    (htok : header_session_token he chunks.flatten = client_info.session_token)
    (hlt : client_info.session_token < 4294967296)
    (hbuf : BUFFSIZE ≤ w.packet_buffer.length) :
    (handle_client he md5 crc32 w client_info).1.fs
      = w.fs.write
          (join_path (path_to_user client_info.username) ((chunks.flatten.drop 8).take 64))
          ((chunks.flatten.take (min chunks.flatten.length BUFFSIZE)).drop 72
            ++ chunks.flatten.drop (min chunks.flatten.length BUFFSIZE))
    ∧ (chunks.flatten.take (min chunks.flatten.length BUFFSIZE)).drop 72
        ++ chunks.flatten.drop (min chunks.flatten.length BUFFSIZE) = chunks.flatten.drop 72
    ∧ (handle_client he md5 crc32 w client_info).1.fs.read
          (join_path (path_to_user client_info.username) ((chunks.flatten.drop 8).take 64))
        = some (chunks.flatten.drop 72)
    ∧ (chunks.flatten.drop 72).length = header_packet_len chunks.flatten - 72
    ∧ (handle_client he md5 crc32 w client_info).1.output
        = w.output ++ [Effect.send client_info.client_socket
            (header_bytes he .TYPE_FILE_RECEIVED 8 client_info.session_token)]
    ∧ (header_bytes he .TYPE_FILE_RECEIVED 8 client_info.session_token).length = 8
    ∧ (handle_client he md5 crc32 w client_info).2 = client_info := by
  have hp : pending_bytes (deliver chunks []) = chunks.flatten := by
    rw [pending_bytes_deliver chunks [] hne]; simp [pending_bytes]
  have e := receive_packet_succeeds (deliver chunks []) w.packet_buffer BUFFSIZE (by decide)
    hbuf (by rw [hp, hdecl]; omega) (by rw [hp, hdecl]; exact min_le_left _ _)
    (by rw [hp, hdecl])
  rw [hp, hdecl] at e
  generalize hP : chunks.flatten = P at *
  generalize hm : min P.length BUFFSIZE = m at *
  have hmP : m ≤ P.length := by rw [← hm]; exact min_le_left _ _
  have hmB : m ≤ BUFFSIZE := by rw [← hm]; exact min_le_right _ _
  have hm72 : 72 ≤ m := by
    rw [← hm]; exact le_min hL (by decide)
  have hmb : m ≤ w.packet_buffer.length := by omega
  obtain ⟨q1, q2, q3⟩ := memcpy_zero_take_parts w.packet_buffer P m hm72 hmP hmb
  obtain ⟨g1, g2⟩ := header_fields_memcpy he w.packet_buffer P m (by omega) hmP hmb
  have g3 := header_packet_len_memcpy w.packet_buffer P m (by omega) hmP hmb
  have hres := handle_client_of_receive he md5 crc32 w client_info m
    (memcpy w.packet_buffer 0 (P.take m)) (consume (deliver chunks []) m)
    (by rw [hin]; exact e) (by omega) (by rw [g2]; exact htok)
  obtain ⟨r1, r2, r3, r4, r5⟩ := received_fields w client_info.client_socket
    (memcpy w.packet_buffer 0 (P.take m)) (consume (deliver chunks []) m)
  rw [dispatch_file_transfer _ _ _ _ _ _ (by rw [r1, g1]; exact htype)] at hres
  have hpc := pending_bytes_consume (deliver chunks []) m (by rw [hp]; exact hmP)
  rw [hp] at hpc
  obtain ⟨c1, c2, c3, c4, c5, c6⟩ := handle_file_transfer_complete he
    (w.received client_info.client_socket (memcpy w.packet_buffer 0 (P.take m))
      (consume (deliver chunks []) m)) m client_info .ERROR_UNKNOWN hm72 hmB
    (by rw [r1, memcpy_length]; exact hbuf)
    (by rw [r1, r2, hpc, g3, hdecl, List.length_drop]; omega)
  rw [r1, r2, r4, hpc, q1, q2] at c5
  rw [respond_positive _ _ (by rw [c1]; decide)] at hres
  rw [hres]
  simp only [World.send, c1, c2, c3, c5, r3]
  rw [show Int.toNat 8 = 8 from rfl, c6, Nat.mod_eq_of_lt hlt]
  refine ⟨trivial, q3, ?_, ?_, rfl, header_bytes_length _ _ _ _, trivial⟩
  · rw [q3]; exact fs_read_write _ _ _
  · rw [List.length_drop, hdecl]

theorem handle_client_file_transfer_received_witness :
    (handle_client .little (fun _ => []) (fun _ => 0)
        { example_world [] with
          incoming := fun _ =>
            deliver [[1, 8, 0, 75, 7, 0, 0, 0] ++ 97 :: List.replicate 31 0,
              List.replicate 32 0 ++ [10, 20, 30]] [] }
        { client_socket := 4, username := 98 :: List.replicate 128 0, session_token := 7 }).1.fs.read
      (join_path (path_to_user (98 :: List.replicate 128 0))
        (([[1, 8, 0, 75, 7, 0, 0, 0] ++ 97 :: List.replicate 31 0,
            List.replicate 32 0 ++ [10, 20, 30]].flatten.drop 8).take 64))
      = some [10, 20, 30] :=
  (handle_client_file_transfer_received .little (fun _ => []) (fun _ => 0)
    { example_world [] with
      incoming := fun _ =>
        deliver [[1, 8, 0, 75, 7, 0, 0, 0] ++ 97 :: List.replicate 31 0,
          List.replicate 32 0 ++ [10, 20, 30]] [] }
    { client_socket := 4, username := 98 :: List.replicate 128 0, session_token := 7 }
    [[1, 8, 0, 75, 7, 0, 0, 0] ++ 97 :: List.replicate 31 0, List.replicate 32 0 ++ [10, 20, 30]]
    rfl (by decide) (by decide) (by decide) (by decide) (by decide) (by decide)
    (by show BUFFSIZE ≤ (List.replicate (BUFFSIZE + 1) 0).length
        rw [List.length_replicate]; omega)).2.2.1

/-! ### Uploads that break off -/

/-- The header arrives, but fewer than `min (declared packet_len) buff_len`
bytes do before a read reports zero or a negative count. -/
theorem receive_packet_short (sock : List Chunk) (buffer : List Nat) (buff_len : Nat)
    (hb : buff_len ≤ buffer.length) (h8 : 8 ≤ (pending_bytes sock).length)
    (hlt : (pending_bytes sock).length < min (header_packet_len (pending_bytes sock)) buff_len) :
    (receive_packet sock buffer buff_len).1 = -1 := by
  have hbl : 8 ≤ buff_len := by
    have := min_le_right (header_packet_len (pending_bytes sock)) buff_len
    omega
  obtain ⟨m1, e1, _, a2, a3, a4, a5⟩ :=
    receive_packet_until_succeeds sock buffer buff_len 0 HEADER_LEN
      (by simp [HEADER_LEN]; omega) hb (by omega) (by simp [HEADER_LEN]; omega)
  simp only [HEADER_LEN] at a2
  simp only [Nat.sub_zero, Nat.zero_add] at e1 a4 a5
  have hm1 : ¬ ((m1 : Int) ≤ 0) := by omega
  unfold receive_packet
  simp only [e1, if_neg hm1, Int.toNat_ofNat]
  rw [header_packet_len_memcpy buffer _ m1 (by omega) a4 (by omega)]
  have hmin : (if header_packet_len (pending_bytes sock) > buff_len then buff_len
      else header_packet_len (pending_bytes sock))
      = min (header_packet_len (pending_bytes sock)) buff_len := by
    by_cases h : header_packet_len (pending_bytes sock) > buff_len
    · rw [if_pos h, min_eq_right (by omega)]
    · rw [if_neg h, min_eq_left (by omega)]
  rw [hmin]
  have hf := receive_packet_until_fails (consume sock m1)
    (memcpy buffer 0 ((pending_bytes sock).take m1)) buff_len m1
    (min (header_packet_len (pending_bytes sock)) buff_len)
    (Or.inl (by rw [a5, List.length_drop]; omega))
  have hne : (receive_packet_until (consume sock m1)
    (memcpy buffer 0 ((pending_bytes sock).take m1)) buff_len m1
    (min (header_packet_len (pending_bytes sock)) buff_len)).1
      ≠ ((min (header_packet_len (pending_bytes sock)) buff_len : Nat) : Int) := by
    rw [hf]; omega
  simp only [if_pos hne]

theorem example_world_pending (request : List Nat) (hne : request ≠ []) :
    pending_bytes ((example_world request).incoming 4) = request := by
  show pending_bytes (if (4 : Int) = 4 then deliver [request] [] else []) = request
  rw [if_pos rfl, pending_bytes_deliver [request] [] (by simpa using hne)]
  simp [pending_bytes]

/-- C20, refuted as stated: a FileTransfer header that declares 100 bytes
arrives with 42 more bytes, then the stream ends.  The failure is met inside
`receive_packet`, so the server only closes the socket: no Error packet with
the code UploadFailed is sent. -/
theorem handle_client_upload_cut_short_counterexample :
    (handle_client .little (fun _ => []) (fun _ => 0)
        (example_world ([1, 8, 0, 100, 0, 0, 0, 0] ++ List.replicate 42 65))
        { client_socket := 4, username := 98 :: List.replicate 128 0, session_token := 0 }).1.output
      = [Effect.close 4] := by
  rw [handle_client_of_failure _ _ _ _ _
    (receive_packet_short _ _ _
      (by show BUFFSIZE ≤ (List.replicate (BUFFSIZE + 1) 0).length
          rw [List.length_replicate]; omega)
      (by rw [example_world_pending _ (by decide)]; decide)
      (by rw [example_world_pending _ (by decide)]; decide))]
  rfl

/-- C20, amended: the first `n ≥ 8` bytes `S` of a FileTransfer request with
the session's token arrive, `n` being less than the declared length `L`, and
the next read reports zero or a negative count.  If at least `BUFFSIZE` bytes
arrived (so `L > BUFFSIZE` and the failure is met by `handle_file_transfer`),
no file is left at the destination path, the server sends exactly one packet,
the 9-byte Error packet with the code `ERROR_FILE_UPLOAD_FAILED`, and keeps
the session.  If fewer than `BUFFSIZE` bytes arrived (the failure is met by
`receive_packet`), the server sends nothing, leaves the file system as it was,
closes the socket and zeroes the session record. -/
theorem handle_client_file_transfer_failure (he : Endian) (md5 : List Nat → List Nat)
    (crc32 : List Nat → Nat) (w : World) (client_info : ClientInfo) (S : List Nat)
    (hS : pending_bytes (w.incoming client_info.client_socket) = S)
    (h8 : 8 ≤ S.length) (hshort : S.length < header_packet_len S)
    (htype : header_type S = PacketType.TYPE_FILE_TRANSFER.toNat)
    (htok : header_session_token he S = client_info.session_token)
    (hlt : client_info.session_token < 4294967296)
    (hbuf : BUFFSIZE ≤ w.packet_buffer.length) :
    (BUFFSIZE ≤ S.length →
      (handle_client he md5 crc32 w client_info).1.fs
          = w.fs.remove (join_path (path_to_user client_info.username) ((S.drop 8).take 64))
      ∧ (handle_client he md5 crc32 w client_info).1.fs.read
          (join_path (path_to_user client_info.username) ((S.drop 8).take 64)) = none
      ∧ (handle_client he md5 crc32 w client_info).1.output
          = w.output ++ [Effect.send client_info.client_socket
              (error_packet he client_info.session_token .ERROR_FILE_UPLOAD_FAILED)]
      ∧ (error_packet he client_info.session_token .ERROR_FILE_UPLOAD_FAILED).length = 9
      ∧ header_type (error_packet he client_info.session_token .ERROR_FILE_UPLOAD_FAILED)
          = PacketType.TYPE_ERROR.toNat
      ∧ (error_packet he client_info.session_token .ERROR_FILE_UPLOAD_FAILED).drop 8
          = [ErrorType.ERROR_FILE_UPLOAD_FAILED.toNat]
      ∧ (handle_client he md5 crc32 w client_info).2 = client_info)
    ∧ (S.length < BUFFSIZE →
      (handle_client he md5 crc32 w client_info).1.output
          = w.output ++ [Effect.close client_info.client_socket]
      ∧ (handle_client he md5 crc32 w client_info).1.fs = w.fs
      ∧ (handle_client he md5 crc32 w client_info).2 = ClientInfo.zeroed) := by
  constructor
  · intro hge
    obtain ⟨m, hm⟩ : ∃ m : Nat, m = BUFFSIZE := ⟨_, rfl⟩
    have hB : BUFFSIZE = 8192 := rfl
    have hmin : min (header_packet_len S) BUFFSIZE = m := by
      rw [hm]; exact min_eq_right (by omega)
    have hmS : m ≤ S.length := by omega
    have hmb : m ≤ w.packet_buffer.length := by omega
    have hm72 : 72 ≤ m := by omega
    have e := receive_packet_succeeds (w.incoming client_info.client_socket) w.packet_buffer
      BUFFSIZE (by rw [hB]; omega) hbuf (by rw [hS]; omega) (by rw [hS, hmin]; exact hmS)
      (by rw [hS]; omega)
    rw [hS, hmin] at e
    obtain ⟨q1, _, _⟩ := memcpy_zero_take_parts w.packet_buffer S m hm72 hmS hmb
    obtain ⟨g1, g2⟩ := header_fields_memcpy he w.packet_buffer S m (by omega) hmS hmb
    have g3 := header_packet_len_memcpy w.packet_buffer S m (by omega) hmS hmb
    have hres := handle_client_of_receive he md5 crc32 w client_info m
      (memcpy w.packet_buffer 0 (S.take m))
      (consume (w.incoming client_info.client_socket) m)
      e (by omega) (by rw [g2]; exact htok)
    obtain ⟨r1, r2, r3, r4, r5⟩ := received_fields w client_info.client_socket
      (memcpy w.packet_buffer 0 (S.take m))
      (consume (w.incoming client_info.client_socket) m)
    rw [dispatch_file_transfer _ _ _ _ _ _ (by rw [r1, g1]; exact htype)] at hres
    have hpc := pending_bytes_consume (w.incoming client_info.client_socket) m
      (by rw [hS]; exact hmS)
    rw [hS] at hpc
    obtain ⟨c1, c2, c3, c4, c5, c6⟩ := handle_file_transfer_failed he
      (w.received client_info.client_socket (memcpy w.packet_buffer 0 (S.take m))
        (consume (w.incoming client_info.client_socket) m)) m client_info
      .ERROR_UNKNOWN (by rw [r1, memcpy_length]; exact hbuf)
      (by rw [r1, r2, hpc, g3, List.length_drop]; omega)
    rw [r1, r4, q1] at c5
    obtain ⟨p1, p2, _, _, p5⟩ :=
      error_packet_fields he client_info.session_token .ERROR_FILE_UPLOAD_FAILED hlt
    rw [respond_positive _ _ (by rw [c1]; decide)] at hres
    rw [hres]
    simp only [World.send, c1, c2, c3, c5, r3]
    rw [show Int.toNat 9 = 9 from rfl, c6, Nat.mod_eq_of_lt hlt]
    exact ⟨trivial, fs_read_remove _ _, rfl, p1, p2, p5, trivial⟩
  · intro hltB
    have hf := receive_packet_short (w.incoming client_info.client_socket) w.packet_buffer
      BUFFSIZE hbuf (by rw [hS]; exact h8) (by rw [hS]; exact lt_min hshort hltB)
    rw [handle_client_of_failure he md5 crc32 w client_info hf]
    exact ⟨rfl, rfl, rfl⟩

theorem handle_client_file_transfer_failure_witness :
    (handle_client .little (fun _ => []) (fun _ => 0)
        (example_world (1 :: 8 :: 39 :: 16 :: 0 :: 0 :: 0 :: 0 :: List.replicate 8184 0))
        { client_socket := 4, username := 98 :: List.replicate 128 0, session_token := 0 }).1.output
      = (example_world (1 :: 8 :: 39 :: 16 :: 0 :: 0 :: 0 :: 0 :: List.replicate 8184 0)).output
        ++ [Effect.send 4 (error_packet .little 0 .ERROR_FILE_UPLOAD_FAILED)] :=
  ((handle_client_file_transfer_failure .little (fun _ => []) (fun _ => 0)
    (example_world (1 :: 8 :: 39 :: 16 :: 0 :: 0 :: 0 :: 0 :: List.replicate 8184 0))
    { client_socket := 4, username := 98 :: List.replicate 128 0, session_token := 0 }
    (1 :: 8 :: 39 :: 16 :: 0 :: 0 :: 0 :: 0 :: List.replicate 8184 0)
    (example_world_pending _ (List.cons_ne_nil _ _))
    (by simp only [List.length_cons, List.length_replicate]; omega)
    (by rw [show header_packet_len (1 :: 8 :: 39 :: 16 :: 0 :: 0 :: 0 :: 0 :: List.replicate 8184 0)
          = 10000 from rfl]
        simp only [List.length_cons, List.length_replicate]; omega)
    rfl rfl (by decide)
    (by show BUFFSIZE ≤ (List.replicate (BUFFSIZE + 1) 0).length
        rw [List.length_replicate]; omega)).1
    (by simp only [List.length_cons, List.length_replicate]; decide)).2.2.1

/-! ### Sending a file -/

theorem fread_blocks_nil : fread_blocks [] = [] := by
  simp [fread_blocks, BUFFSIZE]

theorem fread_blocks_cons (content : List Nat) (hne : content ≠ []) :
    fread_blocks content = content.take BUFFSIZE :: fread_blocks (content.drop BUFFSIZE) := by
  have hpos : 0 < content.length := List.length_pos.2 hne
  have hN : (content.length + BUFFSIZE - 1) / BUFFSIZE
      = ((content.drop BUFFSIZE).length + BUFFSIZE - 1) / BUFFSIZE + 1 := by
    simp only [List.length_drop, BUFFSIZE]
    omega
  unfold fread_blocks
  rw [hN, List.range_succ_eq_map, List.map_cons, List.map_map]
  simp only [Nat.mul_zero, List.drop_zero]
  congr 1
  apply List.map_congr_left
  intro i _
  simp only [Function.comp, List.drop_drop]
  congr 2
  rw [Nat.mul_succ]
  omega

/-- The blocks read from a file are its contents, in order. -/
theorem fread_blocks_flatten (content : List Nat) : (fread_blocks content).flatten = content := by
  generalize hn : content.length = n
  induction n using Nat.strong_induction_on generalizing content with
  | _ n ih =>
    by_cases hne : content = []
    · subst hne; rw [fread_blocks_nil]; rfl
    · have hpos : 0 < content.length := List.length_pos.2 hne
      rw [fread_blocks_cons content hne, List.flatten_cons,
        ih (content.drop BUFFSIZE).length
          (by rw [List.length_drop, ← hn]; simp only [BUFFSIZE]; omega) _ rfl,
        List.take_append_drop]

theorem fread_blocks_length_le (content : List Nat) :
    ∀ block ∈ fread_blocks content, block.length ≤ BUFFSIZE := by
  intro block hb
  simp only [fread_blocks, List.mem_map] at hb
  obtain ⟨i, _, rfl⟩ := hb
  exact List.length_take_le _ _

theorem memcpy_zero_take_self (buffer block : List Nat) (h : block.length ≤ buffer.length) :
    (memcpy buffer 0 block).take block.length = block := by
  have := memcpy_zero_take buffer block block.length (le_refl _) h
  rwa [List.take_of_length_le (le_refl _)] at this

/-- The sending loop of the server sends every block as one `send`, in order,
and changes nothing else but the contents of the packet buffer. -/
theorem send_blocks_output (socket : Int) (blocks : List (List Nat)) (w : World)
    (h : ∀ block ∈ blocks, block.length ≤ w.packet_buffer.length) :
    (send_blocks socket blocks w).output = w.output ++ blocks.map (Effect.send socket)
    ∧ (send_blocks socket blocks w).fs = w.fs
    ∧ (send_blocks socket blocks w).rand = w.rand
    ∧ (send_blocks socket blocks w).incoming = w.incoming
    ∧ (send_blocks socket blocks w).packet_buffer.length = w.packet_buffer.length := by
  induction blocks generalizing w with
  | nil => simp [send_blocks]
  | cons block rest ih =>
    have hb := h block (List.mem_cons_self _ _)
    obtain ⟨a, b, c, d, e⟩ := ih
      ({ w with packet_buffer := memcpy w.packet_buffer 0 block }.send socket
        (memcpy w.packet_buffer 0 block) block.length)
      (by
        intro x hx
        show x.length ≤ (memcpy w.packet_buffer 0 block).length
        rw [memcpy_length]
        exact h x (List.mem_cons_of_mem _ hx))
    simp only [send_blocks]
    rw [a, b, c, d, e]
    simp only [World.send, memcpy_zero_take_self _ _ hb, List.map_cons, List.append_assoc,
      List.singleton_append, memcpy_length, and_self]

/-- The sending loop of the client, likewise. -/
theorem upload_file_blocks_output (server_socket : Int) (blocks : List (List Nat))
    (buffer : List Nat) (w : World)
    (h : ∀ block ∈ blocks, block.length ≤ buffer.length) :
    (upload_file_blocks server_socket blocks buffer w).2.output
        = w.output ++ blocks.map (Effect.send server_socket)
    ∧ (upload_file_blocks server_socket blocks buffer w).2.fs = w.fs
    ∧ (upload_file_blocks server_socket blocks buffer w).2.rand = w.rand
    ∧ (upload_file_blocks server_socket blocks buffer w).2.incoming = w.incoming
    ∧ (upload_file_blocks server_socket blocks buffer w).2.packet_buffer = w.packet_buffer
    ∧ (upload_file_blocks server_socket blocks buffer w).1.length = buffer.length := by
  induction blocks generalizing w buffer with
  | nil => simp [upload_file_blocks]
  | cons block rest ih =>
    have hb := h block (List.mem_cons_self _ _)
    obtain ⟨a, b, c, d, e, f⟩ := ih (memcpy buffer 0 block)
      (w.send server_socket (memcpy buffer 0 block) block.length)
      (by
        intro x hx
        rw [memcpy_length]
        exact h x (List.mem_cons_of_mem _ hx))
    simp only [upload_file_blocks]
    rw [a, b, c, d, e, f]
    simp only [World.send, memcpy_zero_take_self _ _ hb, List.map_cons, List.append_assoc,
      List.singleton_append, memcpy_length, and_self]

theorem sent_bytes_append (socket : Int) (a b : List Effect) :
    sent_bytes socket (a ++ b) = sent_bytes socket a ++ sent_bytes socket b := by
  induction a with
  | nil => rfl
  | cons x rest ih =>
    cases x with
    | send s bytes =>
      by_cases hs : s = socket
      · simp only [List.cons_append, sent_bytes, if_pos hs, List.append_eq, ih,
          List.append_assoc]
      · simp only [List.cons_append, sent_bytes, if_neg hs, List.append_eq, ih]
    | close s => simp only [List.cons_append, sent_bytes, List.append_eq, ih]

theorem sent_bytes_sends (socket : Int) (blocks : List (List Nat)) :
    sent_bytes socket (blocks.map (Effect.send socket)) = blocks.flatten := by
  induction blocks with
  | nil => rfl
  | cons b rest ih => simp only [List.map_cons, sent_bytes, if_true, ih, List.flatten_cons]

theorem make_file_transfer_header_eq (he : Endian) (buffer : List Nat) (token data_len : Nat)
    (hbuf : BUFFSIZE ≤ buffer.length) :
    make_file_transfer_header he buffer BUFFSIZE token data_len
      = (8, header_bytes he .TYPE_FILE_TRANSFER ((8 + data_len % 65536) % 65536)
              (token % 4294967296) ++ buffer.drop 8) := by
  have h1 : ¬ BUFFSIZE < HEADER_LEN := by decide
  have hB : BUFFSIZE = 8192 := rfl
  simp only [make_file_transfer_header, if_neg h1]
  rw [make_header_eq he buffer _ _ token (by omega)]
  simp [HEADER_LEN]

/-- What `handle_file_request` sends for a file that exists: the FileTransfer
header, then the blocks of the file. -/
theorem handle_file_request_sends (he : Endian) (w : World) (client_info : ClientInfo)
    (error : ErrorType) (content : List Nat)
    (hfile : w.fs.read (join_path (path_to_user client_info.username)
      ((w.packet_buffer.drop 8).take 64)) = some content)
    (hbuf : BUFFSIZE ≤ w.packet_buffer.length) :
    (handle_file_request he w client_info error).world.output
      = w.output ++ Effect.send client_info.client_socket
            (header_bytes he .TYPE_FILE_TRANSFER ((8 + content.length % 65536) % 65536)
              (client_info.session_token % 4294967296))
          :: (fread_blocks content).map (Effect.send client_info.client_socket)
    ∧ (handle_file_request he w client_info error).response_len = 0
    ∧ (handle_file_request he w client_info error).world.fs = w.fs
    ∧ (handle_file_request he w client_info error).client_info = client_info := by
  have hmk := make_file_transfer_header_eq he w.packet_buffer client_info.session_token
    content.length hbuf
  have hsb := send_blocks_output client_info.client_socket (fread_blocks content)
    ({ w with
        packet_buffer :=
                header_bytes he .TYPE_FILE_TRANSFER
                  ((8 + content.length % 65536) % 65536) (client_info.session_token % 4294967296)
                ++ w.packet_buffer.drop 8 }.send client_info.client_socket
      (header_bytes he .TYPE_FILE_TRANSFER
          ((8 + content.length % 65536) % 65536) (client_info.session_token % 4294967296)
          ++ w.packet_buffer.drop 8) 8)
    (by
      intro x hx
      have := fread_blocks_length_le content x hx
      show x.length ≤ (header_bytes he .TYPE_FILE_TRANSFER
          ((8 + content.length % 65536) % 65536) (client_info.session_token % 4294967296)
          ++ w.packet_buffer.drop 8).length
      rw [List.length_append, header_bytes_length, List.length_drop]
      have hB : BUFFSIZE = 8192 := rfl
      omega)
  obtain ⟨a, b, _, _, _⟩ := hsb
  simp only [handle_file_request, HEADER_LEN, MAX_FILE_NAME_LEN, hfile, hmk]
  rw [show Int.toNat 8 = 8 from rfl, a, b]
  simp only [World.send, List.take_left' (header_bytes_length _ _ _ _), List.append_assoc,
    List.singleton_append, and_self]

/-- What `upload_file` sends for a file that exists: the FileTransfer header,
the 64-byte name field, then the blocks of the file. -/
theorem upload_file_sends (he : Endian) (w : World) (server_socket : Int) (buffer : List Nat)
    (session_token : Nat) (file_name content : List Nat)
    (hfile : w.fs.read (join_path CLIENT_DIR file_name) = some content)
    (hbuf : BUFFSIZE ≤ buffer.length) :
    (upload_file he w server_socket buffer session_token file_name).2.output
      = w.output ++ Effect.send server_socket
            (header_bytes he .TYPE_FILE_TRANSFER ((8 + (64 + content.length) % 65536) % 65536)
              (session_token % 4294967296))
          :: Effect.send server_socket (file_name.take 64)
          :: (fread_blocks content).map (Effect.send server_socket)
    ∧ (upload_file he w server_socket buffer session_token file_name).2.fs = w.fs
    ∧ (upload_file he w server_socket buffer session_token file_name).2.incoming = w.incoming
    ∧ (upload_file he w server_socket buffer session_token file_name).1.length
        = buffer.length := by
  have hmk := make_file_transfer_header_eq he buffer session_token (64 + content.length) hbuf
  obtain ⟨a, b, _, d, _, f⟩ := upload_file_blocks_output server_socket (fread_blocks content)
    (header_bytes he .TYPE_FILE_TRANSFER
      ((8 + (64 + content.length) % 65536) % 65536) (session_token % 4294967296)
      ++ buffer.drop 8)
    ((w.send server_socket (header_bytes he .TYPE_FILE_TRANSFER
      ((8 + (64 + content.length) % 65536) % 65536) (session_token % 4294967296)
      ++ buffer.drop 8) 8).send server_socket file_name 64)
    (by
      intro x hx
      have := fread_blocks_length_le content x hx
      rw [List.length_append, header_bytes_length, List.length_drop]
      have hB : BUFFSIZE = 8192 := rfl
      omega)
  simp only [upload_file, hfile, MAX_FILE_NAME_LEN, hmk]
  rw [show Int.toNat 8 = 8 from rfl, a, b, d, f]
  simp only [World.send, List.take_left' (header_bytes_length _ _ _ _), List.append_assoc,
    List.singleton_append, List.cons_append, List.nil_append, List.length_append,
    header_bytes_length, List.length_drop, true_and]
  have hB : BUFFSIZE = 8192 := rfl
  omega

/-! ### Declared length of a file transfer -/

theorem fs_read_single (path content : List Nat) (dirs : List (List Nat)) :
    ({ files := [(path, content)], dirs := dirs } : FileSys).read path = some content := by
  simp [FileSys.read]

theorem example_server_file_world_read (content : List Nat) :
    (example_server_file_world content).fs.read
        (join_path (path_to_user (98 :: List.replicate 128 0))
          (((example_server_file_world content).packet_buffer.drop 8).take 64))
      = some content :=
  fs_read_single _ _ _

theorem example_server_file_world_buffer (content : List Nat) :
    BUFFSIZE ≤ (example_server_file_world content).packet_buffer.length := by
  show BUFFSIZE ≤ ([1, 7, 0, 10, 0, 0, 0, 0] ++ (97 :: List.replicate 63 0)
      ++ List.replicate (BUFFSIZE + 1 - 72) 0).length
  rw [List.length_append, List.length_replicate]
  decide

/-- C18, refuted as stated: the server holds a file of 65528 bytes and answers
a FileRequest for it.  The FileTransfer header it sends declares
`packet_len = 0`, while 65536 bytes are sent for the transfer. -/
theorem file_transfer_length_wraps_counterexample :
    (handle_file_request .little (example_server_file_world (List.replicate 65528 7))
        { client_socket := 4, username := 98 :: List.replicate 128 0, session_token := 0 }
        .ERROR_UNKNOWN).world.output.head?
      = some (Effect.send 4 [1, 8, 0, 0, 0, 0, 0, 0])
    ∧ header_packet_len [1, 8, 0, 0, 0, 0, 0, 0] = 0
    ∧ (sent_bytes 4 (handle_file_request .little
        (example_server_file_world (List.replicate 65528 7))
        { client_socket := 4, username := 98 :: List.replicate 128 0, session_token := 0 }
        .ERROR_UNKNOWN).world.output).length = 65536 := by
  obtain ⟨h, _⟩ := handle_file_request_sends .little
    (example_server_file_world (List.replicate 65528 7))
    { client_socket := 4, username := 98 :: List.replicate 128 0, session_token := 0 }
    .ERROR_UNKNOWN (List.replicate 65528 7) (example_server_file_world_read _)
    (example_server_file_world_buffer _)
  rw [h, List.length_replicate,
    show (example_server_file_world (List.replicate 65528 7)).output = [] from rfl,
    List.nil_append,
    show header_bytes .little .TYPE_FILE_TRANSFER ((8 + 65528 % 65536) % 65536)
      (({ client_socket := 4, username := 98 :: List.replicate 128 0, session_token := 0 }
        : ClientInfo).session_token % 4294967296) = [1, 8, 0, 0, 0, 0, 0, 0] from by decide]
  have key : ∀ header content : List Nat,
      (sent_bytes 4 (Effect.send 4 header :: (fread_blocks content).map (Effect.send 4))).length
        = header.length + content.length := by
    intro header content
    simp only [sent_bytes, if_true, sent_bytes_sends, fread_blocks_flatten, List.length_append]
  refine ⟨rfl, by decide, ?_⟩
  rw [key, List.length_replicate]
  rfl

/-- C18, amended: for a file of `s` bytes that exists, the FileTransfer header
sent by `handle_file_request` declares `(8 + s) mod 65536` (the length is a
16-bit field), and the one sent by `upload_file` declares
`(8 + (64 + s) mod 65536) mod 65536`.  The bytes sent for the transfer are the
header, for an upload the 64-byte name field, and the `s` bytes of the file.
So the declared length is the number of bytes sent, `8 + s` for the server
when `8 + s ≤ 65535` and `72 + s` for the client when `72 + s ≤ 65535`. -/
theorem file_transfer_declared_length (he : Endian) (w : World) (client_info : ClientInfo)
    (error : ErrorType) (wc : World) (server_socket : Int) (buffer : List Nat)
    (session_token : Nat) (file_name content : List Nat) :
    (w.fs.read (join_path (path_to_user client_info.username)
        ((w.packet_buffer.drop 8).take 64)) = some content →
      BUFFSIZE ≤ w.packet_buffer.length →
      ∃ header : List Nat,
        (handle_file_request he w client_info error).world.output
          = w.output ++ Effect.send client_info.client_socket header
              :: (fread_blocks content).map (Effect.send client_info.client_socket)
        ∧ header.length = 8
        ∧ header_type header = PacketType.TYPE_FILE_TRANSFER.toNat
        ∧ header_packet_len header = (8 + content.length) % 65536
        ∧ sent_bytes client_info.client_socket
            (Effect.send client_info.client_socket header
              :: (fread_blocks content).map (Effect.send client_info.client_socket))
            = header ++ content
        ∧ (8 + content.length ≤ 65535 →
            header_packet_len header = 8 + content.length
            ∧ (header ++ content).length = header_packet_len header))
    ∧ (wc.fs.read (join_path CLIENT_DIR file_name) = some content →
      BUFFSIZE ≤ buffer.length → 64 ≤ file_name.length →
      ∃ header : List Nat,
        (upload_file he wc server_socket buffer session_token file_name).2.output
          = wc.output ++ Effect.send server_socket header
              :: Effect.send server_socket (file_name.take 64)
              :: (fread_blocks content).map (Effect.send server_socket)
        ∧ header.length = 8
        ∧ header_type header = PacketType.TYPE_FILE_TRANSFER.toNat
        ∧ header_packet_len header = (8 + (64 + content.length) % 65536) % 65536
        ∧ sent_bytes server_socket
            (Effect.send server_socket header
              :: Effect.send server_socket (file_name.take 64)
              :: (fread_blocks content).map (Effect.send server_socket))
            = header ++ file_name.take 64 ++ content
        ∧ (72 + content.length ≤ 65535 →
            header_packet_len header = 8 + 64 + content.length
            ∧ (header ++ file_name.take 64 ++ content).length = header_packet_len header)) := by
  constructor
  · intro hfile hbuf
    obtain ⟨h, _⟩ := handle_file_request_sends he w client_info error content hfile hbuf
    have hf := header_fields he .TYPE_FILE_TRANSFER ((8 + content.length % 65536) % 65536)
      (client_info.session_token % 4294967296) [] (Nat.mod_lt _ (by decide))
      (Nat.mod_lt _ (by decide))
    rw [List.append_nil] at hf
    have hl := header_bytes_length he .TYPE_FILE_TRANSFER
      ((8 + content.length % 65536) % 65536) (client_info.session_token % 4294967296)
    refine ⟨_, h, hl, hf.2.1, ?_, ?_, ?_⟩
    · rw [hf.2.2.1]; omega
    · simp only [sent_bytes, if_true, sent_bytes_sends, fread_blocks_flatten]
    · intro hs
      rw [hf.2.2.1, List.length_append, hl]
      omega
  · intro hfile hbuf hname
    obtain ⟨h, _⟩ := upload_file_sends he wc server_socket buffer session_token file_name
      content hfile hbuf
    have hf := header_fields he .TYPE_FILE_TRANSFER
      ((8 + (64 + content.length) % 65536) % 65536)
      (session_token % 4294967296) [] (Nat.mod_lt _ (by decide)) (Nat.mod_lt _ (by decide))
    rw [List.append_nil] at hf
    have hl := header_bytes_length he .TYPE_FILE_TRANSFER
      ((8 + (64 + content.length) % 65536) % 65536) (session_token % 4294967296)
    refine ⟨_, h, hl, hf.2.1, hf.2.2.1, ?_, ?_⟩
    · simp only [sent_bytes, if_true, sent_bytes_sends, fread_blocks_flatten,
        List.append_assoc]
    · intro hs
      rw [hf.2.2.1, List.length_append, List.length_append, hl, List.length_take]
      omega

theorem file_transfer_declared_length_witness :
    ∃ header : List Nat,
      (handle_file_request .little (example_server_file_world [10, 20, 30])
          { client_socket := 4, username := 98 :: List.replicate 128 0, session_token := 0 }
          .ERROR_UNKNOWN).world.output
        = (example_server_file_world [10, 20, 30]).output
            ++ Effect.send 4 header :: (fread_blocks [10, 20, 30]).map (Effect.send 4)
      ∧ header_packet_len header = 8 + 3 :=
  match (file_transfer_declared_length .little (example_server_file_world [10, 20, 30])
    { client_socket := 4, username := 98 :: List.replicate 128 0, session_token := 0 }
    .ERROR_UNKNOWN (example_client_file_world [] []) 3 [] 0 [] [10, 20, 30]).1
    (example_server_file_world_read _) (example_server_file_world_buffer _) with
  | ⟨header, h1, _, _, _, _, h6⟩ => ⟨header, h1, (h6 (by decide)).1⟩

/-! ### The two diffs of a synchronisation -/

theorem get_missing_files_mem (src dst : List FileInfo) (f : FileInfo) :
    f ∈ get_missing_files src dst
      ↔ f ∈ src ∧ f.checksum ∉ dst.map FileInfo.checksum := by
  unfold get_missing_files
  rw [get_missing_files_loop_eq, List.append_nil, List.mem_reverse, List.mem_filter]
  simp

/-- The environment after `get_server_files` differs from the one before only
in what was sent and in the pending input. -/
theorem get_server_files_world (he : Endian) (w : World) (server_socket : Int)
    (buffer : List Nat) (session_token : Nat)
    (r : List FileInfo × Nat × List Nat × World)
    (h : get_server_files he w server_socket buffer session_token = some r) :
    r.2.2.2.fs = w.fs ∧ r.2.2.2.rand = w.rand
    ∧ r.2.2.2.output = w.output ++ [Effect.send server_socket
        ((make_list_request he buffer BUFFSIZE session_token).2.take
          (make_list_request he buffer BUFFSIZE session_token).1.toNat)] := by
  unfold get_server_files at h
  simp only at h
  split at h
  · exact absurd h (by simp)
  · have := Option.some.inj h
    subst this
    exact ⟨rfl, rfl, rfl⟩

/-- C15: `get_client_server_diffs` fails exactly when `get_server_files`
does; otherwise, with the server inventory it received and the inventory of
the client directory, `client_missings` is `get_missing_files` of (server,
client) and `server_missings` is `get_missing_files` of (client, server), both
from the same two lists: an entry is in `client_missings` exactly when it is a
server entry whose checksum no client entry has, and in `server_missings`
exactly when it is a client entry whose checksum no server entry has. -/
theorem get_client_server_diffs_spec (he : Endian) (crc32 : List Nat → Nat) (w : World)
    (server_socket : Int) (buffer : List Nat) (session_token : Nat) :
    get_client_server_diffs he crc32 w server_socket buffer session_token
      = (get_server_files he w server_socket buffer session_token).map
          (fun r =>
            (get_missing_files r.1 (list_files crc32 w.fs CLIENT_DIR).1,
              get_missing_files (list_files crc32 w.fs CLIENT_DIR).1 r.1, r.2.2.1, r.2.2.2))
    ∧ ∀ (server_files : List FileInfo) (f : FileInfo),
        (f ∈ get_missing_files server_files (list_files crc32 w.fs CLIENT_DIR).1
          ↔ f ∈ server_files
            ∧ f.checksum ∉ (list_files crc32 w.fs CLIENT_DIR).1.map FileInfo.checksum)
        ∧ (f ∈ get_missing_files (list_files crc32 w.fs CLIENT_DIR).1 server_files
          ↔ f ∈ (list_files crc32 w.fs CLIENT_DIR).1
            ∧ f.checksum ∉ server_files.map FileInfo.checksum) := by
  constructor
  · unfold get_client_server_diffs
    cases hS : get_server_files he w server_socket buffer session_token with
    | none => rfl
    | some r =>
      obtain ⟨hfs, _, _⟩ := get_server_files_world he w server_socket buffer session_token r hS
      obtain ⟨a, b, c, d⟩ := r
      simp only at hfs
      simp only [Option.map_some', hfs]
  · intro server_files f
    exact ⟨get_missing_files_mem _ _ _, get_missing_files_mem _ _ _⟩

/-! ### The two phases of a synchronisation -/

theorem make_file_request_eq (he : Endian) (buffer : List Nat) (token : Nat)
    (file_name : List Nat) (hlen : 8 + (strlen file_name + 1) ≤ BUFFSIZE)
    (hbuf : BUFFSIZE ≤ buffer.length) :
    make_file_request he buffer BUFFSIZE token file_name
      = (((8 + (strlen file_name + 1) : Nat) : Int),
          header_bytes he .TYPE_FILE_REQUEST ((8 + (strlen file_name + 1)) % 65536)
              (token % 4294967296)
            ++ cstr_read file_name (strlen file_name + 1)
            ++ buffer.drop (8 + (strlen file_name + 1))) := by
  have h1 : ¬ BUFFSIZE < HEADER_LEN + (strlen file_name + 1) := by
    simp only [HEADER_LEN]; omega
  simp only [make_file_request, if_neg h1]
  rw [make_header_eq he buffer _ _ token (by omega)]
  have hl := header_bytes_length he .TYPE_FILE_REQUEST
    ((HEADER_LEN + (strlen file_name + 1)) % 65536) (token % 4294967296)
  rw [memcpy_append _ _ _ _ (by rw [hl]; rfl)
    (by rw [cstr_read_length, List.length_drop]; omega)]
  simp only [HEADER_LEN, cstr_read_length, List.drop_drop, Nat.cast_add, Nat.cast_ofNat,
    Nat.cast_one]

theorem make_file_request_length (he : Endian) (buffer : List Nat) (buff_len token : Nat)
    (file_name : List Nat) :
    (make_file_request he buffer buff_len token file_name).2.length = buffer.length := by
  unfold make_file_request
  simp only []
  split
  · rfl
  · rw [memcpy_length, make_header_length]

theorem download_file_loop_length (fuel : Nat) (sock : List Chunk) (buffer : List Nat)
    (n_received response_len : Nat) (written : List Nat) :
    (download_file_loop fuel sock buffer n_received response_len written).2.1.length
      = buffer.length := by
  induction fuel generalizing sock buffer n_received written with
  | zero => rfl
  | succ fuel ih =>
    simp only [download_file_loop]
    split
    · split
      · rfl
      · rw [ih, memcpy_length]
    · rfl

/-- A download sends one FileRequest and nothing else; the buffer keeps its
length. -/
theorem download_file_sends (he : Endian) (w : World) (server_socket : Int)
    (buffer : List Nat) (session_token : Nat) (file : FileInfo)
    (hlen : 8 + (strlen file.name + 1) ≤ BUFFSIZE) (hbuf : BUFFSIZE ≤ buffer.length) :
    (download_file he w server_socket buffer session_token file.name).2.output
      = w.output ++ [download_sends he server_socket session_token file]
    ∧ (download_file he w server_socket buffer session_token file.name).1.length
      = buffer.length := by
  have hq := make_file_request_eq he buffer session_token file.name hlen hbuf
  have hl := make_file_request_length he buffer BUFFSIZE session_token file.name
  have hh : (header_bytes he .TYPE_FILE_REQUEST ((8 + (strlen file.name + 1)) % 65536)
      (session_token % 4294967296) ++ cstr_read file.name (strlen file.name + 1)).length
      = 8 + (strlen file.name + 1) := by
    rw [List.length_append, header_bytes_length, cstr_read_length]
  constructor
  · unfold download_file
    simp only []
    split <;>
    · simp only [World.set_incoming, World.send, hq, Int.toNat_ofNat, download_sends]
      rw [List.take_left' hh]
  · unfold download_file
    simp only []
    split <;>
    · simp only [download_file_loop_length, receive_packet_length, hl]

/-- An upload sends what `upload_sends` lists and changes nothing else but the
buffer contents. -/
theorem upload_file_facts (he : Endian) (w : World) (server_socket : Int) (buffer : List Nat)
    (session_token : Nat) (file : FileInfo) (hbuf : BUFFSIZE ≤ buffer.length) :
    (upload_file he w server_socket buffer session_token file.name).2.output
      = w.output ++ upload_sends he w.fs server_socket session_token file
    ∧ (upload_file he w server_socket buffer session_token file.name).2.fs = w.fs
    ∧ (upload_file he w server_socket buffer session_token file.name).2.incoming = w.incoming
    ∧ (upload_file he w server_socket buffer session_token file.name).1.length
        = buffer.length := by
  cases hf : w.fs.read (join_path CLIENT_DIR file.name) with
  | none => simp [upload_file, upload_sends, hf]
  | some content =>
    obtain ⟨a, b, c, d⟩ := upload_file_sends he w server_socket buffer session_token file.name
      content hf hbuf
    simp only [upload_sends, hf]
    exact ⟨a, b, c, d⟩

/-- The upload phase: the sends of every entry in list order, the file system
unchanged. -/
theorem handle_sync_uploads_facts (he : Endian) (server_socket : Int) (session_token : Nat)
    (files : List FileInfo) (buffer : List Nat) (w : World)
    (hbuf : BUFFSIZE ≤ buffer.length) :
    (handle_sync_uploads he server_socket session_token files buffer w).2.output
      = w.output ++ (files.map (upload_sends he w.fs server_socket session_token)).flatten
    ∧ (handle_sync_uploads he server_socket session_token files buffer w).2.fs = w.fs
    ∧ BUFFSIZE ≤ (handle_sync_uploads he server_socket session_token files buffer w).1.length := by
  induction files generalizing buffer w with
  | nil => simp [handle_sync_uploads, hbuf]
  | cons f rest ih =>
    obtain ⟨a, b, _, d⟩ := upload_file_facts he w server_socket buffer session_token f hbuf
    simp only [handle_sync_uploads]
    obtain ⟨x, y, z⟩ := ih
      (receive_packet ((upload_file he w server_socket buffer session_token f.name).2.incoming
        server_socket) (upload_file he w server_socket buffer session_token f.name).1
        BUFFSIZE).2.1
      ((upload_file he w server_socket buffer session_token f.name).2.set_incoming
        server_socket
        (receive_packet ((upload_file he w server_socket buffer session_token f.name).2.incoming
          server_socket) (upload_file he w server_socket buffer session_token f.name).1
          BUFFSIZE).2.2)
      (by rw [receive_packet_length, d]; exact hbuf)
    refine ⟨?_, ?_, z⟩
    · rw [x]
      simp only [World.set_incoming, a, b, List.map_cons, List.flatten_cons, List.append_assoc]
    · rw [y]
      simp only [World.set_incoming, b]

/-- The download phase: one FileRequest per entry, in list order. -/
theorem handle_sync_downloads_facts (he : Endian) (server_socket : Int) (session_token : Nat)
    (files : List FileInfo) (buffer : List Nat) (w : World)
    (hnames : ∀ f ∈ files, 8 + (strlen f.name + 1) ≤ BUFFSIZE)
    (hbuf : BUFFSIZE ≤ buffer.length) :
    (handle_sync_downloads he server_socket session_token files buffer w).2.output
      = w.output ++ files.map (download_sends he server_socket session_token) := by
  induction files generalizing buffer w with
  | nil => simp [handle_sync_downloads]
  | cons f rest ih =>
    obtain ⟨a, b⟩ := download_file_sends he w server_socket buffer session_token f
      (hnames f (List.mem_cons_self _ _)) hbuf
    simp only [handle_sync_downloads]
    rw [ih _ _ (fun x hx => hnames x (List.mem_cons_of_mem _ hx)) (by rw [b]; exact hbuf), a]
    simp only [List.map_cons, List.append_assoc, List.singleton_append]

theorem handle_sync_uploads_eq_foldl (he : Endian) (server_socket : Int) (session_token : Nat)
    (files : List FileInfo) (buffer : List Nat) (w : World) :
    handle_sync_uploads he server_socket session_token files buffer w
      = files.foldl (upload_and_await he server_socket session_token) (buffer, w) := by
  induction files generalizing buffer w with
  | nil => rfl
  | cons f rest ih =>
    simp only [handle_sync_uploads, List.foldl_cons, upload_and_await]
    exact ih _ _

theorem handle_sync_downloads_eq_foldl (he : Endian) (server_socket : Int)
    (session_token : Nat) (files : List FileInfo) (buffer : List Nat) (w : World) :
    handle_sync_downloads he server_socket session_token files buffer w
      = files.foldl
          (fun st file => download_file he st.2 server_socket st.1 session_token file.name)
          (buffer, w) := by
  induction files generalizing buffer w with
  | nil => rfl
  | cons f rest ih =>
    simp only [handle_sync_downloads, List.foldl_cons]
    exact ih _ _

theorem get_server_files_loop_names (n : Nat) (buffer : List Nat) (cur_entry : Nat)
    (server_files : List FileInfo)
    (h : ∀ f ∈ server_files, f.name.length ≤ MAX_FILE_NAME_LEN) :
    ∀ f ∈ get_server_files_loop n buffer cur_entry server_files,
      f.name.length ≤ MAX_FILE_NAME_LEN := by
  induction n generalizing cur_entry server_files with
  | zero => simpa [get_server_files_loop] using h
  | succ n ih =>
    simp only [get_server_files_loop]
    apply ih
    intro f hf
    rcases List.mem_cons.1 hf with rfl | hf
    · exact List.length_take_le _ _
    · exact h f hf

theorem get_server_files_names (he : Endian) (w : World) (server_socket : Int)
    (buffer : List Nat) (session_token : Nat)
    (r : List FileInfo × Nat × List Nat × World)
    (h : get_server_files he w server_socket buffer session_token = some r) :
    (∀ f ∈ r.1, f.name.length ≤ MAX_FILE_NAME_LEN) ∧ r.2.2.1.length = buffer.length := by
  unfold get_server_files at h
  simp only at h
  split at h
  · exact absurd h (by simp)
  · have := Option.some.inj h
    subst this
    refine ⟨get_server_files_loop_names _ _ _ _ (by simp), ?_⟩
    simp only [receive_packet_length, make_list_request_length]

theorem get_client_server_diffs_of (he : Endian) (crc32 : List Nat → Nat) (w : World)
    (server_socket : Int) (buffer : List Nat) (session_token : Nat)
    (r : List FileInfo × Nat × List Nat × World)
    (h : get_server_files he w server_socket buffer session_token = some r) :
    get_client_server_diffs he crc32 w server_socket buffer session_token
      = some (get_missing_files r.1 (list_files crc32 w.fs CLIENT_DIR).1,
          get_missing_files (list_files crc32 w.fs CLIENT_DIR).1 r.1, r.2.2.1, r.2.2.2) := by
  obtain ⟨hfs, _, _⟩ := get_server_files_world he w server_socket buffer session_token r h
  obtain ⟨a, b, c, d⟩ := r
  simp only at hfs
  simp only [get_client_server_diffs, h, hfs]

theorem strlen_add_le (name : List Nat) (h : name.length ≤ MAX_FILE_NAME_LEN) :
    8 + (strlen name + 1) ≤ BUFFSIZE := by
  have := strlen_le name
  simp only [MAX_FILE_NAME_LEN] at h
  simp only [BUFFSIZE]
  omega

theorem get_server_files_of_deliver (he : Endian) (w : World) (server_socket : Int)
    (buffer : List Nat) (session_token : Nat) (chunks : List (List Nat)) (rest : List Chunk)
    (hin : w.incoming server_socket = deliver chunks rest)
    (hne : ∀ c ∈ chunks, c ≠ [])
    (hlen : 8 ≤ chunks.flatten.length)
    (hdecl : header_packet_len chunks.flatten = chunks.flatten.length)
    (hfit : chunks.flatten.length ≤ BUFFSIZE) (hbuf : BUFFSIZE ≤ buffer.length) :
    (get_server_files he w server_socket buffer session_token).map Prod.fst
      = some (get_server_files_loop
          ((chunks.flatten.length - HEADER_LEN) / (MAX_FILE_NAME_LEN + 4))
          (memcpy (make_list_request he buffer BUFFSIZE session_token).2 0 chunks.flatten)
          HEADER_LEN []) := by
  have hR := receive_packet_deliver chunks rest
    (make_list_request he buffer BUFFSIZE session_token).2 BUFFSIZE hne hlen hdecl hfit
    (by rw [make_list_request_length]; exact hbuf)
  have h1 : ¬ ((chunks.flatten.length : Int) ≤ 0) := by omega
  have hi : (w.send server_socket (make_list_request he buffer BUFFSIZE session_token).2
      (make_list_request he buffer BUFFSIZE session_token).1.toNat).incoming server_socket
      = deliver chunks rest := hin
  simp only [get_server_files, hi, hR, if_neg h1, Option.map_some', Int.toNat_ofNat]

/-- C16: when the server inventory has been received, `handle_sync` is the
synchronisation of the specification: for every entry of `server_missings`,
in list order, one upload followed by one receive of the reply, then for every
entry of `client_missings`, in list order, one download.  What it puts on the
wire after the ListRequest is, per entry of `server_missings`, the sends of
one upload, then one FileRequest per entry of `client_missings`; every
uploaded entry has a checksum that no server entry has and every downloaded
entry has a checksum that no client entry has, so no file whose checksum is in
both inventories is transferred. -/
theorem handle_sync_transfers (he : Endian) (crc32 : List Nat → Nat) (w : World)
    (server_socket : Int) (buffer : List Nat) (session_token : Nat)
    (server_files : List FileInfo)
    (hbuf : BUFFSIZE ≤ buffer.length)
    (hS : (get_server_files he w server_socket buffer session_token).map Prod.fst
      = some server_files) :
    handle_sync he crc32 w server_socket buffer session_token
      = sync_spec he crc32 w server_socket buffer session_token
    ∧ (handle_sync he crc32 w server_socket buffer session_token).map (fun r => r.2.output)
      = some (w.output
          ++ [Effect.send server_socket
                (header_bytes he .TYPE_LIST_REQUEST 8 (session_token % 4294967296))]
          ++ ((get_missing_files (list_files crc32 w.fs CLIENT_DIR).1 server_files).map
                (upload_sends he w.fs server_socket session_token)).flatten
          ++ (get_missing_files server_files (list_files crc32 w.fs CLIENT_DIR).1).map
                (download_sends he server_socket session_token))
    ∧ (∀ f ∈ get_missing_files (list_files crc32 w.fs CLIENT_DIR).1 server_files,
        f ∈ (list_files crc32 w.fs CLIENT_DIR).1
        ∧ f.checksum ∉ server_files.map FileInfo.checksum)
    ∧ (∀ f ∈ get_missing_files server_files (list_files crc32 w.fs CLIENT_DIR).1,
        f ∈ server_files
        ∧ f.checksum ∉ (list_files crc32 w.fs CLIENT_DIR).1.map FileInfo.checksum) := by
  refine ⟨?_, ?_, fun f hf => (get_missing_files_mem _ _ f).1 hf,
    fun f hf => (get_missing_files_mem _ _ f).1 hf⟩
  · unfold handle_sync sync_spec
    cases get_client_server_diffs he crc32 w server_socket buffer session_token with
    | none => rfl
    | some d =>
      obtain ⟨a, b, c, e⟩ := d
      simp only [Option.map_some', handle_sync_uploads_eq_foldl,
        handle_sync_downloads_eq_foldl]
  · cases hG : get_server_files he w server_socket buffer session_token with
    | none => rw [hG] at hS; exact absurd hS (by simp)
    | some r =>
      rw [hG] at hS
      have hr1 : r.1 = server_files := Option.some.inj hS
      obtain ⟨hfs, _, hout⟩ := get_server_files_world he w server_socket buffer session_token r hG
      obtain ⟨hnm, hbl⟩ := get_server_files_names he w server_socket buffer session_token r hG
      have hD := get_client_server_diffs_of he crc32 w server_socket buffer session_token r hG
      rw [hr1] at hD hnm
      obtain ⟨u1, u2, u3⟩ := handle_sync_uploads_facts he server_socket session_token
        (get_missing_files (list_files crc32 w.fs CLIENT_DIR).1 server_files) r.2.2.1 r.2.2.2
        (by rw [hbl]; exact hbuf)
      have d1 := handle_sync_downloads_facts he server_socket session_token
        (get_missing_files server_files (list_files crc32 w.fs CLIENT_DIR).1)
        (handle_sync_uploads he server_socket session_token
          (get_missing_files (list_files crc32 w.fs CLIENT_DIR).1 server_files)
          r.2.2.1 r.2.2.2).1
        (handle_sync_uploads he server_socket session_token
          (get_missing_files (list_files crc32 w.fs CLIENT_DIR).1 server_files)
          r.2.2.1 r.2.2.2).2
        (fun f hf => strlen_add_le f.name
          (hnm f ((get_missing_files_mem _ _ f).1 hf).1)) u3
      have hq := make_header_only_packet_eq he buffer BUFFSIZE .TYPE_LIST_REQUEST
        session_token hbuf (by decide)
      simp only [handle_sync, hD, Option.map_some', d1, u1, hfs, hout, make_list_request, hq]
      rw [show Int.toNat 8 = 8 from rfl, List.take_left' (header_bytes_length _ _ _ _)]

theorem handle_sync_transfers_witness :
    (handle_sync .little (fun _ => 0)
        (example_client_file_world [10, 20, 30]
          (deliver [[1, 6, 0, 8, 5, 0, 0, 0]] [Chunk.data [1, 9, 0, 8, 5, 0, 0, 0]]))
        3 (List.replicate BUFFSIZE 0) 5).map (fun r => r.2.output)
      = some ((example_client_file_world [10, 20, 30]
            (deliver [[1, 6, 0, 8, 5, 0, 0, 0]] [Chunk.data [1, 9, 0, 8, 5, 0, 0, 0]])).output
          ++ [Effect.send 3 (header_bytes .little .TYPE_LIST_REQUEST 8 (5 % 4294967296))]
          ++ ((get_missing_files (list_files (fun _ => 0)
                (example_client_file_world [10, 20, 30]
                  (deliver [[1, 6, 0, 8, 5, 0, 0, 0]] [Chunk.data [1, 9, 0, 8, 5, 0, 0, 0]])).fs
                CLIENT_DIR).1 []).map
              (upload_sends .little
                (example_client_file_world [10, 20, 30]
                  (deliver [[1, 6, 0, 8, 5, 0, 0, 0]] [Chunk.data [1, 9, 0, 8, 5, 0, 0, 0]])).fs
                3 5)).flatten
          ++ (get_missing_files [] (list_files (fun _ => 0)
                (example_client_file_world [10, 20, 30]
                  (deliver [[1, 6, 0, 8, 5, 0, 0, 0]] [Chunk.data [1, 9, 0, 8, 5, 0, 0, 0]])).fs
                CLIENT_DIR).1).map (download_sends .little 3 5)) :=
  (handle_sync_transfers .little (fun _ => 0)
    (example_client_file_world [10, 20, 30]
      (deliver [[1, 6, 0, 8, 5, 0, 0, 0]] [Chunk.data [1, 9, 0, 8, 5, 0, 0, 0]]))
    3 (List.replicate BUFFSIZE 0) 5 []
    (by rw [List.length_replicate])
    (get_server_files_of_deliver .little _ 3 _ 5 [[1, 6, 0, 8, 5, 0, 0, 0]]
      [Chunk.data [1, 9, 0, 8, 5, 0, 0, 0]] rfl (by decide) (by decide) (by decide) (by decide)
      (by rw [List.length_replicate]))).2.1

/-! ### A client and the server connected: the single exchanges -/

theorem sent_chunks_append (socket : Int) (a b : List Effect) :
    sent_chunks socket (a ++ b) = sent_chunks socket a ++ sent_chunks socket b := by
  induction a with
  | nil => rfl
  | cons x rest ih =>
    cases x with
    | send s bytes =>
      by_cases hs : s = socket
      · simp only [List.cons_append, sent_chunks, if_pos hs, List.append_eq, ih]
      · simp only [List.cons_append, sent_chunks, if_neg hs, List.append_eq, ih]
    | close s => simp only [List.cons_append, sent_chunks, List.append_eq, ih]

theorem sent_chunks_sends (socket : Int) (blocks : List (List Nat)) :
    sent_chunks socket (blocks.map (Effect.send socket)) = blocks := by
  induction blocks with
  | nil => rfl
  | cons b rest ih => simp only [List.map_cons, sent_chunks, if_true, ih]

theorem sent_chunks_new (socket : Int) (old new : List Effect) :
    sent_chunks socket ((old ++ new).drop old.length) = sent_chunks socket new := by
  rw [List.drop_left]

/-- How an exchange is computed from the two runs. -/
theorem exchange_of {α : Type} (he : Endian) (md5 : List Nat → List Nat)
    (crc32 : List Nat → Nat) (server_socket : Int) (requests : List (List Nat))
    (op : World → Option (α × World)) (p : Peers) (sw : World) (session : ClientInfo)
    (replies : List (List Nat)) (a : α) (wc : World)
    (hsv : handle_client he md5 crc32
      (p.server.set_incoming p.session.client_socket (deliver requests [])) p.session
      = (sw, session))
    (hrep : sent_chunks p.session.client_socket (sw.output.drop p.server.output.length)
      = replies)
    (hop : op (p.client.set_incoming server_socket (deliver replies [])) = some (a, wc))
    (hchk : sent_chunks server_socket (wc.output.drop p.client.output.length) = requests) :
    exchange he md5 crc32 server_socket requests op p
      = some (a, { client := wc, server := sw, session := session }) := by
  simp only [exchange, hsv, hrep, hop, hchk, if_true]

theorem fread_blocks_ne_nil (content : List Nat) :
    ∀ block ∈ fread_blocks content, block ≠ [] := by
  intro block hb
  simp only [fread_blocks, List.mem_map, List.mem_range] at hb
  obtain ⟨i, hi, rfl⟩ := hb
  intro h
  have hl := congrArg List.length h
  simp only [List.length_take, List.length_drop, List.length_nil, BUFFSIZE] at hl hi
  omega

/-- The receiving loop of `download_file` when exactly the missing bytes are
pending. -/
theorem download_file_loop_complete (fuel : Nat) (sock : List Chunk) (buffer : List Nat)
    (n_received response_len : Nat) (written : List Nat)
    (hfuel : response_len - n_received ≤ fuel)
    (h : n_received + (pending_bytes sock).length = response_len) :
    (download_file_loop fuel sock buffer n_received response_len written).2.2
      = some (written ++ pending_bytes sock) := by
  induction fuel generalizing sock buffer n_received written with
  | zero =>
    have : pending_bytes sock = [] := List.length_eq_zero.1 (by omega)
    simp [download_file_loop, this]
  | succ fuel ih =>
    simp only [download_file_loop]
    by_cases hlt : n_received < response_len
    · simp only [if_pos hlt]
      have hne : pending_bytes sock ≠ [] := by
        intro h0; rw [h0] at h; simp at h; omega
      have hr := recv_ok sock BUFFSIZE hne (by decide)
      obtain ⟨j, hj0, _, hjl, e1, e2, e3, e4⟩ := recv_pending sock BUFFSIZE hr
      simp only [if_neg hr]
      rw [ih _ _ _ _ (by rw [e2]; omega) (by rw [e2, e3, e4, List.length_drop]; omega)]
      rw [e3, e4, e1, List.append_assoc, List.take_append_drop]
    · simp only [if_neg hlt]
      have : pending_bytes sock = [] := List.length_eq_zero.1 (by omega)
      simp [this]

theorem handle_file_transfer_buffer_length (he : Endian) (w : World) (m : Nat)
    (client_info : ClientInfo) (error : ErrorType)
    (hbuf : BUFFSIZE ≤ w.packet_buffer.length) :
    (handle_file_transfer he w m client_info error).world.packet_buffer.length
      = w.packet_buffer.length := by
  have key : ∀ (written : List Nat) (path : List Nat),
      (handle_file_transfer_loop client_info.client_socket
        (header_packet_len w.packet_buffer - m)
        { w with fs := w.fs.write path written } m (header_packet_len w.packet_buffer)
        written).1.packet_buffer.length = w.packet_buffer.length := by
    intro written path
    exact (handle_file_transfer_loop_frame _ _ _ _ _ _).2.2.2
  unfold handle_file_transfer
  simp only []
  split
  · rw [make_error_response_eq he _ BUFFSIZE _ _ (by simp only [key]; exact hbuf) (by decide)]
    simp only [List.length_append, header_bytes_length, List.length_singleton,
      List.length_drop, key]
    simp only [BUFFSIZE] at hbuf
    omega
  · simp only [make_file_received_packet]
    rw [make_header_only_packet_eq he _ BUFFSIZE _ _ (by simp only [key]; exact hbuf)
      (by decide)]
    simp only [List.length_append, header_bytes_length, List.length_drop, key]
    simp only [BUFFSIZE] at hbuf
    omega

/-- The server's side of an upload: the request `P` arrives completely and
alone; the file named by bytes 8..71 then holds the bytes from index 72 on,
one FileReceived header is sent and the session is kept. -/
theorem handle_client_upload (he : Endian) (md5 : List Nat → List Nat)
    (crc32 : List Nat → Nat) (w : World) (client_info : ClientInfo)
    (chunks : List (List Nat))
    (hin : w.incoming client_info.client_socket = deliver chunks [])
    (hne : ∀ c ∈ chunks, c ≠ [])
    (hL : 72 ≤ chunks.flatten.length)
    (hdecl : header_packet_len chunks.flatten = chunks.flatten.length)
    (htype : header_type chunks.flatten = PacketType.TYPE_FILE_TRANSFER.toNat)
    (htok : header_session_token he chunks.flatten = client_info.session_token)
    (hlt : client_info.session_token < 4294967296)
    (hbuf : BUFFSIZE ≤ w.packet_buffer.length) :
    (handle_client he md5 crc32 w client_info).1.fs
      = w.fs.write
          (join_path (path_to_user client_info.username) ((chunks.flatten.drop 8).take 64))
          (chunks.flatten.drop 72)
    ∧ (handle_client he md5 crc32 w client_info).1.output
        = w.output ++ [Effect.send client_info.client_socket
            (header_bytes he .TYPE_FILE_RECEIVED 8 client_info.session_token)]
    ∧ (handle_client he md5 crc32 w client_info).2 = client_info
    ∧ (handle_client he md5 crc32 w client_info).1.packet_buffer.length
        = w.packet_buffer.length := by
  have hp : pending_bytes (deliver chunks []) = chunks.flatten := by
    rw [pending_bytes_deliver chunks [] hne]; simp [pending_bytes]
  have e := receive_packet_succeeds (deliver chunks []) w.packet_buffer BUFFSIZE (by decide)
    hbuf (by rw [hp, hdecl]; omega) (by rw [hp, hdecl]; exact min_le_left _ _)
    (by rw [hp, hdecl])
  rw [hp, hdecl] at e
  generalize hP : chunks.flatten = P at *
  generalize hm : min P.length BUFFSIZE = m at *
  have hmP : m ≤ P.length := by rw [← hm]; exact min_le_left _ _
  have hmB : m ≤ BUFFSIZE := by rw [← hm]; exact min_le_right _ _
  have hm72 : 72 ≤ m := by
    rw [← hm]; exact le_min hL (by decide)
  have hmb : m ≤ w.packet_buffer.length := by omega
  obtain ⟨q1, q2, q3⟩ := memcpy_zero_take_parts w.packet_buffer P m hm72 hmP hmb
  obtain ⟨g1, g2⟩ := header_fields_memcpy he w.packet_buffer P m (by omega) hmP hmb
  have g3 := header_packet_len_memcpy w.packet_buffer P m (by omega) hmP hmb
  have hres := handle_client_of_receive he md5 crc32 w client_info m
    (memcpy w.packet_buffer 0 (P.take m)) (consume (deliver chunks []) m)
    (by rw [hin]; exact e) (by omega) (by rw [g2]; exact htok)
  obtain ⟨r1, r2, r3, r4, r5⟩ := received_fields w client_info.client_socket
    (memcpy w.packet_buffer 0 (P.take m)) (consume (deliver chunks []) m)
  rw [dispatch_file_transfer _ _ _ _ _ _ (by rw [r1, g1]; exact htype)] at hres
  have hpc := pending_bytes_consume (deliver chunks []) m (by rw [hp]; exact hmP)
  rw [hp] at hpc
  have hbl := handle_file_transfer_buffer_length he
    (w.received client_info.client_socket (memcpy w.packet_buffer 0 (P.take m))
      (consume (deliver chunks []) m)) m client_info .ERROR_UNKNOWN
    (by rw [r1, memcpy_length]; exact hbuf)
  rw [r1, memcpy_length] at hbl
  obtain ⟨c1, c2, c3, c4, c5, c6⟩ := handle_file_transfer_complete he
    (w.received client_info.client_socket (memcpy w.packet_buffer 0 (P.take m))
      (consume (deliver chunks []) m)) m client_info .ERROR_UNKNOWN hm72 hmB
    (by rw [r1, memcpy_length]; exact hbuf)
    (by rw [r1, r2, hpc, g3, hdecl, List.length_drop]; omega)
  rw [r1, r2, r4, hpc, q1, q2, q3] at c5
  rw [respond_positive _ _ (by rw [c1]; decide)] at hres
  rw [hres]
  simp only [World.send, c1, c2, c3, c5, r3, hbl]
  rw [show Int.toNat 8 = 8 from rfl, c6, Nat.mod_eq_of_lt hlt]
  exact ⟨trivial, rfl, trivial, trivial⟩

theorem upload_and_await_facts (he : Endian) (server_socket : Int) (session_token : Nat)
    (buffer : List Nat) (w : World) (file : FileInfo) (hbuf : BUFFSIZE ≤ buffer.length) :
    (upload_and_await he server_socket session_token (buffer, w) file).2.output
      = w.output ++ upload_sends he w.fs server_socket session_token file
    ∧ (upload_and_await he server_socket session_token (buffer, w) file).2.fs = w.fs
    ∧ (upload_and_await he server_socket session_token (buffer, w) file).1.length
        = buffer.length := by
  obtain ⟨a, b, _, d⟩ := upload_file_facts he w server_socket buffer session_token file hbuf
  simp only [upload_and_await, World.set_incoming, receive_packet_length]
  exact ⟨a, b, d⟩

/-- One upload exchange: the server ends up holding the client's file under
the same name field; nothing else that matters changes. -/
theorem exchange_upload (he : Endian) (md5 : List Nat → List Nat) (crc32 : List Nat → Nat)
    (server_socket : Int) (session_token : Nat) (buffer : List Nat) (p : Peers)
    (file : FileInfo) (content : List Nat)
    (hfile : p.client.fs.read (join_path CLIENT_DIR file.name) = some content)
    (hname : file.name.length = 64)
    (hsize : 72 + content.length ≤ 65535)
    (htok : p.session.session_token = session_token) (hlt : session_token < 4294967296)
    (hcb : BUFFSIZE ≤ buffer.length) (hsb : BUFFSIZE ≤ p.server.packet_buffer.length) :
    ∃ (b : List Nat) (q : Peers),
      exchange he md5 crc32 server_socket
          (sent_chunks server_socket
            (upload_sends he p.client.fs server_socket session_token file))
          (fun w => some (upload_and_await he server_socket session_token (buffer, w) file)) p
        = some (b, q)
      ∧ q.server.fs
          = p.server.fs.write (join_path (path_to_user p.session.username) file.name) content
      ∧ q.client.fs = p.client.fs
      ∧ q.session = p.session
      ∧ BUFFSIZE ≤ b.length
      ∧ BUFFSIZE ≤ q.server.packet_buffer.length := by
  have hreq : sent_chunks server_socket
      (upload_sends he p.client.fs server_socket session_token file)
      = header_bytes he .TYPE_FILE_TRANSFER ((8 + (64 + content.length) % 65536) % 65536)
          (session_token % 4294967296) :: file.name.take 64 :: fread_blocks content := by
    simp only [upload_sends, hfile, sent_chunks, if_true, sent_chunks_sends]
  have hplen : (8 + (64 + content.length) % 65536) % 65536 = 72 + content.length := by omega
  rw [hplen, Nat.mod_eq_of_lt hlt, List.take_of_length_le (by omega)] at hreq
  rw [hreq]
  have hhl := header_bytes_length he .TYPE_FILE_TRANSFER (72 + content.length) session_token
  have hf := header_fields he .TYPE_FILE_TRANSFER (72 + content.length) session_token
    (file.name ++ content) (by omega) hlt
  have hflat : (header_bytes he .TYPE_FILE_TRANSFER (72 + content.length) session_token
      :: file.name :: fread_blocks content).flatten
      = header_bytes he .TYPE_FILE_TRANSFER (72 + content.length) session_token
        ++ (file.name ++ content) := by
    simp only [List.flatten_cons, fread_blocks_flatten]
  have hlen : (header_bytes he .TYPE_FILE_TRANSFER (72 + content.length) session_token
      ++ (file.name ++ content)).length = 72 + content.length := by
    simp only [List.length_append, hhl, hname]; omega
  obtain ⟨s1, s2, s3, s4⟩ := handle_client_upload he md5 crc32
    (p.server.set_incoming p.session.client_socket
      (deliver (header_bytes he .TYPE_FILE_TRANSFER (72 + content.length) session_token
        :: file.name :: fread_blocks content) []))
    p.session
    (header_bytes he .TYPE_FILE_TRANSFER (72 + content.length) session_token
      :: file.name :: fread_blocks content)
    (set_incoming_same _ _ _)
    (by
      intro c hc
      rcases List.mem_cons.1 hc with rfl | hc
      · intro h; rw [h] at hhl; simp at hhl
      rcases List.mem_cons.1 hc with rfl | hc
      · intro h; rw [h] at hname; simp at hname
      · exact fread_blocks_ne_nil content c hc)
    (by rw [hflat, hlen]; omega)
    (by rw [hflat, hlen]; exact hf.2.2.1)
    (by rw [hflat]; exact hf.2.1)
    (by rw [hflat, htok]; exact hf.2.2.2)
    (by rw [htok]; exact hlt) hsb
  rw [hflat] at s1
  have hd8 : ((header_bytes he .TYPE_FILE_TRANSFER (72 + content.length) session_token
      ++ (file.name ++ content)).drop 8).take 64 = file.name := by
    rw [List.drop_left' hhl, List.take_left' hname]
  have hd72 : (header_bytes he .TYPE_FILE_TRANSFER (72 + content.length) session_token
      ++ (file.name ++ content)).drop 72 = content := by
    rw [← List.append_assoc]
    exact List.drop_left' (by rw [List.length_append, hhl, hname])
  rw [hd8, hd72] at s1
  obtain ⟨u1, u2, u3⟩ := upload_and_await_facts he server_socket session_token buffer
    (p.client.set_incoming server_socket
      (deliver [header_bytes he .TYPE_FILE_RECEIVED 8 p.session.session_token] []))
    file hcb
  refine ⟨(upload_and_await he server_socket session_token (buffer,
      p.client.set_incoming server_socket
        (deliver [header_bytes he .TYPE_FILE_RECEIVED 8 p.session.session_token] []))
      file).1,
    { client := (upload_and_await he server_socket session_token (buffer,
        p.client.set_incoming server_socket
          (deliver [header_bytes he .TYPE_FILE_RECEIVED 8 p.session.session_token] []))
        file).2,
      server := (handle_client he md5 crc32
        (p.server.set_incoming p.session.client_socket
          (deliver (header_bytes he .TYPE_FILE_TRANSFER (72 + content.length) session_token
            :: file.name :: fread_blocks content) []))
        p.session).1,
      session := (handle_client he md5 crc32
        (p.server.set_incoming p.session.client_socket
          (deliver (header_bytes he .TYPE_FILE_TRANSFER (72 + content.length) session_token
            :: file.name :: fread_blocks content) []))
        p.session).2 },
    exchange_of he md5 crc32 server_socket _ _ p _ _
      [header_bytes he .TYPE_FILE_RECEIVED 8 p.session.session_token] _ _ rfl ?_ rfl ?_,
    s1, u2, s3, by rw [u3]; exact hcb, by rw [s4]; exact hsb⟩
  · rw [s2]
    show sent_chunks p.session.client_socket ((p.server.output ++ _).drop p.server.output.length)
      = _
    rw [sent_chunks_new]
    simp only [sent_chunks, if_true]
  · rw [u1]
    show sent_chunks server_socket ((p.client.output ++ _).drop p.client.output.length) = _
    rw [sent_chunks_new]
    show sent_chunks server_socket (upload_sends he p.client.fs server_socket session_token file)
      = _
    simp only [upload_sends, hfile, sent_chunks, if_true, sent_chunks_sends]
    rw [hplen, Nat.mod_eq_of_lt hlt, List.take_of_length_le (by omega)]

theorem cstr_ne_zero (s : List Nat) : ∀ b ∈ cstr s, b ≠ 0 := by
  intro b hb
  have := List.mem_takeWhile_imp hb
  simpa using this

theorem cstr_cstr (s : List Nat) : cstr (cstr s) = cstr s :=
  cstr_nul_free _ (cstr_ne_zero s)

/-- The C string found in a 64-byte field that starts with the C string of
`name`, its terminator and anything after it. -/
theorem cstr_name_field (name tl : List Nat) (h : strlen name < 64) :
    cstr ((cstr_read name (strlen name + 1) ++ tl).take 64) = cstr name := by
  rw [cstr_read_eq, List.append_assoc, List.singleton_append, List.take_append_eq_append_take,
    List.take_of_length_le (by rw [← strlen_eq_cstr]; omega)]
  have : 64 - (cstr name).length = (63 - (cstr name).length) + 1 := by
    rw [← strlen_eq_cstr]; omega
  rw [this, List.take_succ_cons]
  exact cstr_append_nul _ _ (cstr_ne_zero name)

theorem respond_zero (he : Endian) (h : Handled) (hz : h.response_len = 0) :
    respond he h = (h.world, h.client_info) := by
  have h1 : ¬ h.response_len < 0 := by omega
  simp only [respond, if_neg h1, if_pos hz]

theorem handle_file_request_buffer_length (he : Endian) (w : World) (client_info : ClientInfo)
    (error : ErrorType) (hbuf : BUFFSIZE ≤ w.packet_buffer.length) :
    (handle_file_request he w client_info error).world.packet_buffer.length
      = w.packet_buffer.length := by
  have hB : BUFFSIZE = 8192 := rfl
  unfold handle_file_request
  simp only []
  split
  · rw [make_error_response_eq he _ BUFFSIZE _ _ hbuf (by decide)]
    simp only [List.length_append, header_bytes_length, List.length_singleton,
      List.length_drop]
    omega
  · rename_i content _
    rw [make_file_transfer_header_eq he _ _ _ hbuf]
    have hl : (header_bytes he .TYPE_FILE_TRANSFER ((8 + content.length % 65536) % 65536)
        (client_info.session_token % 4294967296) ++ w.packet_buffer.drop 8).length
        = w.packet_buffer.length := by
      rw [List.length_append, header_bytes_length, List.length_drop]; omega
    rw [(send_blocks_output _ _ _ (by
      intro x hx
      have := fread_blocks_length_le content x hx
      simp only [World.send]
      rw [hl]; omega)).2.2.2.2]
    simp only [World.send]
    exact hl

/-- The server's side of a download: a FileRequest for `name` arrives alone;
the server sends the FileTransfer header and the blocks of the file stored
under that name and keeps everything else. -/
theorem handle_client_file_request (he : Endian) (md5 : List Nat → List Nat)
    (crc32 : List Nat → Nat) (w : World) (client_info : ClientInfo)
    (name content : List Nat)
    (hin : w.incoming client_info.client_socket
      = deliver [header_bytes he .TYPE_FILE_REQUEST ((8 + (strlen name + 1)) % 65536)
          (client_info.session_token % 4294967296) ++ cstr_read name (strlen name + 1)] [])
    (hname : strlen name < 64)
    (hfile : w.fs.read (join_path (path_to_user client_info.username) name) = some content)
    (hlt : client_info.session_token < 4294967296)
    (hbuf : BUFFSIZE ≤ w.packet_buffer.length) :
    (handle_client he md5 crc32 w client_info).1.output
      = w.output ++ Effect.send client_info.client_socket
            (header_bytes he .TYPE_FILE_TRANSFER ((8 + content.length % 65536) % 65536)
              (client_info.session_token % 4294967296))
          :: (fread_blocks content).map (Effect.send client_info.client_socket)
    ∧ (handle_client he md5 crc32 w client_info).1.fs = w.fs
    ∧ (handle_client he md5 crc32 w client_info).2 = client_info
    ∧ (handle_client he md5 crc32 w client_info).1.packet_buffer.length
        = w.packet_buffer.length := by
  have hB : BUFFSIZE = 8192 := rfl
  have hmod : (8 + (strlen name + 1)) % 65536 = 8 + (strlen name + 1) :=
    Nat.mod_eq_of_lt (by omega)
  rw [hmod, Nat.mod_eq_of_lt hlt] at hin
  have hhl := header_bytes_length he .TYPE_FILE_REQUEST (8 + (strlen name + 1))
    client_info.session_token
  have hrl : (header_bytes he .TYPE_FILE_REQUEST (8 + (strlen name + 1))
      client_info.session_token ++ cstr_read name (strlen name + 1)).length
      = 8 + (strlen name + 1) := by
    rw [List.length_append, hhl, cstr_read_length]
  generalize hreq : header_bytes he .TYPE_FILE_REQUEST (8 + (strlen name + 1))
      client_info.session_token ++ cstr_read name (strlen name + 1) = req at hin hrl
  have hf := header_fields he .TYPE_FILE_REQUEST (8 + (strlen name + 1))
    client_info.session_token
    (cstr_read name (strlen name + 1) ++ w.packet_buffer.drop req.length) (by omega) hlt
  rw [← List.append_assoc, hreq] at hf
  have hf0 := header_fields he .TYPE_FILE_REQUEST (8 + (strlen name + 1))
    client_info.session_token (cstr_read name (strlen name + 1)) (by omega) hlt
  rw [hreq] at hf0
  have hR := receive_packet_deliver [req] [] w.packet_buffer BUFFSIZE
    (by intro c hc; rw [List.mem_singleton] at hc; subst hc
        intro h; rw [h, List.length_nil] at hrl; omega)
    (by simp only [List.flatten_cons, List.flatten_nil, List.append_nil]; omega)
    (by simp only [List.flatten_cons, List.flatten_nil, List.append_nil]
        rw [hrl]; exact hf0.2.2.1)
    (by simp only [List.flatten_cons, List.flatten_nil, List.append_nil]; omega) hbuf
  simp only [List.flatten_cons, List.flatten_nil, List.append_nil] at hR
  rw [memcpy_eq _ _ _ (by omega)] at hR
  simp only [List.take_zero, List.nil_append, Nat.zero_add] at hR
  have hres := handle_client_of_receive he md5 crc32 w client_info req.length
    (req ++ w.packet_buffer.drop req.length) []
    (by rw [hin]; exact hR) (by omega) hf.2.2.2
  obtain ⟨r1, r2, r3, r4, r5⟩ := received_fields w client_info.client_socket
    (req ++ w.packet_buffer.drop req.length) []
  rw [dispatch_file_request _ _ _ _ _ _ (by rw [r1]; exact hf.2.1)] at hres
  have hbl : BUFFSIZE ≤ (w.received client_info.client_socket
      (req ++ w.packet_buffer.drop req.length) []).packet_buffer.length := by
    rw [r1, List.length_append, List.length_drop]; omega
  have hpath : join_path (path_to_user client_info.username)
      (((w.received client_info.client_socket
        (req ++ w.packet_buffer.drop req.length) []).packet_buffer.drop 8).take 64)
      = join_path (path_to_user client_info.username) name := by
    rw [r1, ← hreq, List.append_assoc, List.drop_left' hhl]
    simp only [join_path]
    rw [cstr_name_field name _ hname]
  obtain ⟨a, b, c, d⟩ := handle_file_request_sends he
    (w.received client_info.client_socket (req ++ w.packet_buffer.drop req.length) [])
    client_info .ERROR_UNKNOWN content (by rw [hpath, r4]; exact hfile) hbl
  have e := handle_file_request_buffer_length he
    (w.received client_info.client_socket (req ++ w.packet_buffer.drop req.length) [])
    client_info .ERROR_UNKNOWN hbl
  rw [respond_zero _ _ b] at hres
  rw [hres]
  simp only [a, c, d, e, r3, r4, r1, List.length_append, List.length_drop, true_and]
  omega

theorem memcpy_zero_take_body (buffer P : List Nat) (m : Nat) (hm8 : 8 ≤ m)
    (hm : m ≤ P.length) (hb : m ≤ buffer.length) :
    ((memcpy buffer 0 (P.take m)).drop 8).take (m - 8) = (P.take m).drop 8
    ∧ (P.take m).drop 8 ++ P.drop m = P.drop 8 := by
  have ht := memcpy_zero_take buffer P m hm hb
  have hl : (P.take m).length = m := by rw [List.length_take]; omega
  refine ⟨?_, ?_⟩
  · rw [← List.drop_take, ht]
  · conv_rhs => rw [← List.take_append_drop m P]
    rw [List.drop_append_of_le_length (by rw [hl]; exact hm8)]

/-- The client's side of a download: a packet `P` that declares its own length
arrives completely and alone; the file then holds the bytes of `P` after the
header. -/
theorem download_file_complete (he : Endian) (w : World) (server_socket : Int)
    (buffer : List Nat) (session_token : Nat) (file_name : List Nat)
    (chunks : List (List Nat))
    (hin : w.incoming server_socket = deliver chunks [])
    (hne : ∀ c ∈ chunks, c ≠ [])
    (hL : 8 ≤ chunks.flatten.length)
    (hdecl : header_packet_len chunks.flatten = chunks.flatten.length)
    (hbuf : BUFFSIZE ≤ buffer.length) :
    (download_file he w server_socket buffer session_token file_name).2.fs
      = w.fs.write (join_path CLIENT_DIR file_name) (chunks.flatten.drop 8) := by
  have hp : pending_bytes (deliver chunks []) = chunks.flatten := by
    rw [pending_bytes_deliver chunks [] hne]; simp [pending_bytes]
  have hql := make_file_request_length he buffer BUFFSIZE session_token file_name
  have e := receive_packet_succeeds (deliver chunks [])
    (make_file_request he buffer BUFFSIZE session_token file_name).2 BUFFSIZE (by decide)
    (by rw [hql]; exact hbuf) (by rw [hp, hdecl]; omega)
    (by rw [hp, hdecl]; exact min_le_left _ _) (by rw [hp, hdecl])
  rw [hp, hdecl] at e
  generalize hP : chunks.flatten = P at *
  generalize hm : min P.length BUFFSIZE = m at *
  generalize hq : make_file_request he buffer BUFFSIZE session_token file_name = q at *
  have hB : BUFFSIZE = 8192 := rfl
  have hmP : m ≤ P.length := by rw [← hm]; exact min_le_left _ _
  have hmB : m ≤ BUFFSIZE := by rw [← hm]; exact min_le_right _ _
  have hm8 : 8 ≤ m := by
    rw [← hm]; exact le_min hL (by decide)
  have hmb : m ≤ q.2.length := by omega
  obtain ⟨q2, q3⟩ := memcpy_zero_take_body q.2 P m hm8 hmP hmb
  have g3 := header_packet_len_memcpy q.2 P m (by omega) hmP hmb
  have hpc := pending_bytes_consume (deliver chunks []) m (by rw [hp]; exact hmP)
  rw [hp] at hpc
  have hn : ((m : Int) % 18446744073709551616).toNat = m := by omega
  have hc : (m + 18446744073709551616 - HEADER_LEN) % 18446744073709551616 = m - 8 := by
    simp only [HEADER_LEN]; omega
  have hloop := download_file_loop_complete (P.length - m) (consume (deliver chunks []) m)
    (memcpy q.2 0 (P.take m)) m P.length ((P.take m).drop 8) (le_refl _)
    (by rw [hpc, List.length_drop]; omega)
  rw [hpc, q3] at hloop
  simp only [HEADER_LEN] at hc
  simp only [download_file, hq, World.send, World.set_incoming, if_true, hin, e, hn, g3, hdecl,
    HEADER_LEN, hc, q2, hloop, fs_write_write]

/-- One download exchange: the client ends up holding the server's file under
the same name; nothing else that matters changes. -/
theorem exchange_download (he : Endian) (md5 : List Nat → List Nat) (crc32 : List Nat → Nat)
    (server_socket : Int) (session_token : Nat) (buffer : List Nat) (p : Peers)
    (file : FileInfo) (content : List Nat)
    (hfile : p.server.fs.read (join_path (path_to_user p.session.username) file.name)
      = some content)
    (hname : strlen file.name < 64)
    (hsize : 8 + content.length ≤ 65535)
    (htok : p.session.session_token = session_token) (hlt : session_token < 4294967296)
    (hcb : BUFFSIZE ≤ buffer.length) (hsb : BUFFSIZE ≤ p.server.packet_buffer.length) :
    ∃ (b : List Nat) (q : Peers),
      exchange he md5 crc32 server_socket
          (sent_chunks server_socket [download_sends he server_socket session_token file])
          (fun w => some (download_file he w server_socket buffer session_token file.name)) p
        = some (b, q)
      ∧ q.client.fs = p.client.fs.write (join_path CLIENT_DIR file.name) content
      ∧ q.server.fs = p.server.fs
      ∧ q.session = p.session
      ∧ BUFFSIZE ≤ b.length
      ∧ BUFFSIZE ≤ q.server.packet_buffer.length := by
  have hB : BUFFSIZE = 8192 := rfl
  subst htok
  have hreq : sent_chunks server_socket [download_sends he server_socket p.session.session_token file]
      = [header_bytes he .TYPE_FILE_REQUEST ((8 + (strlen file.name + 1)) % 65536)
          (p.session.session_token % 4294967296)
          ++ cstr_read file.name (strlen file.name + 1)] := by
    simp only [download_sends, sent_chunks, if_true]
  rw [hreq]
  obtain ⟨s1, s2, s3, s4⟩ := handle_client_file_request he md5 crc32
    (p.server.set_incoming p.session.client_socket
      (deliver [header_bytes he .TYPE_FILE_REQUEST ((8 + (strlen file.name + 1)) % 65536)
          (p.session.session_token % 4294967296)
          ++ cstr_read file.name (strlen file.name + 1)] []))
    p.session file.name content (set_incoming_same _ _ _) hname hfile
    hlt hsb
  have hplen : (8 + content.length % 65536) % 65536 = 8 + content.length := by omega
  have hhl := header_bytes_length he .TYPE_FILE_TRANSFER (8 + content.length) p.session.session_token
  have hf := header_fields he .TYPE_FILE_TRANSFER (8 + content.length) p.session.session_token
    content (by omega) hlt
  have hflat : (header_bytes he .TYPE_FILE_TRANSFER (8 + content.length) p.session.session_token
      :: fread_blocks content).flatten
      = header_bytes he .TYPE_FILE_TRANSFER (8 + content.length) p.session.session_token ++ content := by
    simp only [List.flatten_cons, fread_blocks_flatten]
  have hlen : (header_bytes he .TYPE_FILE_TRANSFER (8 + content.length) p.session.session_token
      ++ content).length = 8 + content.length := by
    simp only [List.length_append, hhl]
  have d1 := download_file_complete he
    (p.client.set_incoming server_socket
      (deliver (header_bytes he .TYPE_FILE_TRANSFER (8 + content.length) p.session.session_token
        :: fread_blocks content) []))
    server_socket buffer p.session.session_token file.name
    (header_bytes he .TYPE_FILE_TRANSFER (8 + content.length) p.session.session_token
      :: fread_blocks content)
    (set_incoming_same _ _ _)
    (by
      intro c hc
      rcases List.mem_cons.1 hc with rfl | hc
      · intro h; rw [h] at hhl; simp at hhl
      · exact fread_blocks_ne_nil content c hc)
    (by rw [hflat, hlen]; omega)
    (by rw [hflat, hlen]; exact hf.2.2.1) hcb
  rw [hflat, List.drop_left' hhl] at d1
  obtain ⟨d2, d3⟩ := download_file_sends he
    (p.client.set_incoming server_socket
      (deliver (header_bytes he .TYPE_FILE_TRANSFER (8 + content.length) p.session.session_token
        :: fread_blocks content) []))
    server_socket buffer p.session.session_token file (by omega) hcb
  refine ⟨(download_file he
      (p.client.set_incoming server_socket
        (deliver (header_bytes he .TYPE_FILE_TRANSFER (8 + content.length) p.session.session_token
          :: fread_blocks content) []))
      server_socket buffer p.session.session_token file.name).1,
    { client := (download_file he
        (p.client.set_incoming server_socket
          (deliver (header_bytes he .TYPE_FILE_TRANSFER (8 + content.length) p.session.session_token
            :: fread_blocks content) []))
        server_socket buffer p.session.session_token file.name).2,
      server := (handle_client he md5 crc32
        (p.server.set_incoming p.session.client_socket
          (deliver [header_bytes he .TYPE_FILE_REQUEST ((8 + (strlen file.name + 1)) % 65536)
              (p.session.session_token % 4294967296)
              ++ cstr_read file.name (strlen file.name + 1)] []))
        p.session).1,
      session := (handle_client he md5 crc32
        (p.server.set_incoming p.session.client_socket
          (deliver [header_bytes he .TYPE_FILE_REQUEST ((8 + (strlen file.name + 1)) % 65536)
              (p.session.session_token % 4294967296)
              ++ cstr_read file.name (strlen file.name + 1)] []))
        p.session).2 },
    exchange_of he md5 crc32 server_socket _ _ p _ _
      (header_bytes he .TYPE_FILE_TRANSFER (8 + content.length) p.session.session_token
        :: fread_blocks content) _ _ rfl ?_ rfl ?_,
    d1, s2, s3, by rw [d3]; exact hcb, by rw [s4]; exact hsb⟩
  · rw [s1]
    show sent_chunks p.session.client_socket ((p.server.output ++ _).drop p.server.output.length)
      = _
    rw [sent_chunks_new]
    simp only [sent_chunks, if_true, sent_chunks_sends, hplen, Nat.mod_eq_of_lt hlt]
  · rw [d2]
    show sent_chunks server_socket ((p.client.output ++ _).drop p.client.output.length) = _
    rw [sent_chunks_new]
    simp only [download_sends, sent_chunks, if_true]

/-! ### Inventories -/

theorem list_files_eq (crc32 : List Nat → Nat) (fs : FileSys) (dir_path : List Nat) :
    list_files crc32 fs dir_path
      = ((((fs.regular_entries (cstr dir_path)).getD []).map (file_info_of crc32)).reverse,
          ((fs.regular_entries (cstr dir_path)).getD []).length) := by
  have key : ∀ (entries : List (List Nat × List Nat)) (acc : List FileInfo),
      entries.foldl (fun info_list entry =>
        ({ name := (entry.1 ++ List.replicate (MAX_FILE_NAME_LEN - 1) 0).take
                    (MAX_FILE_NAME_LEN - 1) ++ [0],
           checksum := crc32 entry.2 } : FileInfo) :: info_list) acc
        = (entries.map (file_info_of crc32)).reverse ++ acc := by
    intro entries
    induction entries with
    | nil => intro acc; rfl
    | cons e es ih =>
      intro acc
      simp only [List.foldl_cons, ih, List.map_cons, List.reverse_cons, List.append_assoc,
        List.singleton_append, file_info_of, name_field]
  unfold list_files
  cases h : fs.regular_entries (cstr dir_path) with
  | none => rfl
  | some entries => simp only [key, List.append_nil, Option.getD_some]

theorem name_field_length (entry_name : List Nat) : (name_field entry_name).length = 64 := by
  simp only [name_field, MAX_FILE_NAME_LEN, List.length_append, List.length_take,
    List.length_replicate, List.length_singleton]
  omega

theorem name_field_cstr (entry_name : List Nat) (h0 : ∀ b ∈ entry_name, b ≠ 0)
    (hl : entry_name.length ≤ 63) : cstr (name_field entry_name) = entry_name := by
  have e : name_field entry_name
      = entry_name ++ 0 :: (List.replicate (63 - entry_name.length) 0) := by
    simp only [name_field, MAX_FILE_NAME_LEN]
    rw [List.take_append_eq_append_take, List.take_of_length_le hl, List.take_replicate,
      List.append_assoc]
    congr 1
    have hm : min (63 - entry_name.length) (64 - 1) = 63 - entry_name.length := by omega
    rw [hm]
    show List.replicate (63 - entry_name.length) 0 ++ List.replicate 1 0 = _
    rw [← List.replicate_add, List.replicate_succ]
  rw [e]
  exact cstr_append_nul _ _ h0

theorem name_field_strlen (entry_name : List Nat) (h0 : ∀ b ∈ entry_name, b ≠ 0)
    (hl : entry_name.length ≤ 63) : strlen (name_field entry_name) < 64 := by
  rw [strlen_eq_cstr, name_field_cstr entry_name h0 hl]
  omega

theorem list_user_files_wf (crc32 : List Nat → Nat) (fs : FileSys) (username : List Nat)
    (hcrc : ∀ x, crc32 x < 4294967296) :
    (list_user_files crc32 fs username).2 = (list_user_files crc32 fs username).1.length
    ∧ ∀ f ∈ (list_user_files crc32 fs username).1,
        f.name.length = MAX_FILE_NAME_LEN ∧ f.checksum < 4294967296 := by
  unfold list_user_files
  rw [list_files_eq]
  refine ⟨by simp, ?_⟩
  intro f hf
  simp only [List.mem_reverse, List.mem_map] at hf
  obtain ⟨e, _, rfl⟩ := hf
  exact ⟨name_field_length _, hcrc _⟩

/-- The server's side of the inventory exchange: a ListRequest arrives alone;
the server sends one ListResponse with its inventory of the user's directory
and keeps everything else. -/
theorem handle_client_list (he : Endian) (md5 : List Nat → List Nat)
    (crc32 : List Nat → Nat) (w : World) (client_info : ClientInfo)
    (hin : w.incoming client_info.client_socket
      = deliver [header_bytes he .TYPE_LIST_REQUEST 8 client_info.session_token] [])
    (hcrc : ∀ x, crc32 x < 4294967296)
    (hfit : 8 + 68 * (list_user_files crc32 w.fs client_info.username).1.length ≤ BUFFSIZE)
    (hlt : client_info.session_token < 4294967296)
    (hbuf : BUFFSIZE ≤ w.packet_buffer.length) :
    (handle_client he md5 crc32 w client_info).1.output
      = w.output ++ [Effect.send client_info.client_socket
          (header_bytes he .TYPE_LIST_RESPONSE
              (8 + 68 * (list_user_files crc32 w.fs client_info.username).1.length)
              client_info.session_token
            ++ list_payload_spec (list_user_files crc32 w.fs client_info.username).1)]
    ∧ (handle_client he md5 crc32 w client_info).1.fs = w.fs
    ∧ (handle_client he md5 crc32 w client_info).2 = client_info
    ∧ (handle_client he md5 crc32 w client_info).1.packet_buffer.length
        = w.packet_buffer.length := by
  have hB : BUFFSIZE = 8192 := rfl
  have hhl := header_bytes_length he .TYPE_LIST_REQUEST 8 client_info.session_token
  generalize hreq : header_bytes he .TYPE_LIST_REQUEST 8 client_info.session_token = req
    at hin hhl
  have hf := header_fields he .TYPE_LIST_REQUEST 8 client_info.session_token
    (w.packet_buffer.drop req.length) (by omega) hlt
  rw [hreq] at hf
  have hf0 := header_fields he .TYPE_LIST_REQUEST 8 client_info.session_token [] (by omega) hlt
  rw [hreq, List.append_nil] at hf0
  have hR := receive_packet_deliver [req] [] w.packet_buffer BUFFSIZE
    (by intro c hc; rw [List.mem_singleton] at hc; subst hc
        intro h; rw [h, List.length_nil] at hhl; omega)
    (by simp only [List.flatten_cons, List.flatten_nil, List.append_nil]; omega)
    (by simp only [List.flatten_cons, List.flatten_nil, List.append_nil]
        rw [hhl]; exact hf0.2.2.1)
    (by simp only [List.flatten_cons, List.flatten_nil, List.append_nil]; omega) hbuf
  simp only [List.flatten_cons, List.flatten_nil, List.append_nil] at hR
  rw [memcpy_eq _ _ _ (by omega)] at hR
  simp only [List.take_zero, List.nil_append, Nat.zero_add] at hR
  have hres := handle_client_of_receive he md5 crc32 w client_info req.length
    (req ++ w.packet_buffer.drop req.length) []
    (by rw [hin]; exact hR) (by omega) hf.2.2.2
  obtain ⟨r1, r2, r3, r4, r5⟩ := received_fields w client_info.client_socket
    (req ++ w.packet_buffer.drop req.length) []
  rw [dispatch_list _ _ _ _ _ _ (by rw [r1]; exact hf.2.1)] at hres
  obtain ⟨hcount, hwf⟩ := list_user_files_wf crc32 w.fs client_info.username hcrc
  generalize hfiles : list_user_files crc32 w.fs client_info.username = l at *
  have hm := make_list_response_eq he (req ++ w.packet_buffer.drop req.length) BUFFSIZE
    client_info.session_token l.1 hwf hfit
    (by rw [List.length_append, List.length_drop]; omega)
  rw [Nat.mod_eq_of_lt (by omega : 8 + 68 * l.1.length < 65536), Nat.mod_eq_of_lt hlt] at hm
  have hpl := list_payload_spec_length l.1 (fun f hf => (hwf f hf).1)
  simp only [MAX_FILE_NAME_LEN] at hpl
  have hh2 := header_bytes_length he .TYPE_LIST_RESPONSE (8 + 68 * l.1.length)
    client_info.session_token
  simp only [handle_list, r1, r4, hfiles, hcount, hm] at hres
  rw [respond_positive _ _ (by show (0 : Int) < ((8 + 68 * l.1.length : Nat) : Int); omega)]
    at hres
  rw [hres]
  simp only [World.send, Int.toNat_ofNat, r3, r4, true_and]
  refine ⟨?_, ?_⟩
  · rw [List.take_left' (by rw [List.length_append, hh2, hpl])]
  · simp only [List.length_append, hh2, hpl, List.length_drop]
    omega

/-- The client's side of the inventory exchange: the ListResponse for `files`
arrives alone; `get_server_files` yields the entries in reverse order. -/
theorem get_server_files_of_response (he : Endian) (w : World) (server_socket : Int)
    (buffer : List Nat) (session_token token : Nat) (files : List FileInfo)
    (hin : w.incoming server_socket
      = deliver [header_bytes he .TYPE_LIST_RESPONSE (8 + 68 * files.length) token
          ++ list_payload_spec files] [])
    (hwf : ∀ f ∈ files, f.name.length = MAX_FILE_NAME_LEN ∧ f.checksum < 4294967296)
    (hfit : 8 + 68 * files.length ≤ BUFFSIZE) (hlt : token < 4294967296)
    (hbuf : BUFFSIZE ≤ buffer.length) :
    ∃ r, get_server_files he w server_socket buffer session_token = some r
      ∧ r.1 = files.reverse := by
  have hB : BUFFSIZE = 8192 := rfl
  have hpl := list_payload_spec_length files (fun f hf => (hwf f hf).1)
  simp only [MAX_FILE_NAME_LEN] at hpl
  have hhl := header_bytes_length he .TYPE_LIST_RESPONSE (8 + 68 * files.length) token
  have hPl : (header_bytes he .TYPE_LIST_RESPONSE (8 + 68 * files.length) token
      ++ list_payload_spec files).length = 8 + 68 * files.length := by
    rw [List.length_append, hhl, hpl]
  have hf := header_fields he .TYPE_LIST_RESPONSE (8 + 68 * files.length) token
    (list_payload_spec files) (by omega) hlt
  have hg := get_server_files_of_deliver he w server_socket buffer session_token
    [header_bytes he .TYPE_LIST_RESPONSE (8 + 68 * files.length) token
      ++ list_payload_spec files] [] hin
    (by intro c hc; rw [List.mem_singleton] at hc; subst hc
        intro h; rw [h, List.length_nil] at hPl; omega)
    (by simp only [List.flatten_cons, List.flatten_nil, List.append_nil]; omega)
    (by simp only [List.flatten_cons, List.flatten_nil, List.append_nil]
        rw [hPl]; exact hf.2.2.1)
    (by simp only [List.flatten_cons, List.flatten_nil, List.append_nil]; omega) hbuf
  simp only [List.flatten_cons, List.flatten_nil, List.append_nil] at hg
  have hn : (8 + 68 * files.length - HEADER_LEN) / (MAX_FILE_NAME_LEN + 4) = files.length := by
    simp only [HEADER_LEN, MAX_FILE_NAME_LEN]
    omega
  rw [hPl, hn, memcpy_eq _ _ _ (by rw [make_list_request_length, hPl]; omega)] at hg
  simp only [List.take_zero, List.nil_append, Nat.zero_add] at hg
  rw [List.append_assoc,
    get_server_files_loop_eq files _ _ HEADER_LEN [] (by rw [hhl]; rfl) hwf,
    List.append_nil] at hg
  cases hG : get_server_files he w server_socket buffer session_token with
  | none => rw [hG] at hg; exact absurd hg (by simp)
  | some r =>
    rw [hG] at hg
    exact ⟨r, rfl, Option.some.inj hg⟩

/-- The inventory exchange: the client obtains the two diffs of its own
inventory and the server's; no file changes. -/
theorem exchange_list (he : Endian) (md5 : List Nat → List Nat) (crc32 : List Nat → Nat)
    (server_socket : Int) (session_token : Nat) (buffer : List Nat) (p : Peers)
    (hcrc : ∀ x, crc32 x < 4294967296)
    (hfit : 8 + 68 * (list_user_files crc32 p.server.fs p.session.username).1.length
      ≤ BUFFSIZE)
    (htok : p.session.session_token = session_token) (hlt : session_token < 4294967296)
    (hcb : BUFFSIZE ≤ buffer.length) (hsb : BUFFSIZE ≤ p.server.packet_buffer.length) :
    ∃ (b : List Nat) (q : Peers),
      exchange he md5 crc32 server_socket
          [header_bytes he .TYPE_LIST_REQUEST 8 (session_token % 4294967296)]
          (fun w =>
            (get_client_server_diffs he crc32 w server_socket buffer session_token).map
              (fun d => ((d.1, d.2.1, d.2.2.1), d.2.2.2))) p
        = some ((get_missing_files
              (list_user_files crc32 p.server.fs p.session.username).1.reverse
              (list_files crc32 p.client.fs CLIENT_DIR).1,
            get_missing_files (list_files crc32 p.client.fs CLIENT_DIR).1
              (list_user_files crc32 p.server.fs p.session.username).1.reverse, b), q)
      ∧ q.client.fs = p.client.fs
      ∧ q.server.fs = p.server.fs
      ∧ q.session = p.session
      ∧ BUFFSIZE ≤ b.length
      ∧ BUFFSIZE ≤ q.server.packet_buffer.length := by
  subst htok
  rw [Nat.mod_eq_of_lt hlt]
  obtain ⟨s1, s2, s3, s4⟩ := handle_client_list he md5 crc32
    (p.server.set_incoming p.session.client_socket
      (deliver [header_bytes he .TYPE_LIST_REQUEST 8 p.session.session_token] []))
    p.session (set_incoming_same _ _ _) hcrc hfit hlt hsb
  obtain ⟨hcount, hwf⟩ := list_user_files_wf crc32 p.server.fs p.session.username hcrc
  obtain ⟨r, hG, hr1⟩ := get_server_files_of_response he
    (p.client.set_incoming server_socket
      (deliver [header_bytes he .TYPE_LIST_RESPONSE
          (8 + 68 * (list_user_files crc32 p.server.fs p.session.username).1.length)
          p.session.session_token
        ++ list_payload_spec (list_user_files crc32 p.server.fs p.session.username).1] []))
    server_socket buffer p.session.session_token p.session.session_token
    (list_user_files crc32 p.server.fs p.session.username).1
    (set_incoming_same _ _ _) hwf hfit hlt hcb
  obtain ⟨hfs, _, hout⟩ := get_server_files_world he _ server_socket buffer
    p.session.session_token r hG
  obtain ⟨_, hbl⟩ := get_server_files_names he _ server_socket buffer
    p.session.session_token r hG
  have hD := get_client_server_diffs_of he crc32 _ server_socket buffer
    p.session.session_token r hG
  rw [hr1] at hD
  have hq := make_header_only_packet_eq he buffer BUFFSIZE .TYPE_LIST_REQUEST
    p.session.session_token hcb (by decide)
  rw [Nat.mod_eq_of_lt hlt] at hq
  refine ⟨r.2.2.1,
    { client := r.2.2.2,
      server := (handle_client he md5 crc32
        (p.server.set_incoming p.session.client_socket
          (deliver [header_bytes he .TYPE_LIST_REQUEST 8 p.session.session_token] []))
        p.session).1,
      session := (handle_client he md5 crc32
        (p.server.set_incoming p.session.client_socket
          (deliver [header_bytes he .TYPE_LIST_REQUEST 8 p.session.session_token] []))
        p.session).2 },
    exchange_of he md5 crc32 server_socket _ _ p _ _
      [header_bytes he .TYPE_LIST_RESPONSE
          (8 + 68 * (list_user_files crc32 p.server.fs p.session.username).1.length)
          p.session.session_token
        ++ list_payload_spec (list_user_files crc32 p.server.fs p.session.username).1]
      _ _ rfl ?_ ?_ ?_,
    hfs, s2, s3, by rw [hbl]; exact hcb, by rw [s4]; exact hsb⟩
  · rw [s1]
    show sent_chunks p.session.client_socket ((p.server.output ++ _).drop p.server.output.length)
      = _
    rw [sent_chunks_new]
    simp only [sent_chunks, if_true]
    rfl
  · simp only [hD, Option.map_some']
    rfl
  · rw [hout]
    show sent_chunks server_socket ((p.client.output ++ _).drop p.client.output.length) = _
    rw [sent_chunks_new]
    simp only [make_list_request, hq, sent_chunks, if_true]
    rw [show Int.toNat 8 = 8 from rfl, List.take_left' (header_bytes_length _ _ _ _)]

/-! ### The phases of a run against the server -/

/-- The upload phase against the server: the server's files after it are the
successive `upload_writes`; the client's files and the session are as
before. -/
theorem sync_run_uploads_eq (he : Endian) (md5 : List Nat → List Nat)
    (crc32 : List Nat → Nat) (server_socket : Int) (session_token : Nat)
    (files : List FileInfo) (buffer : List Nat) (p : Peers)
    (hfiles : ∀ f ∈ files, f.name.length = 64
      ∧ ∃ content, p.client.fs.read (join_path CLIENT_DIR f.name) = some content
          ∧ 72 + content.length ≤ 65535)
    (htok : p.session.session_token = session_token) (hlt : session_token < 4294967296)
    (hcb : BUFFSIZE ≤ buffer.length) (hsb : BUFFSIZE ≤ p.server.packet_buffer.length) :
    ∃ (b : List Nat) (q : Peers),
      sync_run_uploads he md5 crc32 server_socket session_token files buffer p = some (b, q)
      ∧ q.server.fs
          = files.foldl (upload_writes p.client.fs (path_to_user p.session.username))
              p.server.fs
      ∧ q.client.fs = p.client.fs
      ∧ q.session = p.session
      ∧ BUFFSIZE ≤ b.length
      ∧ BUFFSIZE ≤ q.server.packet_buffer.length := by
  induction files generalizing buffer p with
  | nil => exact ⟨buffer, p, rfl, rfl, rfl, rfl, hcb, hsb⟩
  | cons f rest ih =>
    obtain ⟨hn, content, hread, hsize⟩ := hfiles f (List.mem_cons_self _ _)
    obtain ⟨b1, q1, e1, a1, a2, a3, a4, a5⟩ := exchange_upload he md5 crc32 server_socket
      session_token buffer p f content hread hn hsize htok hlt hcb hsb
    obtain ⟨b2, q2, e2, c1, c2, c3, c4, c5⟩ := ih b1 q1
      (by
        intro g hg
        rw [a2]
        exact hfiles g (List.mem_cons_of_mem _ hg))
      (by rw [a3]; exact htok) a4 a5
    refine ⟨b2, q2, ?_, ?_, by rw [c2, a2], by rw [c3, a3], c4, c5⟩
    · simp only [sync_run_uploads, e1, e2]
    · rw [c1, a1, a2, a3, List.foldl_cons]
      simp only [upload_writes, hread]

/-- The download phase against the server: the client's files after it are
the successive `download_writes`; the server's files and the session are as
before. -/
theorem sync_run_downloads_eq (he : Endian) (md5 : List Nat → List Nat)
    (crc32 : List Nat → Nat) (server_socket : Int) (session_token : Nat)
    (files : List FileInfo) (buffer : List Nat) (p : Peers)
    (hfiles : ∀ f ∈ files, strlen f.name < 64
      ∧ ∃ content,
          p.server.fs.read (join_path (path_to_user p.session.username) f.name) = some content
          ∧ 8 + content.length ≤ 65535)
    (htok : p.session.session_token = session_token) (hlt : session_token < 4294967296)
    (hcb : BUFFSIZE ≤ buffer.length) (hsb : BUFFSIZE ≤ p.server.packet_buffer.length) :
    ∃ (b : List Nat) (q : Peers),
      sync_run_downloads he md5 crc32 server_socket session_token files buffer p = some (b, q)
      ∧ q.client.fs
          = files.foldl (download_writes p.server.fs (path_to_user p.session.username))
              p.client.fs
      ∧ q.server.fs = p.server.fs
      ∧ q.session = p.session := by
  induction files generalizing buffer p with
  | nil => exact ⟨buffer, p, rfl, rfl, rfl, rfl⟩
  | cons f rest ih =>
    obtain ⟨hn, content, hread, hsize⟩ := hfiles f (List.mem_cons_self _ _)
    obtain ⟨b1, q1, e1, a1, a2, a3, a4, a5⟩ := exchange_download he md5 crc32 server_socket
      session_token buffer p f content hread hn hsize htok hlt hcb hsb
    obtain ⟨b2, q2, e2, c1, c2, c3⟩ := ih b1 q1
      (by
        intro g hg
        rw [a2, a3]
        exact hfiles g (List.mem_cons_of_mem _ hg))
      (by rw [a3]; exact htok) a4 a5
    refine ⟨b2, q2, ?_, ?_, by rw [c2, a2], by rw [c3, a3]⟩
    · simp only [sync_run_downloads, e1, e2]
    · rw [c1, a1, a2, a3, List.foldl_cons]
      simp only [download_writes, hread]

/-- A whole run against the server, when every transfer it needs is possible:
the server's files are the successive `upload_writes` of the entries missing
from the server, then the client's files are the successive `download_writes`
of the entries missing from the client; the session stays as it was. -/
theorem sync_run_eq (he : Endian) (md5 : List Nat → List Nat) (crc32 : List Nat → Nat)
    (server_socket : Int) (buffer : List Nat) (session_token : Nat) (p : Peers)
    (hcrc : ∀ x, crc32 x < 4294967296)
    (hfit : 8 + 68 * (list_user_files crc32 p.server.fs p.session.username).1.length
      ≤ BUFFSIZE)
    (htok : p.session.session_token = session_token) (hlt : session_token < 4294967296)
    (hcb : BUFFSIZE ≤ buffer.length) (hsb : BUFFSIZE ≤ p.server.packet_buffer.length)
    (hup : ∀ f ∈ get_missing_files (list_files crc32 p.client.fs CLIENT_DIR).1
        (list_user_files crc32 p.server.fs p.session.username).1.reverse,
      f.name.length = 64
      ∧ ∃ content, p.client.fs.read (join_path CLIENT_DIR f.name) = some content
          ∧ 72 + content.length ≤ 65535)
    (hdown : ∀ f ∈ get_missing_files
        (list_user_files crc32 p.server.fs p.session.username).1.reverse
        (list_files crc32 p.client.fs CLIENT_DIR).1,
      strlen f.name < 64
      ∧ ∃ content,
          ((get_missing_files (list_files crc32 p.client.fs CLIENT_DIR).1
              (list_user_files crc32 p.server.fs p.session.username).1.reverse).foldl
            (upload_writes p.client.fs (path_to_user p.session.username)) p.server.fs).read
            (join_path (path_to_user p.session.username) f.name) = some content
          ∧ 8 + content.length ≤ 65535) :
    ∃ (b : List Nat) (q : Peers),
      sync_run he md5 crc32 server_socket buffer session_token p = some (b, q)
      ∧ q.server.fs
          = (get_missing_files (list_files crc32 p.client.fs CLIENT_DIR).1
              (list_user_files crc32 p.server.fs p.session.username).1.reverse).foldl
            (upload_writes p.client.fs (path_to_user p.session.username)) p.server.fs
      ∧ q.client.fs
          = (get_missing_files (list_user_files crc32 p.server.fs p.session.username).1.reverse
              (list_files crc32 p.client.fs CLIENT_DIR).1).foldl
            (download_writes q.server.fs (path_to_user p.session.username)) p.client.fs
      ∧ q.session = p.session := by
  obtain ⟨b0, q0, e0, l1, l2, l3, l4, l5⟩ := exchange_list he md5 crc32 server_socket
    session_token buffer p hcrc hfit htok hlt hcb hsb
  obtain ⟨b1, q1, e1, u1, u2, u3, u4, u5⟩ := sync_run_uploads_eq he md5 crc32 server_socket
    session_token
    (get_missing_files (list_files crc32 p.client.fs CLIENT_DIR).1
      (list_user_files crc32 p.server.fs p.session.username).1.reverse) b0 q0
    (by rw [l1]; exact hup) (by rw [l3]; exact htok) hlt l4 l5
  rw [l1, l2, l3] at u1
  obtain ⟨b2, q2, e2, d1, d2, d3⟩ := sync_run_downloads_eq he md5 crc32 server_socket
    session_token
    (get_missing_files (list_user_files crc32 p.server.fs p.session.username).1.reverse
      (list_files crc32 p.client.fs CLIENT_DIR).1) b1 q1
    (by rw [u1, u3, l3]; exact hdown) (by rw [u3, l3]; exact htok) hlt u4 u5
  refine ⟨b2, q2, ?_, by rw [d2, u1], ?_, by rw [d3, u3, l3]⟩
  · simp only [sync_run, e0, e1, e2]
  · rw [d1, d2, u2, l1, u3, l3]

/-! ### Files and directory listings -/

theorem mem_regular_entries (fs : FileSys) (dir : List Nat)
    (entries : List (List Nat × List Nat)) (h : fs.regular_entries dir = some entries)
    (e : List Nat × List Nat) :
    e ∈ entries ↔ (dir ++ [47] ++ e.1, e.2) ∈ fs.files ∧ 47 ∉ e.1 := by
  unfold FileSys.regular_entries at h
  split at h
  · have := Option.some.inj h
    subst this
    rw [List.mem_filterMap]
    constructor
    · rintro ⟨f, hf, hc⟩
      split at hc
      · rename_i hcond
        have := Option.some.inj hc
        subst this
        obtain ⟨hpre, hno⟩ := hcond
        obtain ⟨t, ht⟩ := List.isPrefixOf_iff_prefix.1 hpre
        have hd : f.1.drop (dir.length + 1) = t := by
          rw [← ht]
          exact List.drop_left' (by simp)
        simp only
        rw [hd] at hno ⊢
        refine ⟨?_, hno⟩
        rw [ht]
        exact hf
      · exact absurd hc (by simp)
    · rintro ⟨hf, hno⟩
      refine ⟨(dir ++ [47] ++ e.1, e.2), hf, ?_⟩
      have hd : (dir ++ [47] ++ e.1).drop (dir.length + 1) = e.1 :=
        List.drop_left' (by simp)
      have hpre : (dir ++ [47]).isPrefixOf (dir ++ [47] ++ e.1) = true :=
        List.isPrefixOf_iff_prefix.2 ⟨e.1, rfl⟩
      simp only [hd, hpre, hno, not_false_eq_true, and_self, if_true]
  · exact absurd h (by simp)

theorem regular_entries_isSome (fs : FileSys) (dir : List Nat) :
    (fs.regular_entries dir).isSome = true ↔ dir ∈ fs.dirs := by
  unfold FileSys.regular_entries
  split <;> simp [*]

theorem fs_read_of_mem (fs : FileSys) (path content : List Nat)
    (hmem : (path, content) ∈ fs.files) (hnd : (fs.files.map Prod.fst).Nodup) :
    fs.read path = some content := by
  unfold FileSys.read
  generalize fs.files = l at hmem hnd
  induction l with
  | nil => simp at hmem
  | cons a l ih =>
    rw [List.map_cons, List.nodup_cons] at hnd
    by_cases ha : a.1 = path
    · simp only [List.find?, ha, decide_True, Option.map_some']
      rcases List.mem_cons.1 hmem with h | h
      · rw [← h]
      · exfalso
        apply hnd.1
        rw [ha]
        exact List.mem_map.2 ⟨(path, content), h, rfl⟩
    · simp only [List.find?, ha, decide_False]
      rcases List.mem_cons.1 hmem with h | h
      · exact absurd (by rw [← h]) ha
      · exact ih h hnd.2

theorem fs_write_dirs (fs : FileSys) (path content : List Nat) :
    (fs.write path content).dirs = fs.dirs := by
  unfold FileSys.write
  split <;> rfl

theorem fs_write_mem_self (fs : FileSys) (path content : List Nat) :
    (path, content) ∈ (fs.write path content).files := by
  unfold FileSys.write
  split
  · rename_i h
    rw [List.any_eq_true] at h
    obtain ⟨f, hf, hp⟩ := h
    simp only [List.mem_map]
    exact ⟨f, hf, by rw [if_pos (of_decide_eq_true hp)]⟩
  · simp

theorem fs_write_mem_other (fs : FileSys) (path content : List Nat)
    (f : List Nat × List Nat) (hf : f ∈ fs.files) (hne : f.1 ≠ path) :
    f ∈ (fs.write path content).files := by
  unfold FileSys.write
  split
  · simp only [List.mem_map]
    exact ⟨f, hf, by rw [if_neg hne]⟩
  · simp [hf]

theorem fs_write_nodup (fs : FileSys) (path content : List Nat)
    (hnd : (fs.files.map Prod.fst).Nodup) :
    ((fs.write path content).files.map Prod.fst).Nodup := by
  unfold FileSys.write
  split
  · have : (fs.files.map (fun f => if f.1 = path then (path, content) else f)).map Prod.fst
        = fs.files.map Prod.fst := by
      rw [List.map_map]
      apply List.map_congr_left
      intro f _
      by_cases hp : f.1 = path
      · simp [hp]
      · simp [hp]
    simp only [this]
    exact hnd
  · rename_i h
    simp only [List.map_append, List.map_cons, List.map_nil]
    rw [List.nodup_append]
    refine ⟨hnd, List.nodup_singleton _, ?_⟩
    intro x hx hx2
    rw [List.mem_singleton] at hx2
    subst hx2
    apply h
    rw [List.any_eq_true]
    obtain ⟨f, hf, hfp⟩ := List.mem_map.1 hx
    exact ⟨f, hf, by simp [hfp]⟩

theorem fs_write_mem_inv (fs : FileSys) (path content : List Nat)
    (f : List Nat × List Nat) (hf : f ∈ (fs.write path content).files) :
    f = (path, content) ∨ f ∈ fs.files := by
  unfold FileSys.write at hf
  split at hf
  · simp only [List.mem_map] at hf
    obtain ⟨g, hg, hgf⟩ := hf
    by_cases hp : g.1 = path
    · rw [if_pos hp] at hgf; exact Or.inl hgf.symm
    · rw [if_neg hp] at hgf; rw [← hgf]; exact Or.inr hg
  · simp only [List.mem_append, List.mem_singleton] at hf
    rcases hf with hf | hf
    · exact Or.inr hf
    · exact Or.inl hf

/-- A sequence of writes, each step writing the pair `pc a`: the directories
stay, paths stay distinct, files at other paths stay, and every pair written
is present at the end when the content is a function of the path. -/
theorem foldl_writes {α : Type} (step : FileSys → α → FileSys)
    (pc : α → List Nat × List Nat) (l : List α) (fs : FileSys)
    (hstep : ∀ fs, ∀ a ∈ l, step fs a = fs.write (pc a).1 (pc a).2)
    (hfun : ∀ a ∈ l, ∀ b ∈ l, (pc a).1 = (pc b).1 → (pc a).2 = (pc b).2) :
    (l.foldl step fs).dirs = fs.dirs
    ∧ ((fs.files.map Prod.fst).Nodup → ((l.foldl step fs).files.map Prod.fst).Nodup)
    ∧ (∀ f ∈ fs.files, (∀ a ∈ l, (pc a).1 ≠ f.1) → f ∈ (l.foldl step fs).files)
    ∧ (∀ a ∈ l, pc a ∈ (l.foldl step fs).files)
    ∧ (∀ f ∈ (l.foldl step fs).files, f ∈ fs.files ∨ ∃ a ∈ l, pc a = f) := by
  induction l generalizing fs with
  | nil => simp
  | cons x rest ih =>
    have hx := hstep fs x (List.mem_cons_self _ _)
    obtain ⟨i1, i2, i3, i4, i5⟩ := ih (step fs x)
      (fun fs a ha => hstep fs a (List.mem_cons_of_mem _ ha))
      (fun a ha b hb => hfun a (List.mem_cons_of_mem _ ha) b (List.mem_cons_of_mem _ hb))
    simp only [List.foldl_cons]
    refine ⟨?_, ?_, ?_, ?_, ?_⟩
    · rw [i1, hx, fs_write_dirs]
    · intro hnd
      apply i2
      rw [hx]
      exact fs_write_nodup _ _ _ hnd
    · intro f hf hne
      apply i3 f
      · rw [hx]
        exact fs_write_mem_other _ _ _ f hf (fun h => hne x (List.mem_cons_self _ _) h.symm)
      · intro a ha
        exact hne a (List.mem_cons_of_mem _ ha)
    · intro a ha
      rcases List.mem_cons.1 ha with rfl | ha
      · by_cases hex : ∃ b ∈ rest, (pc b).1 = (pc a).1
        · obtain ⟨b, hb, hbp⟩ := hex
          have h2 := hfun b (List.mem_cons_of_mem _ hb) a (List.mem_cons_self _ _) hbp
          have : pc a = pc b := Prod.ext hbp.symm h2.symm
          rw [this]
          exact i4 b hb
        · apply i3
          · rw [hx]
            exact fs_write_mem_self _ _ _
          · intro b hb hbp
            exact hex ⟨b, hb, hbp⟩
      · exact i4 a ha
    · intro f hf
      rcases i5 f hf with h | ⟨a, ha, hpa⟩
      · rw [hx] at h
        rcases fs_write_mem_inv _ _ _ f h with h | h
        · exact Or.inr ⟨x, List.mem_cons_self _ _, h.symm⟩
        · exact Or.inl h
      · exact Or.inr ⟨a, List.mem_cons_of_mem _ ha, hpa⟩

theorem cstr_join_path (p1 p2 : List Nat) : cstr (join_path p1 p2) = join_path p1 p2 := by
  apply cstr_nul_free
  intro b hb
  simp only [join_path, List.mem_append, List.mem_singleton] at hb
  rcases hb with (hb | hb) | hb
  · exact cstr_ne_zero p1 b hb
  · rw [hb]; decide
  · exact cstr_ne_zero p2 b hb

theorem join_path_congr (p1 a b : List Nat) (h : cstr a = cstr b) :
    join_path p1 a = join_path p1 b := by
  simp only [join_path, h]

theorem join_path_inj (p1 a b : List Nat) (h : join_path p1 a = join_path p1 b) :
    cstr a = cstr b := by
  simp only [join_path, List.append_assoc] at h
  exact List.append_cancel_left (List.append_cancel_left h)

theorem join_path_name_field (dir entry_name : List Nat) (hdir : cstr dir = dir)
    (h0 : ∀ b ∈ entry_name, b ≠ 0) (hl : entry_name.length ≤ 63) :
    join_path dir (name_field entry_name) = dir ++ [47] ++ entry_name := by
  simp only [join_path, hdir, name_field_cstr entry_name h0 hl]

theorem mem_list_files (crc32 : List Nat → Nat) (fs : FileSys) (dir : List Nat)
    (entries : List (List Nat × List Nat)) (hdir : cstr dir = dir)
    (h : fs.regular_entries dir = some entries) (f : FileInfo) :
    f ∈ (list_files crc32 fs dir).1 ↔ ∃ e ∈ entries, file_info_of crc32 e = f := by
  rw [list_files_eq, hdir, h]
  simp only [Option.getD_some, List.mem_reverse, List.mem_map]

theorem mem_list_files_checksum (crc32 : List Nat → Nat) (fs : FileSys) (dir : List Nat)
    (entries : List (List Nat × List Nat)) (hdir : cstr dir = dir)
    (h : fs.regular_entries dir = some entries) (c : Nat) :
    c ∈ (list_files crc32 fs dir).1.map FileInfo.checksum ↔ ∃ e ∈ entries, crc32 e.2 = c := by
  rw [List.mem_map]
  constructor
  · rintro ⟨f, hf, rfl⟩
    obtain ⟨e, he, rfl⟩ := (mem_list_files crc32 fs dir entries hdir h f).1 hf
    exact ⟨e, he, rfl⟩
  · rintro ⟨e, he, rfl⟩
    exact ⟨file_info_of crc32 e, (mem_list_files crc32 fs dir entries hdir h _).2 ⟨e, he, rfl⟩,
      rfl⟩

theorem list_files_length (crc32 : List Nat → Nat) (fs : FileSys) (dir : List Nat)
    (entries : List (List Nat × List Nat)) (hdir : cstr dir = dir)
    (h : fs.regular_entries dir = some entries) :
    (list_files crc32 fs dir).1.length = entries.length := by
  rw [list_files_eq, hdir, h]
  simp only [Option.getD_some, List.length_reverse, List.length_map]

theorem regular_entries_of_dirs (fs fs2 : FileSys) (dir : List Nat)
    (entries : List (List Nat × List Nat)) (h : fs.regular_entries dir = some entries)
    (hd : fs2.dirs = fs.dirs) : ∃ entries2, fs2.regular_entries dir = some entries2 := by
  have h1 : dir ∈ fs.dirs := (regular_entries_isSome fs dir).1 (by rw [h]; rfl)
  have h2 : (fs2.regular_entries dir).isSome = true :=
    (regular_entries_isSome fs2 dir).2 (by rw [hd]; exact h1)
  exact Option.isSome_iff_exists.1 h2

/-- Copying entries of one directory into another by successive writes (the
shape of `upload_writes` and `download_writes`): when no copied entry has the
name of an entry of the destination, the destination keeps its entries and
gains every copied entry with its name and content. -/
theorem transfer_fold (crc32 : List Nat → Nat) (step : FileSys → FileInfo → FileSys)
    (src : FileSys) (sdir ddir : List Nat) (dst : FileSys)
    (sentries dentries : List (List Nat × List Nat)) (l : List FileInfo)
    (hsd : cstr sdir = sdir) (hdd : cstr ddir = ddir)
    (hstep : ∀ fs f, step fs f
      = match src.read (join_path sdir f.name) with
        | none => fs
        | some content => fs.write (join_path ddir f.name) content)
    (hse : src.regular_entries sdir = some sentries)
    (hde : dst.regular_entries ddir = some dentries)
    (hsn : (src.files.map Prod.fst).Nodup)
    (hsnames : ∀ e ∈ sentries, (∀ b ∈ e.1, b ≠ 0) ∧ e.1.length ≤ 63)
    (hl : ∀ f ∈ l, ∃ e ∈ sentries, file_info_of crc32 e = f ∧ ∀ d ∈ dentries, d.1 ≠ e.1) :
    ∃ dentries2, (l.foldl step dst).regular_entries ddir = some dentries2
      ∧ ((dst.files.map Prod.fst).Nodup → (((l.foldl step dst).files).map Prod.fst).Nodup)
      ∧ (∀ d ∈ dentries, d ∈ dentries2)
      ∧ (∀ e ∈ sentries, file_info_of crc32 e ∈ l → e ∈ dentries2)
      ∧ (∀ d ∈ dentries2, d ∈ dentries ∨ d ∈ sentries) := by
  have hsrc : ∀ e ∈ sentries,
      src.read (join_path sdir (file_info_of crc32 e).name) = some e.2
      ∧ join_path ddir (file_info_of crc32 e).name = ddir ++ [47] ++ e.1
      ∧ 47 ∉ e.1 := by
    intro e he
    obtain ⟨h0, h63⟩ := hsnames e he
    obtain ⟨hm, h47⟩ := (mem_regular_entries src sdir sentries hse e).1 he
    refine ⟨?_, join_path_name_field ddir e.1 hdd h0 h63, h47⟩
    show src.read (join_path sdir (name_field e.1)) = some e.2
    rw [join_path_name_field sdir e.1 hsd h0 h63]
    exact fs_read_of_mem src _ _ hm hsn
  obtain ⟨w1, w2, w3, w4, w5⟩ := foldl_writes step
    (fun f => (join_path ddir f.name, (src.read (join_path sdir f.name)).getD [])) l dst
    (by
      intro fs f hf
      obtain ⟨e, he, rfl, _⟩ := hl f hf
      rw [hstep]
      simp only [(hsrc e he).1, Option.getD_some])
    (by
      intro a _ b _ hab
      simp only at hab ⊢
      rw [join_path_congr sdir a.name b.name (join_path_inj ddir _ _ hab)])
  obtain ⟨dentries2, hd2⟩ := regular_entries_of_dirs dst (l.foldl step dst) ddir dentries hde w1
  refine ⟨dentries2, hd2, w2, ?_, ?_, ?_⟩
  · intro d hd
    obtain ⟨hm, h47⟩ := (mem_regular_entries dst ddir dentries hde d).1 hd
    refine (mem_regular_entries _ ddir dentries2 hd2 d).2 ⟨w3 _ hm ?_, h47⟩
    intro f hf hp
    obtain ⟨e, he, rfl, hne⟩ := hl f hf
    simp only at hp
    rw [(hsrc e he).2.1] at hp
    exact hne d hd (List.append_cancel_left hp).symm
  · intro e he hmem
    have := w4 _ hmem
    simp only [(hsrc e he).1, (hsrc e he).2.1, Option.getD_some] at this
    exact (mem_regular_entries _ ddir dentries2 hd2 e).2 ⟨this, (hsrc e he).2.2⟩
  · intro d hd
    obtain ⟨hm, h47⟩ := (mem_regular_entries _ ddir dentries2 hd2 d).1 hd
    rcases w5 _ hm with h | ⟨f, hf, hpf⟩
    · exact Or.inl ((mem_regular_entries dst ddir dentries hde d).2 ⟨h, h47⟩)
    · obtain ⟨e, he, rfl, _⟩ := hl f hf
      simp only [(hsrc e he).1, (hsrc e he).2.1, Option.getD_some] at hpf
      have h1 : e.1 = d.1 := List.append_cancel_left (Prod.mk.inj hpf).1
      have h2 : e.2 = d.2 := (Prod.mk.inj hpf).2
      have : e = d := Prod.ext h1 h2
      rw [← this]
      exact Or.inr he

theorem cstr_client_dir : cstr CLIENT_DIR = CLIENT_DIR := by decide

/-- C17, amended: a synchronisation run against the server's handlers, for an
authenticated session, a checksum function with 32-bit values, file systems
with distinct paths, entry names without NUL of at most 63 bytes, a server
inventory that fits one packet (`8 + 68 * n ≤ BUFFSIZE`), transferred files
whose declared packet length fits 16 bits, and no entry of one side bearing
the name of an entry of the other side with a different checksum.  The run
completes with the session kept; both directories keep every entry they had,
with its name and content, and each side then holds, for every checksum that
either side had, an entry with that checksum. -/
theorem sync_run_union (he : Endian) (md5 : List Nat → List Nat) (crc32 : List Nat → Nat)
    (server_socket : Int) (buffer : List Nat) (session_token : Nat) (p : Peers)
    (centries sentries : List (List Nat × List Nat))
    (hcrc : ∀ x, crc32 x < 4294967296)
    (htok : p.session.session_token = session_token) (hlt : session_token < 4294967296)
    (hcb : BUFFSIZE ≤ buffer.length) (hsb : BUFFSIZE ≤ p.server.packet_buffer.length)
    (hce : p.client.fs.regular_entries CLIENT_DIR = some centries)
    (hse : p.server.fs.regular_entries (path_to_user p.session.username) = some sentries)
    (hcn : (p.client.fs.files.map Prod.fst).Nodup)
    (hsn : (p.server.fs.files.map Prod.fst).Nodup)
    (hcnames : ∀ e ∈ centries, (∀ b ∈ e.1, b ≠ 0) ∧ e.1.length ≤ 63)
    (hsnames : ∀ e ∈ sentries, (∀ b ∈ e.1, b ≠ 0) ∧ e.1.length ≤ 63)
    (hfit : 8 + 68 * sentries.length ≤ BUFFSIZE)
    (hup : ∀ e ∈ centries, (∀ d ∈ sentries, crc32 d.2 ≠ crc32 e.2) → 72 + e.2.length ≤ 65535)
    (hdown : ∀ e ∈ sentries, (∀ d ∈ centries, crc32 d.2 ≠ crc32 e.2) → 8 + e.2.length ≤ 65535)
    (hcoll : ∀ c ∈ centries, ∀ s ∈ sentries, c.1 = s.1 → crc32 c.2 = crc32 s.2) :
    ∃ (b : List Nat) (q : Peers) (centries2 sentries2 : List (List Nat × List Nat)),
      sync_run he md5 crc32 server_socket buffer session_token p = some (b, q)
      ∧ q.session = p.session
      ∧ q.client.fs.regular_entries CLIENT_DIR = some centries2
      ∧ q.server.fs.regular_entries (path_to_user p.session.username) = some sentries2
      ∧ (∀ e ∈ centries, e ∈ centries2)
      ∧ (∀ e ∈ sentries, e ∈ sentries2)
      ∧ (∀ c, (c ∈ (list_files crc32 p.client.fs CLIENT_DIR).1.map FileInfo.checksum
            ∨ c ∈ (list_user_files crc32 p.server.fs p.session.username).1.map
                FileInfo.checksum) →
          c ∈ (list_files crc32 q.client.fs CLIENT_DIR).1.map FileInfo.checksum
          ∧ c ∈ (list_user_files crc32 q.server.fs p.session.username).1.map
              FileInfo.checksum) := by
  have hcd := cstr_client_dir
  have hud : cstr (path_to_user p.session.username) = path_to_user p.session.username :=
    cstr_join_path _ _
  generalize hu : path_to_user p.session.username = udir at *
  -- the two inventories and the two diffs
  have hmc := mem_list_files crc32 p.client.fs CLIENT_DIR centries hcd hce
  have hms := mem_list_files crc32 p.server.fs udir sentries hud hse
  have hluf : list_user_files crc32 p.server.fs p.session.username
      = list_files crc32 p.server.fs udir := by rw [← hu]; rfl
  have hsl : (list_user_files crc32 p.server.fs p.session.username).1.length
      = sentries.length := by
    rw [hluf]; exact list_files_length crc32 p.server.fs udir sentries hud hse
  have hupl : ∀ f ∈ get_missing_files (list_files crc32 p.client.fs CLIENT_DIR).1
      (list_user_files crc32 p.server.fs p.session.username).1.reverse,
      ∃ e ∈ centries, file_info_of crc32 e = f ∧ (∀ d ∈ sentries, crc32 d.2 ≠ crc32 e.2) := by
    intro f hf
    obtain ⟨h1, h2⟩ := (get_missing_files_mem _ _ f).1 hf
    obtain ⟨e, he, rfl⟩ := (hmc f).1 h1
    refine ⟨e, he, rfl, ?_⟩
    intro d hd hdc
    apply h2
    rw [List.mem_map]
    exact ⟨file_info_of crc32 d,
      List.mem_reverse.2 (by rw [hluf]; exact (hms _).2 ⟨d, hd, rfl⟩), hdc⟩
  have hdnl : ∀ f ∈ get_missing_files
      (list_user_files crc32 p.server.fs p.session.username).1.reverse
      (list_files crc32 p.client.fs CLIENT_DIR).1,
      ∃ e ∈ sentries, file_info_of crc32 e = f ∧ (∀ d ∈ centries, crc32 d.2 ≠ crc32 e.2) := by
    intro f hf
    obtain ⟨h1, h2⟩ := (get_missing_files_mem _ _ f).1 hf
    rw [List.mem_reverse, hluf] at h1
    obtain ⟨e, he, rfl⟩ := (hms f).1 h1
    refine ⟨e, he, rfl, ?_⟩
    intro d hd hdc
    apply h2
    rw [List.mem_map]
    exact ⟨file_info_of crc32 d, (hmc _).2 ⟨d, hd, rfl⟩, hdc⟩
  -- the upload phase on the files of the server
  obtain ⟨sentries2, t1, t2, t3, t4, t5⟩ := transfer_fold crc32 (upload_writes p.client.fs udir)
    p.client.fs CLIENT_DIR udir p.server.fs centries sentries
    (get_missing_files (list_files crc32 p.client.fs CLIENT_DIR).1
      (list_user_files crc32 p.server.fs p.session.username).1.reverse)
    hcd hud (fun _ _ => rfl) hce hse hcn hcnames
    (by
      intro f hf
      obtain ⟨e, he, hfe, hne⟩ := hupl f hf
      refine ⟨e, he, hfe, ?_⟩
      intro d hd hde
      exact hne d hd (hcoll e he d hd hde.symm).symm)
  -- the download phase on the files of the client
  obtain ⟨centries2, v1, v2, v3, v4, v5⟩ := transfer_fold crc32
    (download_writes
      ((get_missing_files (list_files crc32 p.client.fs CLIENT_DIR).1
        (list_user_files crc32 p.server.fs p.session.username).1.reverse).foldl
        (upload_writes p.client.fs udir) p.server.fs) udir)
    ((get_missing_files (list_files crc32 p.client.fs CLIENT_DIR).1
      (list_user_files crc32 p.server.fs p.session.username).1.reverse).foldl
      (upload_writes p.client.fs udir) p.server.fs)
    udir CLIENT_DIR p.client.fs sentries2 centries
    (get_missing_files (list_user_files crc32 p.server.fs p.session.username).1.reverse
      (list_files crc32 p.client.fs CLIENT_DIR).1)
    hud hcd (fun _ _ => rfl) t1 hce (t2 hsn)
    (by
      intro e he
      rcases t5 e he with h | h
      · exact hsnames e h
      · exact hcnames e h)
    (by
      intro f hf
      obtain ⟨e, he, hfe, hne⟩ := hdnl f hf
      refine ⟨e, t3 e he, hfe, ?_⟩
      intro d hd hde
      exact hne d hd (hcoll d hd e he hde))
  -- the run itself
  have hcread : ∀ e ∈ centries,
      p.client.fs.read (join_path CLIENT_DIR (file_info_of crc32 e).name) = some e.2 := by
    intro e he
    obtain ⟨h0, h63⟩ := hcnames e he
    show p.client.fs.read (join_path CLIENT_DIR (name_field e.1)) = some e.2
    rw [join_path_name_field CLIENT_DIR e.1 hcd h0 h63]
    exact fs_read_of_mem _ _ _ ((mem_regular_entries _ _ _ hce e).1 he).1 hcn
  obtain ⟨b, q, hrun, f1, f2, f3⟩ := sync_run_eq he md5 crc32 server_socket buffer
    session_token p hcrc (by rw [hsl]; exact hfit) htok hlt hcb hsb
    (by
      intro f hf
      obtain ⟨e, he, hfe, hne⟩ := hupl f hf
      subst hfe
      exact ⟨name_field_length _, e.2, hcread e he, hup e he hne⟩)
    (by
      intro f hf
      obtain ⟨e, he, hfe, hne⟩ := hdnl f hf
      subst hfe
      obtain ⟨h0, h63⟩ := hsnames e he
      refine ⟨name_field_strlen e.1 h0 h63, e.2, ?_, hdown e he hne⟩
      rw [hu]
      show FileSys.read _ (join_path udir (name_field e.1)) = some e.2
      rw [join_path_name_field udir e.1 hud h0 h63]
      exact fs_read_of_mem _ _ _ ((mem_regular_entries _ _ _ t1 e).1 (t3 e he)).1 (t2 hsn))
  rw [hu] at f1 f2
  rw [f1] at f2
  rw [← f1] at t1
  rw [← f2] at v1
  have hluf2 : list_user_files crc32 q.server.fs p.session.username
      = list_files crc32 q.server.fs udir := by rw [← hu]; rfl
  refine ⟨b, q, centries2, sentries2, hrun, f3, v1, t1, v3, t3, ?_⟩
  intro c hc
  rw [mem_list_files_checksum crc32 q.client.fs CLIENT_DIR centries2 hcd v1, hluf2,
    mem_list_files_checksum crc32 q.server.fs udir sentries2 hud t1]
  rw [mem_list_files_checksum crc32 p.client.fs CLIENT_DIR centries hcd hce, hluf,
    mem_list_files_checksum crc32 p.server.fs udir sentries hud hse] at hc
  rcases hc with ⟨e, he, rfl⟩ | ⟨e, he, rfl⟩
  · refine ⟨⟨e, v3 e he, rfl⟩, ?_⟩
    by_cases hex : ∃ d ∈ sentries, crc32 d.2 = crc32 e.2
    · obtain ⟨d, hd, hdc⟩ := hex
      exact ⟨d, t3 d hd, hdc⟩
    · refine ⟨e, t4 e he ?_, rfl⟩
      rw [get_missing_files_mem]
      refine ⟨(hmc _).2 ⟨e, he, rfl⟩, ?_⟩
      intro hmem
      rw [List.mem_map] at hmem
      obtain ⟨g, hg, hgc⟩ := hmem
      rw [List.mem_reverse, hluf] at hg
      obtain ⟨d, hd, rfl⟩ := (hms g).1 hg
      exact hex ⟨d, hd, hgc⟩
  · refine ⟨?_, ⟨e, t3 e he, rfl⟩⟩
    by_cases hex : ∃ d ∈ centries, crc32 d.2 = crc32 e.2
    · obtain ⟨d, hd, hdc⟩ := hex
      exact ⟨d, v3 d hd, hdc⟩
    · refine ⟨e, v4 e (t3 e he) ?_, rfl⟩
      rw [get_missing_files_mem]
      refine ⟨List.mem_reverse.2 (by rw [hluf]; exact (hms _).2 ⟨e, he, rfl⟩), ?_⟩
      intro hmem
      rw [List.mem_map] at hmem
      obtain ⟨g, hg, hgc⟩ := hmem
      obtain ⟨d, hd, rfl⟩ := (hmc g).1 hg
      exact hex ⟨d, hd, hgc⟩

/-! ### A run with and without a name in common -/

theorem example_checksum_lt (content : List Nat) : example_checksum content < 4294967296 :=
  Nat.mod_lt _ (by decide)

theorem example_peers_server_buffer (server_name : List Nat) :
    BUFFSIZE ≤ (example_peers server_name).server.packet_buffer.length := by
  show BUFFSIZE ≤ (List.replicate (BUFFSIZE + 1) 0).length
  rw [List.length_replicate]; omega

theorem sync_run_union_witness :
    ∃ (b : List Nat) (q : Peers) (centries2 sentries2 : List (List Nat × List Nat)),
      sync_run .little (fun _ => []) example_checksum 3 (List.replicate BUFFSIZE 0) 5
          (example_peers [99]) = some (b, q)
      ∧ q.session = (example_peers [99]).session
      ∧ q.client.fs.regular_entries CLIENT_DIR = some centries2
      ∧ q.server.fs.regular_entries (path_to_user (example_peers [99]).session.username)
          = some sentries2
      ∧ (∀ e ∈ [(([97] : List Nat), ([1] : List Nat))], e ∈ centries2)
      ∧ (∀ e ∈ [(([99] : List Nat), ([2] : List Nat))], e ∈ sentries2)
      ∧ (∀ c, (c ∈ (list_files example_checksum (example_peers [99]).client.fs
                CLIENT_DIR).1.map FileInfo.checksum
            ∨ c ∈ (list_user_files example_checksum (example_peers [99]).server.fs
                (example_peers [99]).session.username).1.map FileInfo.checksum) →
          c ∈ (list_files example_checksum q.client.fs CLIENT_DIR).1.map FileInfo.checksum
          ∧ c ∈ (list_user_files example_checksum q.server.fs
              (example_peers [99]).session.username).1.map FileInfo.checksum) :=
  sync_run_union .little (fun _ => []) example_checksum 3 (List.replicate BUFFSIZE 0) 5
    (example_peers [99]) [([97], [1])] [([99], [2])]
    example_checksum_lt rfl (by decide) (by rw [List.length_replicate])
    (example_peers_server_buffer _) (by decide) (by decide) (by decide) (by decide)
    (by decide) (by decide) (by decide) (by decide) (by decide) (by decide)

/-- C17, refuted as stated: the client holds `a` with contents `[1]`
(checksum 1), the server holds `a` with contents `[2]` (checksum 2).  The run
completes without any failing read; afterwards both sides hold only checksum
1: the upload replaced the server's `a`, and the download fetched the
replaced file.  Checksum 2, present on the server before, is on neither
side. -/
theorem sync_run_name_collision_counterexample :
    (list_user_files example_checksum (example_peers [97]).server.fs
        (example_peers [97]).session.username).1.map FileInfo.checksum = [2]
    ∧ (sync_run .little (fun _ => []) example_checksum 3 (List.replicate BUFFSIZE 0) 5
        (example_peers [97])).map
        (fun r =>
          ((list_files example_checksum r.2.client.fs CLIENT_DIR).1.map FileInfo.checksum,
            (list_user_files example_checksum r.2.server.fs
              (example_peers [97]).session.username).1.map FileInfo.checksum))
      = some ([1], [1]) := by
  refine ⟨by decide, ?_⟩
  have hsm : get_missing_files
      (list_files example_checksum (example_peers [97]).client.fs CLIENT_DIR).1
      (list_user_files example_checksum (example_peers [97]).server.fs
        (example_peers [97]).session.username).1.reverse
      = [file_info_of example_checksum ([97], [1])] := by decide
  have hcm : get_missing_files
      (list_user_files example_checksum (example_peers [97]).server.fs
        (example_peers [97]).session.username).1.reverse
      (list_files example_checksum (example_peers [97]).client.fs CLIENT_DIR).1
      = [file_info_of example_checksum ([97], [2])] := by decide
  obtain ⟨b, q, hrun, f1, f2, f3⟩ := sync_run_eq .little (fun _ => []) example_checksum 3
    (List.replicate BUFFSIZE 0) 5 (example_peers [97]) example_checksum_lt (by decide) rfl
    (by decide) (by rw [List.length_replicate]) (example_peers_server_buffer _)
    (by
      rw [hsm]
      intro f hf
      rw [List.mem_singleton] at hf
      subst hf
      exact ⟨by decide, [1], by decide, by decide⟩)
    (by
      rw [hsm, hcm]
      intro f hf
      rw [List.mem_singleton] at hf
      subst hf
      exact ⟨by decide, [1], by decide, by decide⟩)
  rw [hsm] at f1
  rw [hcm, f1] at f2
  rw [hrun]
  simp only [Option.map_some', f1, f2]
  decide

/-! ### Packet types without a `case` -/

theorem dispatch_no_case (he : Endian) (md5 : List Nat → List Nat) (crc32 : List Nat → Nat)
    (w : World) (n : Nat) (client_info : ClientInfo)
    (h1 : header_type w.packet_buffer ≠ PacketType.TYPE_SIGNUP_REQUEST.toNat)
    (h2 : header_type w.packet_buffer ≠ PacketType.TYPE_LOGON_REQUEST.toNat)
    (h4 : header_type w.packet_buffer ≠ PacketType.TYPE_LEAVE_REQUEST.toNat)
    (h5 : header_type w.packet_buffer ≠ PacketType.TYPE_LIST_REQUEST.toNat)
    (h7 : header_type w.packet_buffer ≠ PacketType.TYPE_FILE_REQUEST.toNat)
    (h8 : header_type w.packet_buffer ≠ PacketType.TYPE_FILE_TRANSFER.toNat) :
    dispatch he md5 crc32 w n client_info
      = { response_len := -1, error := .ERROR_UNKNOWN, world := w, client_info := client_info } := by
  simp only [dispatch, if_neg h1, if_neg h2, if_neg h4, if_neg h5, if_neg h7, if_neg h8]

/-- C26: a packet that passes the token check and whose type byte is none of
SignupRequest, LogonRequest, LeaveRequest, ListRequest, FileRequest and
FileTransfer (so also TokenResponse, ListResponse, FileReceived, Error, 0 and
every value above 10) meets no `case` of the `switch`: no handler runs (the
result of the dispatch is the initial `response_len = -1` with
`ERROR_UNKNOWN`, the file system and the random-number state are untouched),
`handle_client` sends exactly one packet, the 9-byte Error packet with the
token of the session and the code `ERROR_UNKNOWN`, then closes the socket and
zeroes the session record. -/
theorem handle_client_unknown_type (he : Endian) (md5 : List Nat → List Nat)
    (crc32 : List Nat → Nat) (w : World) (client_info : ClientInfo)
    (n : Nat) (buf : List Nat) (rest : List Chunk)
    (hbuf : BUFFSIZE ≤ w.packet_buffer.length)
    (htok : client_info.session_token < 4294967296)
    (hR : receive_packet (w.incoming client_info.client_socket) w.packet_buffer BUFFSIZE
      = ((n : Int), buf, rest))
    (hn : 0 < n)
    (hhdr : header_session_token he buf = client_info.session_token)
    (htype : header_type buf ∉ [PacketType.TYPE_SIGNUP_REQUEST.toNat,
      PacketType.TYPE_LOGON_REQUEST.toNat, PacketType.TYPE_LEAVE_REQUEST.toNat,
      PacketType.TYPE_LIST_REQUEST.toNat, PacketType.TYPE_FILE_REQUEST.toNat,
      PacketType.TYPE_FILE_TRANSFER.toNat]) :
    dispatch he md5 crc32 (w.received client_info.client_socket buf rest) n client_info
        = { response_len := -1, error := .ERROR_UNKNOWN,
            world := w.received client_info.client_socket buf rest,
            client_info := client_info }
    ∧ (handle_client he md5 crc32 w client_info).1.output
        = w.output ++ [Effect.send client_info.client_socket
              (error_packet he client_info.session_token .ERROR_UNKNOWN),
            Effect.close client_info.client_socket]
    ∧ (error_packet he client_info.session_token .ERROR_UNKNOWN).length = 9
    ∧ header_type (error_packet he client_info.session_token .ERROR_UNKNOWN)
        = PacketType.TYPE_ERROR.toNat
    ∧ header_session_token he (error_packet he client_info.session_token .ERROR_UNKNOWN)
        = client_info.session_token
    ∧ (error_packet he client_info.session_token .ERROR_UNKNOWN).drop 8
        = [ErrorType.ERROR_UNKNOWN.toNat]
    ∧ (handle_client he md5 crc32 w client_info).1.fs = w.fs
    ∧ (handle_client he md5 crc32 w client_info).1.rand = w.rand
    ∧ (handle_client he md5 crc32 w client_info).2 = ClientInfo.zeroed := by
  have hf := error_packet_fields he client_info.session_token .ERROR_UNKNOWN htok
  have hlenb : buf.length = w.packet_buffer.length := by
    have := receive_packet_length (w.incoming client_info.client_socket) w.packet_buffer BUFFSIZE
    rw [hR] at this; exact this
  simp only [List.mem_cons, List.mem_singleton, List.not_mem_nil, or_false, not_or] at htype
  obtain ⟨t1, t2, t4, t5, t7, t8⟩ := htype
  have hpb : (w.received client_info.client_socket buf rest).packet_buffer = buf := rfl
  have hdisp := dispatch_no_case he md5 crc32 (w.received client_info.client_socket buf rest)
    n client_info (by rw [hpb]; exact t1) (by rw [hpb]; exact t2) (by rw [hpb]; exact t4)
    (by rw [hpb]; exact t5) (by rw [hpb]; exact t7) (by rw [hpb]; exact t8)
  have hres := handle_client_of_receive he md5 crc32 w client_info n buf rest hR hn hhdr
  rw [hdisp, respond_negative he _ (by show (-1 : Int) < 0; decide)
    (by show BUFFSIZE ≤ buf.length; omega) htok] at hres
  rw [hres]
  exact ⟨hdisp, rfl, hf.1, hf.2.1, hf.2.2.2.1, hf.2.2.2.2, rfl, rfl, rfl⟩

theorem handle_client_unknown_type_witness :
    (handle_client .little (fun _ => []) (fun _ => 0)
      (example_world [1, 9, 0, 8, 0, 0, 0, 0])
      { client_socket := 4, username := List.replicate 129 0, session_token := 0 }).1.output
      = [] ++ [Effect.send 4 (error_packet .little 0 .ERROR_UNKNOWN), Effect.close 4] :=
  (handle_client_unknown_type .little (fun _ => []) (fun _ => 0)
    (example_world [1, 9, 0, 8, 0, 0, 0, 0])
    { client_socket := 4, username := List.replicate 129 0, session_token := 0 } 8
    ([1, 9, 0, 8, 0, 0, 0, 0] ++ List.replicate (BUFFSIZE + 1 - 8) 0) []
    (by simp [example_world]) (by decide)
    (receive_example_world [1, 9, 0, 8, 0, 0, 0, 0] (by decide) (by decide) (by decide))
    (by decide) (by decide) (by decide)).2.1

/-! ### Request for a file that is not stored -/

theorem respond_error_packet (he : Endian) (w : World) (client_info : ClientInfo)
    (error : ErrorType) (code : ErrorType)
    (hbuf : BUFFSIZE ≤ w.packet_buffer.length)
    (htok : client_info.session_token < 4294967296) :
    respond he
        { response_len := (make_error_response he w.packet_buffer BUFFSIZE
            client_info.session_token code).1,
          error := error,
          world := { w with packet_buffer := (make_error_response he w.packet_buffer BUFFSIZE
            client_info.session_token code).2 },
          client_info := client_info }
      = ({ packet_buffer := error_packet he client_info.session_token code
              ++ w.packet_buffer.drop 9,
           incoming := w.incoming,
           output := w.output
              ++ [Effect.send client_info.client_socket
                    (error_packet he client_info.session_token code)],
           fs := w.fs,
           rand := w.rand },
          client_info) := by
  have e := make_error_response_eq he w.packet_buffer BUFFSIZE client_info.session_token code
    hbuf (by decide)
  rw [Nat.mod_eq_of_lt htok] at e
  have hl : (error_packet he client_info.session_token code).length = 9 := by
    simp only [error_packet, List.length_append, header_bytes_length, List.length_singleton]
  rw [e]
  rw [respond_positive _ _ (by show (0 : Int) < 9; decide)]
  simp only [World.send]
  rw [show Int.toNat 9 = 9 from rfl, ← error_packet, List.take_left' hl]

/-- C22: a FileRequest that carries the token of the session and names a file
that is not in the user's storage area (`fopen` of the joined path yields
`NULL`) makes `handle_client` send exactly one packet, the 9-byte Error packet
with the token of the session and the code `ERROR_FILE_NOT_EXIST`: no
FileTransfer header and no body block is sent, nothing is closed, and the
session record, the file system and the random-number state are as before. -/
theorem handle_client_file_not_exist (he : Endian) (md5 : List Nat → List Nat)
    (crc32 : List Nat → Nat) (w : World) (client_info : ClientInfo)
    (n : Nat) (buf : List Nat) (rest : List Chunk)
    (hbuf : BUFFSIZE ≤ w.packet_buffer.length)
    (htok : client_info.session_token < 4294967296)
    (hR : receive_packet (w.incoming client_info.client_socket) w.packet_buffer BUFFSIZE
      = ((n : Int), buf, rest))
    (hn : 0 < n)
    (hhdr : header_session_token he buf = client_info.session_token)
    (htype : header_type buf = PacketType.TYPE_FILE_REQUEST.toNat)
    (habsent : w.fs.read (join_path (path_to_user client_info.username)
      ((buf.drop HEADER_LEN).take MAX_FILE_NAME_LEN)) = none) :
    (handle_client he md5 crc32 w client_info).1.output
        = w.output ++ [Effect.send client_info.client_socket
              (error_packet he client_info.session_token .ERROR_FILE_NOT_EXIST)]
    ∧ (error_packet he client_info.session_token .ERROR_FILE_NOT_EXIST).length = 9
    ∧ header_type (error_packet he client_info.session_token .ERROR_FILE_NOT_EXIST)
        = PacketType.TYPE_ERROR.toNat
    ∧ header_packet_len (error_packet he client_info.session_token .ERROR_FILE_NOT_EXIST) = 9
    ∧ header_session_token he
        (error_packet he client_info.session_token .ERROR_FILE_NOT_EXIST)
        = client_info.session_token
    ∧ (error_packet he client_info.session_token .ERROR_FILE_NOT_EXIST).drop 8
        = [ErrorType.ERROR_FILE_NOT_EXIST.toNat]
    ∧ (handle_client he md5 crc32 w client_info).1.fs = w.fs
    ∧ (handle_client he md5 crc32 w client_info).1.rand = w.rand
    ∧ (handle_client he md5 crc32 w client_info).2 = client_info := by
  have hf := error_packet_fields he client_info.session_token .ERROR_FILE_NOT_EXIST htok
  have hlenb : buf.length = w.packet_buffer.length := by
    have := receive_packet_length (w.incoming client_info.client_socket) w.packet_buffer BUFFSIZE
    rw [hR] at this; exact this
  obtain ⟨r1, r2, r3, r4, r5⟩ := received_fields w client_info.client_socket buf rest
  have hres := handle_client_of_receive he md5 crc32 w client_info n buf rest hR hn hhdr
  rw [dispatch_file_request _ _ _ _ _ _ (by rw [r1]; exact htype)] at hres
  have hfr : handle_file_request he (w.received client_info.client_socket buf rest)
      client_info .ERROR_UNKNOWN
      = { response_len := (make_error_response he
            (w.received client_info.client_socket buf rest).packet_buffer BUFFSIZE
            client_info.session_token .ERROR_FILE_NOT_EXIST).1,
          error := .ERROR_UNKNOWN,
          world := { w.received client_info.client_socket buf rest with
            packet_buffer := (make_error_response he
              (w.received client_info.client_socket buf rest).packet_buffer BUFFSIZE
              client_info.session_token .ERROR_FILE_NOT_EXIST).2 },
          client_info := client_info } := by
    unfold handle_file_request
    simp only [r1, r4, habsent]
  rw [hfr, respond_error_packet he _ client_info _ _ (by rw [r1]; omega) htok] at hres
  rw [hres]
  exact ⟨by rw [r3], hf.1, hf.2.1, hf.2.2.1, hf.2.2.2.1, hf.2.2.2.2, r4, r5, rfl⟩

theorem handle_client_file_not_exist_witness :
    (handle_client .little (fun _ => []) (fun _ => 0)
      (example_world [1, 7, 0, 10, 0, 0, 0, 0, 97, 0])
      { client_socket := 4, username := List.replicate 129 0, session_token := 0 }).1.output
      = [] ++ [Effect.send 4 (error_packet .little 0 .ERROR_FILE_NOT_EXIST)] :=
  (handle_client_file_not_exist .little (fun _ => []) (fun _ => 0)
    (example_world [1, 7, 0, 10, 0, 0, 0, 0, 97, 0])
    { client_socket := 4, username := List.replicate 129 0, session_token := 0 } 10
    ([1, 7, 0, 10, 0, 0, 0, 0, 97, 0] ++ List.replicate (BUFFSIZE + 1 - 10) 0) []
    (by simp [example_world]) (by decide)
    (receive_example_world [1, 7, 0, 10, 0, 0, 0, 0, 97, 0] (by decide) (by decide)
      (by decide))
    (by decide) (by decide) (by decide) rfl).1

/-! ### Answer to a ListRequest -/

theorem handle_client_list_fits (he : Endian) (md5 : List Nat → List Nat)
    (crc32 : List Nat → Nat) (w : World) (client_info : ClientInfo)
    (n : Nat) (buf : List Nat) (rest : List Chunk)
    (hbuf : BUFFSIZE ≤ w.packet_buffer.length)
    (htok : client_info.session_token < 4294967296)
    (hR : receive_packet (w.incoming client_info.client_socket) w.packet_buffer BUFFSIZE
      = ((n : Int), buf, rest))
    (hn : 0 < n)
    (hhdr : header_session_token he buf = client_info.session_token)
    (htype : header_type buf = PacketType.TYPE_LIST_REQUEST.toNat)
    (hcrc : ∀ x, crc32 x < 4294967296)
    (hfit : 8 + 68 * (list_user_files crc32 w.fs client_info.username).1.length ≤ BUFFSIZE) :
    (handle_client he md5 crc32 w client_info).1.output
      = w.output ++ [Effect.send client_info.client_socket
          (header_bytes he .TYPE_LIST_RESPONSE
              (8 + 68 * (list_user_files crc32 w.fs client_info.username).1.length)
              client_info.session_token
            ++ list_payload_spec (list_user_files crc32 w.fs client_info.username).1)]
    ∧ (handle_client he md5 crc32 w client_info).1.fs = w.fs
    ∧ (handle_client he md5 crc32 w client_info).1.rand = w.rand
    ∧ (handle_client he md5 crc32 w client_info).2 = client_info := by
  have hB : BUFFSIZE = 8192 := rfl
  have hlenb : buf.length = w.packet_buffer.length := by
    have := receive_packet_length (w.incoming client_info.client_socket) w.packet_buffer BUFFSIZE
    rw [hR] at this; exact this
  obtain ⟨r1, r2, r3, r4, r5⟩ := received_fields w client_info.client_socket buf rest
  have hres := handle_client_of_receive he md5 crc32 w client_info n buf rest hR hn hhdr
  rw [dispatch_list _ _ _ _ _ _ (by rw [r1]; exact htype)] at hres
  obtain ⟨hcount, hwf⟩ := list_user_files_wf crc32 w.fs client_info.username hcrc
  generalize hfiles : list_user_files crc32 w.fs client_info.username = l at *
  have hm := make_list_response_eq he buf BUFFSIZE client_info.session_token l.1 hwf hfit
    (by omega)
  rw [Nat.mod_eq_of_lt (by omega : 8 + 68 * l.1.length < 65536), Nat.mod_eq_of_lt htok] at hm
  have hpl := list_payload_spec_length l.1 (fun f hf => (hwf f hf).1)
  simp only [MAX_FILE_NAME_LEN] at hpl
  have hh2 := header_bytes_length he .TYPE_LIST_RESPONSE (8 + 68 * l.1.length)
    client_info.session_token
  simp only [handle_list, r1, r4, hfiles, hcount, hm] at hres
  rw [respond_positive _ _ (by show (0 : Int) < ((8 + 68 * l.1.length : Nat) : Int); omega)]
    at hres
  rw [hres]
  simp only [World.send, Int.toNat_ofNat, r3, r4, r5, true_and, and_true]
  rw [List.take_left' (by rw [List.length_append, hh2, hpl])]

theorem handle_client_list_too_long (he : Endian) (md5 : List Nat → List Nat)
    (crc32 : List Nat → Nat) (w : World) (client_info : ClientInfo)
    (n : Nat) (buf : List Nat) (rest : List Chunk)
    (hbuf : BUFFSIZE ≤ w.packet_buffer.length)
    (htok : client_info.session_token < 4294967296)
    (hR : receive_packet (w.incoming client_info.client_socket) w.packet_buffer BUFFSIZE
      = ((n : Int), buf, rest))
    (hn : 0 < n)
    (hhdr : header_session_token he buf = client_info.session_token)
    (htype : header_type buf = PacketType.TYPE_LIST_REQUEST.toNat)
    (hlong : BUFFSIZE < 8 + 68 * (list_user_files crc32 w.fs client_info.username).2) :
    (handle_client he md5 crc32 w client_info).1.output
      = w.output ++ [Effect.send client_info.client_socket
            (error_packet he client_info.session_token .ERROR_UNKNOWN),
          Effect.close client_info.client_socket]
    ∧ (handle_client he md5 crc32 w client_info).1.fs = w.fs
    ∧ (handle_client he md5 crc32 w client_info).1.rand = w.rand
    ∧ (handle_client he md5 crc32 w client_info).2 = ClientInfo.zeroed := by
  have hlenb : buf.length = w.packet_buffer.length := by
    have := receive_packet_length (w.incoming client_info.client_socket) w.packet_buffer BUFFSIZE
    rw [hR] at this; exact this
  obtain ⟨r1, r2, r3, r4, r5⟩ := received_fields w client_info.client_socket buf rest
  have hres := handle_client_of_receive he md5 crc32 w client_info n buf rest hR hn hhdr
  rw [dispatch_list _ _ _ _ _ _ (by rw [r1]; exact htype)] at hres
  have hm : make_list_response he buf BUFFSIZE client_info.session_token
      (list_user_files crc32 w.fs client_info.username).1
      (list_user_files crc32 w.fs client_info.username).2 = (-1, buf) := by
    have h1 : BUFFSIZE < HEADER_LEN + (MAX_FILE_NAME_LEN + 4)
        * (list_user_files crc32 w.fs client_info.username).2 := by
      simp only [HEADER_LEN, MAX_FILE_NAME_LEN]; omega
    simp only [make_list_response, if_pos h1]
  simp only [handle_list, r1, r4, hm] at hres
  rw [respond_negative he _ (by show (-1 : Int) < 0; decide)
    (by show BUFFSIZE ≤ buf.length; omega) htok] at hres
  rw [hres]
  exact ⟨by rw [r3], r4, r5, rfl⟩

theorem receive_example_list_world (n_files : Nat) :
    receive_packet ((example_list_world n_files).incoming 4)
        (example_list_world n_files).packet_buffer BUFFSIZE
      = (((8 : Nat) : Int), [1, 5, 0, 8, 5, 0, 0, 0] ++ List.replicate (BUFFSIZE + 1 - 8) 0, []) :=
  receive_example_world [1, 5, 0, 8, 5, 0, 0, 0] (by decide) (by decide) (by decide)

/-- C21, refuted as stated: the directory of the logged-on user `u` (token 5)
holds 121 files.  The ListRequest is answered with the 9-byte Error packet of
code `ERROR_UNKNOWN`, not with a ListResponse, and the connection is closed. -/
theorem handle_client_list_overflow_counterexample :
    (list_user_files (fun _ => 0) (example_list_world 121).fs
        (117 :: List.replicate 128 0)).2 = 121
    ∧ (handle_client .little (fun _ => []) (fun _ => 0) (example_list_world 121)
        { client_socket := 4, username := 117 :: List.replicate 128 0,
          session_token := 5 }).1.output
      = [Effect.send 4 [1, 10, 0, 9, 5, 0, 0, 0, 1], Effect.close 4]
    ∧ (handle_client .little (fun _ => []) (fun _ => 0) (example_list_world 121)
        { client_socket := 4, username := 117 :: List.replicate 128 0,
          session_token := 5 }).2 = ClientInfo.zeroed := by
  have hcount : (list_user_files (fun _ => 0) (example_list_world 121).fs
      (117 :: List.replicate 128 0)).2 = 121 := by
    set_option maxRecDepth 100000 in decide
  obtain ⟨a, _, _, d⟩ := handle_client_list_too_long .little (fun _ => []) (fun _ => 0)
    (example_list_world 121)
    { client_socket := 4, username := 117 :: List.replicate 128 0, session_token := 5 } 8
    ([1, 5, 0, 8, 5, 0, 0, 0] ++ List.replicate (BUFFSIZE + 1 - 8) 0) []
    (by simp [example_list_world, example_world]) (by decide)
    (receive_example_list_world 121) (by decide) (by decide) (by decide)
    (by rw [hcount]; decide)
  refine ⟨hcount, ?_, d⟩
  rw [a]
  decide

/-- C21, amended: a ListRequest that carries the token of the session is
answered from the inventory `list_user_files` returns for the session's user.
When the inventory has at most 120 entries (`8 + 68 * n ≤ BUFFSIZE`) the
server sends exactly one packet, a ListResponse of `8 + 68 * n` bytes with the
token of the session whose payload is the `n` entries in list order, each as
the 64-byte name field and the checksum in 4 big-endian bytes, and the session
record is kept.  When it has more, `make_list_response` fails and the server
sends one Error packet with code `ERROR_UNKNOWN`, closes the socket and zeroes
the session record.  In both cases the file system is untouched. -/
theorem handle_client_list_response (he : Endian) (md5 : List Nat → List Nat)
    (crc32 : List Nat → Nat) (w : World) (client_info : ClientInfo)
    (n : Nat) (buf : List Nat) (rest : List Chunk)
    (hbuf : BUFFSIZE ≤ w.packet_buffer.length)
    (htok : client_info.session_token < 4294967296)
    (hR : receive_packet (w.incoming client_info.client_socket) w.packet_buffer BUFFSIZE
      = ((n : Int), buf, rest))
    (hn : 0 < n)
    (hhdr : header_session_token he buf = client_info.session_token)
    (htype : header_type buf = PacketType.TYPE_LIST_REQUEST.toNat)
    (hcrc : ∀ x, crc32 x < 4294967296) :
    (list_user_files crc32 w.fs client_info.username).2
        = (list_user_files crc32 w.fs client_info.username).1.length
    ∧ (8 + 68 * (list_user_files crc32 w.fs client_info.username).1.length ≤ BUFFSIZE →
        (handle_client he md5 crc32 w client_info).1.output
          = w.output ++ [Effect.send client_info.client_socket
              (header_bytes he .TYPE_LIST_RESPONSE
                  (8 + 68 * (list_user_files crc32 w.fs client_info.username).1.length)
                  client_info.session_token
                ++ list_payload_spec (list_user_files crc32 w.fs client_info.username).1)]
        ∧ header_type (header_bytes he .TYPE_LIST_RESPONSE
              (8 + 68 * (list_user_files crc32 w.fs client_info.username).1.length)
              client_info.session_token
            ++ list_payload_spec (list_user_files crc32 w.fs client_info.username).1)
          = PacketType.TYPE_LIST_RESPONSE.toNat
        ∧ header_packet_len (header_bytes he .TYPE_LIST_RESPONSE
              (8 + 68 * (list_user_files crc32 w.fs client_info.username).1.length)
              client_info.session_token
            ++ list_payload_spec (list_user_files crc32 w.fs client_info.username).1)
          = 8 + 68 * (list_user_files crc32 w.fs client_info.username).1.length
        ∧ header_session_token he (header_bytes he .TYPE_LIST_RESPONSE
              (8 + 68 * (list_user_files crc32 w.fs client_info.username).1.length)
              client_info.session_token
            ++ list_payload_spec (list_user_files crc32 w.fs client_info.username).1)
          = client_info.session_token
        ∧ (header_bytes he .TYPE_LIST_RESPONSE
              (8 + 68 * (list_user_files crc32 w.fs client_info.username).1.length)
              client_info.session_token
            ++ list_payload_spec (list_user_files crc32 w.fs client_info.username).1).drop
              HEADER_LEN
          = list_payload_spec (list_user_files crc32 w.fs client_info.username).1
        ∧ (list_payload_spec (list_user_files crc32 w.fs client_info.username).1).length
          = 68 * (list_user_files crc32 w.fs client_info.username).1.length
        ∧ (handle_client he md5 crc32 w client_info).2 = client_info)
    ∧ (BUFFSIZE < 8 + 68 * (list_user_files crc32 w.fs client_info.username).1.length →
        (handle_client he md5 crc32 w client_info).1.output
          = w.output ++ [Effect.send client_info.client_socket
                (error_packet he client_info.session_token .ERROR_UNKNOWN),
              Effect.close client_info.client_socket]
        ∧ (handle_client he md5 crc32 w client_info).2 = ClientInfo.zeroed)
    ∧ (handle_client he md5 crc32 w client_info).1.fs = w.fs := by
  have hB : BUFFSIZE = 8192 := rfl
  obtain ⟨hcount, hwf⟩ := list_user_files_wf crc32 w.fs client_info.username hcrc
  have hfs : (handle_client he md5 crc32 w client_info).1.fs = w.fs := by
    by_cases hfit : 8 + 68 * (list_user_files crc32 w.fs client_info.username).1.length
        ≤ BUFFSIZE
    · exact (handle_client_list_fits he md5 crc32 w client_info n buf rest hbuf htok hR hn
        hhdr htype hcrc hfit).2.1
    · exact (handle_client_list_too_long he md5 crc32 w client_info n buf rest hbuf htok hR
        hn hhdr htype (by rw [hcount]; omega)).2.1
  refine ⟨hcount, ?_, ?_, hfs⟩
  · intro hfit
    obtain ⟨a, _, _, d⟩ := handle_client_list_fits he md5 crc32 w client_info n buf rest hbuf
      htok hR hn hhdr htype hcrc hfit
    have hf := header_fields he .TYPE_LIST_RESPONSE
      (8 + 68 * (list_user_files crc32 w.fs client_info.username).1.length)
      client_info.session_token
      (list_payload_spec (list_user_files crc32 w.fs client_info.username).1)
      (by omega) htok
    have hpl := list_payload_spec_length (list_user_files crc32 w.fs client_info.username).1
      (fun f hf => (hwf f hf).1)
    simp only [MAX_FILE_NAME_LEN] at hpl
    refine ⟨a, hf.2.1, hf.2.2.1, hf.2.2.2, ?_, ?_, d⟩
    · exact List.drop_left' (header_bytes_length _ _ _ _)
    · rw [hpl]
  · intro hlong
    obtain ⟨a, _, _, d⟩ := handle_client_list_too_long he md5 crc32 w client_info n buf rest
      hbuf htok hR hn hhdr htype (by rw [hcount]; omega)
    exact ⟨a, d⟩

theorem handle_client_list_response_witness :
    (handle_client .little (fun _ => []) (fun _ => 0) (example_list_world 2)
        { client_socket := 4, username := 117 :: List.replicate 128 0,
          session_token := 5 }).1.fs
      = (example_list_world 2).fs :=
  (handle_client_list_response .little (fun _ => []) (fun _ => 0) (example_list_world 2)
    { client_socket := 4, username := 117 :: List.replicate 128 0, session_token := 5 } 8
    ([1, 5, 0, 8, 5, 0, 0, 0] ++ List.replicate (BUFFSIZE + 1 - 8) 0) []
    (by simp [example_list_world, example_world]) (by decide)
    (receive_example_list_world 2) (by decide) (by decide) (by decide)
    (fun _ => Nat.zero_lt_succ _)).2.2.2

/-! ### Authentication service -/

theorem credential_record_length (username hash : List Nat) (hu : strlen username ≤ 63) :
    (credential_record username hash).length = 80 := by
  have : (cstr username).length = strlen username := rfl
  simp only [credential_record, MAX_USERNAME_LEN, HASH_LEN, List.length_append,
    List.length_replicate, List.length_take, this]
  omega

theorem credential_record_cstr (username hash : List Nat) (hu : strlen username ≤ 63) :
    cstr (credential_record username hash) = cstr username := by
  have e : List.replicate (MAX_USERNAME_LEN + 1 - strlen username) 0
      = 0 :: List.replicate (63 - strlen username) 0 := by
    rw [show MAX_USERNAME_LEN + 1 - strlen username = (63 - strlen username) + 1 from by
      simp only [MAX_USERNAME_LEN]; omega]
    rfl
  simp only [credential_record]
  rw [e, List.append_assoc, List.cons_append]
  exact cstr_append_nul _ _ (cstr_ne_zero username)

theorem credential_record_hash (username hash : List Nat) (hu : strlen username ≤ 63) :
    compare_hash hash ((credential_record username hash).drop (MAX_USERNAME_LEN + 1))
      = true := by
  have hl : (cstr username ++ List.replicate (MAX_USERNAME_LEN + 1 - strlen username) 0).length
      = MAX_USERNAME_LEN + 1 := by
    have : (cstr username).length = strlen username := rfl
    simp only [List.length_append, List.length_replicate, this, MAX_USERNAME_LEN]
    omega
  simp only [credential_record]
  rw [List.drop_left' hl]
  simp only [compare_hash, List.all_eq_true, List.mem_range, decide_eq_true_eq]
  intro i hi
  by_cases h : i < (hash.take HASH_LEN).length
  · rw [List.getD_append _ _ _ _ h]
    simp only [List.getD_eq_getElem?_getD, List.getElem?_take, hi, if_true]
  · have h2 : (hash.take HASH_LEN).length ≤ i := by omega
    rw [List.getD_append_right _ _ _ _ h2]
    have h3 : hash.length ≤ i := by
      simp only [List.length_take] at h2
      omega
    simp only [List.getD_eq_getElem?_getD, List.getElem?_replicate]
    rw [List.getElem?_eq_none h3]
    split <;> rfl

theorem create_user_record (username hash : List Nat) (h1 : 1 ≤ strlen username)
    (hu : strlen username ≤ 63) :
    memcpy (memcpy (List.replicate MAX_LINE_LEN 0) 0 (cstr_read username (strlen username + 1)))
        (MAX_USERNAME_LEN + 1) (hash.take HASH_LEN)
      = credential_record username hash := by
  have hc : (cstr username).length = strlen username := rfl
  have hh : (hash.take HASH_LEN).length ≤ 16 := by
    simp only [List.length_take, HASH_LEN]; omega
  rw [cstr_read_eq]
  rw [memcpy_eq _ 0 _ (by
    simp only [List.length_append, List.length_singleton, List.length_replicate, hc,
      MAX_LINE_LEN]; omega)]
  simp only [List.take_zero, List.nil_append, Nat.zero_add, List.drop_replicate,
    List.length_append, List.length_singleton, hc, MAX_LINE_LEN]
  have e1 : cstr username ++ [0] ++ List.replicate (80 - (strlen username + 1)) 0
      = (cstr username ++ List.replicate (MAX_USERNAME_LEN + 1 - strlen username) 0)
        ++ List.replicate 16 0 := by
    rw [List.append_assoc, List.append_assoc]
    congr 1
    rw [show ([0] : List Nat) = List.replicate 1 0 from rfl, ← List.replicate_add,
      ← List.replicate_add]
    congr 1
    simp only [MAX_USERNAME_LEN]; omega
  rw [e1]
  have hl : (cstr username ++ List.replicate (MAX_USERNAME_LEN + 1 - strlen username) 0).length
      = MAX_USERNAME_LEN + 1 := by
    simp only [List.length_append, List.length_replicate, hc, MAX_USERNAME_LEN]
    omega
  rw [memcpy_append _ _ _ _ hl.symm (by rw [List.length_replicate]; exact hh)]
  simp only [credential_record, List.drop_replicate, HASH_LEN, List.append_assoc]

theorem fread_lines_append (content line : List Nat)
    (hc : content.length % MAX_LINE_LEN = 0) (hl : line.length = MAX_LINE_LEN) :
    fread_lines (content ++ line) = fread_lines content ++ [line] := by
  obtain ⟨k, hk⟩ : ∃ k, content.length = MAX_LINE_LEN * k :=
    ⟨content.length / MAX_LINE_LEN, by
      have := Nat.div_add_mod content.length MAX_LINE_LEN
      omega⟩
  have hM : MAX_LINE_LEN = 80 := rfl
  have hd1 : content.length / MAX_LINE_LEN = k := by
    rw [hk, hM]; omega
  have hd2 : (content ++ line).length / MAX_LINE_LEN = k + 1 := by
    rw [List.length_append, hk, hl, hM]; omega
  simp only [fread_lines, hd1, hd2, List.range_succ, List.map_append, List.map_cons,
    List.map_nil]
  congr 1
  · apply List.map_congr_left
    intro i hi
    rw [List.mem_range] at hi
    have hle : MAX_LINE_LEN * i + MAX_LINE_LEN ≤ content.length := by
      rw [hk, hM]
      have := Nat.mul_le_mul_left 80 (Nat.succ_le_of_lt hi)
      omega
    rw [List.drop_append_of_le_length (by omega)]
    rw [List.take_append_of_le_length (by rw [List.length_drop]; omega)]
  · rw [← hk, List.drop_left, List.take_of_length_le (by omega)]

theorem create_user_new (md5 : List Nat → List Nat) (fs : FileSys) (username password : List Nat)
    (hu1 : 1 ≤ strlen username) (hu : strlen username ≤ 63)
    (hp1 : 1 ≤ strlen password) (hp : strlen password ≤ 63)
    (hnew : ∀ line ∈ fread_lines ((fs.read DATABASE_FILE).getD []),
      cstr line ≠ cstr username) :
    create_user md5 fs username password
      = (true, fs.write DATABASE_FILE ((fs.read DATABASE_FILE).getD []
          ++ credential_record username (md5 (cstr password)))) := by
  have hg : ¬ (strlen username ≤ 0 ∨ strlen username > MAX_USERNAME_LEN
      ∨ strlen password ≤ 0 ∨ strlen password > MAX_PASSWORD_LEN) := by
    simp only [MAX_USERNAME_LEN, MAX_PASSWORD_LEN]; omega
  have hany : (fread_lines ((fs.read DATABASE_FILE).getD [])).any
      (fun cur_line => decide (cstr cur_line = cstr username)) = false := by
    rw [List.any_eq_false]
    intro line hline
    simpa only [decide_eq_true_eq] using hnew line hline
  unfold create_user
  simp only [if_neg hg, hany, Bool.false_eq_true, if_false,
    create_user_record username (md5 (cstr password)) hu1 hu]
  cases hr : fs.read DATABASE_FILE with
  | none => simp only [Option.isNone_none, if_true, Option.getD_none, fs_write_write]
  | some content => simp only [Option.isNone_some, Bool.false_eq_true, if_false]

theorem check_user_found (md5 : List Nat → List Nat) (fs : FileSys)
    (username password db : List Nat)
    (hu1 : 1 ≤ strlen username) (hu : strlen username ≤ 63)
    (hp1 : 1 ≤ strlen password) (hp : strlen password ≤ 63)
    (hdb : db.length % MAX_LINE_LEN = 0)
    (hnew : ∀ line ∈ fread_lines db, cstr line ≠ cstr username)
    (hread : fs.read DATABASE_FILE
      = some (db ++ credential_record username (md5 (cstr password)))) :
    check_user md5 fs username password = true := by
  have hg : ¬ (strlen username ≤ 0 ∨ strlen username > MAX_USERNAME_LEN
      ∨ strlen password ≤ 0 ∨ strlen password > MAX_PASSWORD_LEN) := by
    simp only [MAX_USERNAME_LEN, MAX_PASSWORD_LEN]; omega
  have hfind : (fread_lines (db ++ credential_record username (md5 (cstr password)))).find?
      (fun cur_line => decide (cstr cur_line = cstr username))
      = some (credential_record username (md5 (cstr password))) := by
    rw [fread_lines_append _ _ hdb (credential_record_length _ _ hu), List.find?_append]
    have hnone : (fread_lines db).find?
        (fun cur_line => decide (cstr cur_line = cstr username)) = none := by
      rw [List.find?_eq_none]
      intro line hline
      simpa only [decide_eq_true_eq] using hnew line hline
    rw [hnone]
    simp only [Option.none_or, List.find?_cons, credential_record_cstr _ _ hu, decide_True]
  unfold check_user
  simp only [if_neg hg, hread, hfind]
  exact credential_record_hash username (md5 (cstr password)) hu

theorem create_user_taken (md5 : List Nat → List Nat) (fs : FileSys)
    (username password content : List Nat)
    (hread : fs.read DATABASE_FILE = some content)
    (htaken : ∃ line ∈ fread_lines content, cstr line = cstr username) :
    create_user md5 fs username password = (false, fs) := by
  unfold create_user
  simp only []
  split
  · rfl
  · have hany : (fread_lines content).any
        (fun cur_line => decide (cstr cur_line = cstr username)) = true := by
      rw [List.any_eq_true]
      obtain ⟨line, hl, he⟩ := htaken
      exact ⟨line, hl, by simpa only [decide_eq_true_eq] using he⟩
    simp only [hread, Option.getD_some, Option.isNone_some, Bool.false_eq_true, if_false, hany,
      if_true]

theorem auth_rejects_lengths (md5 : List Nat → List Nat) (fs : FileSys)
    (username password : List Nat)
    (h : strlen username = 0 ∨ 63 < strlen username ∨ strlen password = 0
      ∨ 63 < strlen password) :
    create_user md5 fs username password = (false, fs)
    ∧ check_user md5 fs username password = false := by
  have hg : strlen username ≤ 0 ∨ strlen username > MAX_USERNAME_LEN
      ∨ strlen password ≤ 0 ∨ strlen password > MAX_PASSWORD_LEN := by
    simp only [MAX_USERNAME_LEN, MAX_PASSWORD_LEN]; omega
  unfold create_user check_user
  simp only [if_pos hg, and_self]

/-- C23: the contract of the authentication service over a credential file
made of whole 80-byte records (or not yet created).  If no record bears the
name `u`, and `u` and `p` have 1 to 63 bytes, then `create_user(u, p)` returns
true and appends one 80-byte record (the name padded with zeros to 64 bytes,
then the hash of `p`), changing no other file; afterwards `check_user(u, p)`
returns true and every further `create_user(u, p2)` returns false and leaves
the file system as it is.  When the user name or the password is empty or
longer than 63 bytes, `create_user` returns false without touching the file
system and `check_user` returns false. -/
theorem auth_service_contract (md5 : List Nat → List Nat) (fs : FileSys)
    (username password : List Nat) :
    (((fs.read DATABASE_FILE).getD []).length % MAX_LINE_LEN = 0 →
      (∀ line ∈ fread_lines ((fs.read DATABASE_FILE).getD []), cstr line ≠ cstr username) →
      1 ≤ strlen username → strlen username ≤ 63 →
      1 ≤ strlen password → strlen password ≤ 63 →
        (create_user md5 fs username password).1 = true
        ∧ (create_user md5 fs username password).2
            = fs.write DATABASE_FILE ((fs.read DATABASE_FILE).getD []
                ++ credential_record username (md5 (cstr password)))
        ∧ (create_user md5 fs username password).2.read DATABASE_FILE
            = some ((fs.read DATABASE_FILE).getD []
                ++ credential_record username (md5 (cstr password)))
        ∧ (credential_record username (md5 (cstr password))).length = 80
        ∧ check_user md5 (create_user md5 fs username password).2 username password = true
        ∧ ∀ password2 : List Nat,
            create_user md5 (create_user md5 fs username password).2 username password2
              = (false, (create_user md5 fs username password).2))
    ∧ ((strlen username = 0 ∨ 63 < strlen username ∨ strlen password = 0
          ∨ 63 < strlen password) →
        create_user md5 fs username password = (false, fs)
        ∧ check_user md5 fs username password = false) := by
  refine ⟨?_, auth_rejects_lengths md5 fs username password⟩
  intro hdb hnew hu1 hu hp1 hp
  have hc := create_user_new md5 fs username password hu1 hu hp1 hp hnew
  have hread : (fs.write DATABASE_FILE ((fs.read DATABASE_FILE).getD []
      ++ credential_record username (md5 (cstr password)))).read DATABASE_FILE
      = some ((fs.read DATABASE_FILE).getD []
        ++ credential_record username (md5 (cstr password))) := fs_read_write _ _ _
  have hlen := credential_record_length username (md5 (cstr password)) hu
  rw [hc]
  refine ⟨rfl, rfl, hread, hlen, ?_, ?_⟩
  · exact check_user_found md5 _ username password _ hu1 hu hp1 hp hdb hnew hread
  · intro password2
    refine create_user_taken md5 _ username password2 _ hread ?_
    refine ⟨credential_record username (md5 (cstr password)), ?_,
      credential_record_cstr _ _ hu⟩
    rw [fread_lines_append _ _ hdb hlen]
    exact List.mem_append_right _ (List.mem_singleton_self _)

theorem auth_service_contract_witness :
    check_user (fun _ => [7]) (create_user (fun _ => [7])
        { files := [], dirs := [DATABASE_DIR] } [97, 0] [98, 0]).2 [97, 0] [98, 0] = true :=
  ((auth_service_contract (fun _ => [7]) { files := [], dirs := [DATABASE_DIR] }
    [97, 0] [98, 0]).1 (by decide) (by decide) (by decide) (by decide) (by decide)
    (by decide)).2.2.2.2.1

/-! ### Accepting a connection -/

theorem accept_client_loop_first (client_socket : Int) (n : Nat) (client_infos : List ClientInfo)
    (i : Nat) (c : ClientInfo) (hi : i < n) (hc : client_infos[i]? = some c)
    (hfree : c.client_socket ≤ 0)
    (hbefore : ∀ j d, j < i → client_infos[j]? = some d → 0 < d.client_socket) :
    accept_client_loop client_socket n client_infos
      = some (client_infos.set i { c with client_socket := client_socket }) := by
  induction n generalizing client_infos i with
  | zero => omega
  | succ n ih =>
    cases client_infos with
    | nil => simp at hc
    | cons a rest =>
      cases i with
      | zero =>
        simp only [List.getElem?_cons_zero, Option.some.injEq] at hc
        subst hc
        simp only [accept_client_loop, if_pos hfree, List.set_cons_zero]
      | succ i =>
        have ha : ¬ a.client_socket ≤ 0 := by
          have := hbefore 0 a (by omega) (by simp)
          omega
        simp only [List.getElem?_cons_succ] at hc
        simp only [accept_client_loop, if_neg ha, List.set_cons_succ]
        rw [ih rest i (by omega) hc (fun j d hj hd =>
          hbefore (j + 1) d (by omega) (by simpa using hd))]
        rfl

theorem accept_client_loop_full (client_socket : Int) (n : Nat) (client_infos : List ClientInfo)
    (hfull : ∀ i d, i < n → client_infos[i]? = some d → 0 < d.client_socket) :
    accept_client_loop client_socket n client_infos = none := by
  induction n generalizing client_infos with
  | zero => rfl
  | succ n ih =>
    cases client_infos with
    | nil => rfl
    | cons a rest =>
      have ha : ¬ a.client_socket ≤ 0 := by
        have := hfull 0 a (by omega) (by simp)
        omega
      simp only [accept_client_loop, if_neg ha]
      rw [ih rest (fun i d hi hd => hfull (i + 1) d (by omega) (by simpa using hd))]
      rfl

/-- What a successful pass of the loop did: one slot, free before, holds the
new socket and nothing else differs. -/
theorem accept_client_loop_some (client_socket : Int) (n : Nat)
    (client_infos table : List ClientInfo)
    (h : accept_client_loop client_socket n client_infos = some table) :
    ∃ i c, i < n ∧ client_infos[i]? = some c ∧ c.client_socket ≤ 0
      ∧ table = client_infos.set i { c with client_socket := client_socket } := by
  induction n generalizing client_infos table with
  | zero => simp [accept_client_loop] at h
  | succ n ih =>
    cases client_infos with
    | nil => simp [accept_client_loop] at h
    | cons a rest =>
      simp only [accept_client_loop] at h
      by_cases ha : a.client_socket ≤ 0
      · rw [if_pos ha] at h
        exact ⟨0, a, by omega, by simp, ha, by simpa using h.symm⟩
      · rw [if_neg ha] at h
        cases hr : accept_client_loop client_socket n rest with
        | none => rw [hr] at h; simp at h
        | some t =>
          rw [hr] at h
          obtain ⟨i, c, hi, hc, hf, ht⟩ := ih rest t hr
          refine ⟨i + 1, c, by omega, by simpa using hc, hf, ?_⟩
          simp only [Option.map_some', Option.some.injEq] at h
          rw [← h, ht, List.set_cons_succ]

/-- C24: `accept_client` with the socket `accept` returned.  If slot `i` is
the lowest-indexed of the first `max_connections` slots whose `client_socket`
is `<= 0`, the new socket is stored in the `client_socket` field of that slot;
no other slot and no other field changes, and nothing is sent or closed.  If
all `max_connections` slots hold a positive socket, the table is unchanged,
the new peer is sent one 9-byte Error packet with token 0 and code
`ERROR_SERVER_BUSY`, and the new socket is closed.  If `accept` failed,
nothing happens. -/
theorem accept_client_slots (he : Endian) (w : World) (client_socket : Int)
    (client_infos : List ClientInfo) (max_connections : Nat) :
    (0 ≤ client_socket →
      ∀ i c, i < max_connections → client_infos[i]? = some c → c.client_socket ≤ 0 →
        (∀ j d, j < i → client_infos[j]? = some d → 0 < d.client_socket) →
        accept_client he w client_socket client_infos max_connections
          = (w, client_infos.set i { c with client_socket := client_socket }))
    ∧ (0 ≤ client_socket → BUFFSIZE ≤ w.packet_buffer.length →
        (∀ i d, i < max_connections → client_infos[i]? = some d → 0 < d.client_socket) →
        (accept_client he w client_socket client_infos max_connections).2 = client_infos
        ∧ (accept_client he w client_socket client_infos max_connections).1.output
            = w.output ++ [Effect.send client_socket (error_packet he 0 .ERROR_SERVER_BUSY),
                Effect.close client_socket]
        ∧ (error_packet he 0 .ERROR_SERVER_BUSY).length = 9
        ∧ header_type (error_packet he 0 .ERROR_SERVER_BUSY) = PacketType.TYPE_ERROR.toNat
        ∧ header_packet_len (error_packet he 0 .ERROR_SERVER_BUSY) = 9
        ∧ header_session_token he (error_packet he 0 .ERROR_SERVER_BUSY) = 0
        ∧ (error_packet he 0 .ERROR_SERVER_BUSY).drop 8 = [ErrorType.ERROR_SERVER_BUSY.toNat]
        ∧ (accept_client he w client_socket client_infos max_connections).1.fs = w.fs
        ∧ (accept_client he w client_socket client_infos max_connections).1.incoming
            = w.incoming
        ∧ (accept_client he w client_socket client_infos max_connections).1.rand = w.rand)
    ∧ (client_socket < 0 →
        accept_client he w client_socket client_infos max_connections = (w, client_infos)) := by
  refine ⟨?_, ?_, ?_⟩
  · intro hs i c hi hc hfree hbefore
    have h0 : ¬ client_socket < 0 := by omega
    simp only [accept_client, if_neg h0,
      accept_client_loop_first client_socket max_connections client_infos i c hi hc hfree
        hbefore]
  · intro hs hbuf hfull
    have h0 : ¬ client_socket < 0 := by omega
    have hf := error_packet_fields he 0 .ERROR_SERVER_BUSY (by decide)
    have e := make_error_response_eq he w.packet_buffer BUFFSIZE 0 .ERROR_SERVER_BUSY hbuf
      (by decide)
    simp only [accept_client, if_neg h0,
      accept_client_loop_full client_socket max_connections client_infos hfull, e, World.send]
    rw [show Int.toNat 9 = 9 from rfl, show (0 : Nat) % 4294967296 = 0 from rfl, ← error_packet,
      List.take_left' hf.1]
    exact ⟨trivial, by simp, hf.1, hf.2.1, hf.2.2.1, hf.2.2.2.1, hf.2.2.2.2, trivial, trivial,
      trivial⟩
  · intro hneg
    simp only [accept_client, if_pos hneg]

theorem accept_client_slots_witness :
    accept_client .little (example_world []) 6
        [{ client_socket := 5, username := [], session_token := 9 }, ClientInfo.zeroed,
          ClientInfo.zeroed] 3
      = (example_world [],
          [{ client_socket := 5, username := [], session_token := 9 },
            { ClientInfo.zeroed with client_socket := 6 }, ClientInfo.zeroed]) :=
  (accept_client_slots .little (example_world []) 6
    [{ client_socket := 5, username := [], session_token := 9 }, ClientInfo.zeroed,
      ClientInfo.zeroed] 3).1 (by decide) 1 ClientInfo.zeroed (by decide) rfl (by decide)
    (by
      intro j d hj hd
      have hj0 : j = 0 := by omega
      subst hj0
      simp only [List.getElem?_cons_zero, Option.some.injEq] at hd
      subst hd
      decide)

/-! ### What one call of `handle_client` leaves alone -/

theorem recv_length_le (sock : List Chunk) (len : Nat) : (recv sock len).2.1.length ≤ len := by
  cases sock with
  | nil => simp [recv]
  | cons c rest =>
    cases c with
    | eof => simp [recv]
    | err => simp [recv]
    | data bytes => simp only [recv, List.length_take]; omega

theorem recv_nil (len : Nat) : recv [] len = (0, [], []) := rfl

theorem receive_packet_until_tail (sock : List Chunk) (buffer : List Nat)
    (buff_len n_received target_len : Nat) (hn : n_received ≤ buff_len) :
    (receive_packet_until sock buffer buff_len n_received target_len).2.1.drop buff_len
        = buffer.drop buff_len
    ∧ (receive_packet_until sock buffer buff_len n_received target_len).1 ≤ (buff_len : Int) := by
  generalize hk : target_len - n_received = k
  induction k using Nat.strong_induction_on generalizing sock buffer n_received with
  | _ k ih =>
    rw [receive_packet_until_eq]
    by_cases hlt : n_received < target_len
    · simp only [if_pos hlt]
      by_cases hr : (recv sock (buff_len - n_received)).1 ≤ 0
      · simp only [if_pos hr, true_and]
        omega
      · simp only [if_neg hr]
        obtain ⟨bytes, f, hs, hbt, _, hpos, _, _⟩ := recv_pos sock _ hr
        have hle := recv_length_le sock (buff_len - n_received)
        obtain ⟨a, b⟩ := ih
          (target_len - (n_received + (recv sock (buff_len - n_received)).2.1.length))
          (by rw [hbt]; omega) (recv sock (buff_len - n_received)).2.2
          (memcpy buffer n_received (recv sock (buff_len - n_received)).2.1)
          (n_received + (recv sock (buff_len - n_received)).2.1.length) (by omega) rfl
        refine ⟨?_, b⟩
        rw [a, memcpy_drop _ _ _ _ (by omega)]
    · simp only [if_neg hlt, true_and]
      omega

theorem receive_packet_tail (sock : List Chunk) (buffer : List Nat) (buff_len : Nat)
    (h8 : 8 ≤ buff_len) :
    (receive_packet sock buffer buff_len).2.1.drop buff_len = buffer.drop buff_len := by
  obtain ⟨a, b⟩ := receive_packet_until_tail sock buffer buff_len 0 HEADER_LEN (by omega)
  unfold receive_packet
  simp only []
  split
  · exact a
  · rename_i hpos
    have hn : (receive_packet_until sock buffer buff_len 0 HEADER_LEN).1.toNat ≤ buff_len := by
      omega
    generalize hp : (if header_packet_len (receive_packet_until sock buffer buff_len 0 HEADER_LEN).2.1
        > buff_len then buff_len
        else header_packet_len (receive_packet_until sock buffer buff_len 0 HEADER_LEN).2.1) = pl
    have c := (receive_packet_until_tail (receive_packet_until sock buffer buff_len 0 HEADER_LEN).2.2
      (receive_packet_until sock buffer buff_len 0 HEADER_LEN).2.1 buff_len
      (receive_packet_until sock buffer buff_len 0 HEADER_LEN).1.toNat pl hn).1
    split <;> simp only [c, a]

theorem receive_packet_nil (buffer : List Nat) (buff_len : Nat) :
    receive_packet [] buffer buff_len = (-1, buffer, []) := by
  unfold receive_packet
  rw [receive_packet_until_eq]
  simp [HEADER_LEN, recv_nil]

theorem make_header_only_packet_tail (he : Endian) (buffer : List Nat) (type : PacketType)
    (token : Nat) :
    (make_header_only_packet he buffer BUFFSIZE type token).2.drop BUFFSIZE
      = buffer.drop BUFFSIZE :=
  (header_only_within he buffer BUFFSIZE type token).2.2

theorem make_error_response_tail (he : Endian) (buffer : List Nat) (token : Nat)
    (error : ErrorType) :
    (make_error_response he buffer BUFFSIZE token error).2.drop BUFFSIZE
      = buffer.drop BUFFSIZE := by
  have h : ¬ BUFFSIZE < HEADER_LEN + 1 := by decide
  simp only [make_error_response, if_neg h]
  rw [memcpy_drop _ _ _ _ (by simp [HEADER_LEN, BUFFSIZE]),
    make_header_drop _ _ _ _ _ _ (by decide)]

theorem make_list_response_tail (he : Endian) (buffer : List Nat) (token : Nat)
    (file_info : List FileInfo) (n_files : Nat) :
    (make_list_response he buffer BUFFSIZE token file_info n_files).2.drop BUFFSIZE
      = buffer.drop BUFFSIZE := by
  unfold make_list_response
  simp only []
  split
  · rfl
  · rename_i h
    rw [make_list_response_loop_drop _ _ _ _ _ (by omega),
      make_header_drop _ _ _ _ _ _ (by decide)]

theorem make_file_transfer_header_tail (he : Endian) (buffer : List Nat) (token data_len : Nat) :
    (make_file_transfer_header he buffer BUFFSIZE token data_len).2.drop BUFFSIZE
      = buffer.drop BUFFSIZE := by
  have h : ¬ BUFFSIZE < HEADER_LEN := by decide
  simp only [make_file_transfer_header, if_neg h]
  exact make_header_drop _ _ _ _ _ _ (by decide)

theorem send_blocks_frame (socket : Int) (blocks : List (List Nat)) (w : World)
    (h : ∀ block ∈ blocks, block.length ≤ BUFFSIZE) :
    (send_blocks socket blocks w).incoming = w.incoming
    ∧ (send_blocks socket blocks w).packet_buffer.drop BUFFSIZE
        = w.packet_buffer.drop BUFFSIZE := by
  induction blocks generalizing w with
  | nil => simp [send_blocks]
  | cons block rest ih =>
    have hb := h block (List.mem_cons_self _ _)
    obtain ⟨a, b⟩ := ih
      ({ w with packet_buffer := memcpy w.packet_buffer 0 block }.send socket
        (memcpy w.packet_buffer 0 block) block.length)
      (fun x hx => h x (List.mem_cons_of_mem _ hx))
    simp only [send_blocks]
    refine ⟨a, ?_⟩
    rw [b]
    simp only [World.send]
    exact memcpy_drop _ _ _ _ (by omega)

theorem handle_file_transfer_loop_tail (socket : Int) (fuel : Nat) (w : World)
    (n_received request_len : Nat) (written : List Nat) :
    (∀ s, s ≠ socket →
      (handle_file_transfer_loop socket fuel w n_received request_len written).1.incoming s
        = w.incoming s)
    ∧ (handle_file_transfer_loop socket fuel w n_received request_len written).1.packet_buffer.drop
        BUFFSIZE = w.packet_buffer.drop BUFFSIZE := by
  induction fuel generalizing w n_received written with
  | zero => simp [handle_file_transfer_loop]
  | succ fuel ih =>
    simp only [handle_file_transfer_loop]
    by_cases hlt : n_received < request_len
    · simp only [if_pos hlt]
      by_cases hr : (recv (w.incoming socket) BUFFSIZE).1 ≤ 0
      · simp only [if_pos hr, World.set_incoming, and_true]
        intro s hs
        simp only [if_neg hs]
      · simp only [if_neg hr]
        obtain ⟨a, b⟩ := ih
          { w.set_incoming socket (recv (w.incoming socket) BUFFSIZE).2.2 with
            packet_buffer := memcpy (w.set_incoming socket
              (recv (w.incoming socket) BUFFSIZE).2.2).packet_buffer 0
              (recv (w.incoming socket) BUFFSIZE).2.1 }
          (n_received + (recv (w.incoming socket) BUFFSIZE).2.1.length)
          (written ++ (recv (w.incoming socket) BUFFSIZE).2.1)
        refine ⟨?_, ?_⟩
        · intro s hs
          rw [a s hs]
          simp only [World.set_incoming, if_neg hs]
        · rw [b]
          simp only [World.set_incoming]
          exact memcpy_drop _ _ _ _ (by
            have := recv_length_le (w.incoming socket) BUFFSIZE
            omega)
    · simp only [if_neg hlt, and_true]
      intro s _
      trivial

theorem generate_random_token_frame (w : World) :
    (generate_random_token w).2.packet_buffer = w.packet_buffer
    ∧ (generate_random_token w).2.incoming = w.incoming := by
  simp only [generate_random_token, World.next_rand, and_self]

theorem handle_logon_frame (he : Endian) (md5 : List Nat → List Nat) (w : World)
    (request_len : Nat) (client_info : ClientInfo) (is_new_user : Bool) (error : ErrorType) :
    (handle_logon he md5 w request_len client_info is_new_user error).client_info.client_socket
        = client_info.client_socket
    ∧ (handle_logon he md5 w request_len client_info is_new_user error).world.incoming
        = w.incoming
    ∧ (handle_logon he md5 w request_len client_info is_new_user error).world.packet_buffer.drop
        BUFFSIZE = w.packet_buffer.drop BUFFSIZE := by
  unfold handle_logon
  simp only []
  split
  · exact ⟨rfl, rfl, rfl⟩
  · split
    · exact ⟨rfl, rfl, rfl⟩
    · unfold handle_logon_validate
      simp only []
      split
      · exact ⟨rfl, rfl, rfl⟩
      · refine ⟨rfl, ?_, ?_⟩
        · exact (generate_random_token_frame _).2
        · simp only [make_token_response]
          rw [make_header_only_packet_tail, (generate_random_token_frame _).1]

theorem handle_list_frame (he : Endian) (crc32 : List Nat → Nat) (w : World)
    (client_info : ClientInfo) (error : ErrorType) :
    (handle_list he crc32 w client_info error).client_info = client_info
    ∧ (handle_list he crc32 w client_info error).world.incoming = w.incoming
    ∧ (handle_list he crc32 w client_info error).world.packet_buffer.drop BUFFSIZE
        = w.packet_buffer.drop BUFFSIZE := by
  simp only [handle_list, make_list_response_tail, and_self]

theorem handle_file_request_frame (he : Endian) (w : World) (client_info : ClientInfo)
    (error : ErrorType) :
    (handle_file_request he w client_info error).client_info = client_info
    ∧ (handle_file_request he w client_info error).world.incoming = w.incoming
    ∧ (handle_file_request he w client_info error).world.packet_buffer.drop BUFFSIZE
        = w.packet_buffer.drop BUFFSIZE := by
  unfold handle_file_request
  simp only []
  split
  · simp only [make_error_response_tail, and_self]
  · rename_i content _
    obtain ⟨a, b⟩ := send_blocks_frame client_info.client_socket (fread_blocks content)
      ({ w with packet_buffer := (make_file_transfer_header he w.packet_buffer BUFFSIZE
          client_info.session_token content.length).2 }.send client_info.client_socket
        (make_file_transfer_header he w.packet_buffer BUFFSIZE
          client_info.session_token content.length).2
        (make_file_transfer_header he w.packet_buffer BUFFSIZE
          client_info.session_token content.length).1.toNat)
      (fread_blocks_length_le content)
    refine ⟨rfl, ?_, ?_⟩
    · rw [a]; rfl
    · rw [b]
      simp only [World.send]
      exact make_file_transfer_header_tail _ _ _ _

theorem handle_file_transfer_frame (he : Endian) (w : World) (n_received : Nat)
    (client_info : ClientInfo) (error : ErrorType) :
    (handle_file_transfer he w n_received client_info error).client_info = client_info
    ∧ (∀ s, s ≠ client_info.client_socket →
        (handle_file_transfer he w n_received client_info error).world.incoming s
          = w.incoming s)
    ∧ (handle_file_transfer he w n_received client_info error).world.packet_buffer.drop BUFFSIZE
        = w.packet_buffer.drop BUFFSIZE := by
  unfold handle_file_transfer
  simp only []
  split
  · refine ⟨rfl, ?_, ?_⟩
    · intro s hs
      exact (handle_file_transfer_loop_tail _ _ _ _ _ _).1 s hs
    · rw [make_error_response_tail]
      exact (handle_file_transfer_loop_tail _ _ _ _ _ _).2
  · refine ⟨rfl, ?_, ?_⟩
    · intro s hs
      exact (handle_file_transfer_loop_tail _ _ _ _ _ _).1 s hs
    · simp only [make_file_received_packet]
      rw [make_header_only_packet_tail]
      exact (handle_file_transfer_loop_tail _ _ _ _ _ _).2

theorem dispatch_frame (he : Endian) (md5 : List Nat → List Nat) (crc32 : List Nat → Nat)
    (w : World) (request_len : Nat) (client_info : ClientInfo) :
    (dispatch he md5 crc32 w request_len client_info).client_info.client_socket
        = client_info.client_socket
    ∧ (∀ s, s ≠ client_info.client_socket →
        (dispatch he md5 crc32 w request_len client_info).world.incoming s = w.incoming s)
    ∧ (dispatch he md5 crc32 w request_len client_info).world.packet_buffer.drop BUFFSIZE
        = w.packet_buffer.drop BUFFSIZE := by
  unfold dispatch
  simp only []
  split
  · obtain ⟨a, b, c⟩ := handle_logon_frame he md5 w request_len client_info true .ERROR_UNKNOWN
    exact ⟨a, fun s _ => by rw [b], c⟩
  · split
    · obtain ⟨a, b, c⟩ := handle_logon_frame he md5 w request_len client_info false
        .ERROR_UNKNOWN
      exact ⟨a, fun s _ => by rw [b], c⟩
    · split
      · exact ⟨rfl, fun s _ => rfl, rfl⟩
      · split
        · obtain ⟨a, b, c⟩ := handle_list_frame he crc32 w client_info .ERROR_UNKNOWN
          exact ⟨by rw [a], fun s _ => by rw [b], c⟩
        · split
          · obtain ⟨a, b, c⟩ := handle_file_request_frame he w client_info .ERROR_UNKNOWN
            exact ⟨by rw [a], fun s _ => by rw [b], c⟩
          · split
            · obtain ⟨a, b, c⟩ := handle_file_transfer_frame he w request_len client_info
                .ERROR_UNKNOWN
              exact ⟨by rw [a], b, c⟩
            · exact ⟨rfl, fun s _ => rfl, rfl⟩

theorem respond_frame (he : Endian) (h : Handled) :
    ((respond he h).2 = ClientInfo.zeroed ∨ (respond he h).2 = h.client_info)
    ∧ (respond he h).1.incoming = h.world.incoming
    ∧ (respond he h).1.packet_buffer.drop BUFFSIZE = h.world.packet_buffer.drop BUFFSIZE := by
  unfold respond
  simp only []
  split
  · refine ⟨Or.inl rfl, rfl, ?_⟩
    simp only [remove_client, World.send]
    exact make_error_response_tail _ _ _ _
  · split
    · exact ⟨Or.inr rfl, rfl, rfl⟩
    · exact ⟨Or.inr rfl, rfl, rfl⟩

/-- What `handle_client` does not touch: the session record is zeroed or keeps
its socket, the input of every other socket is as before, and so are the bytes
of the packet buffer from index `BUFFSIZE` on. -/
theorem handle_client_frame (he : Endian) (md5 : List Nat → List Nat)
    (crc32 : List Nat → Nat) (w : World) (client_info : ClientInfo) :
    ((handle_client he md5 crc32 w client_info).2 = ClientInfo.zeroed
      ∨ (handle_client he md5 crc32 w client_info).2.client_socket = client_info.client_socket)
    ∧ (∀ s, s ≠ client_info.client_socket →
        (handle_client he md5 crc32 w client_info).1.incoming s = w.incoming s)
    ∧ (handle_client he md5 crc32 w client_info).1.packet_buffer.drop BUFFSIZE
        = w.packet_buffer.drop BUFFSIZE := by
  have ht := receive_packet_tail (w.incoming client_info.client_socket) w.packet_buffer BUFFSIZE
    (by decide)
  unfold handle_client
  simp only []
  split
  · refine ⟨Or.inl rfl, ?_, ht⟩
    intro s hs
    simp only [remove_client, World.set_incoming, if_neg hs]
  · split
    · refine ⟨Or.inl rfl, ?_, ht⟩
      intro s hs
      simp only [remove_client, World.set_incoming, if_neg hs]
    · obtain ⟨a, b, c⟩ := respond_frame he (dispatch he md5 crc32
        { w.set_incoming client_info.client_socket
            (receive_packet (w.incoming client_info.client_socket) w.packet_buffer
              BUFFSIZE).2.2 with
          packet_buffer := (receive_packet (w.incoming client_info.client_socket)
            w.packet_buffer BUFFSIZE).2.1 }
        (receive_packet (w.incoming client_info.client_socket) w.packet_buffer
          BUFFSIZE).1.toNat client_info)
      obtain ⟨d, e, f⟩ := dispatch_frame he md5 crc32
        { w.set_incoming client_info.client_socket
            (receive_packet (w.incoming client_info.client_socket) w.packet_buffer
              BUFFSIZE).2.2 with
          packet_buffer := (receive_packet (w.incoming client_info.client_socket)
            w.packet_buffer BUFFSIZE).2.1 }
        (receive_packet (w.incoming client_info.client_socket) w.packet_buffer
          BUFFSIZE).1.toNat client_info
      refine ⟨?_, ?_, ?_⟩
      · rcases a with a | a
        · exact Or.inl a
        · exact Or.inr (by rw [a, d])
      · intro s hs
        rw [b, e s hs]
        simp only [World.set_incoming, if_neg hs]
      · rw [c, f]
        exact ht

/-- A socket from which nothing can be read: the session is removed and the
socket still yields nothing. -/
theorem handle_client_no_input (he : Endian) (md5 : List Nat → List Nat)
    (crc32 : List Nat → Nat) (w : World) (client_info : ClientInfo)
    (h : w.incoming client_info.client_socket = []) :
    (handle_client he md5 crc32 w client_info).2 = ClientInfo.zeroed
    ∧ (handle_client he md5 crc32 w client_info).1.incoming client_info.client_socket = [] := by
  have hr := receive_packet_nil w.packet_buffer BUFFSIZE
  have h1 : ((-1 : Int) ≤ 0) := by decide
  simp only [handle_client, h, hr, if_pos h1, remove_client, World.set_incoming, if_true,
    and_self]

/-! ### Invariants of the main loop -/

theorem server_start_invariant (server_socket : Int) (incoming : Int → List Chunk)
    (fs : FileSys) (rand : List Nat)
    (hsrv : server_socket = 0 → incoming server_socket = []) :
    server_invariant server_socket (server_start incoming fs rand) := by
  refine ⟨?_, hsrv, ?_⟩
  · intro c hc
    have := List.eq_of_mem_replicate hc
    subst this
    exact ⟨by decide, fun _ => rfl⟩
  · show (List.replicate (BUFFSIZE + 1) 0).drop BUFFSIZE = [0]
    rw [List.drop_replicate]
    rfl

theorem accept_client_tail (he : Endian) (w : World) (client_socket : Int)
    (client_infos : List ClientInfo) (max_connections : Nat) :
    (accept_client he w client_socket client_infos max_connections).1.packet_buffer.drop BUFFSIZE
        = w.packet_buffer.drop BUFFSIZE
    ∧ (accept_client he w client_socket client_infos max_connections).1.incoming
        = w.incoming := by
  unfold accept_client
  split
  · exact ⟨rfl, rfl⟩
  · split
    · exact ⟨rfl, rfl⟩
    · simp only [World.send]
      exact ⟨make_error_response_tail _ _ _ _, trivial⟩

/-- The slot `accept_client` fills was all zero, and holds only the new socket
afterwards. -/
theorem accept_client_new_slot (he : Endian) (w : World) (client_socket : Int)
    (client_infos : List ClientInfo) (max_connections : Nat)
    (hinv : ∀ c ∈ client_infos, 0 ≤ c.client_socket
      ∧ (c.client_socket = 0 → c = ClientInfo.zeroed)) :
    (accept_client he w client_socket client_infos max_connections).2 = client_infos
    ∨ (0 ≤ client_socket ∧ ∃ i, client_infos[i]? = some ClientInfo.zeroed
        ∧ (accept_client he w client_socket client_infos max_connections).2
          = client_infos.set i { ClientInfo.zeroed with client_socket := client_socket }) := by
  unfold accept_client
  split
  · exact Or.inl rfl
  · rename_i hs
    cases hl : accept_client_loop client_socket max_connections client_infos with
    | none => exact Or.inl rfl
    | some table =>
      obtain ⟨i, c, _, hc, hfree, ht⟩ := accept_client_loop_some _ _ _ _ hl
      have hmem : c ∈ client_infos := List.getElem?_mem hc
      obtain ⟨h0, hz⟩ := hinv c hmem
      have hcz : c = ClientInfo.zeroed := hz (by omega)
      subst hcz
      exact Or.inr ⟨by omega, i, hc, ht⟩

theorem accept_client_invariant (he : Endian) (server_socket : Int)
    (st : World × List ClientInfo) (client_socket : Int) (max_connections : Nat)
    (hinv : server_invariant server_socket st) :
    server_invariant server_socket
      (accept_client he st.1 client_socket st.2 max_connections) := by
  obtain ⟨h1, h2, h3⟩ := hinv
  obtain ⟨a, b⟩ := accept_client_tail he st.1 client_socket st.2 max_connections
  refine ⟨?_, ?_, ?_⟩
  · rcases accept_client_new_slot he st.1 client_socket st.2 max_connections h1 with h | h
    · rw [h]; exact h1
    · obtain ⟨hs, i, hi, ht⟩ := h
      rw [ht]
      intro c hc
      rcases List.mem_or_eq_of_mem_set hc with hc | hc
      · exact h1 c hc
      · subst hc
        refine ⟨hs, ?_⟩
        intro h0
        have h0 : client_socket = 0 := h0
        subst h0
        rfl
  · intro hz
    rw [b]
    exact h2 hz
  · rw [a]
    exact h3

theorem handle_activated_invariant (he : Endian) (md5 : List Nat → List Nat)
    (crc32 : List Nat → Nat) (server_socket : Int) (activated : Int → Bool)
    (hact : ∀ s, activated s = true → s = server_socket ∨ 0 < s)
    (st : World × List ClientInfo) (i : Nat)
    (hinv : server_invariant server_socket st) :
    server_invariant server_socket (handle_activated he md5 crc32 activated st i) := by
  unfold handle_activated
  cases hi : st.2[i]? with
  | none => exact hinv
  | some c =>
    simp only []
    by_cases ha : activated c.client_socket = true
    · rw [if_pos ha]
      obtain ⟨h1, h2, h3⟩ := hinv
      have hmem : c ∈ st.2 := List.getElem?_mem hi
      obtain ⟨hc0, hcz⟩ := h1 c hmem
      obtain ⟨f1, f2, f3⟩ := handle_client_frame he md5 crc32 st.1 c
      by_cases hzero : c.client_socket = 0
      · -- only the listening socket can be descriptor 0
        have hsrv : server_socket = 0 := by
          rcases hact _ ha with h | h
          · rw [← h]; exact hzero
          · omega
        have hin : st.1.incoming c.client_socket = [] := by
          rw [hzero, ← hsrv]; exact h2 hsrv
        obtain ⟨g1, g2⟩ := handle_client_no_input he md5 crc32 st.1 c hin
        refine ⟨?_, ?_, ?_⟩
        · intro d hd
          rcases List.mem_or_eq_of_mem_set hd with hd | hd
          · exact h1 d hd
          · rw [hd, g1]
            exact ⟨by decide, fun _ => rfl⟩
        · intro hz
          have : server_socket = c.client_socket := by rw [hz, hzero]
          rw [this]
          exact g2
        · rw [f3]; exact h3
      · refine ⟨?_, ?_, ?_⟩
        · intro d hd
          rcases List.mem_or_eq_of_mem_set hd with hd | hd
          · exact h1 d hd
          · rw [hd]
            rcases f1 with f1 | f1
            · rw [f1]
              exact ⟨by decide, fun _ => rfl⟩
            · rw [f1]
              exact ⟨hc0, fun h => absurd h hzero⟩
        · intro hz
          rw [f2 server_socket (by rw [hz]; exact fun h => hzero h.symm)]
          exact h2 hz
        · rw [f3]; exact h3
    · rw [if_neg ha]
      exact hinv

theorem select_subset (server_socket : Int) (client_infos : List ClientInfo)
    (ready : Int → Bool) (s : Int) (h : select server_socket client_infos ready s = true) :
    s = server_socket ∨ 0 < s := by
  simp only [select, Bool.and_eq_true, Bool.or_eq_true, decide_eq_true_eq, List.any_eq_true]
    at h
  rcases h.1 with h | ⟨c, _, hc⟩
  · exact Or.inl h
  · exact Or.inr (by omega)

theorem foldl_handle_activated_invariant (he : Endian) (md5 : List Nat → List Nat)
    (crc32 : List Nat → Nat) (server_socket : Int) (activated : Int → Bool)
    (hact : ∀ s, activated s = true → s = server_socket ∨ 0 < s)
    (slots : List Nat) (st : World × List ClientInfo)
    (hinv : server_invariant server_socket st) :
    server_invariant server_socket
      (slots.foldl (handle_activated he md5 crc32 activated) st) := by
  induction slots generalizing st with
  | nil => exact hinv
  | cons i rest ih =>
    exact ih _ (handle_activated_invariant he md5 crc32 server_socket activated hact st i hinv)

theorem server_pass_invariant (he : Endian) (md5 : List Nat → List Nat)
    (crc32 : List Nat → Nat) (server_socket : Int) (st : World × List ClientInfo)
    (event : (Int → Bool) × Int) (k : Nat)
    (hinv : server_invariant server_socket st) :
    server_invariant server_socket (server_pass he md5 crc32 server_socket st event k) := by
  unfold server_pass
  apply foldl_handle_activated_invariant he md5 crc32 server_socket _
    (select_subset server_socket st.2 event.1)
  split
  · exact accept_client_invariant he server_socket st event.2 MAX_CONNECTIONS hinv
  · exact hinv

theorem server_iteration_invariant (he : Endian) (md5 : List Nat → List Nat)
    (crc32 : List Nat → Nat) (server_socket : Int) (st : World × List ClientInfo)
    (event : (Int → Bool) × Int)
    (hinv : server_invariant server_socket st) :
    server_invariant server_socket (server_iteration he md5 crc32 server_socket st event) := by
  unfold server_iteration
  exact server_pass_invariant he md5 crc32 server_socket st event _ hinv

theorem server_run_invariant (he : Endian) (md5 : List Nat → List Nat)
    (crc32 : List Nat → Nat) (server_socket : Int) (events : List ((Int → Bool) × Int))
    (st : World × List ClientInfo)
    (hinv : server_invariant server_socket st) :
    server_invariant server_socket (server_run he md5 crc32 server_socket events st) := by
  unfold server_run
  induction events generalizing st with
  | nil => exact hinv
  | cons e rest ih =>
    rw [List.foldl_cons]
    exact ih _ (server_iteration_invariant he md5 crc32 server_socket st e hinv)

/-! ### The zero byte after the packet buffer -/

theorem strlen_append_zero_le (x tl : List Nat) : strlen (x ++ 0 :: tl) ≤ x.length := by
  unfold strlen
  induction x with
  | nil => simp
  | cons a x ih =>
    by_cases ha : a = 0
    · subst ha; simp
    · have hd : decide (a ≠ 0) = true := decide_eq_true ha
      simp only [List.cons_append, List.takeWhile_cons, hd, if_true, List.length_cons]
      omega

/-- A scan for NUL that starts inside a buffer whose byte at index `BUFFSIZE`
is zero stops at a zero byte at an index `<= BUFFSIZE`. -/
theorem strlen_scan_bounded (buf : List Nat) (start : Nat)
    (htail : buf.drop BUFFSIZE = [0]) (hs : start ≤ BUFFSIZE) :
    start + strlen (buf.drop start) ≤ BUFFSIZE
    ∧ buf[start + strlen (buf.drop start)]? = some 0 := by
  have hlen : buf.length = BUFFSIZE + 1 := by
    have := congrArg List.length htail
    simp only [List.length_drop, List.length_singleton] at this
    omega
  have hsplit : buf.drop start
      = (buf.drop start).take (BUFFSIZE - start) ++ 0 :: [] := by
    have h := (List.take_append_drop (BUFFSIZE - start) (buf.drop start)).symm
    rw [List.drop_drop, show start + (BUFFSIZE - start) = BUFFSIZE from by omega, htail] at h
    exact h
  have hle : strlen (buf.drop start) ≤ BUFFSIZE - start := by
    rw [hsplit]
    refine le_trans (strlen_append_zero_le _ _) ?_
    simp only [List.length_take, List.length_drop]
    omega
  refine ⟨by omega, ?_⟩
  rw [← List.getElem?_drop]
  exact getElem_strlen _ (by rw [List.length_drop]; omega)

theorem tail_zero_fields (buf : List Nat) (htail : buf.drop BUFFSIZE = [0]) :
    buf.length = BUFFSIZE + 1 ∧ buf[BUFFSIZE]? = some 0 := by
  have hlen : buf.length = BUFFSIZE + 1 := by
    have := congrArg List.length htail
    simp only [List.length_drop, List.length_singleton] at this
    omega
  refine ⟨hlen, ?_⟩
  have := List.getElem?_drop buf BUFFSIZE 0
  rw [htail] at this
  simpa using this.symm

theorem handle_activated_tail (he : Endian) (md5 : List Nat → List Nat)
    (crc32 : List Nat → Nat) (activated : Int → Bool) (st : World × List ClientInfo) (i : Nat) :
    (handle_activated he md5 crc32 activated st i).1.packet_buffer.drop BUFFSIZE
      = st.1.packet_buffer.drop BUFFSIZE := by
  unfold handle_activated
  split
  · rfl
  · split
    · exact (handle_client_frame he md5 crc32 st.1 _).2.2
    · rfl

theorem foldl_handle_activated_tail (he : Endian) (md5 : List Nat → List Nat)
    (crc32 : List Nat → Nat) (activated : Int → Bool) (slots : List Nat)
    (st : World × List ClientInfo) :
    (slots.foldl (handle_activated he md5 crc32 activated) st).1.packet_buffer.drop BUFFSIZE
      = st.1.packet_buffer.drop BUFFSIZE := by
  induction slots generalizing st with
  | nil => rfl
  | cons i rest ih =>
    rw [List.foldl_cons, ih, handle_activated_tail]

theorem server_pass_tail (he : Endian) (md5 : List Nat → List Nat)
    (crc32 : List Nat → Nat) (server_socket : Int) (st : World × List ClientInfo)
    (event : (Int → Bool) × Int) (k : Nat) :
    (server_pass he md5 crc32 server_socket st event k).1.packet_buffer.drop BUFFSIZE
      = st.1.packet_buffer.drop BUFFSIZE := by
  unfold server_pass
  simp only []
  rw [foldl_handle_activated_tail]
  split
  · exact (accept_client_tail he st.1 event.2 st.2 MAX_CONNECTIONS).1
  · rfl

theorem server_run_tail (he : Endian) (md5 : List Nat → List Nat)
    (crc32 : List Nat → Nat) (server_socket : Int) (events : List ((Int → Bool) × Int))
    (st : World × List ClientInfo) :
    (server_run he md5 crc32 server_socket events st).1.packet_buffer.drop BUFFSIZE
      = st.1.packet_buffer.drop BUFFSIZE := by
  unfold server_run
  induction events generalizing st with
  | nil => rfl
  | cons e rest ih =>
    rw [List.foldl_cons, ih]
    unfold server_iteration
    exact server_pass_tail he md5 crc32 server_socket st e _

theorem server_start_tail (incoming : Int → List Chunk) (fs : FileSys) (rand : List Nat) :
    (server_start incoming fs rand).1.packet_buffer.drop BUFFSIZE = [0] := by
  show (List.replicate (BUFFSIZE + 1) 0).drop BUFFSIZE = [0]
  rw [List.drop_replicate]
  rfl

/-- C27: in every state the server reaches (after any number of passes of the
main loop and at any point of a further pass) `packet_buffer` has its
`BUFFSIZE + 1` bytes and the byte at index `BUFFSIZE` is zero.  Hence, for the
buffer `buf` that `receive_packet` leaves for any input, the scan for the end
of the user name, which starts at index `HEADER_LEN`, stops at a zero byte at
an index `<= BUFFSIZE`; and when `handle_logon` goes on to the password (its
start lies before the received length `n`), that scan also stops at a zero
byte at an index `<= BUFFSIZE`.  No scan leaves the buffer. -/
theorem packet_buffer_terminator (he : Endian) (md5 : List Nat → List Nat)
    (crc32 : List Nat → Nat) (server_socket : Int) (incoming : Int → List Chunk)
    (fs : FileSys) (rand : List Nat) (events : List ((Int → Bool) × Int))
    (event : (Int → Bool) × Int) (k : Nat)
    (sock : List Chunk) (n : Int) (buf : List Nat) (rest : List Chunk)
    (hR : receive_packet sock
      (server_pass he md5 crc32 server_socket
        (server_run he md5 crc32 server_socket events (server_start incoming fs rand))
        event k).1.packet_buffer BUFFSIZE = (n, buf, rest)) :
    (server_pass he md5 crc32 server_socket
        (server_run he md5 crc32 server_socket events (server_start incoming fs rand))
        event k).1.packet_buffer.length = BUFFSIZE + 1
    ∧ (server_pass he md5 crc32 server_socket
        (server_run he md5 crc32 server_socket events (server_start incoming fs rand))
        event k).1.packet_buffer[BUFFSIZE]? = some 0
    ∧ buf.length = BUFFSIZE + 1
    ∧ buf[BUFFSIZE]? = some 0
    ∧ HEADER_LEN + strlen (buf.drop HEADER_LEN) ≤ BUFFSIZE
    ∧ buf[HEADER_LEN + strlen (buf.drop HEADER_LEN)]? = some 0
    ∧ (HEADER_LEN + (strlen (buf.drop HEADER_LEN) + 1) < n.toNat →
        HEADER_LEN + (strlen (buf.drop HEADER_LEN) + 1)
            + strlen (buf.drop (HEADER_LEN + (strlen (buf.drop HEADER_LEN) + 1))) ≤ BUFFSIZE
        ∧ buf[HEADER_LEN + (strlen (buf.drop HEADER_LEN) + 1)
            + strlen (buf.drop (HEADER_LEN + (strlen (buf.drop HEADER_LEN) + 1)))]? = some 0) := by
  have htail : (server_pass he md5 crc32 server_socket
      (server_run he md5 crc32 server_socket events (server_start incoming fs rand))
      event k).1.packet_buffer.drop BUFFSIZE = [0] := by
    rw [server_pass_tail, server_run_tail, server_start_tail]
  generalize (server_pass he md5 crc32 server_socket
      (server_run he md5 crc32 server_socket events (server_start incoming fs rand))
      event k).1.packet_buffer = buffer at hR htail
  have hbuf : buf.drop BUFFSIZE = [0] := by
    have := receive_packet_tail sock buffer BUFFSIZE (by decide)
    rw [hR, htail] at this
    exact this
  have hn : n ≤ (BUFFSIZE : Int) := by
    by_cases hpos : 0 < n
    · have := (receive_packet_bounds sock buffer BUFFSIZE (by rw [hR]; exact hpos)).2
      rw [hR] at this
      exact this
    · have : (0 : Int) ≤ (BUFFSIZE : Int) := Int.ofNat_nonneg _
      omega
  obtain ⟨a1, a2⟩ := tail_zero_fields buffer htail
  obtain ⟨b1, b2⟩ := tail_zero_fields buf hbuf
  obtain ⟨c1, c2⟩ := strlen_scan_bounded buf HEADER_LEN hbuf (by decide)
  refine ⟨a1, a2, b1, b2, c1, c2, ?_⟩
  intro hpw
  exact strlen_scan_bounded buf _ hbuf (by omega)

theorem packet_buffer_terminator_witness :
    (server_pass .little (fun _ => []) (fun _ => 0) 3
        (server_run .little (fun _ => []) (fun _ => 0) 3 []
          (server_start (fun _ => []) { files := [], dirs := [] } []))
        (fun _ => false, 0) 0).1.packet_buffer.length = BUFFSIZE + 1 :=
  (packet_buffer_terminator .little (fun _ => []) (fun _ => 0) 3 (fun _ => [])
    { files := [], dirs := [] } [] [] (fun _ => false, 0) 0 [] _ _ _ rfl).1

/-! ### Free slots of the connection table -/

/-- C25: let nothing be readable from the listening socket in case it is
descriptor 0 (the only way a free slot can come to be handled).  Then in every
state the server reaches, after any number of passes of the main loop and at
any point of a further pass, every slot whose `client_socket` is 0 has
`session_token` 0 and an all-zero `username`.  The table is all zero
initially; `remove_client` leaves a zeroed record; `handle_client` leaves a
zeroed record or one with the socket it had; and whenever `accept_client`
changes a slot of a table reached at the start of a pass, that slot holds
afterwards the new socket, token 0 and an all-zero user name. -/
theorem server_free_slots_zeroed (he : Endian) (md5 : List Nat → List Nat)
    (crc32 : List Nat → Nat) (server_socket : Int) (incoming : Int → List Chunk)
    (fs : FileSys) (rand : List Nat) (events : List ((Int → Bool) × Int))
    (event : (Int → Bool) × Int) (k : Nat)
    (hsrv : server_socket = 0 → incoming server_socket = []) :
    (∀ c ∈ (server_start incoming fs rand).2, c = ClientInfo.zeroed)
    ∧ (∀ c ∈ (server_pass he md5 crc32 server_socket
          (server_run he md5 crc32 server_socket events (server_start incoming fs rand))
          event k).2,
        c.client_socket = 0 →
          c.session_token = 0 ∧ c.username = List.replicate USERNAME_LEN_WITH_NULL 0)
    ∧ (∀ (accepted : Int) (i : Nat) (c : ClientInfo),
        (accept_client he
          (server_run he md5 crc32 server_socket events (server_start incoming fs rand)).1
          accepted
          (server_run he md5 crc32 server_socket events (server_start incoming fs rand)).2
          MAX_CONNECTIONS).2[i]? = some c →
        (server_run he md5 crc32 server_socket events
          (server_start incoming fs rand)).2[i]? ≠ some c →
        c = { client_socket := accepted,
              username := List.replicate USERNAME_LEN_WITH_NULL 0,
              session_token := 0 })
    ∧ (∀ (w : World) (c : ClientInfo), (remove_client w c).2 = ClientInfo.zeroed)
    ∧ (∀ (w : World) (c : ClientInfo),
        (handle_client he md5 crc32 w c).2 = ClientInfo.zeroed
        ∨ (handle_client he md5 crc32 w c).2.client_socket = c.client_socket) := by
  have h0 := server_start_invariant server_socket incoming fs rand hsrv
  have h1 := server_run_invariant he md5 crc32 server_socket events _ h0
  have h2 := server_pass_invariant he md5 crc32 server_socket _ event k h1
  refine ⟨?_, ?_, ?_, fun _ _ => rfl, fun w c => (handle_client_frame he md5 crc32 w c).1⟩
  · intro c hc
    exact List.eq_of_mem_replicate hc
  · intro c hc hz
    have := (h2.1 c hc).2 hz
    rw [this]
    exact ⟨rfl, rfl⟩
  · intro accepted i c hi hne
    rcases accept_client_new_slot he
      (server_run he md5 crc32 server_socket events (server_start incoming fs rand)).1
      accepted
      (server_run he md5 crc32 server_socket events (server_start incoming fs rand)).2
      MAX_CONNECTIONS h1.1 with h | h
    · rw [h] at hi
      exact absurd hi hne
    · obtain ⟨_, j, hj, ht⟩ := h
      rw [ht, List.getElem?_set] at hi
      by_cases hji : j = i
      · rw [if_pos hji] at hi
        split at hi
        · exact (Option.some.inj hi).symm
        · exact absurd hi (by simp)
      · rw [if_neg hji] at hi
        exact absurd hi hne

theorem server_free_slots_zeroed_witness :
    ((server_pass .little (fun _ => []) (fun _ => 0) 0
        (server_run .little (fun _ => []) (fun _ => 0) 0 [(fun _ => true, 5)]
          (server_start (fun _ => []) { files := [], dirs := [] } []))
        (fun _ => true, 6) 2).2.getD 2 ClientInfo.zeroed).session_token = 0
    ∧ ((server_pass .little (fun _ => []) (fun _ => 0) 0
        (server_run .little (fun _ => []) (fun _ => 0) 0 [(fun _ => true, 5)]
          (server_start (fun _ => []) { files := [], dirs := [] } []))
        (fun _ => true, 6) 2).2.getD 2 ClientInfo.zeroed).username
      = List.replicate USERNAME_LEN_WITH_NULL 0 :=
  (server_free_slots_zeroed .little (fun _ => []) (fun _ => 0) 0 (fun _ => [])
    { files := [], dirs := [] } [] [(fun _ => true, 5)] (fun _ => true, 6) 2
    (fun _ => rfl)).2.1 _ (by set_option maxRecDepth 100000 in decide)
    (by set_option maxRecDepth 100000 in decide)

/-! ### A FileTransfer packet without the whole name field -/

theorem handle_file_transfer_short (he : Endian) (w : World) (m : Nat)
    (client_info : ClientInfo) (error : ErrorType)
    (hm : m < 72) (hdecl : header_packet_len w.packet_buffer ≤ m)
    (hbuf : BUFFSIZE ≤ w.packet_buffer.length)
    (hmax : w.packet_buffer.length ≤ 18446744073709551616) :
    (handle_file_transfer he w m client_info error).response_len = 8
    ∧ (handle_file_transfer he w m client_info error).client_info = client_info
    ∧ (handle_file_transfer he w m client_info error).world.output = w.output
    ∧ (handle_file_transfer he w m client_info error).world.fs
        = w.fs.write (join_path (path_to_user client_info.username)
              ((w.packet_buffer.drop 8).take 64))
            (w.packet_buffer.drop 72)
    ∧ (handle_file_transfer he w m client_info error).world.packet_buffer.take 8
        = header_bytes he .TYPE_FILE_RECEIVED 8 (client_info.session_token % 4294967296) := by
  have hc : (m + 18446744073709551616 - (HEADER_LEN + MAX_FILE_NAME_LEN)) % 18446744073709551616
      = m + 18446744073709551616 - 72 := by
    simp only [HEADER_LEN, MAX_FILE_NAME_LEN]
    omega
  have hfuel : header_packet_len w.packet_buffer - m = 0 := by omega
  have htake : (w.packet_buffer.drop 72).take (m + 18446744073709551616 - 72)
      = w.packet_buffer.drop 72 :=
    List.take_of_length_le (by rw [List.length_drop]; omega)
  have hmk := make_header_only_packet_eq he w.packet_buffer BUFFSIZE .TYPE_FILE_RECEIVED
    client_info.session_token hbuf (by decide)
  simp only [handle_file_transfer, HEADER_LEN, MAX_FILE_NAME_LEN] at hc ⊢
  simp only [hc, hfuel, htake, handle_file_transfer_loop, make_file_received_packet, hmk,
    fs_write_write, true_and]
  exact List.take_left' (header_bytes_length _ _ _ _)

/-- C28, the code at the failing input: a session with token 0 receives the
FileTransfer packet that consists of its 8 header bytes only.  It passes the
token check and reaches `handle_file_transfer` with `n_received = 8`; the
count of the first `fwrite`, `n_received - header_len` in `size_t`, is
`2^64 - 64`, not a number `>= 0` of buffered body bytes.  The model, which
stops at the end of `packet_buffer`, writes all 8121 bytes from index 72 to
the end of the buffer into the file with the empty name, and the server
answers FileReceived. -/
theorem handle_client_short_file_transfer :
    (8 + 18446744073709551616 - (HEADER_LEN + MAX_FILE_NAME_LEN)) % 18446744073709551616
        = 18446744073709551552
    ∧ (handle_client .little (fun _ => []) (fun _ => 0)
        (example_world [1, 8, 0, 8, 0, 0, 0, 0])
        { client_socket := 4, username := List.replicate 129 0, session_token := 0 }).1.fs.read
          (bytes_of "serverdata//") = some (List.replicate 8121 0)
    ∧ (handle_client .little (fun _ => []) (fun _ => 0)
        (example_world [1, 8, 0, 8, 0, 0, 0, 0])
        { client_socket := 4, username := List.replicate 129 0, session_token := 0 }).1.output
          = [Effect.send 4 [1, 9, 0, 8, 0, 0, 0, 0]] := by
  refine ⟨by decide, ?_⟩
  have hR := receive_example_world [1, 8, 0, 8, 0, 0, 0, 0] (by decide) (by decide) (by decide)
  have hres := handle_client_of_receive .little (fun _ => []) (fun _ => 0)
    (example_world [1, 8, 0, 8, 0, 0, 0, 0])
    { client_socket := 4, username := List.replicate 129 0, session_token := 0 } 8
    ([1, 8, 0, 8, 0, 0, 0, 0] ++ List.replicate (BUFFSIZE + 1 - 8) 0) [] hR (by decide)
    (by decide)
  obtain ⟨r1, r2, r3, r4, r5⟩ := received_fields (example_world [1, 8, 0, 8, 0, 0, 0, 0]) 4
    ([1, 8, 0, 8, 0, 0, 0, 0] ++ List.replicate (BUFFSIZE + 1 - 8) 0) []
  rw [dispatch_file_transfer _ _ _ _ _ _ (by rw [r1]; decide)] at hres
  have hlen : ([1, 8, 0, 8, 0, 0, 0, 0] ++ List.replicate (BUFFSIZE + 1 - 8) 0).length
      = BUFFSIZE + 1 := by
    rw [List.length_append, List.length_replicate]; rfl
  obtain ⟨a, b, c, d, e⟩ := handle_file_transfer_short .little
    ((example_world [1, 8, 0, 8, 0, 0, 0, 0]).received 4
      ([1, 8, 0, 8, 0, 0, 0, 0] ++ List.replicate (BUFFSIZE + 1 - 8) 0) []) 8
    { client_socket := 4, username := List.replicate 129 0, session_token := 0 }
    .ERROR_UNKNOWN (by decide) (by rw [r1]; decide) (by rw [r1, hlen]; decide)
    (by rw [r1, hlen]; decide)
  rw [respond_positive _ _ (by rw [a]; decide)] at hres
  rw [hres]
  simp only [World.send, a, b, c, d, r1, r3]
  have hdrop72 : ([1, 8, 0, 8, 0, 0, 0, 0] ++ List.replicate (BUFFSIZE + 1 - 8) 0).drop 72
      = List.replicate 8121 0 := by
    rw [show (72 : Nat) = ([1, 8, 0, 8, 0, 0, 0, 0] : List Nat).length + 64 from rfl,
      List.drop_append, List.drop_replicate]
    rfl
  have hname : (([1, 8, 0, 8, 0, 0, 0, 0] ++ List.replicate (BUFFSIZE + 1 - 8) 0).drop 8).take 64
      = List.replicate 64 0 := by
    rw [List.drop_left' (show ([1, 8, 0, 8, 0, 0, 0, 0] : List Nat).length = 8 from rfl),
      List.take_replicate]
    rfl
  have hpath : join_path (path_to_user (List.replicate 129 0)) (List.replicate 64 0)
      = bytes_of "serverdata//" := by decide
  refine ⟨?_, ?_⟩
  · rw [hdrop72, hname, hpath]
    exact fs_read_write _ _ _
  · have htake : (handle_file_transfer .little
        ((example_world [1, 8, 0, 8, 0, 0, 0, 0]).received 4
          ([1, 8, 0, 8, 0, 0, 0, 0] ++ List.replicate (BUFFSIZE + 1 - 8) 0) []) 8
        { client_socket := 4, username := List.replicate 129 0, session_token := 0 }
        .ERROR_UNKNOWN).world.packet_buffer.take (Int.toNat 8)
        = [1, 9, 0, 8, 0, 0, 0, 0] := by
      rw [show Int.toNat 8 = 8 from rfl, e]
      decide
    rw [htake]
    rfl

end TCPFileSync
